import Mathlib

/-! # ishoal: the XDP packet engine (`src/bpf_kern.c`)

A shallow embedding of the per-packet program `xdp_prog` and of its checksum
helpers, followed by theorems about them.

Conventions of the embedding.

* A frame is the list of the bytes between `ctx->data` and `ctx->data_end`;
  a C pointer into the frame is the byte offset from `ctx->data`.  Every access
  through such a pointer is a checked load or store that yields `Mem.fault` when
  the offset lies outside the frame.
* Machine integers are natural numbers, reduced modulo `2 ^ w` wherever the C
  code truncates.
* The byte order of the machine is the parameter `be` (`true`: big-endian,
  `false`: little-endian); `bpf_htons` and the multi-byte loads and stores
  depend on it exactly as in C.
* Kernel helpers (`bpf_csum_diff`, `bpf_xdp_adjust_head`, `bpf_xdp_adjust_tail`,
  `bpf_redirect_map`, the LRU hash map operations, `bpf_ktime_get_ns`) are
  modelled after their Linux implementation.
-/

namespace IShoal

/-! ## Byte order -/

/-- Swap the two bytes of a 16-bit value. -/
def bswap16 (x : Nat) : Nat := (x % 256) * 256 + x / 256 % 256

/-- Swap the four bytes of a 32-bit value. -/
def bswap32 (x : Nat) : Nat :=
  (x % 256) * 16777216 + (x / 256 % 256) * 65536 + (x / 65536 % 256) * 256 + x / 16777216 % 256

/-- Host to network order, 16 bits: the identity on a big-endian machine, a
byte swap on a little-endian one. -/
def bpf_htons (be : Bool) (x : Nat) : Nat := if be then x % 65536 else bswap16 x

/-- Network to host order, 16 bits. -/
def bpf_ntohs (be : Bool) (x : Nat) : Nat := if be then x % 65536 else bswap16 x

/-- Host to network order, 32 bits. -/
def bpf_htonl (be : Bool) (x : Nat) : Nat := if be then x % 4294967296 else bswap32 x

/-- Network to host order, 32 bits. -/
def bpf_ntohl (be : Bool) (x : Nat) : Nat := if be then x % 4294967296 else bswap32 x

/-- The 16-bit value a machine reads from two consecutive bytes. -/
def mk16 (be : Bool) (b0 b1 : Nat) : Nat := if be then b0 * 256 + b1 else b0 + b1 * 256

/-- The 32-bit value a machine reads from four consecutive bytes. -/
def mk32 (be : Bool) (b0 b1 b2 b3 : Nat) : Nat :=
  if be then b0 * 16777216 + b1 * 65536 + b2 * 256 + b3
  else b0 + b1 * 256 + b2 * 65536 + b3 * 16777216

/-- The byte at index `i` (0 = lowest address) of a stored 16-bit value. -/
def byte16 (be : Bool) (v i : Nat) : Nat :=
  if be then v / 256 ^ (1 - i) % 256 else v / 256 ^ i % 256

/-- The byte at index `i` (0 = lowest address) of a stored 32-bit value. -/
def byte32 (be : Bool) (v i : Nat) : Nat :=
  if be then v / 256 ^ (3 - i) % 256 else v / 256 ^ i % 256

/-! ## Frame memory -/

/-- Unchecked read of the byte at offset `p`. -/
def rd8 (f : List Nat) (p : Nat) : Nat := f.getD p 0

/-- Unchecked write of the byte at offset `p`. -/
def wr8 (f : List Nat) (p v : Nat) : List Nat := f.set p (v % 256)

/-- Unchecked 16-bit read. -/
def rd16 (be : Bool) (f : List Nat) (p : Nat) : Nat := mk16 be (rd8 f p) (rd8 f (p + 1))

/-- Unchecked 32-bit read. -/
def rd32 (be : Bool) (f : List Nat) (p : Nat) : Nat :=
  mk32 be (rd8 f p) (rd8 f (p + 1)) (rd8 f (p + 2)) (rd8 f (p + 3))

/-- Unchecked 16-bit write. -/
def wr16 (be : Bool) (f : List Nat) (p v : Nat) : List Nat :=
  wr8 (wr8 f p (byte16 be v 0)) (p + 1) (byte16 be v 1)

/-- Unchecked 32-bit write. -/
def wr32 (be : Bool) (f : List Nat) (p v : Nat) : List Nat :=
  wr8 (wr8 (wr8 (wr8 f p (byte32 be v 0)) (p + 1) (byte32 be v 1)) (p + 2) (byte32 be v 2))
    (p + 3) (byte32 be v 3)

/-- Unchecked read of `n` consecutive bytes. -/
def rdN (f : List Nat) (p n : Nat) : List Nat := (List.range n).map (fun i => rd8 f (p + i))

/-- The outcome of a computation that accesses the frame: `fault` when it
accessed a byte outside the frame, `ok` with its result otherwise. -/
inductive Mem (α : Type) where
  | fault : Mem α
  | ok : α → Mem α
deriving DecidableEq, Repr

/-- Sequencing of two computations: a fault ends the computation. -/
@[noinline]
def Mem.bind {α β : Type} (x : Mem α) (k : α → Mem β) : Mem β :=
  match x with
  | .fault => .fault
  | .ok a => k a

instance : Monad Mem where
  pure := Mem.ok
  bind := Mem.bind

/-- Load of a `uint8_t` through a pointer into the frame. -/
def ld8 (f : List Nat) (p : Nat) : Mem Nat :=
  if p + 1 ≤ f.length then pure (rd8 f p) else .fault

/-- Load of a `uint16_t` through a pointer into the frame. -/
def ld16 (be : Bool) (f : List Nat) (p : Nat) : Mem Nat :=
  if p + 2 ≤ f.length then pure (rd16 be f p) else .fault

/-- Load of a `uint32_t` through a pointer into the frame. -/
def ld32 (be : Bool) (f : List Nat) (p : Nat) : Mem Nat :=
  if p + 4 ≤ f.length then pure (rd32 be f p) else .fault

/-- Load of `n` bytes through a pointer into the frame. -/
def ldN (f : List Nat) (p n : Nat) : Mem (List Nat) :=
  if p + n ≤ f.length then pure (rdN f p n) else .fault

/-- Store of a `uint8_t` through a pointer into the frame. -/
def st8 (f : List Nat) (p v : Nat) : Mem (List Nat) :=
  if p + 1 ≤ f.length then pure (wr8 f p v) else .fault

/-- Store of a `uint16_t` through a pointer into the frame. -/
def st16 (be : Bool) (f : List Nat) (p v : Nat) : Mem (List Nat) :=
  if p + 2 ≤ f.length then pure (wr16 be f p v) else .fault

/-- Store of a `uint32_t` through a pointer into the frame. -/
def st32 (be : Bool) (f : List Nat) (p v : Nat) : Mem (List Nat) :=
  if p + 4 ≤ f.length then pure (wr32 be f p v) else .fault

/-- Every element of the list is a byte. -/
def bytes_ok (f : List Nat) : Prop := ∀ b ∈ f, b < 256

instance (f : List Nat) : Decidable (bytes_ok f) := by
  unfold bytes_ok; infer_instance

/-! ## Addresses -/

/-- A MAC address, `macaddr_t` (six bytes). -/
structure macaddr_t where
  b0 : Nat
  b1 : Nat
  b2 : Nat
  b3 : Nat
  b4 : Nat
  b5 : Nat
deriving DecidableEq, Repr

/-- The all-zero MAC address, `(macaddr_t){0}`. -/
def macaddr_t.zero : macaddr_t := ⟨0, 0, 0, 0, 0, 0⟩

/-- Every component of the MAC address is a byte. -/
def macaddr_t.ok (m : macaddr_t) : Prop :=
  m.b0 < 256 ∧ m.b1 < 256 ∧ m.b2 < 256 ∧ m.b3 < 256 ∧ m.b4 < 256 ∧ m.b5 < 256

instance (m : macaddr_t) : Decidable m.ok := by
  unfold macaddr_t.ok; infer_instance

/-- Modelled from the spec: the constant `BROADCAST_MAC` of the header `pkt.h`,
which is not among the sources; the Ethernet broadcast address. -/
def BROADCAST_MAC : macaddr_t := ⟨255, 255, 255, 255, 255, 255⟩

/-- Byte-wise comparison of two MAC addresses. -/
def mac_eq (a b : macaddr_t) : Bool :=
  a.b0 == b.b0 && a.b1 == b.b1 && a.b2 == b.b2 && a.b3 == b.b3 && a.b4 == b.b4 && a.b5 == b.b5

/-- Unchecked read of a MAC address. -/
def rd_mac (f : List Nat) (p : Nat) : macaddr_t :=
  ⟨rd8 f p, rd8 f (p + 1), rd8 f (p + 2), rd8 f (p + 3), rd8 f (p + 4), rd8 f (p + 5)⟩

/-- Unchecked write of a MAC address. -/
def wr_mac (f : List Nat) (p : Nat) (m : macaddr_t) : List Nat :=
  wr8 (wr8 (wr8 (wr8 (wr8 (wr8 f p m.b0) (p + 1) m.b1) (p + 2) m.b2) (p + 3) m.b3) (p + 4) m.b4)
    (p + 5) m.b5

/-- Load of a MAC address through a pointer into the frame. -/
def ld_mac (f : List Nat) (p : Nat) : Mem macaddr_t :=
  if p + 6 ≤ f.length then pure (rd_mac f p) else .fault

/-- Store of a MAC address through a pointer into the frame,
`memcpy(dst, src, sizeof(macaddr_t))`. -/
def st_mac (f : List Nat) (p : Nat) (m : macaddr_t) : Mem (List Nat) :=
  if p + 6 ≤ f.length then pure (wr_mac f p m) else .fault

/-- Modelled from the spec: the helper `same_subnet` of the header `pkt.h`,
which is not among the sources; two addresses are in the same subnet when they
agree on the bits of the mask. -/
def same_subnet (a b mask : Nat) : Bool := (a &&& mask) == (b &&& mask)

/-! ## Constants of the Linux headers -/

def ETH_P_IP : Nat := 0x0800
def ETH_P_ARP : Nat := 0x0806
def IPPROTO_ICMP : Nat := 1
def IPPROTO_TCP : Nat := 6
def IPPROTO_UDP : Nat := 17
def IP_DF : Nat := 0x4000
def ICMP_ECHOREPLY : Nat := 0
def ICMP_DEST_UNREACH : Nat := 3
def ICMP_ECHO : Nat := 8
def ICMP_TIME_EXCEEDED : Nat := 11
def ICMP_EXC_TTL : Nat := 0
def ARPOP_REQUEST : Nat := 1
def ARPOP_REPLY : Nat := 2
def SECOND_NS : Nat := 1000000000

/-- The verdicts of an XDP program, `enum xdp_action`. -/
inductive xdp_action where
  | XDP_ABORTED
  | XDP_DROP
  | XDP_PASS
  | XDP_TX
  | XDP_REDIRECT
deriving DecidableEq, Repr

/-- The numeric value of a verdict. -/
def xdp_action.code : xdp_action → Nat
  | .XDP_ABORTED => 0
  | .XDP_DROP => 1
  | .XDP_PASS => 2
  | .XDP_TX => 3
  | .XDP_REDIRECT => 4

/-- The verdict with a given numeric value; the kernel treats an unknown
value as `XDP_ABORTED`. -/
def xdp_action.ofCode : Nat → xdp_action
  | 1 => .XDP_DROP
  | 2 => .XDP_PASS
  | 3 => .XDP_TX
  | 4 => .XDP_REDIRECT
  | _ => .XDP_ABORTED

/-! ## Data model -/

/-- Value of `conntrack_map`, `struct track_entry`. -/
structure track_entry where
  saddr : Nat
  sport_real : Nat
  h_source : macaddr_t
  ktime_ns : Nat
deriving DecidableEq, Repr

/-- Key of `conntrack_map`, `struct conntrack_key`. -/
structure conntrack_key where
  protocol : Nat
  sport : Nat
  daddr : Nat
  dport : Nat
deriving DecidableEq, Repr

/-- Modelled from the spec: `struct remote_addr` of the header `bpf_kern.h`,
which is not among the sources; the tunnel endpoint (IP address and UDP port)
of a remote peer. -/
structure remote_addr where
  ip : Nat
  port : Nat
deriving DecidableEq, Repr

/-- Classification of the ICMP type, `enum icmp_type`. -/
inductive icmp_type where
  | NOT_ICMP
  | ICMP_TYPE_OTHER
  | ICMP_TYPE_ERROR
  | ICMP_TYPE_REQUEST
  | ICMP_TYPE_RESP
deriving DecidableEq, Repr

/-- The IPv4 pseudo-header, `struct iph_pseudo` (packed, 12 bytes). -/
structure iph_pseudo where
  saddr : Nat
  daddr : Nat
  reserved : Nat
  protocol : Nat
  l4_len : Nat
deriving DecidableEq, Repr

/-- The memory image of a pseudo-header. -/
def iph_pseudo.bytes (be : Bool) (p : iph_pseudo) : List Nat :=
  [byte32 be p.saddr 0, byte32 be p.saddr 1, byte32 be p.saddr 2, byte32 be p.saddr 3,
   byte32 be p.daddr 0, byte32 be p.daddr 1, byte32 be p.daddr 2, byte32 be p.daddr 3,
   p.reserved % 256, p.protocol % 256, byte16 be p.l4_len 0, byte16 be p.l4_len 1]

/-- The global variables of the program and its maps. -/
structure State where
  switch_mac : macaddr_t
  host_mac : macaddr_t
  gateway_mac : macaddr_t
  switch_ip : Nat
  public_host_ip : Nat
  fake_gateway_ip : Nat
  subnet_mask : Nat
  vpn_port : Nat
  conntrack_map : List (conntrack_key × track_entry)
  remote_addrs : List (Nat × remote_addr)
  xsks_map : List (Nat × Nat)
deriving DecidableEq, Repr

/-- The packet buffer handed to the program, `struct xdp_md`: the bytes of the
frame, the bytes of the headroom in front of it, the number of bytes that may
be appended behind it, and the receive queue. -/
structure xdp_md where
  headroom : List Nat
  data : List Nat
  tailroom : Nat
  rx_queue_index : Nat
deriving DecidableEq, Repr

/-! ## Kernel helpers -/

/-- Capacity of `conntrack_map`. -/
def CONNTRACK_MAX : Nat := 1024

/-- Capacity of `remote_addrs`. -/
def REMOTE_ADDRS_MAX : Nat := 256

/-- Lookup in a hash map, `bpf_map_lookup_elem`: the value of the first entry
with the key.  The entries are kept most recently used first. -/
def map_lookup {κ ν : Type} [DecidableEq κ] : List (κ × ν) → κ → Option ν
  | [], _ => none
  | (k1, v) :: m, k => if k1 = k then some v else map_lookup m k

/-- Removal of a key, `bpf_map_delete_elem`. -/
def map_delete {κ ν : Type} [DecidableEq κ] (m : List (κ × ν)) (k : κ) : List (κ × ν) :=
  m.filter (fun e => decide (e.1 ≠ k))

/-- Insertion into an LRU hash map of capacity `cap`, `bpf_map_update_elem`
with `BPF_ANY`: the entry becomes the most recently used one and, if the map
is over capacity, the least recently used entries are evicted. -/
def map_update {κ ν : Type} [DecidableEq κ] (cap : Nat) (m : List (κ × ν)) (k : κ) (v : ν) :
    List (κ × ν) :=
  ((k, v) :: map_delete m k).take cap

/-- A successful lookup in an LRU hash map marks the entry as recently used. -/
def map_touch {κ ν : Type} [DecidableEq κ] (m : List (κ × ν)) (k : κ) : List (κ × ν) :=
  match map_lookup m k with
  | none => m
  | some v => (k, v) :: map_delete m k

/-- A write through the pointer returned by a lookup: the value stored under the
key is changed in place. -/
def map_modify {κ ν : Type} [DecidableEq κ] (m : List (κ × ν)) (k : κ) (g : ν → ν) :
    List (κ × ν) :=
  m.map (fun e => if e.1 = k then (e.1, g e.2) else e)

/-- The helper `bpf_redirect_map(&xsks_map, index, flags)`: flags above `XDP_TX`
abort, a present entry redirects, and otherwise the flags are the verdict. -/
def bpf_redirect_map (xsks_map : List (Nat × Nat)) (index flags : Nat) : Nat :=
  if flags > xdp_action.XDP_TX.code then xdp_action.XDP_ABORTED.code
  else match map_lookup xsks_map index with
    | none => flags
    | some _ => xdp_action.XDP_REDIRECT.code

/-- The helper `bpf_xdp_adjust_head`: move the start of the frame by `delta`
bytes.  A negative `delta` takes bytes from the headroom; the result must keep
an Ethernet header of 14 bytes.  `none` is the error return. -/
def bpf_xdp_adjust_head (ctx : xdp_md) (delta : Int) : Option xdp_md :=
  if delta < 0 then
    let n := (-delta).toNat
    if n > ctx.headroom.length then none
    else some { ctx with
      headroom := ctx.headroom.take (ctx.headroom.length - n)
      data := ctx.headroom.drop (ctx.headroom.length - n) ++ ctx.data }
  else
    let n := delta.toNat
    if n + 14 > ctx.data.length then none
    else some { ctx with
      headroom := ctx.headroom ++ ctx.data.take n
      data := ctx.data.drop n }

/-- The helper `bpf_xdp_adjust_tail`: move the end of the frame by `delta`
bytes.  Growth is limited by the tailroom and zero-filled; the result must keep
an Ethernet header of 14 bytes.  `none` is the error return. -/
def bpf_xdp_adjust_tail (ctx : xdp_md) (delta : Int) : Option xdp_md :=
  if delta > (ctx.tailroom : Int) then none
  else if (ctx.data.length : Int) + delta < 14 then none
  else if delta > 0 then
    some { ctx with
      data := ctx.data ++ List.replicate delta.toNat 0
      tailroom := ctx.tailroom - delta.toNat }
  else
    some { ctx with
      data := ctx.data.take (ctx.data.length - (-delta).toNat)
      tailroom := ctx.tailroom + (-delta).toNat }

/-- The 32-bit words, in machine byte order, of a buffer whose length is a
multiple of four. -/
def words32 (be : Bool) : List Nat → List Nat
  | b0 :: b1 :: b2 :: b3 :: rest => mk32 be b0 b1 b2 b3 :: words32 be rest
  | _ => []

/-- Addition of 32-bit ones-complement sums: the carry out of bit 31 is added
back in. -/
def csum_add (a b : Nat) : Nat := (a + b) % 4294967296 + (a + b) / 4294967296

/-- The kernel routine `csum_partial`: the 32-bit ones-complement sum of the
words of a buffer, added to `seed`.  The program only ever uses the 16-bit fold
of this value, which is the same on every architecture. -/
def csum_partial (ws : List Nat) (seed : Nat) : Nat := ws.foldl csum_add (seed % 4294967296)

/-- The helper `bpf_csum_diff(from, from_size, to, to_size, seed)`: the checksum
of the complemented words of `from` followed by the words of `to`, added to
`seed`; `-EINVAL` when a size is not a multiple of four or the two together
exceed the 512-byte scratch buffer. -/
def bpf_csum_diff (be : Bool) (frm dst : List Nat) (seed : Nat) : Nat :=
  if frm.length % 4 ≠ 0 ∨ dst.length % 4 ≠ 0 ∨ frm.length + dst.length > 512 then
    4294967296 - 22
  else
    csum_partial ((words32 be frm).map (fun w => 4294967295 - w) ++ words32 be dst) seed

/-! ## Checksum helpers of `bpf_kern.c` -/

/-- Complement of a value as a `uint16_t`. -/
def not16 (x : Nat) : Nat := 65535 - x % 65536

/-- Complement of a value as a `uint32_t`. -/
def not32 (x : Nat) : Nat := 4294967295 - x % 4294967296

/-- Unchecked write of consecutive bytes. -/
def wrN : List Nat → Nat → List Nat → List Nat
  | f, _, [] => f
  | f, p, b :: bs => wrN (wr8 f p b) (p + 1) bs

/-- Store of consecutive bytes through a pointer into the frame (`memset`,
`memcpy`). -/
def stN (f : List Nat) (p : Nat) (bs : List Nat) : Mem (List Nat) :=
  if p + bs.length ≤ f.length then pure (wrN f p bs) else .fault

/-- The function `ip_decrease_ttl`: add `htons(0x0100)` to the header checksum,
with the carry of the 16-bit ones-complement addition, and decrement the TTL.
Returns the frame and the new TTL. -/
def ip_decrease_ttl (be : Bool) (f : List Nat) (iph : Nat) : Mem (List Nat × Nat) := do
  let check ← ld16 be f (iph + 10)
  let check := (check + bpf_htons be 0x0100) % 4294967296
  let f ← st16 be f (iph + 10) ((check + (if check ≥ 0xFFFF then 1 else 0)) % 4294967296 % 65536)
  let ttl ← ld8 f (iph + 8)
  let f ← st8 f (iph + 8) ((ttl + 255) % 256)
  pure (f, (ttl + 255) % 256)

/-- The function `onec_add`: 16-bit ones-complement addition, the carry folded
in twice. -/
def onec_add (x y : Nat) : Nat :=
  let z := (x % 65536 + y % 65536) % 4294967296
  let z := ((z &&& 0xffff) + (z >>> 16)) % 4294967296
  let z := ((z &&& 0xffff) + (z >>> 16)) % 4294967296
  z % 65536

/-- The function `csum_fold_helper`: fold a 32-bit sum to 16 bits and
complement it. -/
def csum_fold_helper (csum : Nat) : Nat :=
  let csum := csum % 4294967296
  let csum := ((csum &&& 0xffff) + (csum >>> 16)) % 4294967296
  not32 ((csum &&& 0xffff) + (csum >>> 16)) % 65536

/-- The function `ipv4_csum`, applied to the bytes of the region it sums. -/
def ipv4_csum (be : Bool) (region : List Nat) (csum : Nat) : Nat :=
  csum_fold_helper (bpf_csum_diff be [] region csum)

/-- The function `recompute_iph_csum`: clear the checksum field, sum the 20
bytes of the header, store the folded complement. -/
def recompute_iph_csum (be : Bool) (f : List Nat) (iph : Nat) : Mem (List Nat) := do
  let f ← st16 be f (iph + 10) 0
  let hdr ← ldN f iph 20
  let csum := ipv4_csum be hdr 0
  st16 be f (iph + 10) csum

/-- The function `ipv4_mk_pheader`: the pseudo-header of the IPv4 header at
offset `iph`. -/
def ipv4_mk_pheader (be : Bool) (f : List Nat) (iph : Nat) : Mem iph_pseudo := do
  let saddr ← ld32 be f (iph + 12)
  let daddr ← ld32 be f (iph + 16)
  let protocol ← ld8 f (iph + 9)
  let tot_len ← ld16 be f (iph + 2)
  pure { saddr := saddr, daddr := daddr, reserved := 0, protocol := protocol,
         l4_len := bpf_htons be ((bpf_ntohs be tot_len + 65536 - 20) % 65536) }

/-- The second half of `recompute_l4_csum_fast`, from the bounds check of
`csum_field` on: replace the checksum by the fold of the pseudo-header
difference seeded with the complement of the old checksum, store `0xffff` for
a zero, and return the ones-complement difference of new and old checksum. -/
def recompute_l4_csum_field (be : Bool) (f : List Nat) (csum_field : Nat)
    (iphp_orig iphp_new : iph_pseudo) : Mem (List Nat × Nat) :=
  if csum_field + 2 > f.length then pure (f, 0)
  else do
    let old_csum ← ld16 be f csum_field
    let csum := bpf_csum_diff be (iphp_orig.bytes be) (iphp_new.bytes be) (not32 old_csum)
    let f ← st16 be f csum_field (csum_fold_helper csum)
    let c ← ld16 be f csum_field
    let f ← if c = 0 then st16 be f csum_field 0xffff else pure f
    let c ← ld16 be f csum_field
    pure (f, onec_add c (not32 old_csum % 65536))

/-- The function `recompute_l4_csum_fast`: select the checksum field of the TCP
or UDP header behind the IPv4 header at `iph`, leave a zero UDP checksum alone,
and update the field for the change of the pseudo-header. -/
def recompute_l4_csum_fast (be : Bool) (f : List Nat) (iph : Nat) (iphp_orig : iph_pseudo) :
    Mem (List Nat × Nat) := do
  let iphp_new ← ipv4_mk_pheader be f iph
  let l4 := iph + 20
  let protocol ← ld8 f (iph + 9)
  if protocol = IPPROTO_TCP then
    recompute_l4_csum_field be f (l4 + 16) iphp_orig iphp_new
  else if protocol = IPPROTO_UDP then do
    let c ← ld16 be f (l4 + 6)
    if c = 0 then pure (f, 0)
    else recompute_l4_csum_field be f (l4 + 6) iphp_orig iphp_new
  else pure (f, 0)

/-- Assignment to the bit-field `iph->ihl` (low half of the first byte). -/
def set_ihl (f : List Nat) (iph v : Nat) : Mem (List Nat) := do
  let b ← ld8 f iph
  st8 f iph (b / 16 % 16 * 16 + v % 16)

/-- Assignment to the bit-field `iph->version` (high half of the first
byte). -/
def set_version (f : List Nat) (iph v : Nat) : Mem (List Nat) := do
  let b ← ld8 f iph
  st8 f iph (v % 16 * 16 + b % 16)

/-- The clock `bpf_ktime_get_ns`: `ktime i` is the reading of the call number
`i` of one run of the program. -/
def bpf_ktime_get_ns (ktime : Nat → Nat) (i : Nat) : Nat := ktime i % 18446744073709551616

/-! ## The program -/

/-- The function `send_icmp4_timeout_exceeded`: turn the frame into an ICMP
Time Exceeded message for its sender. -/
def send_icmp4_timeout_exceeded (be : Bool) (ctx : xdp_md) (st : State) :
    Mem (xdp_action × xdp_md × State) :=
  if 14 > ctx.data.length then pure (.XDP_DROP, ctx, st)
  else do
    let eth_orig ← ldN ctx.data 0 14
    match bpf_xdp_adjust_head ctx (0 - ((20 : Int) + 8)) with
    | none => pure (.XDP_DROP, ctx, st)
    | some ctx =>
    match bpf_xdp_adjust_tail ctx (((14 : Int) + 20 + 8 + 28) - (ctx.data.length : Int)) with
    | none => pure (.XDP_DROP, ctx, st)
    | some ctx =>
    let f := ctx.data
    if 14 > f.length then pure (.XDP_DROP, ctx, st)
    else if 34 > f.length then pure (.XDP_DROP, ctx, st)
    else if 42 > f.length then pure (.XDP_DROP, ctx, st)
    else if 70 > f.length then pure (.XDP_DROP, ctx, st)
    else do
      let f ← stN f 34 (List.replicate 8 0)
      let f ← st8 f 34 ICMP_TIME_EXCEEDED
      let f ← st8 f 35 ICMP_EXC_TTL
      let region ← ldN f 34 (8 + 28)
      let csum := ipv4_csum be region 0
      let f ← st16 be f 36 csum
      let f ← set_ihl f 14 5
      let f ← set_version f 14 4
      let f ← st16 be f 16 (bpf_htons be (f.length - 14))
      let f ← st8 f 15 0
      let f ← st16 be f 18 0
      let f ← st16 be f 20 (bpf_htons be IP_DF)
      let f ← st8 f 22 64
      let f ← st8 f 23 IPPROTO_ICMP
      let pl_saddr ← ld32 be f (42 + 12)
      let f ← st32 be f 30 pl_saddr
      let f ← st32 be f 26 st.public_host_ip
      let f ← recompute_iph_csum be f 14
      let f ← st_mac f 0 (rd_mac eth_orig 6)
      let f ← st_mac f 6 st.host_mac
      let f ← st16 be f 12 (bpf_htons be ETH_P_IP)
      pure (.XDP_TX, { ctx with data := f }, st)

/-- The local variables that the parse of the L4 header sets in `xdp_prog`.
The ports and `old_csum` are not initialised for ICMP and never read then. -/
structure l4_locals where
  icmp_type : icmp_type
  src_port : Nat
  dst_port : Nat
  old_csum : Nat
deriving DecidableEq, Repr

/-- The guard of the NAT route of `xdp_prog`. -/
def nat_route_cond (st : State) (eth_is_multicast : Bool) (h_source : macaddr_t)
    (saddr daddr : Nat) : Bool :=
  !eth_is_multicast && st.fake_gateway_ip != 0 &&
  (mac_eq st.switch_mac h_source || mac_eq st.switch_mac macaddr_t.zero) &&
  same_subnet saddr st.fake_gateway_ip st.subnet_mask &&
  !same_subnet daddr st.fake_gateway_ip st.subnet_mask &&
  !same_subnet daddr st.public_host_ip st.subnet_mask

/-- The NAT route of `xdp_prog`: an outbound packet of a client behind the fake
gateway. -/
def xdp_prog_nat_route (be : Bool) (ktime : Nat → Nat) (ctx : xdp_md) (st : State)
    (l4 : l4_locals) (iphp_orig : iph_pseudo) : Mem (xdp_action × xdp_md × State) := do
  let f := ctx.data
  let ttl ← ld8 f 22
  if ttl ≤ 1 then send_icmp4_timeout_exceeded be ctx st
  else do
    let saddr ← ld32 be f 26
    let now := bpf_ktime_get_ns ktime 0
    if l4.icmp_type = .NOT_ICMP then do
      let protocol ← ld8 f 23
      let (f, src_port, sport_real) ←
        (if protocol = IPPROTO_UDP then do
          let sport_real := l4.src_port
          let src_port := (l4.src_port + now % 0xFF) % 65536
          let check ← ld16 be f 40
          let f ← st16 be f 40 (onec_add check sport_real)
          let check ← ld16 be f 40
          let f ← st16 be f 40 (onec_add check (not16 src_port))
          let f ← st16 be f 34 src_port
          pure (f, src_port, sport_real)
        else pure (f, l4.src_port, 0) : Mem (List Nat × Nat × Nat))
      let protocol ← ld8 f 23
      let daddr ← ld32 be f 30
      let conntrack_key : conntrack_key :=
        { protocol := protocol, sport := src_port, daddr := daddr, dport := l4.dst_port }
      let h_source ← ld_mac f 6
      let track_entry : track_entry :=
        { saddr := saddr, sport_real := sport_real, h_source := h_source, ktime_ns := now }
      let st := { st with
        conntrack_map := map_update CONNTRACK_MAX st.conntrack_map conntrack_key track_entry }
      let (f, _) ← ip_decrease_ttl be f 14
      let f ← st32 be f 26 st.public_host_ip
      let f ← recompute_iph_csum be f 14
      let (f, _) ← recompute_l4_csum_fast be f 14 iphp_orig
      let f ← st_mac f 0 st.gateway_mac
      let f ← st_mac f 6 st.host_mac
      pure (.XDP_TX, { ctx with data := f }, st)
    else pure (.XDP_PASS, ctx, st)

/-- The broadcast route of `xdp_prog`: a multicast frame of the peer goes to
the AF_XDP socket of the receive queue. -/
def xdp_prog_broadcast_route (be : Bool) (ctx : xdp_md) (st : State) (l4 : l4_locals) :
    Mem (xdp_action × xdp_md × State) := do
  let protocol ← ld8 ctx.data 23
  if protocol = IPPROTO_UDP ∧ l4.dst_port = bpf_htons be 67 ∧ l4.dst_port = bpf_htons be 68 then
    pure (.XDP_PASS, ctx, st)
  else
    let index := ctx.rx_queue_index
    let ret := bpf_redirect_map st.xsks_map index xdp_action.XDP_PASS.code
    if ret > 0 then pure (xdp_action.ofCode ret, ctx, st)
    else if (map_lookup st.xsks_map index).isSome then
      pure (xdp_action.ofCode (bpf_redirect_map st.xsks_map index 0), ctx, st)
    else pure (.XDP_PASS, ctx, st)

/-- The VPN route of `xdp_prog` for a unicast frame of the peer: wrap the IP
packet into a UDP datagram for the tunnel endpoint of the destination. -/
def xdp_prog_vpn_route (be : Bool) (ctx : xdp_md) (st : State) (l4 : l4_locals)
    (iphp_orig : iph_pseudo) : Mem (xdp_action × xdp_md × State) := do
  let key ← ld32 be ctx.data 30
  match map_lookup st.remote_addrs key with
  | none => pure (.XDP_PASS, ctx, st)
  | some remote_addr =>
    let st := { st with remote_addrs := map_touch st.remote_addrs key }
    match bpf_xdp_adjust_head ctx (0 - ((20 : Int) + 8)) with
    | none => pure (.XDP_DROP, ctx, st)
    | some ctx =>
    let f := ctx.data
    if 14 > f.length then pure (.XDP_DROP, ctx, st)
    else if 34 > f.length then pure (.XDP_DROP, ctx, st)
    else if 42 > f.length then pure (.XDP_DROP, ctx, st)
    else if 62 > f.length then pure (.XDP_DROP, ctx, st)
    else do
      let f ← st16 be f 34 (bpf_htons be st.vpn_port)
      let f ← st16 be f 36 (bpf_htons be remote_addr.port)
      let f ← st16 be f 38 (bpf_htons be (f.length - 34))
      let f ← st16 be f 40 0
      let f ← set_ihl f 14 5
      let f ← set_version f 14 4
      let f ← st8 f 15 0
      let f ← st16 be f 16 (bpf_htons be (f.length - 14))
      let id_o ← ld16 be f (42 + 4)
      let f ← st16 be f 18 id_o
      let f ← st16 be f 20 (bpf_htons be IP_DF)
      let f ← st8 f 22 64
      let f ← st8 f 23 IPPROTO_UDP
      let f ← st32 be f 26 st.public_host_ip
      let f ← st32 be f 30 remote_addr.ip
      let f ← recompute_iph_csum be f 14
      let f ←
        (if l4.icmp_type = .NOT_ICMP ∧ l4.old_csum ≠ 0 then do
          let iphp ← ipv4_mk_pheader be f 14
          let udph_n ← ldN f 34 8
          let iph_o ← ldN f 42 20
          let csum := bpf_csum_diff be (iphp_orig.bytes be) (iphp.bytes be ++ udph_n ++ iph_o) 0
          let f ← st16 be f 40 (csum_fold_helper csum)
          let c ← ld16 be f 40
          if c = 0 then st16 be f 40 0xffff else pure f
        else pure f : Mem (List Nat))
      let f ← st_mac f 0 st.gateway_mac
      let f ← st_mac f 6 st.host_mac
      let f ← st16 be f 12 (bpf_htons be ETH_P_IP)
      pure (.XDP_TX, { ctx with data := f }, st)

/-- The inbound VPN route of `xdp_prog`: a datagram on the tunnel port is
unwrapped and handed to the peer. -/
def xdp_prog_vpn_inbound (be : Bool) (ctx : xdp_md) (st : State) :
    Mem (xdp_action × xdp_md × State) :=
  match bpf_xdp_adjust_head ctx ((20 : Int) + 8) with
  | none => pure (.XDP_DROP, ctx, st)
  | some ctx =>
  let f := ctx.data
  if 14 > f.length then pure (.XDP_DROP, ctx, st)
  else if 34 > f.length then pure (.XDP_DROP, ctx, st)
  else do
    let b ← ld8 f 14
    if b % 16 ≠ 5 ∨ b / 16 % 16 ≠ 4 then pure (.XDP_DROP, ctx, st)
    else do
      let subnet_broadcast :=
        ((st.switch_ip &&& st.subnet_mask) ||| not32 st.subnet_mask) % 4294967296
      let daddr ← ld32 be f 30
      if daddr ≠ st.switch_ip ∧ daddr ≠ subnet_broadcast ∧ daddr ≠ 0xFFFFFFFF ∧
          (bpf_ntohl be daddr &&& 0xF0000000) ≠ 0xE0000000 then pure (.XDP_DROP, ctx, st)
      else do
        let saddr ← ld32 be f 26
        match map_lookup st.remote_addrs saddr with
        | none => pure (.XDP_DROP, ctx, st)
        | some _ =>
          let st := { st with remote_addrs := map_touch st.remote_addrs saddr }
          let f ← st_mac f 0 st.switch_mac
          let f ← st_mac f 6 st.host_mac
          let f ← st16 be f 12 (bpf_htons be ETH_P_IP)
          pure (.XDP_TX, { ctx with data := f }, st)

/-- The NAT return route of `xdp_prog`: a packet for the public address that
answers a tracked connection goes back to the client. -/
def xdp_prog_nat_return (be : Bool) (ktime : Nat → Nat) (ctx : xdp_md) (st : State)
    (l4 : l4_locals) (iphp_orig : iph_pseudo) : Mem (xdp_action × xdp_md × State) := do
  let f := ctx.data
  let ttl ← ld8 f 22
  if ttl ≤ 1 then send_icmp4_timeout_exceeded be ctx st
  else if l4.icmp_type = .NOT_ICMP then do
    let protocol ← ld8 f 23
    let saddr ← ld32 be f 26
    let conntrack_key : conntrack_key :=
      { protocol := protocol, sport := l4.dst_port, daddr := saddr, dport := l4.src_port }
    match map_lookup st.conntrack_map conntrack_key with
    | none => pure (.XDP_PASS, ctx, st)
    | some track_entry =>
      let st := { st with conntrack_map := map_touch st.conntrack_map conntrack_key }
      if (bpf_ktime_get_ns ktime 0 + 18446744073709551616
            - track_entry.ktime_ns % 18446744073709551616) % 18446744073709551616
          > 5 * 60 * SECOND_NS then
        pure (.XDP_PASS, ctx,
          { st with conntrack_map := map_delete st.conntrack_map conntrack_key })
      else do
        let now := bpf_ktime_get_ns ktime 1
        let refreshed :=
          map_modify st.conntrack_map conntrack_key (fun e => { e with ktime_ns := now })
        let st := { st with conntrack_map := refreshed }
        let protocol ← ld8 f 23
        let f ←
          (if protocol = IPPROTO_UDP then do
            let check ← ld16 be f 40
            let dest ← ld16 be f 36
            let f ← st16 be f 40 (onec_add check dest)
            let check ← ld16 be f 40
            let f ← st16 be f 40 (onec_add check (not16 track_entry.sport_real))
            st16 be f 36 track_entry.sport_real
          else pure f : Mem (List Nat))
        let f ← st32 be f 30 track_entry.saddr
        let h_source := track_entry.h_source
        let (f, _) ← ip_decrease_ttl be f 14
        let f ← recompute_iph_csum be f 14
        let (f, _) ← recompute_l4_csum_fast be f 14 iphp_orig
        let f ← st_mac f 0 h_source
        let f ← st_mac f 6 st.host_mac
        pure (.XDP_TX, { ctx with data := f }, st)
  else pure (.XDP_PASS, ctx, st)

/-- The routes of `xdp_prog` behind the NAT route: the routes for the frames of
the peer, and the routes for the frames addressed to the public address. -/
def xdp_prog_other_routes (be : Bool) (ktime : Nat → Nat) (ctx : xdp_md) (st : State)
    (eth_is_multicast : Bool) (l4 : l4_locals) (iphp_orig : iph_pseudo) :
    Mem (xdp_action × xdp_md × State) := do
  let f := ctx.data
  let h_source ← ld_mac f 6
  if mac_eq st.switch_mac h_source = true then
    if eth_is_multicast = true then xdp_prog_broadcast_route be ctx st l4
    else xdp_prog_vpn_route be ctx st l4 iphp_orig
  else do
    let daddr ← ld32 be f 30
    if daddr = st.public_host_ip then do
      let protocol ← ld8 f 23
      if protocol = IPPROTO_UDP ∧ l4.dst_port = bpf_htons be st.vpn_port then
        xdp_prog_vpn_inbound be ctx st
      else do
        let saddr ← ld32 be f 26
        if st.fake_gateway_ip ≠ 0 ∧
            same_subnet saddr st.fake_gateway_ip st.subnet_mask = false then
          xdp_prog_nat_return be ktime ctx st l4 iphp_orig
        else pure (.XDP_PASS, ctx, st)
    else pure (.XDP_PASS, ctx, st)

/-- The routes of `xdp_prog` for an IPv4 frame whose L4 header has been
parsed: the NAT route when its guard holds, the other routes otherwise. -/
def xdp_prog_ip_routes (be : Bool) (ktime : Nat → Nat) (ctx : xdp_md) (st : State)
    (eth_is_multicast : Bool) (l4 : l4_locals) (iphp_orig : iph_pseudo) :
    Mem (xdp_action × xdp_md × State) := do
  let f := ctx.data
  let h_source ← ld_mac f 6
  let saddr ← ld32 be f 26
  let daddr ← ld32 be f 30
  if nat_route_cond st eth_is_multicast h_source saddr daddr = true then
    xdp_prog_nat_route be ktime ctx st l4 iphp_orig
  else xdp_prog_other_routes be ktime ctx st eth_is_multicast l4 iphp_orig

/-- The IPv4 branch of `xdp_prog`: parse the IPv4 and the L4 header, learn the
peer from a broadcast to UDP port 49152, and take a route. -/
def xdp_prog_ipv4 (be : Bool) (ktime : Nat → Nat) (ctx : xdp_md) (st : State)
    (eth_is_broadcast eth_is_multicast : Bool) : Mem (xdp_action × xdp_md × State) :=
  let f := ctx.data
  if 14 + 20 > f.length then pure (.XDP_DROP, ctx, st)
  else do
    let iphp_orig ← ipv4_mk_pheader be f 14
    let protocol ← ld8 f 23
    if protocol = IPPROTO_TCP then
      if 34 + 20 > f.length then pure (.XDP_DROP, ctx, st)
      else do
        let src_port ← ld16 be f 34
        let dst_port ← ld16 be f 36
        let old_csum ← ld16 be f 50
        let old_csum := if old_csum = 0 then 0xffff else old_csum
        xdp_prog_ip_routes be ktime ctx st eth_is_multicast
          { icmp_type := .NOT_ICMP, src_port := src_port, dst_port := dst_port,
            old_csum := old_csum } iphp_orig
    else if protocol = IPPROTO_UDP then
      if 34 + 8 > f.length then pure (.XDP_DROP, ctx, st)
      else do
        let src_port ← ld16 be f 34
        let dst_port ← ld16 be f 36
        let old_csum ← ld16 be f 40
        let saddr ← ld32 be f 26
        let h_source ← ld_mac f 6
        let st :=
          if dst_port = bpf_htons be 49152 ∧ eth_is_broadcast = true ∧ st.switch_ip = 0 then
            { st with switch_ip := saddr, switch_mac := h_source }
          else st
        xdp_prog_ip_routes be ktime ctx st eth_is_multicast
          { icmp_type := .NOT_ICMP, src_port := src_port, dst_port := dst_port,
            old_csum := old_csum } iphp_orig
    else if protocol = IPPROTO_ICMP then
      if 34 + 8 > f.length then pure (.XDP_DROP, ctx, st)
      else do
        let type ← ld8 f 34
        let icmp_type : icmp_type :=
          if type = ICMP_ECHOREPLY then .ICMP_TYPE_RESP
          else if type = ICMP_DEST_UNREACH ∨ type = ICMP_TIME_EXCEEDED then .ICMP_TYPE_ERROR
          else if type = ICMP_ECHO then .ICMP_TYPE_REQUEST
          else .ICMP_TYPE_OTHER
        xdp_prog_ip_routes be ktime ctx st eth_is_multicast
          { icmp_type := icmp_type, src_port := 0, dst_port := 0, old_csum := 0 } iphp_orig
    else pure (.XDP_PASS, ctx, st)

/-- The ARP branch of `xdp_prog`: answer a request for the fake gateway or for
a remote peer with the MAC address of the host. -/
def xdp_prog_arp (be : Bool) (ctx : xdp_md) (st : State) :
    Mem (xdp_action × xdp_md × State) :=
  let f := ctx.data
  if 14 + 8 > f.length then pure (.XDP_DROP, ctx, st)
  else do
    let ar_pro ← ld16 be f 16
    let ar_hln ← ld8 f 18
    let ar_pln ← ld8 f 19
    let ar_op ← ld16 be f 20
    if ar_pro ≠ bpf_htons be ETH_P_IP ∨ ar_hln ≠ 6 ∨ ar_pln ≠ 4 ∨
        ar_op ≠ bpf_htons be ARPOP_REQUEST then pure (.XDP_PASS, ctx, st)
    else if 22 + 20 > f.length then pure (.XDP_DROP, ctx, st)
    else do
      let ar_tip ← ld32 be f 38
      if ar_tip ≠ st.fake_gateway_ip ∧ (map_lookup st.remote_addrs ar_tip).isNone then
        pure (.XDP_PASS, ctx, st)
      else do
        let st :=
          if ar_tip ≠ st.fake_gateway_ip then
            { st with remote_addrs := map_touch st.remote_addrs ar_tip }
          else st
        let ar_sha ← ld_mac f 22
        let f ← st_mac f 32 ar_sha
        let f ← st_mac f 22 st.host_mac
        let tmp_ip ← ld32 be f 38
        let ar_sip ← ld32 be f 28
        let f ← st32 be f 38 ar_sip
        let f ← st32 be f 28 tmp_ip
        let f ← st16 be f 20 (bpf_htons be ARPOP_REPLY)
        let h_source ← ld_mac f 6
        let f ← st_mac f 0 h_source
        let f ← st_mac f 6 st.host_mac
        pure (.XDP_TX, { ctx with data := f }, st)

/-- The program `xdp_prog`: the verdict for one frame, the frame as it leaves
the program, and the state afterwards. -/
def xdp_prog (be : Bool) (ktime : Nat → Nat) (ctx : xdp_md) (st : State) :
    Mem (xdp_action × xdp_md × State) :=
  let f := ctx.data
  if 14 > f.length then pure (.XDP_DROP, ctx, st)
  else do
    let h_dest ← ld_mac f 0
    let eth_is_broadcast := mac_eq h_dest BROADCAST_MAC
    let eth_is_multicast := h_dest.b0 &&& 1 != 0
    let h_proto ← ld16 be f 12
    if h_proto = bpf_htons be ETH_P_IP then
      xdp_prog_ipv4 be ktime ctx st eth_is_broadcast eth_is_multicast
    else if h_proto = bpf_htons be ETH_P_ARP then
      xdp_prog_arp be ctx st
    else pure (.XDP_PASS, ctx, st)

/-! ## Ones-complement sums -/

/-- The representative of a sum in 16-bit ones-complement arithmetic with
end-around carry: zero for zero, and otherwise the number between 1 and
`0xFFFF` that is congruent to it modulo `0xFFFF`. -/
def ones16 (z : Nat) : Nat := if z = 0 then 0 else (z - 1) % 65535 + 1

/-- One folding step, `z -> (z & 0xffff) + (z >> 16)`. -/
def fold16 (z : Nat) : Nat := (z &&& 0xffff) + (z >>> 16)

/-- The 16-bit words of a buffer in the given byte order, an odd last byte
padded with a zero byte. -/
def words16 (be : Bool) : List Nat → List Nat
  | b0 :: b1 :: rest => mk16 be b0 b1 :: words16 be rest
  | [b0] => [mk16 be b0 0]
  | [] => []

/-- The ones-complement sum of a list of 16-bit words, by repeated
`onec_add`. -/
def onec_sum (ws : List Nat) : Nat := ws.foldl onec_add 0

/-- The Internet checksum (RFC 1071) of a buffer as it is verified on the wire:
the ones-complement sum of its 16-bit words in network byte order.  A buffer
that contains its own checksum is valid when this is `0xFFFF`. -/
def inet_sum (bs : List Nat) : Nat := onec_sum (words16 true bs)


/-- The L4 segment of the IPv4 packet whose header is at `iph`: the bytes
behind the 20-byte header up to the total length of the header field. -/
def l4_segment (f : List Nat) (iph : Nat) : List Nat :=
  rdN f (iph + 20) (rd16 true f (iph + 2) - 20)

/-- Full computation of a TCP or UDP checksum, as the specification words it:
the complement of the ones-complement sum over pseudo-header, L4 header and
payload with the checksum field (at offset `csum_off` of the segment) taken as
zero, a computed `0` stored as `0xFFFF`.  The result is the value of the field
in network byte order. -/
def l4_csum_full (pseudo l4 : List Nat) (csum_off : Nat) : Nat :=
  let c := 65535 - inet_sum (pseudo ++ wr16 true l4 csum_off 0)
  if c = 0 then 0xFFFF else c

/-- The value that `recompute_l4_csum_field` stores in the checksum field, as a
function of the two pseudo-headers and of the old value of the field. -/
def l4_csum_new (be : Bool) (iphp_orig iphp_new : iph_pseudo) (old_csum : Nat) : Nat :=
  let v := csum_fold_helper
    (bpf_csum_diff be (iphp_orig.bytes be) (iphp_new.bytes be) (not32 old_csum))
  if v = 0 then 0xffff else v

/-- The pseudo-header that `ipv4_mk_pheader` builds from the header at `iph`,
read without bounds checks. -/
def pheader_of (be : Bool) (f : List Nat) (iph : Nat) : iph_pseudo :=
  { saddr := rd32 be f (iph + 12), daddr := rd32 be f (iph + 16), reserved := 0,
    protocol := rd8 f (iph + 9),
    l4_len := bpf_htons be ((bpf_ntohs be (rd16 be f (iph + 2)) + 65536 - 20) % 65536) }

/-- The offset of the checksum field in a TCP (16) or UDP (6) header. -/
def l4_csum_off (protocol : Nat) : Nat := if protocol = IPPROTO_TCP then 16 else 6

/-! ## Example inputs -/

/-- An IPv4 address given by its four bytes, as the machine holds it in a
32-bit variable. -/
def ipv4_addr (be : Bool) (a b c d : Nat) : Nat := mk32 be a b c d

/-- A UDP datagram 192.168.1.50:5000 -> 8.8.8.8:53 with TTL 5, five bytes of
payload and valid checksums, sent by the client 02:00:00:00:00:50 to
02:00:00:00:00:01. -/
def ex_udp_frame : List Nat :=
  [2, 0, 0, 0, 0, 1, 2, 0, 0, 0, 0, 80, 8, 0,
   69, 0, 0, 33, 18, 52, 64, 0, 5, 17, 145, 174, 192, 168, 1, 50, 8, 8, 8, 8,
   19, 136, 0, 53, 0, 13, 17, 39, 1, 2, 3, 4, 5]

/-- The datagram of `ex_udp_frame` after the source address has been rewritten
to 203.0.113.9 and the header checksum recomputed; the UDP checksum is still
the one for the original addresses. -/
def ex_udp_rewritten : List Nat :=
  [2, 0, 0, 0, 0, 1, 2, 0, 0, 0, 0, 80, 8, 0,
   69, 0, 0, 33, 18, 52, 64, 0, 5, 17, 23, 127, 203, 0, 113, 9, 8, 8, 8, 8,
   19, 136, 0, 53, 0, 13, 17, 39, 1, 2, 3, 4, 5]

/-- A TCP segment 192.168.1.50:5000 -> 8.8.8.8:80 (SYN) with TTL 5 and valid
checksums, sent by the client 02:00:00:00:00:50 to 02:00:00:00:00:01. -/
def ex_tcp_frame : List Nat :=
  [2, 0, 0, 0, 0, 1, 2, 0, 0, 0, 0, 80, 8, 0,
   69, 0, 0, 40, 18, 52, 64, 0, 5, 6, 145, 178, 192, 168, 1, 50, 8, 8, 8, 8,
   19, 136, 0, 80, 0, 0, 0, 1, 0, 0, 0, 0, 80, 2, 32, 0, 170, 31, 0, 0]

/-- A configuration: host 02:00:00:00:00:01 with public address 203.0.113.9,
gateway 02:00:00:00:00:fe, fake gateway 192.168.1.1/24, tunnel port 7777, no
peer learned, empty tables. -/
def ex_state (be : Bool) : State :=
  { switch_mac := macaddr_t.zero
    host_mac := ⟨2, 0, 0, 0, 0, 1⟩
    gateway_mac := ⟨2, 0, 0, 0, 0, 254⟩
    switch_ip := 0
    public_host_ip := ipv4_addr be 203 0 113 9
    fake_gateway_ip := ipv4_addr be 192 168 1 1
    subnet_mask := bpf_htonl be 0xFFFFFF00
    vpn_port := 7777
    conntrack_map := []
    remote_addrs := []
    xsks_map := [] }

/-- A packet buffer holding the given frame, with 256 bytes of headroom and of
tailroom, received on queue 0. -/
def ex_ctx (frame : List Nat) : xdp_md :=
  { headroom := List.replicate 256 0, data := frame, tailroom := 256, rx_queue_index := 0 }

/-- The state that a run of the program leaves, or the state before it when
the run faulted. -/
def state_after (r : Mem (xdp_action × xdp_md × State)) (st : State) : State :=
  match r with
  | .ok (_, _, s) => s
  | .fault => st

/-- The frame that a run of the program leaves, or the empty frame when the run
faulted. -/
def frame_after (r : Mem (xdp_action × xdp_md × State)) : List Nat :=
  match r with
  | .ok (_, c, _) => c.data
  | .fault => []

/-- The verdict of a run of the program, if it did not fault. -/
def verdict_of (r : Mem (xdp_action × xdp_md × State)) : Option xdp_action :=
  match r with
  | .ok (v, _, _) => some v
  | .fault => none

/-- The state of a little-endian machine after the outbound NAT of
`ex_udp_frame` at time 1000 (the translated source port is 5000 plus 235 on
the machine representation of the port). -/
def ex_state_nat : State :=
  state_after (xdp_prog false (fun _ => 1000) (ex_ctx ex_udp_frame) (ex_state false))
    (ex_state false)

/-- The answer to the datagram of `ex_udp_frame` after its NAT at time 1000:
8.8.8.8:53 to the public address and the translated port, TTL 60, sent by the
gateway 02:00:00:00:00:fe, with valid checksums. -/
def ex_udp_reply : List Nat :=
  [2, 0, 0, 0, 0, 1, 2, 0, 0, 0, 0, 254, 8, 0,
   69, 0, 0, 31, 171, 205, 0, 0, 60, 17, 134, 231, 8, 8, 8, 8, 203, 0, 113, 9,
   0, 53, 254, 136, 0, 11, 164, 248, 9, 8, 7]

/-- An answer 8.8.8.8:53 to the public address and UDP port 5000, TTL 60, sent
by the gateway 02:00:00:00:00:fe, with valid checksums. -/
def ex_udp_reply_5000 : List Nat :=
  [2, 0, 0, 0, 0, 1, 2, 0, 0, 0, 0, 254, 8, 0,
   69, 0, 0, 31, 171, 205, 0, 0, 60, 17, 134, 231, 8, 8, 8, 8, 203, 0, 113, 9,
   0, 53, 19, 136, 0, 11, 143, 249, 9, 8, 7]

/-- The configuration `ex_state false` with the tunnel on UDP port 5000. -/
def ex_state_tunnel_5000 : State := { ex_state false with vpn_port := 5000 }

/-- The configuration `ex_state false` after the peer 02:00:00:00:00:99 with
address 192.168.1.99 has been learned. -/
def ex_state_peer_99 : State :=
  { ex_state false with
    switch_mac := ⟨2, 0, 0, 0, 0, 153⟩, switch_ip := ipv4_addr false 192 168 1 99 }

/-- The configuration `ex_state be` after the peer 02:00:00:00:00:50 with
address 192.168.1.50 has been learned, with an AF_XDP socket on queue 0. -/
def ex_state_peer (be : Bool) : State :=
  { ex_state be with
    switch_mac := ⟨2, 0, 0, 0, 0, 80⟩, switch_ip := ipv4_addr be 192 168 1 50,
    xsks_map := [(0, 7)] }

/-- A DHCP request: UDP 0.0.0.0:68 to 255.255.255.255:67, broadcast by the
peer 02:00:00:00:00:50, with valid checksums. -/
def ex_dhcp_frame : List Nat :=
  [255, 255, 255, 255, 255, 255, 2, 0, 0, 0, 0, 80, 8, 0,
   69, 0, 0, 32, 0, 1, 0, 0, 64, 17, 122, 205, 0, 0, 0, 0, 255, 255, 255, 255,
   0, 68, 0, 67, 0, 12, 248, 78, 1, 1, 6, 0]

/-- The datagram of `ex_udp_frame` with the UDP checksum disabled (zero). -/
def ex_udp_nocsum : List Nat :=
  [2, 0, 0, 0, 0, 1, 2, 0, 0, 0, 0, 80, 8, 0,
   69, 0, 0, 33, 18, 52, 64, 0, 5, 17, 145, 174, 192, 168, 1, 50, 8, 8, 8, 8,
   19, 136, 0, 53, 0, 13, 0, 0, 1, 2, 3, 4, 5]

/-- The answer of `ex_udp_reply` with the UDP checksum disabled (zero). -/
def ex_udp_reply_nocsum : List Nat :=
  [2, 0, 0, 0, 0, 1, 2, 0, 0, 0, 0, 254, 8, 0,
   69, 0, 0, 31, 171, 205, 0, 0, 60, 17, 134, 231, 8, 8, 8, 8, 203, 0, 113, 9,
   0, 53, 254, 136, 0, 11, 0, 0, 9, 8, 7]

/-- The datagram of `ex_udp_frame` addressed to 203.0.113.77 instead: a host
in the /24 of the public address 203.0.113.9 that is not the public address. -/
def ex_udp_frame_pubnet : List Nat :=
  [2, 0, 0, 0, 0, 1, 2, 0, 0, 0, 0, 80, 8, 0,
   69, 0, 0, 33, 18, 52, 64, 0, 5, 17, 101, 112, 192, 168, 1, 50, 203, 0, 113, 77,
   19, 136, 0, 53, 0, 13, 228, 232, 1, 2, 3, 4, 5]

/-- An ARP request of the client 02:00:00:00:00:50 (192.168.1.50): who has
192.168.1.1, the fake gateway of `ex_state`. -/
def ex_arp_request : List Nat :=
  [255, 255, 255, 255, 255, 255, 2, 0, 0, 0, 0, 80, 8, 6,
   0, 1, 8, 0, 6, 4, 0, 1, 2, 0, 0, 0, 0, 80, 192, 168, 1, 50,
   0, 0, 0, 0, 0, 0, 192, 168, 1, 1]

/-- An ARP request of the same client for 192.168.1.77, an address that is
neither the fake gateway nor a remote peer. -/
def ex_arp_request_other : List Nat :=
  [255, 255, 255, 255, 255, 255, 2, 0, 0, 0, 0, 80, 8, 6,
   0, 1, 8, 0, 6, 4, 0, 1, 2, 0, 0, 0, 0, 80, 192, 168, 1, 50,
   0, 0, 0, 0, 0, 0, 192, 168, 1, 77]

/-- An ARP reply (opcode 2) of the client to the host. -/
def ex_arp_reply_frame : List Nat :=
  [2, 0, 0, 0, 0, 1, 2, 0, 0, 0, 0, 80, 8, 6,
   0, 1, 8, 0, 6, 4, 0, 2, 2, 0, 0, 0, 0, 80, 192, 168, 1, 50,
   2, 0, 0, 0, 0, 1, 192, 168, 1, 1]

/-- The datagram of `ex_udp_frame` with TTL 1. -/
def ex_udp_ttl1 : List Nat :=
  [2, 0, 0, 0, 0, 1, 2, 0, 0, 0, 0, 80, 8, 0,
   69, 0, 0, 33, 18, 52, 64, 0, 1, 17, 149, 174, 192, 168, 1, 50, 8, 8, 8, 8,
   19, 136, 0, 53, 0, 13, 17, 39, 1, 2, 3, 4, 5]

/-- The first 20 bytes of `ex_udp_frame`: an IPv4 frame cut off inside the
IPv4 header. -/
def ex_udp_cut : List Nat :=
  [2, 0, 0, 0, 0, 1, 2, 0, 0, 0, 0, 80, 8, 0, 69, 0, 0, 33, 18, 52]

/-- The start of an IPv6 frame (ethertype 0x86DD). -/
def ex_ipv6_frame : List Nat :=
  [2, 0, 0, 0, 0, 1, 2, 0, 0, 0, 0, 80, 134, 221, 96, 0, 0, 0, 0, 0, 59, 64]

/-- A GRE packet (IPv4 protocol 47) of the peer 02:00:00:00:00:50
(192.168.1.50) to the remote peer 192.168.1.60. -/
def ex_gre_frame : List Nat :=
  [2, 0, 0, 0, 0, 1, 2, 0, 0, 0, 0, 80, 8, 0,
   69, 0, 0, 28, 18, 52, 64, 0, 64, 47, 164, 192, 192, 168, 1, 50, 192, 168, 1, 60,
   0, 0, 8, 0, 1, 2, 3, 4]

/-- A UDP datagram 192.168.1.50:5000 -> 192.168.1.60:6000 of the peer
02:00:00:00:00:50 with five bytes of payload and valid checksums. -/
def ex_peer_udp : List Nat :=
  [2, 0, 0, 0, 0, 1, 2, 0, 0, 0, 0, 80, 8, 0,
   69, 0, 0, 33, 18, 52, 64, 0, 64, 17, 164, 217, 192, 168, 1, 50, 192, 168, 1, 60,
   19, 136, 23, 112, 0, 13, 72, 23, 1, 2, 3, 4, 5]

/-- The datagram of `ex_peer_udp` with the UDP checksum disabled (zero). -/
def ex_peer_udp_nocsum : List Nat :=
  [2, 0, 0, 0, 0, 1, 2, 0, 0, 0, 0, 80, 8, 0,
   69, 0, 0, 33, 18, 52, 64, 0, 64, 17, 164, 217, 192, 168, 1, 50, 192, 168, 1, 60,
   19, 136, 23, 112, 0, 13, 0, 0, 1, 2, 3, 4, 5]

/-- A TCP segment 192.168.1.50:5000 -> 192.168.1.60:80 (SYN) of the peer: an
IPv4 packet of 40 bytes, padded with six zero bytes to the minimum Ethernet
frame of 60 bytes. -/
def ex_peer_tcp_padded : List Nat :=
  [2, 0, 0, 0, 0, 1, 2, 0, 0, 0, 0, 80, 8, 0,
   69, 0, 0, 40, 18, 52, 64, 0, 64, 6, 164, 221, 192, 168, 1, 50, 192, 168, 1, 60,
   19, 136, 0, 80, 0, 0, 0, 1, 0, 0, 0, 0, 80, 2, 32, 0, 248, 74, 0, 0,
   0, 0, 0, 0, 0, 0]

/-- The tunnel endpoint 198.51.100.7:7777 of the remote peer 192.168.1.60. -/
def ex_remote (be : Bool) : remote_addr :=
  { ip := ipv4_addr be 198 51 100 7, port := 7777 }

/-- The configuration `ex_state be` with the peer 02:00:00:00:00:50
(192.168.1.50) learned and the remote peer 192.168.1.60 registered. -/
def ex_state_vpn (be : Bool) : State :=
  { ex_state be with
    switch_mac := ⟨2, 0, 0, 0, 0, 80⟩, switch_ip := ipv4_addr be 192 168 1 50,
    remote_addrs := [(ipv4_addr be 192 168 1 60, ex_remote be)] }

/-- The packet buffer `ex_ctx frame` after it has been grown by 28 bytes at the
front. -/
def ex_ctx_grown (frame : List Nat) : xdp_md :=
  { headroom := List.replicate 228 0, data := List.replicate 28 0 ++ frame, tailroom := 256,
    rx_queue_index := 0 }

/-- The packet buffer `ex_ctx frame` after it has been grown by 28 bytes at the
front and cut to 70 bytes at the end. -/
def ex_ctx_icmp (frame : List Nat) : xdp_md :=
  { headroom := List.replicate 228 0, data := (List.replicate 28 0 ++ frame).take 70,
    tailroom := 256 + (frame.length + 28 - 70), rx_queue_index := 0 }

/-- A packet buffer holding the given frame with only 10 bytes of headroom. -/
def ex_ctx_tight (frame : List Nat) : xdp_md :=
  { headroom := List.replicate 10 0, data := frame, tailroom := 256, rx_queue_index := 0 }

/-! ## Notions used to state the properties of the program -/

/-- The flag `eth_is_multicast` of `xdp_prog`: the lowest bit of the first byte
of the Ethernet destination. -/
def eth_is_multicast (f : List Nat) : Bool := (rd_mac f 0).b0 &&& 1 != 0

/-- The flag `eth_is_broadcast` of `xdp_prog`. -/
def eth_is_broadcast (f : List Nat) : Bool := mac_eq (rd_mac f 0) BROADCAST_MAC

/-- The state after the parse of a UDP header: the peer is learned from a
broadcast to port 49152 while none is known. -/
def learn_switch (be : Bool) (st : State) (f : List Nat) : State :=
  if rd16 be f 36 = bpf_htons be 49152 ∧ eth_is_broadcast f = true ∧ st.switch_ip = 0 then
    { st with switch_ip := rd32 be f 26, switch_mac := rd_mac f 6 }
  else st

/-- The frame is an IPv4 frame that holds a full TCP, UDP or ICMP header
behind a 20-byte IPv4 header, so that `xdp_prog` reaches its routes. -/
def ipv4_l4_frame (be : Bool) (f : List Nat) : Prop :=
  34 ≤ f.length ∧ rd16 be f 12 = bpf_htons be ETH_P_IP ∧
  ((rd8 f 23 = IPPROTO_TCP ∧ 54 ≤ f.length) ∨
   (rd8 f 23 = IPPROTO_UDP ∧ 42 ≤ f.length) ∨
   (rd8 f 23 = IPPROTO_ICMP ∧ 42 ≤ f.length))

instance (be : Bool) (f : List Nat) : Decidable (ipv4_l4_frame be f) := by
  unfold ipv4_l4_frame; infer_instance

/-- The frame is an IPv4 frame with a full TCP header or a full UDP header
behind a 20-byte IPv4 header. -/
def tcp_udp_frame (be : Bool) (f : List Nat) : Prop :=
  rd16 be f 12 = bpf_htons be ETH_P_IP ∧
  ((rd8 f 23 = IPPROTO_TCP ∧ 54 ≤ f.length) ∨ (rd8 f 23 = IPPROTO_UDP ∧ 42 ≤ f.length))

instance (be : Bool) (f : List Nat) : Decidable (tcp_udp_frame be f) := by
  unfold tcp_udp_frame; infer_instance

/-- The program takes the NAT route for the frame: the guard of the route,
evaluated where `xdp_prog` evaluates it, holds. -/
def takes_nat_route (be : Bool) (st : State) (f : List Nat) : Bool :=
  nat_route_cond st (eth_is_multicast f) (rd_mac f 6) (rd32 be f 26) (rd32 be f 30)

/-- The local variables of `xdp_prog` after the parse of the L4 header of a
TCP, UDP or ICMP frame. -/
def l4_of (be : Bool) (f : List Nat) : l4_locals :=
  if rd8 f 23 = IPPROTO_TCP then
    { icmp_type := .NOT_ICMP, src_port := rd16 be f 34, dst_port := rd16 be f 36,
      old_csum := if rd16 be f 50 = 0 then 0xffff else rd16 be f 50 }
  else if rd8 f 23 = IPPROTO_UDP then
    { icmp_type := .NOT_ICMP, src_port := rd16 be f 34, dst_port := rd16 be f 36,
      old_csum := rd16 be f 40 }
  else
    { icmp_type :=
        if rd8 f 34 = ICMP_ECHOREPLY then .ICMP_TYPE_RESP
        else if rd8 f 34 = ICMP_DEST_UNREACH ∨ rd8 f 34 = ICMP_TIME_EXCEEDED then .ICMP_TYPE_ERROR
        else if rd8 f 34 = ICMP_ECHO then .ICMP_TYPE_REQUEST
        else .ICMP_TYPE_OTHER,
      src_port := 0, dst_port := 0, old_csum := 0 }

/-- The part of the state that the control plane configures and the program
reads: addresses are 32-bit values and MAC addresses consist of bytes. -/
def State.ok (st : State) : Prop :=
  st.host_mac.ok ∧ st.gateway_mac.ok ∧ st.switch_mac.ok ∧ st.public_host_ip < 4294967296 ∧
  st.fake_gateway_ip < 4294967296 ∧ st.subnet_mask < 4294967296 ∧ st.switch_ip < 4294967296 ∧
  st.vpn_port < 65536

instance (st : State) : Decidable st.ok := by
  unfold State.ok; infer_instance

/-- The state in which `xdp_prog` chooses the route of an IPv4 frame: the peer
may have been learned from the frame itself. -/
def state_at_routes (be : Bool) (st : State) (f : List Nat) : State :=
  if rd8 f 23 = IPPROTO_UDP then learn_switch be st f else st

/-- The program takes the NAT return route for a TCP or UDP frame: the guard of
the NAT route fails, the frame does not come from the peer, it is addressed to
the public address, it is not a datagram to the tunnel port, and a fake gateway
is configured whose subnet does not contain the source. -/
def takes_nat_return (be : Bool) (st : State) (f : List Nat) : Prop :=
  takes_nat_route be st f = false ∧
  mac_eq st.switch_mac (rd_mac f 6) = false ∧
  rd32 be f 30 = st.public_host_ip ∧
  ¬ (rd8 f 23 = IPPROTO_UDP ∧ rd16 be f 36 = bpf_htons be st.vpn_port) ∧
  st.fake_gateway_ip ≠ 0 ∧
  same_subnet (rd32 be f 26) st.fake_gateway_ip st.subnet_mask = false

instance (be : Bool) (st : State) (f : List Nat) : Decidable (takes_nat_return be st f) := by
  unfold takes_nat_return; infer_instance

/-- The key under which the NAT return route looks up the connection of a
frame. -/
def return_key (be : Bool) (f : List Nat) : conntrack_key :=
  { protocol := rd8 f 23, sport := rd16 be f 36, daddr := rd32 be f 26, dport := rd16 be f 34 }

/-- The time for which a connection has been idle when the NAT return route
looks at it, in the 64-bit arithmetic of the program. -/
def idle_ns (ktime : Nat → Nat) (e : track_entry) : Nat :=
  (bpf_ktime_get_ns ktime 0 + 18446744073709551616 - e.ktime_ns % 18446744073709551616)
    % 18446744073709551616

/-- The state after the NAT return route has found the connection of the frame
expired: the entry is removed. -/
def conntrack_expire (be : Bool) (st : State) (f : List Nat) : State :=
  { st with
    conntrack_map :=
      map_delete (map_touch st.conntrack_map (return_key be f)) (return_key be f) }

/-- The state after the NAT return route has found the connection of the frame
alive: the entry is marked as used and its time stamp is set to the second
reading of the clock. -/
def conntrack_refresh (be : Bool) (ktime : Nat → Nat) (st : State) (f : List Nat) : State :=
  { st with
    conntrack_map :=
      map_modify (map_touch st.conntrack_map (return_key be f)) (return_key be f)
        (fun e => { e with ktime_ns := bpf_ktime_get_ns ktime 1 }) }

/-- The condition for the NAT route as the specification states it: a fake
gateway is configured, the Ethernet destination is not multicast, the source is
in the subnet of the fake gateway, the destination is outside of it and is not
the public address. -/
def nat_cond_claimed (be : Bool) (st : State) (f : List Nat) : Prop :=
  st.fake_gateway_ip ≠ 0 ∧ eth_is_multicast f = false ∧
  same_subnet (rd32 be f 26) st.fake_gateway_ip st.subnet_mask = true ∧
  same_subnet (rd32 be f 30) st.fake_gateway_ip st.subnet_mask = false ∧
  rd32 be f 30 ≠ st.public_host_ip

instance (be : Bool) (st : State) (f : List Nat) : Decidable (nat_cond_claimed be st f) := by
  unfold nat_cond_claimed; infer_instance

/-- The condition for the NAT route that the program tests: in addition to the
stated one, the frame comes from the peer or no peer MAC is known, and the
destination is outside the subnet of the public address. -/
def nat_cond (be : Bool) (st : State) (f : List Nat) : Prop :=
  st.fake_gateway_ip ≠ 0 ∧ eth_is_multicast f = false ∧
  (st.switch_mac = rd_mac f 6 ∨ st.switch_mac = macaddr_t.zero) ∧
  same_subnet (rd32 be f 26) st.fake_gateway_ip st.subnet_mask = true ∧
  same_subnet (rd32 be f 30) st.fake_gateway_ip st.subnet_mask = false ∧
  same_subnet (rd32 be f 30) st.public_host_ip st.subnet_mask = false

instance (be : Bool) (st : State) (f : List Nat) : Decidable (nat_cond be st f) := by
  unfold nat_cond; infer_instance

/-! ## Further notions: ARP, the tunnel, the control plane -/

/-- The frame is an ARP request for an IPv4 address over a link with 6-byte
addresses, as `xdp_prog` tests it: protocol type IPv4, hardware length 6,
protocol length 4, opcode REQUEST. -/
def arp_request (be : Bool) (f : List Nat) : Prop :=
  rd16 be f 16 = bpf_htons be ETH_P_IP ∧ rd8 f 18 = 6 ∧ rd8 f 19 = 4 ∧
  rd16 be f 20 = bpf_htons be ARPOP_REQUEST

instance (be : Bool) (f : List Nat) : Decidable (arp_request be f) := by
  unfold arp_request; infer_instance

/-- The frame reaches the inbound tunnel route of `xdp_prog`: the guard of the
NAT route fails, the frame does not come from the peer, it is addressed to the
public address, and it is a UDP datagram to the tunnel port. -/
def takes_vpn_inbound (be : Bool) (st : State) (f : List Nat) : Prop :=
  takes_nat_route be st f = false ∧
  mac_eq st.switch_mac (rd_mac f 6) = false ∧
  rd32 be f 30 = st.public_host_ip ∧
  rd8 f 23 = IPPROTO_UDP ∧ rd16 be f 36 = bpf_htons be st.vpn_port

instance (be : Bool) (st : State) (f : List Nat) : Decidable (takes_vpn_inbound be st f) := by
  unfold takes_vpn_inbound; infer_instance

/-- The broadcast address of the subnet of the peer, `(switch_ip & subnet_mask)
| ~subnet_mask`, as a 32-bit value. -/
def subnet_broadcast (st : State) : Nat :=
  ((st.switch_ip &&& st.subnet_mask) ||| not32 st.subnet_mask) % 4294967296

/-- The destination of the IPv4 packet inside a tunnel datagram (at offset 58
of the frame: 42 bytes of outer headers, 16 bytes into the inner header) is one
that the inbound tunnel route delivers: the address of the peer, the broadcast
address of its subnet, 255.255.255.255, or a multicast address
(224.0.0.0/4, first byte 224 to 239). -/
def vpn_inner_dst_ok (be : Bool) (st : State) (f : List Nat) : Prop :=
  rd32 be f 58 = st.switch_ip ∨ rd32 be f 58 = subnet_broadcast st ∨
  rd32 be f 58 = 0xFFFFFFFF ∨ (224 ≤ rd8 f 58 ∧ rd8 f 58 < 240)

instance (be : Bool) (st : State) (f : List Nat) : Decidable (vpn_inner_dst_ok be st f) := by
  unfold vpn_inner_dst_ok; infer_instance

/-- The ICMP header that `send_icmp4_timeout_exceeded` writes at offset 34 of
the resized frame: eight zero bytes, type and code, and the checksum over the
header and the 28 bytes behind it. -/
def icmp_fill_icmph (be : Bool) (f : List Nat) : List Nat :=
  let f := wrN f 34 (List.replicate 8 0)
  let f := wr8 f 34 ICMP_TIME_EXCEEDED
  let f := wr8 f 35 ICMP_EXC_TTL
  wr16 be f 36 (ipv4_csum be (rdN f 34 (8 + 28)) 0)

/-- The fields of the IPv4 header that `send_icmp4_timeout_exceeded` writes at
offset 14 of the resized frame, before the header checksum. -/
def icmp_fill_iph (be : Bool) (st : State) (f : List Nat) : List Nat :=
  let f := wr8 f 14 (rd8 f 14 / 16 % 16 * 16 + 5 % 16)
  let f := wr8 f 14 (4 % 16 * 16 + rd8 f 14 % 16)
  let f := wr16 be f 16 (bpf_htons be (f.length - 14))
  let f := wr8 f 15 0
  let f := wr16 be f 18 0
  let f := wr16 be f 20 (bpf_htons be IP_DF)
  let f := wr8 f 22 64
  let f := wr8 f 23 IPPROTO_ICMP
  let f := wr32 be f 30 (rd32 be f (42 + 12))
  wr32 be f 26 st.public_host_ip

/-- The Ethernet header that the program writes last on its transmit routes:
destination, source `host_mac`, ethertype IPv4. -/
def fill_eth (be : Bool) (st : State) (h_dest : macaddr_t) (f : List Nat) : List Nat :=
  let f := wr_mac f 0 h_dest
  let f := wr_mac f 6 st.host_mac
  wr16 be f 12 (bpf_htons be ETH_P_IP)

/-- The frame that `send_icmp4_timeout_exceeded` composes in the resized
buffer `f` of 70 bytes, for the sender `h_source` of the original frame. -/
def icmp_fill (be : Bool) (st : State) (h_source : macaddr_t) (f : List Nat) : List Nat :=
  let f := icmp_fill_iph be st (icmp_fill_icmph be f)
  let f := wr16 be f 24 (ipv4_csum be (rdN (wr16 be f 24 0) 14 20) 0)
  fill_eth be st h_source f

/-- The UDP header that the tunnel route of `xdp_prog` writes at offset 34 of
the frame grown by 28 bytes: source port `vpn_port`, the port of the tunnel
endpoint, the length of everything from the UDP header on, checksum zero. -/
def vpn_fill_udph (be : Bool) (st : State) (r : remote_addr) (f : List Nat) : List Nat :=
  let f := wr16 be f 34 (bpf_htons be st.vpn_port)
  let f := wr16 be f 36 (bpf_htons be r.port)
  let f := wr16 be f 38 (bpf_htons be (f.length - 34))
  wr16 be f 40 0

/-- The fields of the outer IPv4 header that the tunnel route of `xdp_prog`
writes at offset 14 of the grown frame, before the header checksum. -/
def vpn_fill_iph (be : Bool) (st : State) (r : remote_addr) (f : List Nat) : List Nat :=
  let f := wr8 f 14 (rd8 f 14 / 16 % 16 * 16 + 5 % 16)
  let f := wr8 f 14 (4 % 16 * 16 + rd8 f 14 % 16)
  let f := wr8 f 15 0
  let f := wr16 be f 16 (bpf_htons be (f.length - 14))
  let f := wr16 be f 18 (rd16 be f (42 + 4))
  let f := wr16 be f 20 (bpf_htons be IP_DF)
  let f := wr8 f 22 64
  let f := wr8 f 23 IPPROTO_UDP
  let f := wr32 be f 26 st.public_host_ip
  wr32 be f 30 r.ip

/-- The checksum of the outer UDP header, as the tunnel route of `xdp_prog`
computes it when the inner packet is TCP or UDP with a checksum: the fold of
the difference between the original pseudo-header and the outer pseudo-header,
the new UDP header and the inner IPv4 header; a zero is stored as `0xffff`. -/
def vpn_fill_csum (be : Bool) (l4 : l4_locals) (iphp_orig : iph_pseudo) (f : List Nat) :
    List Nat :=
  if l4.icmp_type = .NOT_ICMP ∧ l4.old_csum ≠ 0 then
    let csum := bpf_csum_diff be (iphp_orig.bytes be)
      ((pheader_of be f 14).bytes be ++ rdN f 34 8 ++ rdN f 42 20) 0
    let f := wr16 be f 40 (csum_fold_helper csum)
    if rd16 be f 40 = 0 then wr16 be f 40 0xffff else f
  else f

/-- The frame that the tunnel route of `xdp_prog` composes in the frame `f`
grown by 28 bytes, for the tunnel endpoint `r`. -/
def vpn_fill (be : Bool) (st : State) (r : remote_addr) (l4 : l4_locals)
    (iphp_orig : iph_pseudo) (f : List Nat) : List Nat :=
  let f := vpn_fill_iph be st r (vpn_fill_udph be st r f)
  let f := wr16 be f 24 (ipv4_csum be (rdN (wr16 be f 24 0) 14 20) 0)
  fill_eth be st st.gateway_mac (vpn_fill_csum be l4 iphp_orig f)

/-- The frame takes the tunnel route of `xdp_prog`: it is unicast, the guard of
the NAT route fails, and it comes from the learned peer. -/
def takes_vpn_route (be : Bool) (st : State) (f : List Nat) : Prop :=
  eth_is_multicast f = false ∧ takes_nat_route be st f = false ∧
  mac_eq st.switch_mac (rd_mac f 6) = true

instance (be : Bool) (st : State) (f : List Nat) : Decidable (takes_vpn_route be st f) := by
  unfold takes_vpn_route; infer_instance

/-- The value that the tunnel route stores in the checksum field of the outer
UDP header, as a function of the original pseudo-header and of the 40 bytes of
`struct overhead_csum` (outer pseudo-header, new UDP header, inner IPv4
header). -/
def vpn_outer_csum (be : Bool) (iphp_orig : iph_pseudo) (ovh : List Nat) : Nat :=
  let v := csum_fold_helper (bpf_csum_diff be (iphp_orig.bytes be) ovh 0)
  if v = 0 then 0xffff else v

/-- The verdicts that the program may return. -/
def verdict_ok (v : xdp_action) : Prop :=
  v = .XDP_DROP ∨ v = .XDP_PASS ∨ v = .XDP_TX ∨ v = .XDP_REDIRECT

instance (v : xdp_action) : Decidable (verdict_ok v) := by
  unfold verdict_ok; infer_instance

/-- A run of (a part of) the program ends without a fault, that is, without an
access outside the frame, and with one of the four verdicts. -/
def runs_ok (x : Mem (xdp_action × xdp_md × State)) : Prop :=
  ∃ b, x = .ok b ∧ verdict_ok b.1

/-! ## The control plane (`bpf_user.c`) -/

/-- The global variables of the control plane that `bpf_load_thread` and
`bpf_set_fake_gateway_ip` read or write, together with the globals of the
loaded program (`obj->bss`).  `real_subnet_mask`, `public_host_ip`, `host_mac`
and `gateway_mac` are globals declared in `ishoal.h`, which is not among the
sources; the two functions only read them. -/
structure UserState where
  switch_mac : macaddr_t
  switch_ip : Nat
  fake_gateway_ip : Nat
  real_subnet_mask : Nat
  public_host_ip : Nat
  host_mac : macaddr_t
  gateway_mac : macaddr_t
  bss : State
deriving DecidableEq, Repr

/-- The function `update_subnet_mask`. -/
def update_subnet_mask (be : Bool) (u : UserState) : UserState :=
  if u.fake_gateway_ip ≠ 0 then
    { u with bss := { u.bss with subnet_mask := bpf_htonl be 0xFFFFFF00 } }
  else
    { u with bss := { u.bss with subnet_mask := u.real_subnet_mask } }

/-- The function `bpf_set_fake_gateway_ip`. -/
def bpf_set_fake_gateway_ip (be : Bool) (u : UserState) (addr : Nat) : UserState :=
  if u.fake_gateway_ip = addr then u
  else
    let u := { u with fake_gateway_ip := addr }
    let u := { u with bss := { u.bss with fake_gateway_ip := addr } }
    update_subnet_mask be u

/-- The initialisation of the globals of the program in `bpf_load_thread`,
from `obj->bss->switch_ip = switch_ip` to `update_subnet_mask()`; `u.bss` is
the state of the freshly loaded program. -/
def bpf_load_thread (be : Bool) (u : UserState) : UserState :=
  let u := { u with bss := { u.bss with switch_ip := u.switch_ip } }
  let u := { u with bss := { u.bss with switch_mac := u.switch_mac } }
  let u := { u with bss := { u.bss with public_host_ip := u.public_host_ip } }
  let u := { u with bss := { u.bss with host_mac := u.host_mac } }
  let u := { u with bss := { u.bss with gateway_mac := u.gateway_mac } }
  let u := { u with bss := { u.bss with fake_gateway_ip := u.fake_gateway_ip } }
  update_subnet_mask be u

/-- The subnet-mask invariant between the control plane and the program: the
mask of the program is the fixed /24 mask when a fake gateway is configured and
the mask of the interface otherwise, and the program has the fake gateway of
the control plane. -/
def subnet_mask_inv (be : Bool) (u : UserState) : Prop :=
  u.bss.subnet_mask =
    (if u.fake_gateway_ip ≠ 0 then bpf_htonl be 0xFFFFFF00 else u.real_subnet_mask) ∧
  u.bss.fake_gateway_ip = u.fake_gateway_ip

instance (be : Bool) (u : UserState) : Decidable (subnet_mask_inv be u) := by
  unfold subnet_mask_inv; infer_instance

/-! ## Further examples -/

/-- A state of the control plane before the program is loaded: fake gateway
192.168.1.1 configured, interface mask 255.255.0.0. -/
def ex_user (be : Bool) : UserState :=
  { switch_mac := macaddr_t.zero, switch_ip := 0, fake_gateway_ip := ipv4_addr be 192 168 1 1,
    real_subnet_mask := bpf_htonl be 0xFFFF0000, public_host_ip := ipv4_addr be 203 0 113 9,
    host_mac := ⟨2, 0, 0, 0, 0, 1⟩, gateway_mac := ⟨2, 0, 0, 0, 0, 254⟩,
    bss := { ex_state be with fake_gateway_ip := 0, subnet_mask := 0, public_host_ip := 0 } }

/-! ## Further notions: the port patch, the learning of the peer -/

/-- The port patch of the two NAT routes of `xdp_prog`, the statements
`udph->check = onec_add(udph->check, old); udph->check = onec_add(udph->check,
~new); udph->source = new` of the NAT route and the same three statements for
`udph->dest` of the NAT return route: the UDP checksum (offset 40 of the frame)
is updated for the replacement of the port at offset `port_field` (34: source
port, 36: destination port), and the new port is stored. -/
def udp_port_patch (be : Bool) (f : List Nat) (port_field old_port new_port : Nat) :
    Mem (List Nat) := do
  let check ← ld16 be f 40
  let f ← st16 be f 40 (onec_add check old_port)
  let check ← ld16 be f 40
  let f ← st16 be f 40 (onec_add check (not16 new_port))
  st16 be f port_field new_port

/-- The frame is one from which `xdp_prog` learns the peer in the state `st`:
a frame of 42 bytes or more with ethertype IPv4 (`0x0800`) and protocol UDP,
sent to the Ethernet broadcast address, whose bytes 36 and 37 are the port
number 49152, while no peer is known (`switch_ip` is 0).  Bytes 36 and 37 are
the UDP destination port when the IPv4 header has 20 bytes; the program does
not look at the IHL field. -/
def learns_peer (st : State) (f : List Nat) : Prop :=
  42 ≤ f.length ∧ rd16 true f 12 = ETH_P_IP ∧ rd8 f 23 = IPPROTO_UDP ∧
  eth_is_broadcast f = true ∧ rd16 true f 36 = 49152 ∧ st.switch_ip = 0

instance (st : State) (f : List Nat) : Decidable (learns_peer st f) := by
  unfold learns_peer; infer_instance

/-- The state `s` has the configuration of the state `st`: the two states
differ in the maps at most. -/
def same_config (st s : State) : Prop :=
  s.switch_mac = st.switch_mac ∧ s.switch_ip = st.switch_ip ∧ s.host_mac = st.host_mac ∧
  s.gateway_mac = st.gateway_mac ∧ s.public_host_ip = st.public_host_ip ∧
  s.fake_gateway_ip = st.fake_gateway_ip ∧ s.subnet_mask = st.subnet_mask ∧
  s.vpn_port = st.vpn_port

instance (st s : State) : Decidable (same_config st s) := by
  unfold same_config; infer_instance

/-- A run of (a part of) the program ends without a fault and leaves a state
with the configuration of `st`. -/
def keeps_config (st : State) (x : Mem (xdp_action × xdp_md × State)) : Prop :=
  ∃ b, x = .ok b ∧ same_config st b.2.2

/-- The 14 bytes of an Ethernet header with the given destination and source
and the ethertype IPv4. -/
def eth_header (h_dest h_source : macaddr_t) : List Nat :=
  [h_dest.b0, h_dest.b1, h_dest.b2, h_dest.b3, h_dest.b4, h_dest.b5,
   h_source.b0, h_source.b1, h_source.b2, h_source.b3, h_source.b4, h_source.b5, 0x08, 0x00]

/-! ## Examples for the tunnel round trip and the learning of the peer -/

/-- The configuration of a second engine, the tunnel endpoint
198.51.100.7:7777 of `ex_remote`: host 02:00:00:00:00:02, gateway
02:00:00:00:00:fd, its peer 02:00:00:00:00:60 with address 192.168.1.60
learned, and the remote peer 192.168.1.50 registered with the tunnel endpoint
203.0.113.9:7777 of the engine of `ex_state_vpn`. -/
def ex_state_b (be : Bool) : State :=
  { switch_mac := ⟨2, 0, 0, 0, 0, 96⟩
    host_mac := ⟨2, 0, 0, 0, 0, 2⟩
    gateway_mac := ⟨2, 0, 0, 0, 0, 253⟩
    switch_ip := ipv4_addr be 192 168 1 60
    public_host_ip := ipv4_addr be 198 51 100 7
    fake_gateway_ip := ipv4_addr be 192 168 1 1
    subnet_mask := bpf_htonl be 0xFFFFFF00
    vpn_port := 7777
    conntrack_map := []
    remote_addrs := [(ipv4_addr be 192 168 1 50, { ip := ipv4_addr be 203 0 113 9, port := 7777 })]
    xsks_map := [] }

/-- The datagram of `ex_peer_udp` with an IPv4 header of 24 bytes (IHL 6: four
bytes of options, three NOP and the end of the list) and valid checksums. -/
def ex_peer_udp_opts : List Nat :=
  [2, 0, 0, 0, 0, 1, 2, 0, 0, 0, 0, 80, 8, 0,
   70, 0, 0, 37, 18, 52, 64, 0, 64, 17, 161, 212, 192, 168, 1, 50, 192, 168, 1, 60,
   1, 1, 1, 0,
   19, 136, 23, 112, 0, 13, 72, 23, 1, 2, 3, 4, 5]

/-- A packet buffer that holds, with 256 bytes of headroom and of tailroom, the
frame that a run of the program has left. -/
def ex_ctx_of (r : Mem (xdp_action × xdp_md × State)) : xdp_md := ex_ctx (frame_after r)

/-- A discovery datagram: UDP 192.168.1.50:49152 to 255.255.255.255:49152,
broadcast by 02:00:00:00:00:50, with valid checksums. -/
def ex_discovery_frame : List Nat :=
  [255, 255, 255, 255, 255, 255, 2, 0, 0, 0, 0, 80, 8, 0,
   69, 0, 0, 32, 0, 1, 0, 0, 64, 17, 184, 242, 192, 168, 1, 50, 255, 255, 255, 255,
   192, 0, 192, 0, 0, 12, 182, 249, 1, 1, 6, 0]

/-! ## IPv4 packets with options

The program takes the L4 header 20 bytes behind the start of the IPv4 header
(`iph + 1`), whatever the IHL field says.  The notions below are those of the
protocols (RFC 791, RFC 768, RFC 793), not of the program: header length,
ports, checksum field and validity of the checksum follow the IHL field.  They
serve to state what a packet is for the network; by `ihl5_notions` they agree
with the offsets of the program when the header has 20 bytes. -/

/-- The length in bytes of the IPv4 header at offset `iph`, by its IHL
field. -/
def ip_hdr_len (f : List Nat) (iph : Nat) : Nat := rd8 f iph % 16 * 4

/-- The L4 segment of the IPv4 packet at `iph`, by its IHL field: the bytes
behind the header, options included, up to the total length. -/
def l4_segment_ihl (f : List Nat) (iph : Nat) : List Nat :=
  rdN f (iph + ip_hdr_len f iph) (rd16 true f (iph + 2) - ip_hdr_len f iph)

/-- The pseudo-header of the IPv4 packet at `iph` as it is summed on the wire:
source, destination, a zero byte, the protocol, and the length of the L4
segment. -/
def pseudo_ihl (f : List Nat) (iph : Nat) : List Nat :=
  rdN f (iph + 12) 8 ++
    [0, rd8 f (iph + 9), (rd16 true f (iph + 2) - ip_hdr_len f iph) / 256 % 256,
      (rd16 true f (iph + 2) - ip_hdr_len f iph) % 256]

/-- The TCP or UDP checksum of the IPv4 packet at `iph` verifies: the
ones-complement sum over pseudo-header and L4 segment is `0xFFFF`. -/
def l4_valid_ihl (f : List Nat) (iph : Nat) : Prop :=
  inet_sum (pseudo_ihl f iph ++ l4_segment_ihl f iph) = 0xFFFF

instance (f : List Nat) (iph : Nat) : Decidable (l4_valid_ihl f iph) := by
  unfold l4_valid_ihl; infer_instance

/-- The source port of the TCP or UDP packet at `iph`, as a port number. -/
def l4_src_port (f : List Nat) (iph : Nat) : Nat := rd16 true f (iph + ip_hdr_len f iph)

/-- The destination port of the TCP or UDP packet at `iph`, as a port
number. -/
def l4_dst_port (f : List Nat) (iph : Nat) : Nat := rd16 true f (iph + ip_hdr_len f iph + 2)

/-- The checksum field of the UDP datagram at `iph`. -/
def udp_check (f : List Nat) (iph : Nat) : Nat := rd16 true f (iph + ip_hdr_len f iph + 6)

/-- The datagram of `ex_udp_frame` (192.168.1.50:5000 -> 8.8.8.8:53, TTL 5,
five bytes of payload) with an IPv4 header of 24 bytes (IHL 6: four bytes of
options, three NOP and the end of the list) and valid checksums. -/
def ex_udp_opts : List Nat :=
  [2, 0, 0, 0, 0, 1, 2, 0, 0, 0, 0, 80, 8, 0,
   70, 0, 0, 37, 18, 52, 64, 0, 5, 17, 142, 169, 192, 168, 1, 50, 8, 8, 8, 8,
   1, 1, 1, 0,
   19, 136, 0, 53, 0, 13, 17, 39, 1, 2, 3, 4, 5]

/-- The datagram of `ex_udp_opts` with TTL 1. -/
def ex_udp_opts_ttl1 : List Nat :=
  [2, 0, 0, 0, 0, 1, 2, 0, 0, 0, 0, 80, 8, 0,
   70, 0, 0, 37, 18, 52, 64, 0, 1, 17, 146, 169, 192, 168, 1, 50, 8, 8, 8, 8,
   1, 1, 1, 0,
   19, 136, 0, 53, 0, 13, 17, 39, 1, 2, 3, 4, 5]

/-- The datagram of `ex_udp_opts` after the source address has been rewritten
to 203.0.113.9 and the header checksum recomputed; the UDP checksum is still
the one for the original addresses. -/
def ex_udp_opts_rewritten : List Nat :=
  [2, 0, 0, 0, 0, 1, 2, 0, 0, 0, 0, 80, 8, 0,
   70, 0, 0, 37, 18, 52, 64, 0, 5, 17, 20, 122, 203, 0, 113, 9, 8, 8, 8, 8,
   1, 1, 1, 0,
   19, 136, 0, 53, 0, 13, 17, 39, 1, 2, 3, 4, 5]

/-- A discovery datagram 192.168.1.50:49152 to 255.255.255.255:49152, broadcast
by 02:00:00:00:00:50, with an IPv4 header of 24 bytes (IHL 6) and valid
checksums. -/
def ex_discovery_opts : List Nat :=
  [255, 255, 255, 255, 255, 255, 2, 0, 0, 0, 0, 80, 8, 0,
   70, 0, 0, 36, 0, 1, 0, 0, 64, 17, 181, 237, 192, 168, 1, 50, 255, 255, 255, 255,
   1, 1, 1, 0,
   192, 0, 192, 0, 0, 12, 182, 249, 1, 1, 6, 0]

/-- A datagram 192.168.1.50:5000 to 255.255.255.255:53, broadcast by
02:00:00:00:00:50, with an IPv4 header of 24 bytes (IHL 6) whose option is the
stream identifier 0xC000 (bytes 88 04 c0 00), and valid checksums. -/
def ex_dns_opts : List Nat :=
  [255, 255, 255, 255, 255, 255, 2, 0, 0, 0, 0, 80, 8, 0,
   70, 0, 0, 36, 0, 1, 0, 0, 64, 17, 111, 233, 192, 168, 1, 50, 255, 255, 255, 255,
   136, 4, 192, 0,
   19, 136, 0, 53, 0, 12, 35, 62, 1, 1, 6, 0]

/-- A discovery datagram 0.0.0.0:49152 to 255.255.255.255:49152, broadcast by
02:00:00:00:00:50, with valid checksums. -/
def ex_discovery_zero : List Nat :=
  [255, 255, 255, 255, 255, 255, 2, 0, 0, 0, 0, 80, 8, 0,
   69, 0, 0, 32, 0, 1, 0, 0, 64, 17, 122, 205, 0, 0, 0, 0, 255, 255, 255, 255,
   192, 0, 192, 0, 0, 12, 120, 212, 1, 1, 6, 0]

/-- The configuration `ex_state false` with the MAC address 02:00:00:00:00:50
stored for the peer while `switch_ip` is still 0. -/
def ex_state_mac_only : State :=
  { ex_state false with switch_mac := ⟨2, 0, 0, 0, 0, 80⟩ }

/-- The answer `ex_udp_reply` with TTL 1. -/
def ex_udp_reply_ttl1 : List Nat :=
  [2, 0, 0, 0, 0, 1, 2, 0, 0, 0, 0, 254, 8, 0,
   69, 0, 0, 31, 171, 205, 0, 0, 1, 17, 193, 231, 8, 8, 8, 8, 203, 0, 113, 9,
   0, 53, 254, 136, 0, 11, 164, 248, 9, 8, 7]

/-- The datagram of `ex_udp_opts_rewritten` as `recompute_l4_csum_fast` leaves
it: the bytes at offsets 40 and 41, its destination port, are 86 05. -/
def ex_udp_opts_recomputed : List Nat :=
  [2, 0, 0, 0, 0, 1, 2, 0, 0, 0, 0, 80, 8, 0,
   70, 0, 0, 37, 18, 52, 64, 0, 5, 17, 20, 122, 203, 0, 113, 9, 8, 8, 8, 8,
   1, 1, 1, 0,
   19, 136, 134, 5, 0, 13, 17, 39, 1, 2, 3, 4, 5]

theorem and_ffff (z : Nat) : z &&& 0xffff = z % 65536 :=
  Nat.and_pow_two_sub_one_eq_mod z 16

theorem shr16 (z : Nat) : z >>> 16 = z / 65536 := by
  simp [Nat.shiftRight_eq_div_pow]

theorem fold_lt (z : Nat) (hz : z < 4294967296) : z % 65536 + z / 65536 < 131071 := by omega

theorem fold_fold (z : Nat) (hz : z < 4294967296) :
    (z % 65536 + z / 65536) % 65536 + (z % 65536 + z / 65536) / 65536 = ones16 z := by
  unfold ones16
  split_ifs with h
  · subst h; rfl
  · omega

theorem onec_add_eq (x y : Nat) (hx : x < 65536) (hy : y < 65536) :
    onec_add x y = ones16 (x + y) := by
  have h := fold_fold (x + y) (by omega)
  have h1 := fold_lt (x + y) (by omega)
  simp only [onec_add, and_ffff, shr16]
  have e1 : (x % 65536 + y % 65536) % 4294967296 = x + y := by omega
  rw [e1]
  have e2 : ((x + y) % 65536 + (x + y) / 65536) % 4294967296 = (x + y) % 65536 + (x + y) / 65536 := by omega
  rw [e2, h]
  unfold ones16
  split_ifs <;> omega

theorem ones16_le (z : Nat) : ones16 z ≤ 65535 := by
  unfold ones16; split_ifs <;> omega

theorem ones16_eq_zero (z : Nat) : ones16 z = 0 ↔ z = 0 := by
  by_cases h : z = 0 <;> simp [ones16, h]

theorem ones16_mod (z : Nat) : ones16 z % 65535 = z % 65535 := by
  unfold ones16; split_ifs <;> omega

theorem ones16_congr {a b : Nat} (h0 : a = 0 ↔ b = 0) (h : a % 65535 = b % 65535) :
    ones16 a = ones16 b := by
  unfold ones16; split_ifs <;> omega

theorem ones16_of_le {z : Nat} (h : z ≤ 65535) : ones16 z = z := by
  unfold ones16; split_ifs <;> omega

theorem ones16_ones16_add (a b : Nat) : ones16 (ones16 a + b) = ones16 (a + b) := by
  apply ones16_congr
  · have := ones16_eq_zero a; omega
  · have := ones16_mod a; omega

theorem csum_add_lt {a b : Nat} (ha : a < 4294967296) (hb : b < 4294967296) :
    csum_add a b < 4294967296 := by
  unfold csum_add; omega

theorem ones16_csum_add {a b : Nat} (ha : a < 4294967296) (hb : b < 4294967296) :
    ones16 (csum_add a b) = ones16 (a + b) := by
  apply ones16_congr <;> unfold csum_add <;> omega

theorem foldl_csum_add_lt (ws : List Nat) (hws : ∀ w ∈ ws, w < 4294967296) (s : Nat)
    (hs : s < 4294967296) : ws.foldl csum_add s < 4294967296 := by
  induction ws generalizing s with
  | nil => simpa using hs
  | cons w ws ih =>
    simp only [List.foldl_cons]
    exact ih (fun x hx => hws x (List.mem_cons_of_mem _ hx)) _
      (csum_add_lt hs (hws w (List.mem_cons_self _ _)))

theorem ones16_foldl_csum_add (ws : List Nat) (hws : ∀ w ∈ ws, w < 4294967296) (s : Nat)
    (hs : s < 4294967296) : ones16 (ws.foldl csum_add s) = ones16 (s + ws.sum) := by
  induction ws generalizing s with
  | nil => simp
  | cons w ws ih =>
    have hw := hws w (List.mem_cons_self _ _)
    simp only [List.foldl_cons, List.sum_cons]
    rw [ih (fun x hx => hws x (List.mem_cons_of_mem _ hx)) _ (csum_add_lt hs hw)]
    rw [← ones16_ones16_add, ones16_csum_add hs hw, ones16_ones16_add, Nat.add_assoc]

theorem csum_fold_helper_eq (c : Nat) : csum_fold_helper c = 65535 - ones16 (c % 4294967296) := by
  have hc : c % 4294967296 < 4294967296 := Nat.mod_lt _ (by norm_num)
  have h := fold_fold _ hc
  have h1 := fold_lt _ hc
  have h2 := ones16_le (c % 4294967296)
  simp only [csum_fold_helper, and_ffff, shr16, not32]
  rw [Nat.mod_eq_of_lt (show c % 4294967296 % 65536 + c % 4294967296 / 65536 < 4294967296 by omega), h]
  omega

/-! ### The frame memory -/

@[simp] theorem Mem.ok_bind {α β : Type} (a : α) (k : α → Mem β) : (Mem.ok a >>= k) = k a := rfl

@[simp] theorem Mem.fault_bind {α β : Type} (k : α → Mem β) : (Mem.fault >>= k) = Mem.fault := rfl

@[simp] theorem Mem.pure_eq {α : Type} (a : α) : (pure a : Mem α) = Mem.ok a := rfl

@[simp] theorem length_wr8 (f : List Nat) (p v : Nat) : (wr8 f p v).length = f.length := by
  simp [wr8]

theorem rd8_wr8_ne (f : List Nat) {p q : Nat} (v : Nat) (h : p ≠ q) :
    rd8 (wr8 f p v) q = rd8 f q := by
  simp [rd8, wr8, List.getD_eq_getElem?_getD, List.getElem?_set_ne h]

theorem rd8_wr8_eq (f : List Nat) {p : Nat} (v : Nat) (h : p < f.length) :
    rd8 (wr8 f p v) p = v % 256 := by
  simp [rd8, wr8, List.getD_eq_getElem?_getD, List.getElem?_set_self, h]

theorem rd8_of_le (f : List Nat) {p : Nat} (h : f.length ≤ p) : rd8 f p = 0 := by
  simp [rd8, List.getD_eq_getElem?_getD, List.getElem?_eq_none h]

theorem rd8_lt (f : List Nat) (hf : bytes_ok f) (p : Nat) : rd8 f p < 256 := by
  by_cases h : p < f.length
  · have : rd8 f p = f[p] := by simp [rd8, List.getD_eq_getElem?_getD, List.getElem?_eq_getElem h]
    rw [this]; exact hf _ (List.getElem_mem _)
  · rw [rd8_of_le f (by omega)]; norm_num

theorem bytes_ok_wr8 (f : List Nat) (hf : bytes_ok f) (p v : Nat) : bytes_ok (wr8 f p v) := by
  intro b hb
  rcases List.mem_or_eq_of_mem_set hb with h | h
  · exact hf b h
  · rw [h]; exact Nat.mod_lt _ (by norm_num)

@[simp] theorem length_wr16 (be : Bool) (f : List Nat) (p v : Nat) :
    (wr16 be f p v).length = f.length := by simp [wr16]

@[simp] theorem length_wr32 (be : Bool) (f : List Nat) (p v : Nat) :
    (wr32 be f p v).length = f.length := by simp [wr32]

@[simp] theorem length_wr_mac (f : List Nat) (p : Nat) (m : macaddr_t) :
    (wr_mac f p m).length = f.length := by simp [wr_mac]

@[simp] theorem length_wrN (f : List Nat) (p : Nat) (bs : List Nat) :
    (wrN f p bs).length = f.length := by
  induction bs generalizing f p with
  | nil => rfl
  | cons b bs ih => simp [wrN, ih]

theorem ld8_ok (f : List Nat) {p : Nat} (h : p + 1 ≤ f.length) : ld8 f p = .ok (rd8 f p) := by
  simp [ld8, h]

theorem ld16_ok (be : Bool) (f : List Nat) {p : Nat} (h : p + 2 ≤ f.length) :
    ld16 be f p = .ok (rd16 be f p) := by simp [ld16, h]

theorem ld32_ok (be : Bool) (f : List Nat) {p : Nat} (h : p + 4 ≤ f.length) :
    ld32 be f p = .ok (rd32 be f p) := by simp [ld32, h]

theorem ldN_ok (f : List Nat) {p n : Nat} (h : p + n ≤ f.length) :
    ldN f p n = .ok (rdN f p n) := by simp [ldN, h]

theorem ld_mac_ok (f : List Nat) {p : Nat} (h : p + 6 ≤ f.length) :
    ld_mac f p = .ok (rd_mac f p) := by simp [ld_mac, h]

theorem st8_ok (f : List Nat) {p : Nat} (v : Nat) (h : p + 1 ≤ f.length) :
    st8 f p v = .ok (wr8 f p v) := by simp [st8, h]

theorem st16_ok (be : Bool) (f : List Nat) {p : Nat} (v : Nat) (h : p + 2 ≤ f.length) :
    st16 be f p v = .ok (wr16 be f p v) := by simp [st16, h]

theorem st32_ok (be : Bool) (f : List Nat) {p : Nat} (v : Nat) (h : p + 4 ≤ f.length) :
    st32 be f p v = .ok (wr32 be f p v) := by simp [st32, h]

theorem st_mac_ok (f : List Nat) {p : Nat} (m : macaddr_t) (h : p + 6 ≤ f.length) :
    st_mac f p m = .ok (wr_mac f p m) := by simp [st_mac, h]

theorem stN_ok (f : List Nat) {p : Nat} (bs : List Nat) (h : p + bs.length ≤ f.length) :
    stN f p bs = .ok (wrN f p bs) := by simp [stN, h]

theorem mk16_byte16 (be : Bool) (v : Nat) :
    mk16 be (byte16 be v 0) (byte16 be v 1) = v % 65536 := by
  cases be <;> simp [mk16, byte16] <;> omega

theorem mk32_byte32 (be : Bool) (v : Nat) :
    mk32 be (byte32 be v 0) (byte32 be v 1) (byte32 be v 2) (byte32 be v 3) = v % 4294967296 := by
  cases be <;> simp [mk32, byte32] <;> omega

theorem byte16_lt (be : Bool) (v i : Nat) : byte16 be v i < 256 := by
  unfold byte16; split_ifs <;> exact Nat.mod_lt _ (by norm_num)

theorem byte32_lt (be : Bool) (v i : Nat) : byte32 be v i < 256 := by
  unfold byte32; split_ifs <;> exact Nat.mod_lt _ (by norm_num)

theorem mk16_lt (be : Bool) {b0 b1 : Nat} (h0 : b0 < 256) (h1 : b1 < 256) :
    mk16 be b0 b1 < 65536 := by
  cases be <;> simp [mk16] <;> omega

theorem mk32_lt (be : Bool) {b0 b1 b2 b3 : Nat} (h0 : b0 < 256) (h1 : b1 < 256) (h2 : b2 < 256)
    (h3 : b3 < 256) : mk32 be b0 b1 b2 b3 < 4294967296 := by
  cases be <;> simp [mk32] <;> omega

theorem rd16_lt (be : Bool) (f : List Nat) (hf : bytes_ok f) (p : Nat) : rd16 be f p < 65536 :=
  mk16_lt be (rd8_lt f hf _) (rd8_lt f hf _)

theorem rd32_lt (be : Bool) (f : List Nat) (hf : bytes_ok f) (p : Nat) :
    rd32 be f p < 4294967296 :=
  mk32_lt be (rd8_lt f hf _) (rd8_lt f hf _) (rd8_lt f hf _) (rd8_lt f hf _)

theorem rd16_wr16_eq (be : Bool) (f : List Nat) {p : Nat} (v : Nat) (h : p + 2 ≤ f.length) :
    rd16 be (wr16 be f p v) p = v % 65536 := by
  unfold rd16 wr16
  rw [rd8_wr8_ne _ _ (by omega), rd8_wr8_eq _ _ (by omega), rd8_wr8_eq _ _ (by simp; omega),
    Nat.mod_eq_of_lt (byte16_lt be v 0), Nat.mod_eq_of_lt (byte16_lt be v 1), mk16_byte16]

theorem rd32_wr32_eq (be : Bool) (f : List Nat) {p : Nat} (v : Nat) (h : p + 4 ≤ f.length) :
    rd32 be (wr32 be f p v) p = v % 4294967296 := by
  unfold rd32 wr32
  rw [rd8_wr8_ne _ _ (by omega), rd8_wr8_ne _ _ (by omega), rd8_wr8_ne _ _ (by omega),
    rd8_wr8_eq _ _ (by omega),
    rd8_wr8_ne _ _ (by omega), rd8_wr8_ne _ _ (by omega), rd8_wr8_eq _ _ (by simp; omega),
    rd8_wr8_ne _ _ (by omega), rd8_wr8_eq _ _ (by simp; omega), rd8_wr8_eq _ _ (by simp; omega),
    Nat.mod_eq_of_lt (byte32_lt be v 0), Nat.mod_eq_of_lt (byte32_lt be v 1),
    Nat.mod_eq_of_lt (byte32_lt be v 2), Nat.mod_eq_of_lt (byte32_lt be v 3), mk32_byte32]

theorem words32_lt (be : Bool) (bs : List Nat) (hbs : bytes_ok bs) :
    ∀ w ∈ words32 be bs, w < 4294967296 := by
  induction bs using words32.induct be with
  | case1 b0 b1 b2 b3 rest ih =>
    intro w hw
    simp only [words32, List.mem_cons] at hw
    have h0 := hbs b0 (by simp)
    have h1 := hbs b1 (by simp)
    have h2 := hbs b2 (by simp)
    have h3 := hbs b3 (by simp)
    rcases hw with hw | hw
    · rw [hw]; exact mk32_lt be h0 h1 h2 h3
    · exact ih (fun b hb => hbs b (by simp [hb])) w hw
  | case2 bs h =>
    intro w hw
    rw [words32] at hw
    · simp at hw
    · exact h

theorem bytes_ok_cons {b : Nat} {bs : List Nat} (h : bytes_ok (b :: bs)) :
    b < 256 ∧ bytes_ok bs :=
  ⟨h b (List.mem_cons_self _ _), fun x hx => h x (List.mem_cons_of_mem _ hx)⟩

theorem bytes_ok_append {xs ys : List Nat} (hx : bytes_ok xs) (hy : bytes_ok ys) :
    bytes_ok (xs ++ ys) := by
  intro b hb
  rcases List.mem_append.mp hb with h | h
  · exact hx b h
  · exact hy b h

theorem words16_lt (be : Bool) (bs : List Nat) (hbs : bytes_ok bs) :
    ∀ w ∈ words16 be bs, w < 65536 := by
  induction bs using words16.induct be with
  | case1 b0 b1 rest ih =>
    obtain ⟨h0, hr⟩ := bytes_ok_cons hbs
    obtain ⟨h1, hr⟩ := bytes_ok_cons hr
    intro w hw
    simp only [words16, List.mem_cons] at hw
    rcases hw with hw | hw
    · rw [hw]; exact mk16_lt be h0 h1
    · exact ih hr w hw
  | case2 b0 =>
    obtain ⟨h0, -⟩ := bytes_ok_cons hbs
    intro w hw
    simp only [words16, List.mem_singleton] at hw
    rw [hw]; exact mk16_lt be h0 (by norm_num)
  | case3 => simp [words16]

/-- The sum of the 16-bit words of a buffer. -/
theorem sum_words32_words16 (be : Bool) (bs : List Nat) (hbs : bytes_ok bs)
    (hlen : bs.length % 4 = 0) :
    (words32 be bs).sum % 65535 = (words16 be bs).sum % 65535 ∧
    ((words32 be bs).sum = 0 ↔ (words16 be bs).sum = 0) := by
  induction bs using words32.induct be with
  | case1 b0 b1 b2 b3 rest ih =>
    obtain ⟨h0, hr⟩ := bytes_ok_cons hbs
    obtain ⟨h1, hr⟩ := bytes_ok_cons hr
    obtain ⟨h2, hr⟩ := bytes_ok_cons hr
    obtain ⟨h3, hr⟩ := bytes_ok_cons hr
    have hl : rest.length % 4 = 0 := by simp only [List.length_cons] at hlen; omega
    obtain ⟨ih1, ih2⟩ := ih hr hl
    simp only [words32, words16, List.sum_cons]
    cases be <;> simp only [mk32, mk16, Bool.false_eq_true, if_false, if_true] <;> constructor <;> omega
  | case2 t h =>
    rcases t with _ | ⟨a, _ | ⟨b, _ | ⟨c, _ | ⟨d, r⟩⟩⟩⟩
    · simp [words32, words16]
    · simp at hlen
    · simp at hlen
    · simp at hlen
    · exact absurd rfl (fun e => h a b c d r e)

theorem sum_words16_swap (bs : List Nat) (hbs : bytes_ok bs) :
    (words16 true bs).sum % 65535 = (256 * (words16 false bs).sum) % 65535 ∧
    ((words16 true bs).sum = 0 ↔ (words16 false bs).sum = 0) := by
  induction bs using words16.induct true with
  | case1 b0 b1 rest ih =>
    obtain ⟨h0, hr⟩ := bytes_ok_cons hbs
    obtain ⟨h1, hr⟩ := bytes_ok_cons hr
    obtain ⟨ih1, ih2⟩ := ih hr
    simp only [words16, List.sum_cons, mk16, Bool.false_eq_true, if_false, if_true]
    constructor <;> omega
  | case2 b0 =>
    simp only [words16, List.sum_cons, mk16, Bool.false_eq_true, if_false, if_true, List.sum_nil]
    constructor <;> omega
  | case3 => simp [words16]

theorem foldl_onec_add (ws : List Nat) (hws : ∀ w ∈ ws, w < 65536) (a : Nat) (ha : a < 65536) :
    ws.foldl onec_add a = ones16 (a + ws.sum) := by
  induction ws generalizing a with
  | nil => simp [ones16_of_le (Nat.le_of_lt_succ ha)]
  | cons w ws ih =>
    have hw := hws w (List.mem_cons_self _ _)
    simp only [List.foldl_cons, List.sum_cons]
    rw [onec_add_eq a w ha hw,
      ih (fun x hx => hws x (List.mem_cons_of_mem _ hx)) _ (by have := ones16_le (a + w); omega),
      ones16_ones16_add, Nat.add_assoc]

theorem onec_sum_eq (ws : List Nat) (hws : ∀ w ∈ ws, w < 65536) :
    onec_sum ws = ones16 ws.sum := by
  unfold onec_sum
  rw [foldl_onec_add ws hws 0 (by norm_num), Nat.zero_add]

theorem inet_sum_eq (bs : List Nat) (hbs : bytes_ok bs) :
    inet_sum bs = ones16 (words16 true bs).sum :=
  onec_sum_eq _ (words16_lt true bs hbs)

theorem words16_append (be : Bool) (xs ys : List Nat) (hx : xs.length % 2 = 0) :
    words16 be (xs ++ ys) = words16 be xs ++ words16 be ys := by
  induction xs using words16.induct be with
  | case1 b0 b1 rest ih =>
    have : rest.length % 2 = 0 := by simp only [List.length_cons] at hx; omega
    simp [words16, ih this]
  | case2 b0 => simp at hx
  | case3 => simp [words16]

theorem sum_map_not32 (ws : List Nat) (hws : ∀ w ∈ ws, w < 4294967296) :
    (ws.map (fun w => 4294967295 - w)).sum + ws.sum = 4294967295 * ws.length := by
  induction ws with
  | nil => simp
  | cons w ws ih =>
    have hw := hws w (List.mem_cons_self _ _)
    have := ih (fun x hx => hws x (List.mem_cons_of_mem _ hx))
    simp only [List.map_cons, List.sum_cons, List.length_cons]
    omega

theorem bpf_csum_diff_eq (be : Bool) (frm dst : List Nat) (seed : Nat)
    (h1 : frm.length % 4 = 0) (h2 : dst.length % 4 = 0) (h3 : frm.length + dst.length ≤ 512)
    (hd : bytes_ok dst) :
    bpf_csum_diff be frm dst seed < 4294967296 ∧
    ones16 (bpf_csum_diff be frm dst seed) =
      ones16 (seed % 4294967296 + (((words32 be frm).map (fun w => 4294967295 - w)).sum +
        (words32 be dst).sum)) := by
  have hlt : ∀ w ∈ (words32 be frm).map (fun w => 4294967295 - w) ++ words32 be dst,
      w < 4294967296 := by
    intro w hw
    rcases List.mem_append.mp hw with h | h
    · obtain ⟨x, -, rfl⟩ := List.mem_map.mp h
      omega
    · exact words32_lt be dst hd w h
  have hs : seed % 4294967296 < 4294967296 := Nat.mod_lt _ (by norm_num)
  have hc : ¬ (frm.length % 4 ≠ 0 ∨ dst.length % 4 ≠ 0 ∨ frm.length + dst.length > 512) := by
    omega
  simp only [bpf_csum_diff, hc, if_false, csum_partial]
  refine ⟨foldl_csum_add_lt _ hlt _ hs, ?_⟩
  rw [ones16_foldl_csum_add _ hlt _ hs, List.sum_append]

theorem ipv4_csum_eq (be : Bool) (region : List Nat) (hr : bytes_ok region)
    (h4 : region.length % 4 = 0) (h512 : region.length ≤ 512) :
    ipv4_csum be region 0 = 65535 - ones16 (words16 be region).sum := by
  obtain ⟨hlt, heq⟩ := bpf_csum_diff_eq be [] region 0 (by simp) h4 (by simpa using h512) hr
  obtain ⟨m1, m2⟩ := sum_words32_words16 be region hr h4
  unfold ipv4_csum
  rw [csum_fold_helper_eq, Nat.mod_eq_of_lt hlt, heq]
  congr 1
  apply ones16_congr
  · simp [words32]; exact m2
  · simp [words32]; exact m1

@[simp] theorem rd8_cons_zero (b : Nat) (f : List Nat) : rd8 (b :: f) 0 = b := by simp [rd8]

@[simp] theorem rd8_cons_succ (b : Nat) (f : List Nat) (p : Nat) :
    rd8 (b :: f) (p + 1) = rd8 f p := by simp [rd8]

@[simp] theorem wr8_cons_zero (b : Nat) (f : List Nat) (v : Nat) :
    wr8 (b :: f) 0 v = (v % 256) :: f := by simp [wr8]

@[simp] theorem wr8_cons_succ (b : Nat) (f : List Nat) (p v : Nat) :
    wr8 (b :: f) (p + 1) v = b :: wr8 f p v := by simp [wr8]

theorem list_ext_rd8 {l1 l2 : List Nat} (hl : l1.length = l2.length)
    (h : ∀ i, i < l1.length → rd8 l1 i = rd8 l2 i) : l1 = l2 := by
  apply List.ext_getElem hl
  intro i h1 h2
  have := h i h1
  simpa [rd8, List.getD_eq_getElem?_getD, List.getElem?_eq_getElem h1,
    List.getElem?_eq_getElem h2] using this

@[simp] theorem length_rdN (f : List Nat) (p n : Nat) : (rdN f p n).length = n := by
  simp [rdN]

theorem rd8_rdN (f : List Nat) (p n : Nat) {k : Nat} (hk : k < n) :
    rd8 (rdN f p n) k = rd8 f (p + k) := by
  simp [rd8, rdN, List.getD_eq_getElem?_getD, List.getElem?_map, List.getElem?_range hk]

theorem bytes_ok_rdN (f : List Nat) (hf : bytes_ok f) (p n : Nat) : bytes_ok (rdN f p n) := by
  intro b hb
  obtain ⟨i, -, rfl⟩ := List.mem_map.mp hb
  exact rd8_lt f hf _

theorem rdN_wr8_in (f : List Nat) (p n : Nat) {k : Nat} (v : Nat) (hk : k < n)
    (hlen : p + k < f.length) : rdN (wr8 f (p + k) v) p n = wr8 (rdN f p n) k v := by
  apply list_ext_rd8 (by simp)
  intro i hi
  simp only [length_rdN] at hi
  rw [rd8_rdN _ _ _ hi]
  by_cases h : i = k
  · subst h
    rw [rd8_wr8_eq _ _ hlen, rd8_wr8_eq _ _ (by simpa using hi)]
  · rw [rd8_wr8_ne _ _ (by omega), rd8_wr8_ne _ _ (by omega), rd8_rdN _ _ _ hi]

theorem rdN_wr16_in (be : Bool) (f : List Nat) (p n : Nat) {k : Nat} (v : Nat) (hk : k + 1 < n)
    (hlen : p + k + 1 < f.length) :
    rdN (wr16 be f (p + k) v) p n = wr16 be (rdN f p n) k v := by
  unfold wr16
  rw [Nat.add_assoc, rdN_wr8_in _ _ _ _ hk (by simp; omega),
    rdN_wr8_in _ _ _ _ (by omega) (by omega)]

theorem sum_words16_wr16 (be : Bool) (l : List Nat) (k v : Nat) (hk : k % 2 = 0)
    (hlen : k + 2 ≤ l.length) :
    (words16 be (wr16 be l k v)).sum + rd16 be l k = (words16 be l).sum + v % 65536 := by
  induction l using words16.induct be generalizing k with
  | case1 b0 b1 rest ih =>
    rcases k with _ | _ | k
    · simp only [wr16, rd16, wr8_cons_zero, wr8_cons_succ, Nat.zero_add, rd8_cons_zero,
        rd8_cons_succ]
      simp only [words16, List.sum_cons, Nat.mod_eq_of_lt (byte16_lt be v 0),
        Nat.mod_eq_of_lt (byte16_lt be v 1), mk16_byte16]
      omega
    · omega
    · have hl : k + 2 ≤ rest.length := by simp only [List.length_cons] at hlen; omega
      have := ih k (by omega) hl
      simp only [wr16, rd16] at this
      simp only [wr16, rd16, wr8_cons_succ, rd8_cons_succ]
      simp only [words16, List.sum_cons]
      omega
  | case2 b0 => simp at hlen
  | case3 => simp at hlen
theorem ones16_eq_ffff_iff (z : Nat) : ones16 z = 65535 ↔ z ≠ 0 ∧ z % 65535 = 0 := by
  unfold ones16; split_ifs with h
  · subst h; simp
  · omega

theorem inet_sum_valid_iff (be : Bool) (bs : List Nat) (hbs : bytes_ok bs) :
    inet_sum bs = 65535 ↔ ones16 (words16 be bs).sum = 65535 := by
  rw [inet_sum_eq bs hbs]
  cases be
  · obtain ⟨h1, h2⟩ := sum_words16_swap bs hbs
    rw [ones16_eq_ffff_iff, ones16_eq_ffff_iff]
    omega
  · rfl

theorem bytes_ok_wr16 (be : Bool) (f : List Nat) (hf : bytes_ok f) (p v : Nat) :
    bytes_ok (wr16 be f p v) :=
  bytes_ok_wr8 _ (bytes_ok_wr8 _ hf _ _) _ _

theorem bytes_ok_wr32 (be : Bool) (f : List Nat) (hf : bytes_ok f) (p v : Nat) :
    bytes_ok (wr32 be f p v) :=
  bytes_ok_wr8 _ (bytes_ok_wr8 _ (bytes_ok_wr8 _ (bytes_ok_wr8 _ hf _ _) _ _) _ _) _ _

theorem bytes_ok_wr_mac (f : List Nat) (hf : bytes_ok f) (p : Nat) (m : macaddr_t) :
    bytes_ok (wr_mac f p m) :=
  bytes_ok_wr8 _ (bytes_ok_wr8 _ (bytes_ok_wr8 _ (bytes_ok_wr8 _ (bytes_ok_wr8 _
    (bytes_ok_wr8 _ hf _ _) _ _) _ _) _ _) _ _) _ _

theorem rd8_wr16_ne (be : Bool) (f : List Nat) {p q : Nat} (v : Nat) (h0 : p ≠ q)
    (h1 : p + 1 ≠ q) : rd8 (wr16 be f p v) q = rd8 f q := by
  unfold wr16
  rw [rd8_wr8_ne _ _ h1, rd8_wr8_ne _ _ h0]

theorem rd8_wr32_ne (be : Bool) (f : List Nat) {p q : Nat} (v : Nat) (h0 : p ≠ q)
    (h1 : p + 1 ≠ q) (h2 : p + 2 ≠ q) (h3 : p + 3 ≠ q) : rd8 (wr32 be f p v) q = rd8 f q := by
  unfold wr32
  rw [rd8_wr8_ne _ _ h3, rd8_wr8_ne _ _ h2, rd8_wr8_ne _ _ h1, rd8_wr8_ne _ _ h0]

theorem rd16_rdN (be : Bool) (f : List Nat) (p n : Nat) {k : Nat} (hk : k + 1 < n) :
    rd16 be (rdN f p n) k = rd16 be f (p + k) := by
  unfold rd16
  rw [rd8_rdN _ _ _ (by omega), rd8_rdN _ _ _ hk, Nat.add_assoc]

theorem wr16_wr16_same (be : Bool) (f : List Nat) (p v w : Nat) :
    wr16 be (wr16 be f p v) p w = wr16 be f p w := by
  apply list_ext_rd8 (by simp)
  intro i _
  unfold wr16
  by_cases h1 : p + 1 = i
  · subst h1
    by_cases hl : p + 1 < f.length
    · rw [rd8_wr8_eq _ _ (by simpa using hl), rd8_wr8_eq _ _ (by simpa using hl)]
    · rw [rd8_of_le _ (by simp; omega), rd8_of_le _ (by simp; omega)]
  · rw [rd8_wr8_ne _ _ h1, rd8_wr8_ne _ _ h1]
    by_cases h0 : p = i
    · subst h0
      by_cases hl : p < f.length
      · rw [rd8_wr8_eq _ _ (by simpa using hl), rd8_wr8_eq _ _ hl]
      · rw [rd8_of_le _ (by simp; omega), rd8_of_le _ (by simp; omega)]
    · rw [rd8_wr8_ne _ _ h0, rd8_wr8_ne _ _ h1, rd8_wr8_ne _ _ h0, rd8_wr8_ne _ _ h0]

/-- The checksum that `recompute_iph_csum` stores for the header at `iph`. -/
theorem recompute_iph_csum_ok (be : Bool) (f : List Nat) (iph : Nat) (hlen : iph + 20 ≤ f.length) :
    recompute_iph_csum be f iph =
      .ok (wr16 be f (iph + 10) (ipv4_csum be (rdN (wr16 be f (iph + 10) 0) iph 20) 0)) := by
  unfold recompute_iph_csum
  rw [st16_ok _ _ _ (by omega)]
  simp only [Mem.ok_bind]
  rw [ldN_ok _ (by simp; omega)]
  simp only [Mem.ok_bind]
  rw [st16_ok _ _ _ (by simp; omega), wr16_wr16_same]

theorem iph_sum_after_recompute (be : Bool) (f : List Nat) (iph : Nat) (hf : bytes_ok f)
    (hlen : iph + 20 ≤ f.length) :
    ones16 (words16 be (rdN (wr16 be f (iph + 10)
      (ipv4_csum be (rdN (wr16 be f (iph + 10) 0) iph 20) 0)) iph 20)).sum = 65535 := by
  have hok : bytes_ok (rdN (wr16 be f (iph + 10) 0) iph 20) :=
    bytes_ok_rdN _ (bytes_ok_wr16 be f hf _ _) _ _
  rw [ipv4_csum_eq be _ hok (by simp) (by simp)]
  rw [← wr16_wr16_same be f (iph + 10) 0, rdN_wr16_in be _ iph 20 _ (by norm_num) (by simp; omega)]
  have h := sum_words16_wr16 be (rdN (wr16 be f (iph + 10) 0) iph 20) 10
    (65535 - ones16 (words16 be (rdN (wr16 be f (iph + 10) 0) iph 20)).sum) (by norm_num)
    (by simp)
  rw [rd16_rdN be _ iph 20 (by norm_num), rd16_wr16_eq be f 0 (by omega)] at h
  have hle := ones16_le (words16 be (rdN (wr16 be f (iph + 10) 0) iph 20)).sum
  rw [ones16_eq_ffff_iff]
  generalize (words16 be (rdN (wr16 be f (iph + 10) 0) iph 20)).sum = S at h hle ⊢
  have hm := ones16_mod S
  have hz := ones16_eq_zero S
  generalize ones16 S = o at h hle hm hz ⊢
  omega

/-- C9: for every 20-byte IPv4 header, whatever its fields and its previous
checksum, `recompute_iph_csum` succeeds, changes only the two bytes of the
checksum field, and leaves a header that verifies: the ones-complement sum of
its ten 16-bit words is `0xFFFF`. -/
theorem C9_recompute_iph_csum (be : Bool) (f : List Nat) (iph : Nat) (hf : bytes_ok f)
    (hlen : iph + 20 ≤ f.length) :
    ∃ g, recompute_iph_csum be f iph = .ok g ∧ g.length = f.length ∧ bytes_ok g ∧
      inet_sum (rdN g iph 20) = 0xFFFF ∧
      ∀ q, q ≠ iph + 10 → q ≠ iph + 11 → rd8 g q = rd8 f q := by
  refine ⟨_, recompute_iph_csum_ok be f iph hlen, by simp, bytes_ok_wr16 be f hf _ _, ?_, ?_⟩
  · rw [inet_sum_valid_iff be _ (bytes_ok_rdN _ (bytes_ok_wr16 be f hf _ _) _ _)]
    exact iph_sum_after_recompute be f iph hf hlen
  · intro q h0 h1
    exact rd8_wr16_ne be f _ (Ne.symm h0) (Ne.symm h1)
theorem rd8_wr8 (f : List Nat) (p q v : Nat) :
    rd8 (wr8 f p v) q = if p = q ∧ p < f.length then v % 256 else rd8 f q := by
  by_cases h : p = q
  · subst h
    by_cases hl : p < f.length
    · simp [rd8_wr8_eq f v hl, hl]
    · rw [rd8_of_le _ (by simp; omega), rd8_of_le _ (by omega)]; simp [hl]
  · simp [rd8_wr8_ne f v h, h]

theorem wr8_wr8_comm (f : List Nat) {p q : Nat} (v w : Nat) (h : p ≠ q) :
    wr8 (wr8 f p v) q w = wr8 (wr8 f q w) p v := by
  apply list_ext_rd8 (by simp)
  intro i _
  simp only [rd8_wr8, length_wr8]
  split_ifs <;> first | rfl | omega

theorem wr8_wr16_comm (be : Bool) (f : List Nat) {p q : Nat} (v w : Nat) (h0 : p ≠ q)
    (h1 : p ≠ q + 1) : wr8 (wr16 be f q w) p v = wr16 be (wr8 f p v) q w := by
  unfold wr16
  rw [wr8_wr8_comm _ _ _ (Ne.symm h1), wr8_wr8_comm f _ _ (Ne.symm h0)]

theorem wr8_self (f : List Nat) (hf : bytes_ok f) (p : Nat) : wr8 f p (rd8 f p) = f := by
  apply list_ext_rd8 (by simp)
  intro i _
  have := rd8_lt f hf p
  simp only [rd8_wr8]
  split_ifs with h
  · rw [← h.1]; omega
  · rfl

theorem wr8_eq_wr16 (be : Bool) (f : List Nat) (hf : bytes_ok f) (p v : Nat) (hv : v < 256) :
    wr8 f p v = wr16 be f p (mk16 be v (rd8 f (p + 1))) := by
  have h1 := rd8_lt f hf (p + 1)
  have e0 : byte16 be (mk16 be v (rd8 f (p + 1))) 0 = v := by
    cases be <;> simp [byte16, mk16] <;> omega
  have e1 : byte16 be (mk16 be v (rd8 f (p + 1))) 1 = rd8 f (p + 1) := by
    cases be <;> simp [byte16, mk16] <;> omega
  unfold wr16
  rw [e0, e1]
  have : rd8 f (p + 1) = rd8 (wr8 f p v) (p + 1) := by rw [rd8_wr8_ne _ _ (by omega)]
  rw [this, wr8_self _ (bytes_ok_wr8 f hf _ _)]

theorem sum_words16_ge (be : Bool) (l : List Nat) (hl : 2 ≤ l.length) :
    rd16 be l 0 ≤ (words16 be l).sum := by
  rcases l with _ | ⟨a, _ | ⟨b, r⟩⟩
  · simp at hl
  · simp at hl
  · simp [rd16, words16]

theorem ttl_step (be : Bool) (S c : Nat) (hS : S ≠ 0) (hc : c < 65536)
    (hv : ones16 (S + bpf_htons be 0x0100 + c) = 65535) :
    ((c + bpf_htons be 0x0100) % 4294967296 +
      (if (c + bpf_htons be 0x0100) % 4294967296 ≥ 0xFFFF then 1 else 0)) % 4294967296 % 65536
      = 65535 - ones16 S := by
  rw [ones16_eq_ffff_iff] at hv
  have hd : bpf_htons be 0x0100 = 1 ∨ bpf_htons be 0x0100 = 256 := by
    cases be <;> simp [bpf_htons, bswap16]
  generalize bpf_htons be 0x0100 = d at hv hd ⊢
  have hm := ones16_mod S
  have hz := ones16_eq_zero S
  have hle := ones16_le S
  generalize ones16 S = o at hm hz hle ⊢
  split_ifs <;> omega
theorem ip_decrease_ttl_ok (be : Bool) (f : List Nat) (iph : Nat) (hlen : iph + 20 ≤ f.length) :
    ip_decrease_ttl be f iph =
      .ok (wr8 (wr16 be f (iph + 10)
            (((rd16 be f (iph + 10) + bpf_htons be 0x0100) % 4294967296 +
              (if (rd16 be f (iph + 10) + bpf_htons be 0x0100) % 4294967296 ≥ 0xFFFF
                then 1 else 0)) % 4294967296 % 65536))
          (iph + 8) ((rd8 f (iph + 8) + 255) % 256),
        (rd8 f (iph + 8) + 255) % 256) := by
  unfold ip_decrease_ttl
  rw [ld16_ok _ _ (by omega)]
  simp only [Mem.ok_bind]
  rw [st16_ok _ _ _ (by omega)]
  simp only [Mem.ok_bind]
  rw [ld8_ok _ (by simp; omega)]
  simp only [Mem.ok_bind]
  rw [st8_ok _ _ (by simp; omega), rd8_wr16_ne _ _ _ (by omega) (by omega)]
  rfl

/-- C8: on a 20-byte IPv4 header (version 4, IHL 5) with a valid checksum and a
TTL of at least 1, `ip_decrease_ttl` decrements the TTL by exactly one and
leaves the frame that a full recomputation by `recompute_iph_csum` of the
header with the decremented TTL produces, checksum field included. -/
theorem C8_ip_decrease_ttl (be : Bool) (f : List Nat) (iph : Nat) (hf : bytes_ok f)
    (hlen : iph + 20 ≤ f.length) (hver : rd8 f iph = 0x45)
    (hvalid : inet_sum (rdN f iph 20) = 0xFFFF) (httl : 1 ≤ rd8 f (iph + 8)) :
    ∃ g, ip_decrease_ttl be f iph = .ok (g, rd8 f (iph + 8) - 1) ∧
      rd8 g (iph + 8) = rd8 f (iph + 8) - 1 ∧
      recompute_iph_csum be (wr8 f (iph + 8) (rd8 f (iph + 8) - 1)) iph = .ok g := by
  have ht := rd8_lt f hf (iph + 8)
  have et : (rd8 f (iph + 8) + 255) % 256 = rd8 f (iph + 8) - 1 := by omega
  have hf1 : bytes_ok (wr8 f (iph + 8) (rd8 f (iph + 8) - 1)) := bytes_ok_wr8 f hf _ _
  -- the header with the checksum field cleared
  have hf0 : bytes_ok (wr16 be f (iph + 10) 0) := bytes_ok_wr16 be f hf _ _
  have hh0 : bytes_ok (rdN (wr16 be f (iph + 10) 0) iph 20) := bytes_ok_rdN _ hf0 _ _
  -- sum of the original header
  have hsum := sum_words16_wr16 be (rdN f iph 20) 10 0 (by norm_num) (by simp)
  rw [← rdN_wr16_in be f iph 20 0 (by norm_num) (by omega), rd16_rdN be f iph 20 (by norm_num)]
    at hsum
  rw [inet_sum_valid_iff be _ (bytes_ok_rdN f hf _ _)] at hvalid
  -- sum of the header with the decremented TTL
  have e1 : rdN (wr16 be (wr8 f (iph + 8) (rd8 f (iph + 8) - 1)) (iph + 10) 0) iph 20
      = wr16 be (rdN (wr16 be f (iph + 10) 0) iph 20) 8
          (mk16 be (rd8 f (iph + 8) - 1) (rd8 f (iph + 9))) := by
    rw [← wr8_wr16_comm be f _ _ (by omega) (by omega),
      wr8_eq_wr16 be _ hf0 _ _ (by omega), rd8_wr16_ne be f _ (by omega) (by omega),
      rdN_wr16_in be _ iph 20 _ (by norm_num) (by simp; omega)]
  have hsum1 := sum_words16_wr16 be (rdN (wr16 be f (iph + 10) 0) iph 20) 8
    (mk16 be (rd8 f (iph + 8) - 1) (rd8 f (iph + 9))) (by norm_num) (by simp)
  rw [← e1, rd16_rdN be _ iph 20 (by norm_num)] at hsum1
  have e2 : rd16 be (wr16 be f (iph + 10) 0) (iph + 8) = mk16 be (rd8 f (iph + 8)) (rd8 f (iph + 9)) := by
    unfold rd16
    rw [rd8_wr16_ne be f _ (by omega) (by omega), rd8_wr16_ne be f _ (by omega) (by omega)]
  rw [e2] at hsum1
  have h9 := rd8_lt f hf (iph + 9)
  have e3 : mk16 be (rd8 f (iph + 8)) (rd8 f (iph + 9)) =
      mk16 be (rd8 f (iph + 8) - 1) (rd8 f (iph + 9)) + bpf_htons be 0x0100 := by
    cases be <;> simp [mk16, bpf_htons, bswap16] <;> omega
  have e4 : mk16 be (rd8 f (iph + 8) - 1) (rd8 f (iph + 9)) % 65536 =
      mk16 be (rd8 f (iph + 8) - 1) (rd8 f (iph + 9)) :=
    Nat.mod_eq_of_lt (mk16_lt be (by omega) h9)
  -- the decremented header is not all zero
  have hge := sum_words16_ge be
    (rdN (wr16 be (wr8 f (iph + 8) (rd8 f (iph + 8) - 1)) (iph + 10) 0) iph 20) (by simp)
  rw [rd16_rdN be _ iph 20 (by norm_num)] at hge
  have e5 : rd16 be (wr16 be (wr8 f (iph + 8) (rd8 f (iph + 8) - 1)) (iph + 10) 0) (iph + 0)
      = mk16 be 0x45 (rd8 f (iph + 1)) := by
    unfold rd16
    rw [rd8_wr16_ne be _ _ (by omega) (by omega), rd8_wr16_ne be _ _ (by omega) (by omega),
      rd8_wr8_ne _ _ (by omega), rd8_wr8_ne _ _ (by omega), Nat.add_zero, hver]
  rw [e5] at hge
  have hpos : 0 < mk16 be 0x45 (rd8 f (iph + 1)) := by
    cases be <;> simp [mk16]
  have hc := rd16_lt be f hf (iph + 10)
  -- the two checksums agree
  have hS : (words16 be
        (rdN (wr16 be (wr8 f (iph + 8) (rd8 f (iph + 8) - 1)) (iph + 10) 0) iph 20)).sum
      + bpf_htons be 0x0100 + rd16 be f (iph + 10) = (words16 be (rdN f iph 20)).sum := by
    omega
  have key := ttl_step be
    (words16 be (rdN (wr16 be (wr8 f (iph + 8) (rd8 f (iph + 8) - 1)) (iph + 10) 0) iph 20)).sum
    (rd16 be f (iph + 10)) (by omega) hc (by rw [hS]; exact hvalid)
  refine ⟨wr16 be (wr8 f (iph + 8) (rd8 f (iph + 8) - 1)) (iph + 10)
    (ipv4_csum be (rdN (wr16 be (wr8 f (iph + 8) (rd8 f (iph + 8) - 1)) (iph + 10) 0) iph 20) 0),
    ?_, ?_, ?_⟩
  · rw [ip_decrease_ttl_ok be f iph hlen, et, key,
      ipv4_csum_eq be _ (bytes_ok_rdN _ (bytes_ok_wr16 be _ hf1 _ _) _ _) (by simp) (by simp),
      wr8_wr16_comm be f _ _ (by omega) (by omega)]
  · rw [rd8_wr16_ne be _ _ (by omega) (by omega), rd8_wr8_eq _ _ (by omega)]; omega
  · exact recompute_iph_csum_ok be _ iph (by simpa using hlen)

/-! ### Packets with a 20-byte IPv4 header -/

theorem rd16_true_eq (be : Bool) (f : List Nat) (hf : bytes_ok f) (p : Nat) :
    rd16 true f p = bpf_ntohs be (rd16 be f p) := by
  have h0 := rd8_lt f hf p
  have h1 := rd8_lt f hf (p + 1)
  cases be
  · simp only [rd16, mk16, bpf_ntohs, bswap16, Bool.false_eq_true, if_false, if_true]
    omega
  · simp only [rd16, mk16, bpf_ntohs, if_true]
    omega

theorem rd16_mach_eq (be : Bool) (f : List Nat) (hf : bytes_ok f) (p : Nat) :
    rd16 be f p = bpf_htons be (rd16 true f p) := by
  have h0 := rd8_lt f hf p
  have h1 := rd8_lt f hf (p + 1)
  cases be
  · simp only [rd16, mk16, bpf_htons, bswap16, Bool.false_eq_true, if_false, if_true]
    omega
  · simp only [rd16, mk16, bpf_htons, if_true]
    omega

theorem rd16_order (be : Bool) (f g : List Nat) (hf : bytes_ok f) (hg : bytes_ok g) (p q : Nat)
    (h : rd16 be g p = rd16 be f q) : rd16 true g p = rd16 true f q := by
  have a0 := rd8_lt f hf q
  have a1 := rd8_lt f hf (q + 1)
  have b0 := rd8_lt g hg p
  have b1 := rd8_lt g hg (p + 1)
  cases be
  · simp only [rd16, mk16, Bool.false_eq_true, if_false, if_true] at h ⊢
    omega
  · exact h

theorem byte32_mk32 (be : Bool) {b0 b1 b2 b3 : Nat} (h0 : b0 < 256) (h1 : b1 < 256)
    (h2 : b2 < 256) (h3 : b3 < 256) :
    byte32 be (mk32 be b0 b1 b2 b3) 0 = b0 ∧ byte32 be (mk32 be b0 b1 b2 b3) 1 = b1 ∧
    byte32 be (mk32 be b0 b1 b2 b3) 2 = b2 ∧ byte32 be (mk32 be b0 b1 b2 b3) 3 = b3 := by
  cases be
  · simp only [byte32, mk32, Bool.false_eq_true, if_false]
    norm_num
    omega
  · simp only [byte32, mk32, if_true]
    norm_num
    omega

theorem byte16_htons (be : Bool) (x : Nat) (hx : x < 65536) :
    byte16 be (bpf_htons be x) 0 = x / 256 % 256 ∧ byte16 be (bpf_htons be x) 1 = x % 256 := by
  cases be
  · simp only [byte16, bpf_htons, bswap16, Bool.false_eq_true, if_false]
    have hlo : x % 256 < 256 := Nat.mod_lt _ (by norm_num)
    have hhi : x / 256 % 256 < 256 := Nat.mod_lt _ (by norm_num)
    generalize x % 256 = lo at *
    generalize x / 256 % 256 = hi at *
    norm_num
    omega
  · simp only [byte16, bpf_htons, if_true]
    norm_num
    omega

/-- For a packet with a 20-byte IPv4 header, the notions that follow the IHL
field are the ones at the offsets of the program: the ports and the UDP
checksum are 20, 22 and 26 bytes behind the start of the header, the L4
segment is `l4_segment`, and the pseudo-header on the wire is the memory image
of the pseudo-header that `ipv4_mk_pheader` builds. -/
theorem ihl5_notions (be : Bool) (f : List Nat) (iph : Nat) (hf : bytes_ok f)
    (hver : rd8 f iph = 0x45) (hmin : 20 ≤ rd16 true f (iph + 2)) :
    ip_hdr_len f iph = 20 ∧ l4_src_port f iph = rd16 true f (iph + 20) ∧
    l4_dst_port f iph = rd16 true f (iph + 22) ∧ udp_check f iph = rd16 true f (iph + 26) ∧
    l4_segment_ihl f iph = l4_segment f iph ∧
    pseudo_ihl f iph = (pheader_of be f iph).bytes be ∧
    (l4_valid_ihl f iph ↔
      inet_sum ((pheader_of be f iph).bytes be ++ l4_segment f iph) = 0xFFFF) := by
  have h20 : ip_hdr_len f iph = 20 := by unfold ip_hdr_len; rw [hver]
  have hseg : l4_segment_ihl f iph = l4_segment f iph := by
    unfold l4_segment_ihl l4_segment; rw [h20]
  have hps : pseudo_ihl f iph = (pheader_of be f iph).bytes be := by
    have hlt := rd16_lt true f hf (iph + 2)
    obtain ⟨s0, s1, s2, s3⟩ := byte32_mk32 be (rd8_lt f hf (iph + 12))
      (rd8_lt f hf (iph + 12 + 1)) (rd8_lt f hf (iph + 12 + 2)) (rd8_lt f hf (iph + 12 + 3))
    obtain ⟨d0, d1, d2, d3⟩ := byte32_mk32 be (rd8_lt f hf (iph + 16))
      (rd8_lt f hf (iph + 16 + 1)) (rd8_lt f hf (iph + 16 + 2)) (rd8_lt f hf (iph + 16 + 3))
    obtain ⟨l0, l1⟩ := byte16_htons be ((rd16 true f (iph + 2) + 65536 - 20) % 65536)
      (Nat.mod_lt _ (by norm_num))
    have hx : (rd16 true f (iph + 2) + 65536 - 20) % 65536 = rd16 true f (iph + 2) - 20 := by
      omega
    have hp := rd8_lt f hf (iph + 9)
    unfold pseudo_ihl pheader_of iph_pseudo.bytes
    simp only []
    rw [h20, ← rd16_true_eq be f hf (iph + 2), l0, l1, hx]
    unfold rd32
    rw [s0, s1, s2, s3, d0, d1, d2, d3, Nat.zero_mod, Nat.mod_eq_of_lt hp]
    simp only [rdN, List.range, List.range.loop, List.map, List.cons_append, List.nil_append,
      Nat.add_zero, Nat.add_assoc, Nat.reduceAdd]
  refine ⟨h20, ?_, ?_, ?_, hseg, hps, ?_⟩
  · unfold l4_src_port; rw [h20]
  · unfold l4_dst_port; rw [h20]
  · unfold udp_check; rw [h20]
  · unfold l4_valid_ihl; rw [hseg, hps]

/-- C10: `onec_add` is the 16-bit ones-complement sum with end-around carry.
Two folding steps leave no carry for any 32-bit value; the value returned for
16-bit `x` and `y` is the untruncated result of the two folds of `x + y`, it is
`x + y` with the carry added back in, it is congruent to `x + y` modulo
`0xFFFF`, and it is zero only for `x = y = 0`. -/
theorem C10_onec_add (x y : Nat) (hx : x < 65536) (hy : y < 65536) :
    (∀ z, z < 4294967296 → fold16 (fold16 z) < 65536) ∧
    onec_add x y = fold16 (fold16 (x + y)) ∧
    onec_add x y = (if x + y < 65536 then x + y else x + y - 65536 + 1) ∧
    onec_add x y % 65535 = (x + y) % 65535 ∧
    (onec_add x y = 0 ↔ x = 0 ∧ y = 0) := by
  have key : ∀ z, z < 4294967296 → fold16 (fold16 z) = ones16 z := by
    intro z hz
    simp only [fold16, and_ffff, shr16]
    exact fold_fold z hz
  refine ⟨?_, ?_, ?_, ?_, ?_⟩
  · intro z hz
    rw [key z hz]
    have := ones16_le z
    omega
  · rw [key _ (by omega), onec_add_eq x y hx hy]
  · rw [onec_add_eq x y hx hy]
    unfold ones16
    split_ifs <;> omega
  · rw [onec_add_eq x y hx hy, ones16_mod]
  · rw [onec_add_eq x y hx hy, ones16_eq_zero]
    omega

/-- Witness of C10 at `x = 0xFFFF`, `y = 1`. -/
theorem C10_onec_add_witness :
    (∀ z, z < 4294967296 → fold16 (fold16 z) < 65536) ∧
    onec_add 65535 1 = fold16 (fold16 (65535 + 1)) ∧
    onec_add 65535 1 = (if 65535 + 1 < 65536 then 65535 + 1 else 65535 + 1 - 65536 + 1) ∧
    onec_add 65535 1 % 65535 = (65535 + 1) % 65535 ∧
    (onec_add 65535 1 = 0 ↔ 65535 = 0 ∧ 1 = 0) :=
  C10_onec_add 65535 1 (by decide) (by decide)

theorem csum_fold_helper_le (c : Nat) : csum_fold_helper c ≤ 65535 := by
  rw [csum_fold_helper_eq]; omega

theorem ipv4_mk_pheader_ok (be : Bool) (f : List Nat) (iph : Nat) (hlen : iph + 20 ≤ f.length) :
    ipv4_mk_pheader be f iph = .ok (pheader_of be f iph) := by
  unfold ipv4_mk_pheader
  rw [ld32_ok _ _ (by omega), ld32_ok _ _ (by omega), ld8_ok _ (by omega), ld16_ok _ _ (by omega)]
  rfl

theorem recompute_l4_csum_field_ok (be : Bool) (f : List Nat) (cf : Nat)
    (iphp_orig iphp_new : iph_pseudo) (hlen : cf + 2 ≤ f.length) :
    recompute_l4_csum_field be f cf iphp_orig iphp_new =
      .ok (wr16 be f cf (l4_csum_new be iphp_orig iphp_new (rd16 be f cf)),
        onec_add (l4_csum_new be iphp_orig iphp_new (rd16 be f cf))
          (not32 (rd16 be f cf) % 65536)) := by
  unfold recompute_l4_csum_field l4_csum_new
  have hle := csum_fold_helper_le
    (bpf_csum_diff be (iphp_orig.bytes be) (iphp_new.bytes be) (not32 (rd16 be f cf)))
  rw [if_neg (by omega), ld16_ok _ _ hlen]
  simp only [Mem.ok_bind]
  rw [st16_ok _ _ _ hlen]
  simp only [Mem.ok_bind]
  rw [ld16_ok _ _ (by simpa using hlen), rd16_wr16_eq _ _ _ hlen]
  simp only [Mem.ok_bind]
  rw [Nat.mod_eq_of_lt (by omega)]
  by_cases hv : csum_fold_helper
      (bpf_csum_diff be (iphp_orig.bytes be) (iphp_new.bytes be) (not32 (rd16 be f cf))) = 0
  · rw [if_pos hv, if_pos hv, st16_ok _ _ _ (by simpa using hlen)]
    simp only [Mem.ok_bind]
    rw [wr16_wr16_same, ld16_ok _ _ (by simpa using hlen), rd16_wr16_eq _ _ _ hlen]
    rfl
  · rw [if_neg hv, if_neg hv]
    simp only [Mem.pure_eq, Mem.ok_bind]
    rw [ld16_ok _ _ (by simpa using hlen), rd16_wr16_eq _ _ _ hlen, Nat.mod_eq_of_lt (by omega)]
    rfl
theorem bytes_ok_pseudo (be : Bool) (p : iph_pseudo) : bytes_ok (p.bytes be) := by
  intro b hb
  simp only [iph_pseudo.bytes, List.mem_cons, List.mem_singleton, List.not_mem_nil,
    or_false] at hb
  rcases hb with h | h | h | h | h | h | h | h | h | h | h | h <;> rw [h] <;>
    first
    | exact byte32_lt be _ _
    | exact byte16_lt be _ _
    | exact Nat.mod_lt _ (by norm_num)

@[simp] theorem length_pseudo (be : Bool) (p : iph_pseudo) : (p.bytes be).length = 12 := rfl

theorem l4_arith (wc wo wn po pn D old : Nat) (h1 : wc + wo = 4294967295 * 3)
    (h2 : wo % 65535 = po % 65535) (h3 : wn % 65535 = pn % 65535)
    (h4 : (po + D + old) % 65535 = 0) (h5 : old < 65536) :
    (if 65535 - ones16 (4294967295 - old + (wc + wn)) = 0 then 65535
      else 65535 - ones16 (4294967295 - old + (wc + wn))) =
    (if 65535 - ones16 (pn + D) = 0 then 65535 else 65535 - ones16 (pn + D)) := by
  have h : (4294967295 - old + (wc + wn)) % 65535 = (pn + D) % 65535 := by omega
  have a1 := ones16_mod (4294967295 - old + (wc + wn))
  have a3 := ones16_le (4294967295 - old + (wc + wn))
  have b1 := ones16_mod (pn + D)
  have b3 := ones16_le (pn + D)
  generalize ones16 (4294967295 - old + (wc + wn)) = x at *
  generalize ones16 (pn + D) = y at *
  split_ifs <;> omega

/-- The arithmetic of the incremental update: the value stored equals the full
recomputation, both taken in the byte order of the machine. -/
theorem l4_csum_new_eq (be : Bool) (iphp_orig iphp_new : iph_pseudo) (old D : Nat)
    (hold : old < 65536)
    (hvalid : ones16 ((words16 be (iphp_orig.bytes be)).sum + D + old) = 65535) :
    l4_csum_new be iphp_orig iphp_new old =
      (if 65535 - ones16 ((words16 be (iphp_new.bytes be)).sum + D) = 0 then 65535
       else 65535 - ones16 ((words16 be (iphp_new.bytes be)).sum + D)) := by
  have ho := bytes_ok_pseudo be iphp_orig
  have hn := bytes_ok_pseudo be iphp_new
  obtain ⟨hlt, heq⟩ := bpf_csum_diff_eq be (iphp_orig.bytes be) (iphp_new.bytes be) (not32 old)
    (by simp) (by simp) (by simp) hn
  obtain ⟨o1, -⟩ := sum_words32_words16 be _ ho (by simp)
  obtain ⟨n1, -⟩ := sum_words32_words16 be _ hn (by simp)
  have hnot := sum_map_not32 _ (words32_lt be _ ho)
  have hl3 : (words32 be (iphp_orig.bytes be)).length = 3 := rfl
  rw [hl3] at hnot
  have e : not32 old % 4294967296 = 4294967295 - old := by unfold not32; omega
  rw [e] at heq
  have hv := (ones16_eq_ffff_iff _).mp hvalid
  have key := l4_arith _ _ _ _ _ D old hnot o1 n1 hv.2 hold
  rw [← key, ← heq]
  unfold l4_csum_new
  rw [csum_fold_helper_eq, Nat.mod_eq_of_lt hlt]
theorem swap_arith (s t : Nat) (h1 : t % 65535 = (256 * s) % 65535) :
    (if 65535 - ones16 s = 0 then 65535 else 65535 - ones16 s) % 256 * 256 +
      (if 65535 - ones16 s = 0 then 65535 else 65535 - ones16 s) / 256 % 256 =
    (if 65535 - ones16 t = 0 then 65535 else 65535 - ones16 t) := by
  have a1 := ones16_mod s
  have a3 := ones16_le s
  have b1 := ones16_mod t
  have b3 := ones16_le t
  generalize ones16 s = x at *
  generalize ones16 t = y at *
  have h2 : y % 65535 = (256 * x) % 65535 := by omega
  clear h1 a1 b1
  by_cases hx : x = 65535
  · subst hx
    have : y = 0 ∨ y = 65535 := by omega
    rcases this with rfl | rfl <;> rfl
  · by_cases hx0 : x = 0
    · subst hx0
      have : y = 0 ∨ y = 65535 := by omega
      rcases this with rfl | rfl <;> rfl
    · have hy : y ≠ 0 ∧ y ≠ 65535 := by omega
      rw [if_neg (by omega), if_neg (by omega)]
      have e : (65535 - x) / 256 % 256 = (65535 - x) / 256 := by omega
      rw [e]
      omega

theorem mk16_true_byte16 (be : Bool) (v : Nat) :
    mk16 true (byte16 be v 0) (byte16 be v 1) =
      if be then v % 65536 else v % 256 * 256 + v / 256 % 256 := by
  cases be <;> simp [mk16, byte16]
  omega

theorem rd16_true_wr16 (be : Bool) (f : List Nat) (p v : Nat) (hlen : p + 2 ≤ f.length) :
    rd16 true (wr16 be f p v) p = if be then v % 65536 else v % 256 * 256 + v / 256 % 256 := by
  unfold rd16 wr16
  rw [rd8_wr8_ne _ _ (by omega), rd8_wr8_eq _ _ (by omega), rd8_wr8_eq _ _ (by simp; omega),
    Nat.mod_eq_of_lt (byte16_lt be _ 0), Nat.mod_eq_of_lt (byte16_lt be _ 1), mk16_true_byte16]

/-- From the byte order of the machine to the wire: a checksum computed and
stored in machine order reads, in network order, as the checksum computed in
network order. -/
theorem wire_of_mach (be : Bool) (bs : List Nat) (hbs : bytes_ok bs) (f : List Nat) (p : Nat)
    (hlen : p + 2 ≤ f.length) :
    rd16 true (wr16 be f p (if 65535 - ones16 (words16 be bs).sum = 0 then 65535
        else 65535 - ones16 (words16 be bs).sum)) p =
      (if 65535 - inet_sum bs = 0 then 65535 else 65535 - inet_sum bs) := by
  rw [inet_sum_eq bs hbs, rd16_true_wr16 be f p _ hlen]
  cases be
  · obtain ⟨h1, -⟩ := sum_words16_swap bs hbs
    simp only [Bool.false_eq_true, if_false]
    exact swap_arith _ _ h1
  · simp only [if_true]
    have b3 := ones16_le (words16 true bs).sum
    generalize ones16 (words16 true bs).sum = y at *
    split_ifs
    · rfl
    · omega
theorem recompute_l4_csum_fast_ok (be : Bool) (f : List Nat) (iph : Nat) (iphp_orig : iph_pseudo)
    (hproto : rd8 f (iph + 9) = IPPROTO_TCP ∨
      (rd8 f (iph + 9) = IPPROTO_UDP ∧ rd16 be f (iph + 20 + 6) ≠ 0))
    (hlen : iph + 20 + l4_csum_off (rd8 f (iph + 9)) + 2 ≤ f.length) :
    recompute_l4_csum_fast be f iph iphp_orig =
      .ok (wr16 be f (iph + 20 + l4_csum_off (rd8 f (iph + 9)))
          (l4_csum_new be iphp_orig (pheader_of be f iph)
            (rd16 be f (iph + 20 + l4_csum_off (rd8 f (iph + 9))))),
        onec_add (l4_csum_new be iphp_orig (pheader_of be f iph)
            (rd16 be f (iph + 20 + l4_csum_off (rd8 f (iph + 9)))))
          (not32 (rd16 be f (iph + 20 + l4_csum_off (rd8 f (iph + 9)))) % 65536)) := by
  have hl : 6 ≤ l4_csum_off (rd8 f (iph + 9)) := by unfold l4_csum_off; split_ifs <;> omega
  unfold recompute_l4_csum_fast
  rw [ipv4_mk_pheader_ok be f iph (by omega)]
  simp only [Mem.ok_bind]
  rw [ld8_ok _ (by omega)]
  simp only [Mem.ok_bind]
  rcases hproto with h | ⟨h, hc⟩
  · have e : l4_csum_off (rd8 f (iph + 9)) = 16 := by simp [l4_csum_off, h]
    rw [e] at hlen ⊢
    rw [if_pos h, recompute_l4_csum_field_ok be f _ _ _ hlen]
  · have e : l4_csum_off (rd8 f (iph + 9)) = 6 := by simp [l4_csum_off, h, IPPROTO_UDP, IPPROTO_TCP]
    rw [e] at hlen ⊢
    rw [if_neg (by rw [h]; decide), if_pos h, ld16_ok _ _ hlen]
    simp only [Mem.ok_bind]
    rw [if_neg hc, recompute_l4_csum_field_ok be f _ _ _ hlen]
theorem wr16_zero (be : Bool) (l : List Nat) (k : Nat) : wr16 be l k 0 = wr16 true l k 0 := by
  cases be <;> simp [wr16, byte16]

theorem valid_arith (P D : Nat) :
    ones16 (P + (D + (if 65535 - ones16 (P + D) = 0 then 65535 else 65535 - ones16 (P + D))))
      = 65535 := by
  rw [ones16_eq_ffff_iff]
  have b1 := ones16_mod (P + D)
  have b2 := ones16_eq_zero (P + D)
  have b3 := ones16_le (P + D)
  generalize ones16 (P + D) = y at *
  split_ifs <;> omega

theorem l4_csum_new_le (be : Bool) (o n : iph_pseudo) (old : Nat) :
    l4_csum_new be o n old ≤ 65535 := by
  unfold l4_csum_new
  have := csum_fold_helper_le (bpf_csum_diff be (o.bytes be) (n.bytes be) (not32 old))
  simp only []
  split_ifs <;> omega

theorem pheader_of_congr (be : Bool) (f g : List Nat) (iph : Nat)
    (h : ∀ q, q < iph + 20 → rd8 g q = rd8 f q) : pheader_of be g iph = pheader_of be f iph := by
  unfold pheader_of rd32 rd16
  rw [h _ (by omega), h _ (by omega), h _ (by omega), h _ (by omega), h _ (by omega),
    h _ (by omega), h _ (by omega), h _ (by omega), h _ (by omega), h _ (by omega),
    h _ (by omega)]

/-- C7, amended: for a TCP packet, or a UDP packet with a non-zero checksum,
with a 20-byte IPv4 header (version 4, IHL 5), held whole in the frame and
whose L4 checksum is valid with respect to the original pseudo-header,
`recompute_l4_csum_fast` writes only the checksum field; the value it stores
equals, on the wire, a full recomputation over the pseudo-header of the
rewritten IPv4 header, the L4 header and the payload (a computed 0 stored as
`0xFFFF`), so the packet is valid with respect to the new pseudo-header, also
when header and segment are taken by the IHL field (`l4_valid_ihl`); and the
value depends on the headers only: any frame with the same bytes up to the
checksum field gets the same value, whatever its payload. -/
theorem C7_recompute_l4_csum_fast (be : Bool) (f : List Nat) (iph : Nat) (iphp_orig : iph_pseudo)
    (hf : bytes_ok f)
    (hproto : rd8 f (iph + 9) = IPPROTO_TCP ∨
      (rd8 f (iph + 9) = IPPROTO_UDP ∧ rd16 be f (iph + 20 + 6) ≠ 0))
    (hmin : 20 + l4_csum_off (rd8 f (iph + 9)) + 2 ≤ rd16 true f (iph + 2))
    (hlen : iph + rd16 true f (iph + 2) ≤ f.length)
    (hvalid : inet_sum (iphp_orig.bytes be ++ l4_segment f iph) = 0xFFFF)
    (hver : rd8 f iph = 0x45) :
    ∃ c r,
      ipv4_mk_pheader be f iph = .ok (pheader_of be f iph) ∧
      recompute_l4_csum_fast be f iph iphp_orig =
        .ok (wr16 be f (iph + 20 + l4_csum_off (rd8 f (iph + 9))) c, r) ∧
      rd16 true (wr16 be f (iph + 20 + l4_csum_off (rd8 f (iph + 9))) c)
          (iph + 20 + l4_csum_off (rd8 f (iph + 9))) =
        l4_csum_full ((pheader_of be f iph).bytes be) (l4_segment f iph)
          (l4_csum_off (rd8 f (iph + 9))) ∧
      inet_sum ((pheader_of be f iph).bytes be ++
        l4_segment (wr16 be f (iph + 20 + l4_csum_off (rd8 f (iph + 9))) c) iph) = 0xFFFF ∧
      l4_valid_ihl (wr16 be f (iph + 20 + l4_csum_off (rd8 f (iph + 9))) c) iph ∧
      ∀ g, g.length = f.length →
        (∀ q, q < iph + 20 + l4_csum_off (rd8 f (iph + 9)) + 2 → rd8 g q = rd8 f q) →
        recompute_l4_csum_fast be g iph iphp_orig =
          .ok (wr16 be g (iph + 20 + l4_csum_off (rd8 f (iph + 9))) c, r) := by
  have hk : l4_csum_off (rd8 f (iph + 9)) = 16 ∨ l4_csum_off (rd8 f (iph + 9)) = 6 := by
    unfold l4_csum_off; split_ifs <;> simp
  have hk2 : l4_csum_off (rd8 f (iph + 9)) % 2 = 0 := by omega
  generalize hkdef : l4_csum_off (rd8 f (iph + 9)) = k at *
  generalize hndef : rd16 true f (iph + 2) = n at *
  -- the segment and its sum without the checksum field
  have hseg : bytes_ok (rdN f (iph + 20) (n - 20)) := bytes_ok_rdN f hf _ _
  have hold := rd16_lt be f hf (iph + 20 + k)
  have hs0 := sum_words16_wr16 be (rdN f (iph + 20) (n - 20)) k 0 hk2 (by simp; omega)
  rw [rd16_rdN be f _ _ (by omega)] at hs0
  -- validity in the byte order of the machine
  unfold l4_segment at hvalid
  rw [hndef, inet_sum_valid_iff be _ (bytes_ok_append (bytes_ok_pseudo be _) hseg),
    words16_append be _ _ (by simp), List.sum_append] at hvalid
  have hv : ones16 ((words16 be (iphp_orig.bytes be)).sum +
      (words16 be (wr16 be (rdN f (iph + 20) (n - 20)) k 0)).sum + rd16 be f (iph + 20 + k))
      = 65535 := by
    rw [← hvalid]; congr 1; omega
  have hnew := l4_csum_new_eq be iphp_orig (pheader_of be f iph) _ _ hold hv
  have hcle := l4_csum_new_le be iphp_orig (pheader_of be f iph) (rd16 be f (iph + 20 + k))
  have hres := recompute_l4_csum_fast_ok be f iph iphp_orig hproto (by rw [hkdef]; omega)
  rw [hkdef] at hres
  -- validity of the result
  have hn2 : rd16 true (wr16 be f (iph + 20 + k)
      (l4_csum_new be iphp_orig (pheader_of be f iph) (rd16 be f (iph + 20 + k)))) (iph + 2)
      = n := by
    rw [← hndef]; unfold rd16
    rw [rd8_wr16_ne be f _ (by omega) (by omega), rd8_wr16_ne be f _ (by omega) (by omega)]
  have hval : inet_sum ((pheader_of be f iph).bytes be ++ l4_segment (wr16 be f (iph + 20 + k)
      (l4_csum_new be iphp_orig (pheader_of be f iph) (rd16 be f (iph + 20 + k)))) iph)
      = 0xFFFF := by
    unfold l4_segment
    rw [hn2, rdN_wr16_in be f (iph + 20) (n - 20) _ (by omega) (by omega),
      inet_sum_valid_iff be _
        (bytes_ok_append (bytes_ok_pseudo be _) (bytes_ok_wr16 be _ hseg _ _)),
      words16_append be _ _ (by simp), List.sum_append]
    have hs1 := sum_words16_wr16 be (rdN f (iph + 20) (n - 20)) k
      (l4_csum_new be iphp_orig (pheader_of be f iph) (rd16 be f (iph + 20 + k))) hk2
      (by simp; omega)
    rw [rd16_rdN be f _ _ (by omega)] at hs1
    have e : (words16 be (wr16 be (rdN f (iph + 20) (n - 20)) k
        (l4_csum_new be iphp_orig (pheader_of be f iph) (rd16 be f (iph + 20 + k))))).sum
        = (words16 be (wr16 be (rdN f (iph + 20) (n - 20)) k 0)).sum +
          l4_csum_new be iphp_orig (pheader_of be f iph) (rd16 be f (iph + 20 + k)) := by
      omega
    rw [e, hnew]
    exact valid_arith _ _
  refine ⟨_, _, ipv4_mk_pheader_ok be f iph (by omega), hres, ?_, hval, ?_, ?_⟩
  · -- the stored value on the wire
    unfold l4_csum_full l4_segment
    simp only []
    rw [hndef, hnew, ← List.sum_append, ← words16_append be _ _ (by simp), ← wr16_zero be]
    exact wire_of_mach be _
      (bytes_ok_append (bytes_ok_pseudo be _) (bytes_ok_wr16 be _ hseg _ _)) f _ (by omega)
  · -- validity by the IHL field
    have h14 : rd8 (wr16 be f (iph + 20 + k)
        (l4_csum_new be iphp_orig (pheader_of be f iph) (rd16 be f (iph + 20 + k)))) iph
        = 0x45 := by
      rw [rd8_wr16_ne be f _ (by omega) (by omega)]; exact hver
    have hi := ihl5_notions be _ iph (bytes_ok_wr16 be f hf (iph + 20 + k)
      (l4_csum_new be iphp_orig (pheader_of be f iph) (rd16 be f (iph + 20 + k)))) h14
      (by rw [hn2]; omega)
    rw [hi.2.2.2.2.2.2,
      pheader_of_congr be f _ iph (fun q hq => rd8_wr16_ne be f _ (by omega) (by omega))]
    exact hval
  · -- no dependence on the payload
    intro g hg hsame
    have h9 : rd8 g (iph + 9) = rd8 f (iph + 9) := hsame _ (by omega)
    have hcf : ∀ p, p + 2 ≤ iph + 20 + k + 2 → rd16 be g p = rd16 be f p := by
      intro p hp
      unfold rd16
      rw [hsame _ (by omega), hsame _ (by omega)]
    have hk6 : 6 ≤ k := by omega
    have hproto2 : rd8 g (iph + 9) = IPPROTO_TCP ∨
        (rd8 g (iph + 9) = IPPROTO_UDP ∧ rd16 be g (iph + 20 + 6) ≠ 0) := by
      rw [h9, hcf _ (by omega)]; exact hproto
    have hres2 := recompute_l4_csum_fast_ok be g iph iphp_orig hproto2
      (by rw [h9, hkdef, hg]; omega)
    rw [h9, hkdef, hcf _ (Nat.le_refl _),
      pheader_of_congr be f g iph (fun q hq => hsame q (by omega))] at hres2
    exact hres2

set_option maxRecDepth 8000 in
/-- Witness of C9 on the header of `ex_udp_frame`. -/
theorem C9_recompute_iph_csum_witness :
    ∃ g, recompute_iph_csum false ex_udp_frame 14 = .ok g ∧ g.length = ex_udp_frame.length ∧
      bytes_ok g ∧ inet_sum (rdN g 14 20) = 0xFFFF ∧
      ∀ q, q ≠ 14 + 10 → q ≠ 14 + 11 → rd8 g q = rd8 ex_udp_frame q :=
  C9_recompute_iph_csum false ex_udp_frame 14 (by decide) (by decide)

set_option maxRecDepth 8000 in
/-- Witness of C8 on the header of `ex_udp_frame` (TTL 5). -/
theorem C8_ip_decrease_ttl_witness :
    ∃ g, ip_decrease_ttl false ex_udp_frame 14 = .ok (g, rd8 ex_udp_frame (14 + 8) - 1) ∧
      rd8 g (14 + 8) = rd8 ex_udp_frame (14 + 8) - 1 ∧
      recompute_iph_csum false (wr8 ex_udp_frame (14 + 8) (rd8 ex_udp_frame (14 + 8) - 1)) 14
        = .ok g :=
  C8_ip_decrease_ttl false ex_udp_frame 14 (by decide) (by decide) (by decide) (by decide)
    (by decide)

set_option maxRecDepth 8000 in
/-- Witness of C7: the datagram of `ex_udp_rewritten`, whose UDP checksum is
valid for the pseudo-header of `ex_udp_frame`. -/
theorem C7_recompute_l4_csum_fast_witness :
    ∃ c r,
      recompute_l4_csum_fast false ex_udp_rewritten 14 (pheader_of false ex_udp_frame 14) =
        .ok (wr16 false ex_udp_rewritten (14 + 20 + l4_csum_off (rd8 ex_udp_rewritten (14 + 9))) c,
          r) ∧
      inet_sum ((pheader_of false ex_udp_rewritten 14).bytes false ++
        l4_segment (wr16 false ex_udp_rewritten
          (14 + 20 + l4_csum_off (rd8 ex_udp_rewritten (14 + 9))) c) 14) = 0xFFFF := by
  obtain ⟨c, r, -, h2, -, h4, -, -⟩ :=
    C7_recompute_l4_csum_fast false ex_udp_rewritten 14 (pheader_of false ex_udp_frame 14)
      (by decide) (by decide) (by decide) (by decide) (by decide) (by decide)
  exact ⟨c, r, h2, h4⟩

/-! ### Effect of the helpers on the frame -/

theorem ip_decrease_ttl_frame (be : Bool) (f : List Nat) (iph : Nat) (hlen : iph + 20 ≤ f.length) :
    ∃ a, ip_decrease_ttl be f iph = .ok a ∧ a.1.length = f.length ∧
      (bytes_ok f → bytes_ok a.1) ∧
      rd8 a.1 (iph + 8) = (rd8 f (iph + 8) + 255) % 256 ∧
      ∀ q, q ≠ iph + 8 → q ≠ iph + 10 → q ≠ iph + 11 → rd8 a.1 q = rd8 f q := by
  refine ⟨_, ip_decrease_ttl_ok be f iph hlen, by simp, ?_, ?_, ?_⟩
  · intro hf; exact bytes_ok_wr8 _ (bytes_ok_wr16 be f hf _ _) _ _
  · rw [rd8_wr8_eq _ _ (by simp; omega)]; omega
  · intro q h8 h10 h11
    rw [rd8_wr8_ne _ _ (Ne.symm h8), rd8_wr16_ne be f _ (Ne.symm h10) (Ne.symm h11)]

theorem recompute_iph_csum_frame (be : Bool) (f : List Nat) (iph : Nat)
    (hlen : iph + 20 ≤ f.length) :
    ∃ g, recompute_iph_csum be f iph = .ok g ∧ g.length = f.length ∧
      (bytes_ok f → bytes_ok g) ∧
      ∀ q, q ≠ iph + 10 → q ≠ iph + 11 → rd8 g q = rd8 f q := by
  refine ⟨_, recompute_iph_csum_ok be f iph hlen, by simp, ?_, ?_⟩
  · intro hf; exact bytes_ok_wr16 be f hf _ _
  · intro q h10 h11
    exact rd8_wr16_ne be f _ (Ne.symm h10) (Ne.symm h11)

theorem recompute_l4_csum_field_frame (be : Bool) (f : List Nat) (cf : Nat)
    (o n : iph_pseudo) :
    ∃ a, recompute_l4_csum_field be f cf o n = .ok a ∧ a.1.length = f.length ∧
      (bytes_ok f → bytes_ok a.1) ∧
      ∀ q, q ≠ cf → q ≠ cf + 1 → rd8 a.1 q = rd8 f q := by
  by_cases h : cf + 2 ≤ f.length
  · refine ⟨_, recompute_l4_csum_field_ok be f cf o n h, by simp, ?_, ?_⟩
    · intro hf; exact bytes_ok_wr16 be f hf _ _
    · intro q h0 h1
      exact rd8_wr16_ne be f _ (Ne.symm h0) (Ne.symm h1)
  · refine ⟨(f, 0), ?_, rfl, id, fun _ _ _ => rfl⟩
    unfold recompute_l4_csum_field
    rw [if_pos (by omega)]
    rfl

theorem recompute_l4_csum_fast_frame (be : Bool) (f : List Nat) (iph : Nat) (o : iph_pseudo)
    (hlen : iph + 28 ≤ f.length) :
    ∃ a, recompute_l4_csum_fast be f iph o = .ok a ∧ a.1.length = f.length ∧
      (bytes_ok f → bytes_ok a.1) ∧
      ∀ q, q ≠ iph + 26 → q ≠ iph + 27 → q ≠ iph + 36 → q ≠ iph + 37 →
        rd8 a.1 q = rd8 f q := by
  unfold recompute_l4_csum_fast
  rw [ipv4_mk_pheader_ok be f iph (by omega)]
  simp only [Mem.ok_bind]
  rw [ld8_ok _ (by omega)]
  simp only [Mem.ok_bind]
  by_cases ht : rd8 f (iph + 9) = IPPROTO_TCP
  · rw [if_pos ht]
    obtain ⟨a, h1, h2, h3, h4⟩ :=
      recompute_l4_csum_field_frame be f (iph + 20 + 16) o (pheader_of be f iph)
    exact ⟨a, h1, h2, h3, fun q _ _ h36 h37 => h4 q (by omega) (by omega)⟩
  · rw [if_neg ht]
    by_cases hu : rd8 f (iph + 9) = IPPROTO_UDP
    · rw [if_pos hu, ld16_ok _ _ (by omega)]
      simp only [Mem.ok_bind]
      by_cases hc : rd16 be f (iph + 20 + 6) = 0
      · rw [if_pos hc]
        exact ⟨(f, 0), rfl, rfl, id, fun _ _ _ _ _ => rfl⟩
      · rw [if_neg hc]
        obtain ⟨a, h1, h2, h3, h4⟩ :=
          recompute_l4_csum_field_frame be f (iph + 20 + 6) o (pheader_of be f iph)
        exact ⟨a, h1, h2, h3, fun q h26 h27 _ _ => h4 q (by omega) (by omega)⟩
    · rw [if_neg hu]
      exact ⟨(f, 0), rfl, rfl, id, fun _ _ _ _ _ => rfl⟩

theorem rd8_wr_mac_ne (f : List Nat) (p : Nat) (m : macaddr_t) {q : Nat}
    (h : q < p ∨ p + 6 ≤ q) : rd8 (wr_mac f p m) q = rd8 f q := by
  unfold wr_mac
  rw [rd8_wr8_ne _ _ (by omega), rd8_wr8_ne _ _ (by omega), rd8_wr8_ne _ _ (by omega),
    rd8_wr8_ne _ _ (by omega), rd8_wr8_ne _ _ (by omega), rd8_wr8_ne _ _ (by omega)]

theorem rd_mac_wr_mac (f : List Nat) (p : Nat) (m : macaddr_t) (hm : m.ok)
    (hlen : p + 6 ≤ f.length) : rd_mac (wr_mac f p m) p = m := by
  obtain ⟨h0, h1, h2, h3, h4, h5⟩ := hm
  have e0 : rd8 (wr_mac f p m) p = m.b0 := by
    unfold wr_mac; simp only [rd8_wr8, length_wr8, true_and]; split_ifs <;> omega
  have e1 : rd8 (wr_mac f p m) (p + 1) = m.b1 := by
    unfold wr_mac; simp only [rd8_wr8, length_wr8, true_and]; split_ifs <;> omega
  have e2 : rd8 (wr_mac f p m) (p + 2) = m.b2 := by
    unfold wr_mac; simp only [rd8_wr8, length_wr8, true_and]; split_ifs <;> omega
  have e3 : rd8 (wr_mac f p m) (p + 3) = m.b3 := by
    unfold wr_mac; simp only [rd8_wr8, length_wr8, true_and]; split_ifs <;> omega
  have e4 : rd8 (wr_mac f p m) (p + 4) = m.b4 := by
    unfold wr_mac; simp only [rd8_wr8, length_wr8, true_and]; split_ifs <;> omega
  have e5 : rd8 (wr_mac f p m) (p + 5) = m.b5 := by
    unfold wr_mac; simp only [rd8_wr8, length_wr8, true_and]; split_ifs <;> omega
  unfold rd_mac
  rw [e0, e1, e2, e3, e4, e5]

theorem rd_mac_congr (f g : List Nat) (p : Nat)
    (h : ∀ q, p ≤ q → q < p + 6 → rd8 g q = rd8 f q) : rd_mac g p = rd_mac f p := by
  unfold rd_mac
  rw [h _ (by omega) (by omega), h _ (by omega) (by omega), h _ (by omega) (by omega),
    h _ (by omega) (by omega), h _ (by omega) (by omega), h _ (by omega) (by omega)]

theorem rd16_congr (be : Bool) (f g : List Nat) (p : Nat)
    (h : ∀ q, p ≤ q → q < p + 2 → rd8 g q = rd8 f q) : rd16 be g p = rd16 be f p := by
  unfold rd16
  rw [h _ (by omega) (by omega), h _ (by omega) (by omega)]

theorem rd32_congr (be : Bool) (f g : List Nat) (p : Nat)
    (h : ∀ q, p ≤ q → q < p + 4 → rd8 g q = rd8 f q) : rd32 be g p = rd32 be f p := by
  unfold rd32
  rw [h _ (by omega) (by omega), h _ (by omega) (by omega), h _ (by omega) (by omega),
    h _ (by omega) (by omega)]

theorem mac_eq_iff (a b : macaddr_t) : mac_eq a b = true ↔ a = b := by
  cases a; cases b
  simp [mac_eq]
  tauto

/-! ### The parse phase of `xdp_prog` -/

theorem xdp_prog_ip (be : Bool) (ktime : Nat → Nat) (ctx : xdp_md) (st : State)
    (hlen : 14 ≤ ctx.data.length) (hip : rd16 be ctx.data 12 = bpf_htons be ETH_P_IP) :
    xdp_prog be ktime ctx st =
      xdp_prog_ipv4 be ktime ctx st (eth_is_broadcast ctx.data) (eth_is_multicast ctx.data) := by
  unfold xdp_prog
  simp only []
  rw [if_neg (by omega), ld_mac_ok _ (by omega)]
  simp only [Mem.ok_bind]
  rw [ld16_ok _ _ (by omega)]
  simp only [Mem.ok_bind]
  rw [if_pos hip]
  rfl

theorem xdp_prog_routes (be : Bool) (ktime : Nat → Nat) (ctx : xdp_md) (st : State)
    (h : ipv4_l4_frame be ctx.data) :
    xdp_prog be ktime ctx st =
      xdp_prog_ip_routes be ktime ctx
        (if rd8 ctx.data 23 = IPPROTO_UDP then learn_switch be st ctx.data else st)
        (eth_is_multicast ctx.data) (l4_of be ctx.data) (pheader_of be ctx.data 14) := by
  obtain ⟨h34, hip, hp⟩ := h
  rw [xdp_prog_ip be ktime ctx st (by omega) hip]
  unfold xdp_prog_ipv4
  simp only []
  rw [if_neg (by omega), ipv4_mk_pheader_ok be _ 14 (by omega)]
  simp only [Mem.ok_bind]
  rw [ld8_ok _ (by omega)]
  simp only [Mem.ok_bind]
  have hne : IPPROTO_UDP ≠ IPPROTO_TCP ∧ IPPROTO_ICMP ≠ IPPROTO_TCP ∧
      IPPROTO_ICMP ≠ IPPROTO_UDP ∧ IPPROTO_TCP ≠ IPPROTO_UDP := by decide
  rcases hp with ⟨hp, hl⟩ | ⟨hp, hl⟩ | ⟨hp, hl⟩
  · rw [if_pos hp, if_neg (by omega), ld16_ok _ _ (by omega)]
    simp only [Mem.ok_bind]
    rw [ld16_ok _ _ (by omega)]
    simp only [Mem.ok_bind]
    rw [ld16_ok _ _ (by omega)]
    simp only [Mem.ok_bind, l4_of, hp, hne.2.2.2, if_true, if_false]
  · rw [if_neg (by rw [hp]; exact hne.1), if_pos hp, if_neg (by omega), ld16_ok _ _ (by omega)]
    simp only [Mem.ok_bind]
    rw [ld16_ok _ _ (by omega)]
    simp only [Mem.ok_bind]
    rw [ld16_ok _ _ (by omega)]
    simp only [Mem.ok_bind]
    rw [ld32_ok _ _ (by omega)]
    simp only [Mem.ok_bind]
    rw [ld_mac_ok _ (by omega)]
    simp only [Mem.ok_bind, l4_of, learn_switch, hp, hne.1, if_true, if_false]
  · rw [if_neg (by rw [hp]; exact hne.2.1), if_neg (by rw [hp]; exact hne.2.2.1), if_pos hp,
      if_neg (by omega), ld8_ok _ (by omega)]
    simp only [Mem.ok_bind, l4_of, hp, hne.2.1, hne.2.2.1, if_true, if_false]

theorem multicast_of_broadcast (f : List Nat) (h : eth_is_broadcast f = true) :
    eth_is_multicast f = true := by
  unfold eth_is_broadcast at h
  rw [mac_eq_iff] at h
  unfold eth_is_multicast
  rw [h]
  decide

theorem learn_switch_of_unicast (be : Bool) (st : State) (f : List Nat)
    (h : eth_is_multicast f = false) : learn_switch be st f = st := by
  unfold learn_switch
  rw [if_neg]
  intro hc
  have := multicast_of_broadcast f hc.2.1
  rw [h] at this
  exact Bool.noConfusion this

theorem xdp_prog_ip_routes_nat (be : Bool) (ktime : Nat → Nat) (ctx : xdp_md) (st : State)
    (mc : Bool) (l4 : l4_locals) (o : iph_pseudo) (hlen : 34 ≤ ctx.data.length)
    (h : nat_route_cond st mc (rd_mac ctx.data 6) (rd32 be ctx.data 26) (rd32 be ctx.data 30)
      = true) :
    xdp_prog_ip_routes be ktime ctx st mc l4 o = xdp_prog_nat_route be ktime ctx st l4 o := by
  unfold xdp_prog_ip_routes
  simp only []
  rw [ld_mac_ok _ (by omega)]
  simp only [Mem.ok_bind]
  rw [ld32_ok _ _ (by omega)]
  simp only [Mem.ok_bind]
  rw [ld32_ok _ _ (by omega)]
  simp only [Mem.ok_bind]
  rw [if_pos h]

/-! ### The NAT route -/

theorem Mem.bind_spec {α β : Type} {x : Mem α} {k : α → Mem β} {P : α → Prop} {Q : β → Prop}
    (hx : ∃ a, x = .ok a ∧ P a) (hk : ∀ a, P a → ∃ b, k a = .ok b ∧ Q b) :
    ∃ b, (x >>= k) = .ok b ∧ Q b := by
  obtain ⟨a, rfl, ha⟩ := hx
  exact hk a ha

theorem nat_route_tx (be : Bool) (ktime : Nat → Nat) (ctx : xdp_md) (st : State)
    (l4 : l4_locals) (o : iph_pseudo) (hf : bytes_ok ctx.data)
    (hicmp : l4.icmp_type = .NOT_ICMP) (hsp : l4.src_port = rd16 be ctx.data 34)
    (hp : (rd8 ctx.data 23 = IPPROTO_TCP ∧ 54 ≤ ctx.data.length) ∨
      (rd8 ctx.data 23 = IPPROTO_UDP ∧ 42 ≤ ctx.data.length))
    (httl : 1 < rd8 ctx.data 22) :
    ∃ b, xdp_prog_nat_route be ktime ctx st l4 o = .ok b ∧
      ∃ g key entry, b = (.XDP_TX, { ctx with data := g },
          { st with conntrack_map := map_update CONNTRACK_MAX st.conntrack_map key entry }) ∧
        key = { protocol := rd8 ctx.data 23, sport := rd16 be g 34,
                daddr := rd32 be ctx.data 30, dport := l4.dst_port } ∧
        entry = { saddr := rd32 be ctx.data 26,
                  sport_real := if rd8 ctx.data 23 = IPPROTO_UDP then l4.src_port else 0,
                  h_source := rd_mac ctx.data 6, ktime_ns := bpf_ktime_get_ns ktime 0 } ∧
        g.length = ctx.data.length ∧ bytes_ok g ∧
        rd8 g 22 = rd8 ctx.data 22 - 1 ∧
        rd32 be g 26 = st.public_host_ip % 4294967296 ∧
        (st.gateway_mac.ok → rd_mac g 0 = st.gateway_mac) ∧
        (st.host_mac.ok → rd_mac g 6 = st.host_mac) ∧
        rd16 be g 34 = (if rd8 ctx.data 23 = IPPROTO_UDP then
            (l4.src_port + bpf_ktime_get_ns ktime 0 % 0xFF) % 65536
          else rd16 be ctx.data 34) ∧
        ∀ q, 12 ≤ q → q ≠ 22 → q ≠ 24 → q ≠ 25 → (q < 26 ∨ 30 ≤ q) → q ≠ 34 → q ≠ 35 →
          q ≠ 40 → q ≠ 41 → q ≠ 50 → q ≠ 51 → rd8 g q = rd8 ctx.data q := by
  have hlen : 42 ≤ ctx.data.length := by omega
  have h22 := rd8_lt _ hf 22
  unfold xdp_prog_nat_route
  simp only []
  rw [ld8_ok _ (by omega)]
  simp only [Mem.ok_bind]
  rw [if_neg (by omega), ld32_ok _ _ (by omega)]
  simp only [Mem.ok_bind]
  rw [if_pos hicmp, ld8_ok _ (by omega)]
  simp only [Mem.ok_bind]
  refine Mem.bind_spec
    (P := fun a => a.1.length = ctx.data.length ∧ bytes_ok a.1 ∧
      a.2.1 = rd16 be a.1 34 ∧
      a.2.1 = (if rd8 ctx.data 23 = IPPROTO_UDP then
          (l4.src_port + bpf_ktime_get_ns ktime 0 % 0xFF) % 65536 else rd16 be ctx.data 34) ∧
      a.2.2 = (if rd8 ctx.data 23 = IPPROTO_UDP then l4.src_port else 0) ∧
      ∀ q, q ≠ 34 → q ≠ 35 → q ≠ 40 → q ≠ 41 → rd8 a.1 q = rd8 ctx.data q) ?_ ?_
  · by_cases hu : rd8 ctx.data 23 = IPPROTO_UDP
    · rw [if_pos hu, ld16_ok _ _ (by omega)]
      simp only [Mem.ok_bind]
      rw [st16_ok _ _ _ (by omega)]
      simp only [Mem.ok_bind]
      rw [ld16_ok _ _ (by simp only [length_wr16]; omega)]
      simp only [Mem.ok_bind]
      rw [st16_ok _ _ _ (by simp only [length_wr16]; omega)]
      simp only [Mem.ok_bind]
      rw [st16_ok _ _ _ (by simp only [length_wr16]; omega)]
      simp only [Mem.ok_bind, Mem.pure_eq]
      refine ⟨_, rfl, by simp, ?_, ?_, ?_, ?_, ?_⟩
      · exact bytes_ok_wr16 _ _ (bytes_ok_wr16 _ _ (bytes_ok_wr16 _ _ hf _ _) _ _) _ _
      · simp only []
        rw [rd16_wr16_eq _ _ _ (by simp only [length_wr16]; omega), Nat.mod_mod]
      · simp only [if_pos hu]
      · simp only [if_pos hu]
      · intro q h34 h35 h40 h41
        simp only []
        rw [rd8_wr16_ne _ _ _ (by omega) (by omega), rd8_wr16_ne _ _ _ (by omega) (by omega),
          rd8_wr16_ne _ _ _ (by omega) (by omega)]
    · rw [if_neg hu]
      simp only [Mem.pure_eq]
      exact ⟨_, rfl, rfl, hf, hsp, by simp only [if_neg hu]; exact hsp,
        by simp only [if_neg hu], fun _ _ _ _ _ => rfl⟩
  · rintro ⟨f1, sp, spr⟩ ⟨hl1, hb1, hsp1, hsp2, hspr, hq1⟩
    simp only [] at hl1 hb1 hsp1 hsp2 hspr hq1 ⊢
    rw [ld8_ok _ (by omega)]
    simp only [Mem.ok_bind]
    rw [ld32_ok _ _ (by omega)]
    simp only [Mem.ok_bind]
    rw [ld_mac_ok _ (by omega)]
    simp only [Mem.ok_bind]
    refine Mem.bind_spec (ip_decrease_ttl_frame be f1 14 (by omega)) ?_
    rintro ⟨f2, r2⟩ ⟨hl2, hb2, ht2, hq2⟩
    simp only [] at hl2 hb2 ht2 hq2 ⊢
    rw [st32_ok _ _ _ (by omega)]
    simp only [Mem.ok_bind]
    refine Mem.bind_spec (recompute_iph_csum_frame be _ 14 (by simp only [length_wr32]; omega)) ?_
    rintro f3 ⟨hl3, hb3, hq3⟩
    simp only [length_wr32] at hl3
    refine Mem.bind_spec (recompute_l4_csum_fast_frame be f3 14 o (by omega)) ?_
    rintro ⟨f4, r4⟩ ⟨hl4, hb4, hq4⟩
    simp only [] at hl4 hb4 hq4 ⊢
    rw [st_mac_ok _ _ (by omega)]
    simp only [Mem.ok_bind]
    rw [st_mac_ok _ _ (by simp only [length_wr_mac]; omega)]
    simp only [Mem.ok_bind, Mem.pure_eq]
    have hg : ∀ q, 12 ≤ q → q ≠ 22 → q ≠ 24 → q ≠ 25 → (q < 26 ∨ 30 ≤ q) → q ≠ 40 → q ≠ 41 →
        q ≠ 50 → q ≠ 51 →
        rd8 (wr_mac (wr_mac f4 0 st.gateway_mac) 6 st.host_mac) q = rd8 f1 q := by
      intro q h12 h22 h24 h25 h26 h40 h41 h50 h51
      rw [rd8_wr_mac_ne _ _ _ (by omega), rd8_wr_mac_ne _ _ _ (by omega),
        hq4 q (by omega) (by omega) (by omega) (by omega), hq3 q (by omega) (by omega),
        rd8_wr32_ne be f2 _ (by omega) (by omega) (by omega) (by omega),
        hq2 q (by omega) (by omega) (by omega)]
    have h34 : rd16 be (wr_mac (wr_mac f4 0 st.gateway_mac) 6 st.host_mac) 34 = rd16 be f1 34 :=
      rd16_congr be _ _ 34 (fun q h1 h2 => hg q (by omega) (by omega) (by omega) (by omega)
        (by omega) (by omega) (by omega) (by omega) (by omega))
    have e23 : rd8 f1 23 = rd8 ctx.data 23 := hq1 23 (by omega) (by omega) (by omega) (by omega)
    have e30 : rd32 be f1 30 = rd32 be ctx.data 30 :=
      rd32_congr be _ _ 30 (fun q h1 h2 => hq1 q (by omega) (by omega) (by omega) (by omega))
    have e6 : rd_mac f1 6 = rd_mac ctx.data 6 :=
      rd_mac_congr _ _ 6 (fun q h1 h2 => hq1 q (by omega) (by omega) (by omega) (by omega))
    refine ⟨_, rfl, wr_mac (wr_mac f4 0 st.gateway_mac) 6 st.host_mac, _, _, rfl, ?_, ?_, ?_, ?_,
      ?_, ?_, ?_, ?_, ?_, ?_⟩
    · rw [h34, e23, e30, hsp1]
    · rw [e6, hspr]
    · simp only [length_wr_mac]; omega
    · exact bytes_ok_wr_mac _ (bytes_ok_wr_mac _
        (hb4 (hb3 (bytes_ok_wr32 be _ (hb2 hb1) _ _))) _ _) _ _
    · rw [rd8_wr_mac_ne _ _ _ (by omega), rd8_wr_mac_ne _ _ _ (by omega),
        hq4 22 (by omega) (by omega) (by omega) (by omega), hq3 22 (by omega) (by omega),
        rd8_wr32_ne be f2 _ (by omega) (by omega) (by omega) (by omega), ht2,
        hq1 22 (by omega) (by omega) (by omega) (by omega)]
      omega
    · rw [rd32_congr be (wr32 be f2 26 st.public_host_ip) _ 26 (fun q h1 h2 => by
        rw [rd8_wr_mac_ne _ _ _ (by omega), rd8_wr_mac_ne _ _ _ (by omega),
          hq4 q (by omega) (by omega) (by omega) (by omega), hq3 q (by omega) (by omega)]),
        rd32_wr32_eq be f2 _ (by omega)]
    · intro hm
      rw [rd_mac_congr (wr_mac f4 0 st.gateway_mac) _ 0 (fun q h1 h2 => by
        rw [rd8_wr_mac_ne _ _ _ (by omega)]), rd_mac_wr_mac _ _ _ hm (by omega)]
    · intro hm
      exact rd_mac_wr_mac _ _ _ hm (by simp only [length_wr_mac]; omega)
    · rw [h34, ← hsp1, hsp2]
    · intro q h12 h22 h24 h25 h26 h34 h35 h40 h41 h50 h51
      rw [hg q h12 h22 h24 h25 h26 h40 h41 h50 h51, hq1 q h34 h35 h40 h41]
theorem map_lookup_update {κ ν : Type} [DecidableEq κ] (cap : Nat) (m : List (κ × ν)) (k : κ)
    (v : ν) (hcap : 0 < cap) : map_lookup (map_update cap m k v) k = some v := by
  obtain ⟨c, rfl⟩ : ∃ c, cap = c + 1 := ⟨cap - 1, by omega⟩
  simp [map_update, map_lookup]

theorem l4_of_tcp_udp (be : Bool) (f : List Nat)
    (h : rd8 f 23 = IPPROTO_TCP ∨ rd8 f 23 = IPPROTO_UDP) :
    (l4_of be f).icmp_type = .NOT_ICMP ∧ (l4_of be f).src_port = rd16 be f 34 ∧
      (l4_of be f).dst_port = rd16 be f 36 := by
  unfold l4_of
  rcases h with h | h
  · rw [if_pos h]; exact ⟨rfl, rfl, rfl⟩
  · rw [if_neg (by rw [h]; decide), if_pos h]; exact ⟨rfl, rfl, rfl⟩

theorem unicast_of_nat_route (be : Bool) (st : State) (f : List Nat)
    (h : takes_nat_route be st f = true) : eth_is_multicast f = false := by
  unfold takes_nat_route nat_route_cond at h
  simp only [Bool.and_eq_true, Bool.not_eq_true'] at h
  exact h.1.1.1.1.1

/-- The program on a TCP or UDP frame for which the guard of the NAT route
holds. -/
theorem xdp_prog_nat (be : Bool) (ktime : Nat → Nat) (ctx : xdp_md) (st : State)
    (hfr : tcp_udp_frame be ctx.data) (hnat : takes_nat_route be st ctx.data = true) :
    xdp_prog be ktime ctx st =
      xdp_prog_nat_route be ktime ctx st (l4_of be ctx.data) (pheader_of be ctx.data 14) := by
  obtain ⟨hip, hp⟩ := hfr
  have hlen : 42 ≤ ctx.data.length := by omega
  have hl4 : ipv4_l4_frame be ctx.data := by
    refine ⟨by omega, hip, ?_⟩
    rcases hp with h | h
    · exact Or.inl h
    · exact Or.inr (Or.inl h)
  have hst : (if rd8 ctx.data 23 = IPPROTO_UDP then learn_switch be st ctx.data else st) = st := by
    rw [learn_switch_of_unicast be st _ (unicast_of_nat_route be st _ hnat)]
    exact ite_self _
  rw [xdp_prog_routes be ktime ctx st hl4, hst,
    xdp_prog_ip_routes_nat be ktime ctx st _ _ _ (by omega) hnat]

/-- C1, amended: whenever `xdp_prog` takes the outbound NAT route for a TCP or
UDP frame with a 20-byte IPv4 header (version 4, IHL 5, so that the ports are
the bytes at offsets 34 and 36 of the frame) and TTL above 1, the verdict is
`XDP_TX`; the frame that leaves has the public address as IPv4 source, the TTL
decremented by one, `gateway_mac` as Ethernet destination and `host_mac` as
Ethernet source, and its destination address and port are unchanged;
`conntrack_map` afterwards maps the key of protocol, translated source port,
destination address and destination port to the original source address, the
original source port (UDP), the original source MAC and the current time; and
the frame that leaves has a 20-byte IPv4 header still, behind which the
destination port is the one of the original packet. -/
theorem C1_outbound_nat (be : Bool) (ktime : Nat → Nat) (ctx : xdp_md) (st : State)
    (hf : bytes_ok ctx.data) (hst : st.ok) (hfr : tcp_udp_frame be ctx.data)
    (hnat : takes_nat_route be st ctx.data = true) (httl : 1 < rd8 ctx.data 22)
    (hver : rd8 ctx.data 14 = 0x45) :
    ∃ g cm, xdp_prog be ktime ctx st =
        .ok (.XDP_TX, { ctx with data := g }, { st with conntrack_map := cm }) ∧
      g.length = ctx.data.length ∧
      rd32 be g 26 = st.public_host_ip ∧
      rd8 g 22 = rd8 ctx.data 22 - 1 ∧
      rd_mac g 0 = st.gateway_mac ∧
      rd_mac g 6 = st.host_mac ∧
      rd32 be g 30 = rd32 be ctx.data 30 ∧
      rd16 be g 36 = rd16 be ctx.data 36 ∧
      map_lookup cm
          { protocol := rd8 ctx.data 23, sport := rd16 be g 34,
            daddr := rd32 be ctx.data 30, dport := rd16 be ctx.data 36 } =
        some
          { saddr := rd32 be ctx.data 26,
            sport_real := if rd8 ctx.data 23 = IPPROTO_UDP then rd16 be ctx.data 34 else 0,
            h_source := rd_mac ctx.data 6,
            ktime_ns := bpf_ktime_get_ns ktime 0 } ∧
      ip_hdr_len g 14 = 20 ∧ l4_dst_port g 14 = l4_dst_port ctx.data 14 := by
  have hp := hfr.2
  obtain ⟨hi, hs, hd⟩ := l4_of_tcp_udp be ctx.data (by
    rcases hp with h | h
    · exact Or.inl h.1
    · exact Or.inr h.1)
  obtain ⟨b, hb, g, key, entry, rfl, hkey, hentry, hlen, -, ht, hsa, hgw, hhost, -, hq⟩ :=
    nat_route_tx be ktime ctx st (l4_of be ctx.data) (pheader_of be ctx.data 14) hf hi hs hp httl
  obtain ⟨hhm, hgm, -, hpub, -⟩ := hst
  have h14 : rd8 g 14 = 0x45 := by
    rw [hq 14 (by omega) (by omega) (by omega) (by omega)
      (by omega) (by omega) (by omega) (by omega) (by omega) (by omega) (by omega), hver]
  refine ⟨g, map_update CONNTRACK_MAX st.conntrack_map key entry, ?_, hlen, ?_, ht, hgw hgm,
    hhost hhm, ?_, ?_, ?_, ?_, ?_⟩
  · rw [xdp_prog_nat be ktime ctx st hfr hnat, hb]
  · rw [hsa, Nat.mod_eq_of_lt hpub]
  · exact rd32_congr be _ _ 30 (fun q h1 h2 => hq q (by omega) (by omega) (by omega) (by omega)
      (by omega) (by omega) (by omega) (by omega) (by omega) (by omega) (by omega))
  · exact rd16_congr be _ _ 36 (fun q h1 h2 => hq q (by omega) (by omega) (by omega) (by omega)
      (by omega) (by omega) (by omega) (by omega) (by omega) (by omega) (by omega))
  · rw [hd] at hkey
    rw [hs] at hentry
    rw [← hkey, ← hentry]
    exact map_lookup_update _ _ _ _ (by decide)
  · unfold ip_hdr_len
    rw [h14]
  · unfold l4_dst_port ip_hdr_len
    rw [h14, hver]
    exact rd16_congr true _ _ 36 (fun q h1 h2 => hq q (by omega) (by omega) (by omega) (by omega)
      (by omega) (by omega) (by omega) (by omega) (by omega) (by omega) (by omega))

/-! ### The NAT return route -/

theorem xdp_prog_ip_routes_other (be : Bool) (ktime : Nat → Nat) (ctx : xdp_md) (st : State)
    (mc : Bool) (l4 : l4_locals) (o : iph_pseudo) (hlen : 34 ≤ ctx.data.length)
    (h : nat_route_cond st mc (rd_mac ctx.data 6) (rd32 be ctx.data 26) (rd32 be ctx.data 30)
      = false) :
    xdp_prog_ip_routes be ktime ctx st mc l4 o = xdp_prog_other_routes be ktime ctx st mc l4 o := by
  unfold xdp_prog_ip_routes
  simp only []
  rw [ld_mac_ok _ (by omega)]
  simp only [Mem.ok_bind]
  rw [ld32_ok _ _ (by omega)]
  simp only [Mem.ok_bind]
  rw [ld32_ok _ _ (by omega)]
  simp only [Mem.ok_bind]
  rw [if_neg (by rw [h]; exact Bool.false_ne_true)]

theorem xdp_prog_other_routes_return (be : Bool) (ktime : Nat → Nat) (ctx : xdp_md) (st : State)
    (mc : Bool) (l4 : l4_locals) (o : iph_pseudo) (hlen : 34 ≤ ctx.data.length)
    (hdp : l4.dst_port = rd16 be ctx.data 36) (h : takes_nat_return be st ctx.data) :
    xdp_prog_other_routes be ktime ctx st mc l4 o = xdp_prog_nat_return be ktime ctx st l4 o := by
  obtain ⟨-, hmac, hda, hvpn, hfg, hsub⟩ := h
  unfold xdp_prog_other_routes
  simp only []
  rw [ld_mac_ok _ (by omega)]
  simp only [Mem.ok_bind]
  rw [if_neg (by rw [hmac]; exact Bool.false_ne_true), ld32_ok _ _ (by omega)]
  simp only [Mem.ok_bind]
  rw [if_pos hda, ld8_ok _ (by omega)]
  simp only [Mem.ok_bind]
  rw [if_neg (by rw [hdp]; exact hvpn), ld32_ok _ _ (by omega)]
  simp only [Mem.ok_bind]
  rw [if_pos ⟨hfg, hsub⟩]

theorem state_at_routes_of_return (be : Bool) (st : State) (f : List Nat)
    (h : takes_nat_return be (state_at_routes be st f) f) : state_at_routes be st f = st := by
  by_cases hl : state_at_routes be st f = st
  · exact hl
  · exfalso
    have hmac := h.2.1
    unfold state_at_routes at hl hmac
    by_cases hu : rd8 f 23 = IPPROTO_UDP
    · rw [if_pos hu] at hl hmac
      unfold learn_switch at hl hmac
      by_cases hc : rd16 be f 36 = bpf_htons be 49152 ∧ eth_is_broadcast f = true ∧
          st.switch_ip = 0
      · rw [if_pos hc] at hmac
        simp only [] at hmac
        have : mac_eq (rd_mac f 6) (rd_mac f 6) = true := (mac_eq_iff _ _).mpr rfl
        rw [this] at hmac
        exact Bool.noConfusion hmac
      · rw [if_neg hc] at hl
        exact hl rfl
    · rw [if_neg hu] at hl
      exact hl rfl

/-- The program on a TCP or UDP frame for which the conditions of the NAT
return route hold. -/
theorem xdp_prog_return (be : Bool) (ktime : Nat → Nat) (ctx : xdp_md) (st : State)
    (hfr : tcp_udp_frame be ctx.data)
    (hret : takes_nat_return be (state_at_routes be st ctx.data) ctx.data) :
    xdp_prog be ktime ctx st =
      xdp_prog_nat_return be ktime ctx st (l4_of be ctx.data) (pheader_of be ctx.data 14) := by
  have hst := state_at_routes_of_return be st ctx.data hret
  rw [hst] at hret
  obtain ⟨hip, hp⟩ := hfr
  have hlen : 42 ≤ ctx.data.length := by omega
  have hl4 : ipv4_l4_frame be ctx.data := by
    refine ⟨by omega, hip, ?_⟩
    rcases hp with h | h
    · exact Or.inl h
    · exact Or.inr (Or.inl h)
  obtain ⟨-, -, hd⟩ := l4_of_tcp_udp be ctx.data (by
    rcases hp with h | h
    · exact Or.inl h.1
    · exact Or.inr h.1)
  have hst2 : (if rd8 ctx.data 23 = IPPROTO_UDP then learn_switch be st ctx.data else st) = st :=
    hst
  rw [xdp_prog_routes be ktime ctx st hl4, hst2,
    xdp_prog_ip_routes_other be ktime ctx st _ _ _ (by omega) hret.1,
    xdp_prog_other_routes_return be ktime ctx st _ _ _ (by omega) hd hret]
theorem map_lookup_delete_self {κ ν : Type} [DecidableEq κ] (m : List (κ × ν)) (k : κ) :
    map_lookup (map_delete m k) k = none := by
  induction m with
  | nil => rfl
  | cons e m ih =>
    obtain ⟨k1, v⟩ := e
    by_cases h : k1 = k
    · simpa [map_delete, h] using ih
    · simp only [map_delete, ne_eq, h, not_false_eq_true, decide_True, List.filter_cons_of_pos]
      simp only [map_lookup, h, if_false]
      exact ih

theorem map_lookup_touch {κ ν : Type} [DecidableEq κ] (m : List (κ × ν)) (k : κ) :
    map_lookup (map_touch m k) k = map_lookup m k := by
  unfold map_touch
  cases h : map_lookup m k with
  | none => simp only [h]
  | some v => simp [map_lookup]

theorem map_lookup_modify {κ ν : Type} [DecidableEq κ] (m : List (κ × ν)) (k : κ) (g : ν → ν) :
    map_lookup (map_modify m k g) k = (map_lookup m k).map g := by
  induction m with
  | nil => rfl
  | cons e m ih =>
    obtain ⟨k1, v⟩ := e
    unfold map_modify at ih ⊢
    rw [List.map_cons]
    by_cases h : k1 = k
    · rw [if_pos h]
      simp only [map_lookup, if_pos h, Option.map_some']
    · rw [if_neg h]
      simp only [map_lookup, if_neg h]
      exact ih

theorem nat_return_expired (be : Bool) (ktime : Nat → Nat) (ctx : xdp_md) (st : State)
    (l4 : l4_locals) (o : iph_pseudo) (e : track_entry)
    (hicmp : l4.icmp_type = .NOT_ICMP) (hsp : l4.src_port = rd16 be ctx.data 34)
    (hdp : l4.dst_port = rd16 be ctx.data 36) (hlen : 42 ≤ ctx.data.length)
    (httl : 1 < rd8 ctx.data 22)
    (hlook : map_lookup st.conntrack_map (return_key be ctx.data) = some e)
    (hidle : idle_ns ktime e > 5 * 60 * SECOND_NS) :
    xdp_prog_nat_return be ktime ctx st l4 o =
      .ok (.XDP_PASS, ctx, conntrack_expire be st ctx.data) := by
  unfold xdp_prog_nat_return
  simp only []
  rw [ld8_ok _ (by omega)]
  simp only [Mem.ok_bind]
  rw [if_neg (by omega), if_pos hicmp, ld8_ok _ (by omega)]
  simp only [Mem.ok_bind]
  rw [ld32_ok _ _ (by omega)]
  simp only [Mem.ok_bind]
  unfold return_key at hlook
  rw [hsp, hdp, hlook]
  simp only []
  unfold idle_ns at hidle
  rw [if_pos hidle]
  rfl

theorem nat_return_tx (be : Bool) (ktime : Nat → Nat) (ctx : xdp_md) (st : State)
    (l4 : l4_locals) (o : iph_pseudo) (e : track_entry) (hf : bytes_ok ctx.data)
    (hicmp : l4.icmp_type = .NOT_ICMP) (hsp : l4.src_port = rd16 be ctx.data 34)
    (hdp : l4.dst_port = rd16 be ctx.data 36)
    (hp : (rd8 ctx.data 23 = IPPROTO_TCP ∧ 54 ≤ ctx.data.length) ∨
      (rd8 ctx.data 23 = IPPROTO_UDP ∧ 42 ≤ ctx.data.length))
    (httl : 1 < rd8 ctx.data 22)
    (hlook : map_lookup st.conntrack_map (return_key be ctx.data) = some e)
    (hidle : idle_ns ktime e ≤ 5 * 60 * SECOND_NS) :
    ∃ b, xdp_prog_nat_return be ktime ctx st l4 o = .ok b ∧
      ∃ g, b = (.XDP_TX, { ctx with data := g }, conntrack_refresh be ktime st ctx.data) ∧
        g.length = ctx.data.length ∧ bytes_ok g ∧
        rd8 g 22 = rd8 ctx.data 22 - 1 ∧
        rd32 be g 30 = e.saddr % 4294967296 ∧
        (e.h_source.ok → rd_mac g 0 = e.h_source) ∧
        (st.host_mac.ok → rd_mac g 6 = st.host_mac) ∧
        rd16 be g 36 = (if rd8 ctx.data 23 = IPPROTO_UDP then e.sport_real % 65536
          else rd16 be ctx.data 36) ∧
        ∀ q, 12 ≤ q → q ≠ 22 → q ≠ 24 → q ≠ 25 → (q < 30 ∨ 34 ≤ q) → q ≠ 36 → q ≠ 37 →
          q ≠ 40 → q ≠ 41 → q ≠ 50 → q ≠ 51 → rd8 g q = rd8 ctx.data q := by
  have hlen : 42 ≤ ctx.data.length := by omega
  have h22 := rd8_lt _ hf 22
  unfold xdp_prog_nat_return
  simp only []
  rw [ld8_ok _ (by omega)]
  simp only [Mem.ok_bind]
  rw [if_neg (by omega), if_pos hicmp, ld8_ok _ (by omega)]
  simp only [Mem.ok_bind]
  rw [ld32_ok _ _ (by omega)]
  simp only [Mem.ok_bind]
  unfold return_key at hlook
  rw [hsp, hdp, hlook]
  simp only []
  unfold idle_ns at hidle
  rw [if_neg (by omega)]
  refine Mem.bind_spec
    (P := fun a => a.length = ctx.data.length ∧ bytes_ok a ∧
      rd16 be a 36 = (if rd8 ctx.data 23 = IPPROTO_UDP then e.sport_real % 65536
          else rd16 be ctx.data 36) ∧
      ∀ q, q ≠ 36 → q ≠ 37 → q ≠ 40 → q ≠ 41 → rd8 a q = rd8 ctx.data q) ?_ ?_
  · by_cases hu : rd8 ctx.data 23 = IPPROTO_UDP
    · rw [if_pos hu, ld16_ok _ _ (by omega)]
      simp only [Mem.ok_bind]
      rw [ld16_ok _ _ (by omega)]
      simp only [Mem.ok_bind]
      rw [st16_ok _ _ _ (by omega)]
      simp only [Mem.ok_bind]
      rw [ld16_ok _ _ (by simp only [length_wr16]; omega)]
      simp only [Mem.ok_bind]
      rw [st16_ok _ _ _ (by simp only [length_wr16]; omega)]
      simp only [Mem.ok_bind]
      rw [st16_ok _ _ _ (by simp only [length_wr16]; omega)]
      refine ⟨_, rfl, by simp, ?_, ?_, ?_⟩
      · exact bytes_ok_wr16 _ _ (bytes_ok_wr16 _ _ (bytes_ok_wr16 _ _ hf _ _) _ _) _ _
      · rw [rd16_wr16_eq _ _ _ (by simp only [length_wr16]; omega), if_pos hu]
      · intro q h36 h37 h40 h41
        rw [rd8_wr16_ne _ _ _ (by omega) (by omega), rd8_wr16_ne _ _ _ (by omega) (by omega),
          rd8_wr16_ne _ _ _ (by omega) (by omega)]
    · rw [if_neg hu]
      exact ⟨_, rfl, rfl, hf, by simp only [if_neg hu], fun _ _ _ _ _ => rfl⟩
  · rintro f1 ⟨hl1, hb1, hd1, hq1⟩
    rw [st32_ok _ _ _ (by omega)]
    simp only [Mem.ok_bind]
    refine Mem.bind_spec (ip_decrease_ttl_frame be _ 14 (by simp only [length_wr32]; omega)) ?_
    rintro ⟨f2, r2⟩ ⟨hl2, hb2, ht2, hq2⟩
    simp only [length_wr32] at hl2 hb2 ht2 hq2 ⊢
    refine Mem.bind_spec (recompute_iph_csum_frame be f2 14 (by omega)) ?_
    rintro f3 ⟨hl3, hb3, hq3⟩
    refine Mem.bind_spec (recompute_l4_csum_fast_frame be f3 14 o (by omega)) ?_
    rintro ⟨f4, r4⟩ ⟨hl4, hb4, hq4⟩
    simp only [] at hl4 hb4 hq4 ⊢
    rw [st_mac_ok _ _ (by omega)]
    simp only [Mem.ok_bind]
    rw [st_mac_ok _ _ (by simp only [length_wr_mac]; omega)]
    simp only [Mem.ok_bind, Mem.pure_eq]
    have hg : ∀ q, 12 ≤ q → q ≠ 22 → q ≠ 24 → q ≠ 25 → q ≠ 40 → q ≠ 41 →
        q ≠ 50 → q ≠ 51 →
        rd8 (wr_mac (wr_mac f4 0 e.h_source) 6 st.host_mac) q =
          rd8 (wr32 be f1 30 e.saddr) q := by
      intro q h12 h22 h24 h25 h40 h41 h50 h51
      rw [rd8_wr_mac_ne _ _ _ (by omega), rd8_wr_mac_ne _ _ _ (by omega),
        hq4 q (by omega) (by omega) (by omega) (by omega), hq3 q (by omega) (by omega),
        hq2 q (by omega) (by omega) (by omega)]
    refine ⟨_, rfl, wr_mac (wr_mac f4 0 e.h_source) 6 st.host_mac, rfl, ?_, ?_, ?_, ?_,
      ?_, ?_, ?_, ?_⟩
    · simp only [length_wr_mac]; omega
    · exact bytes_ok_wr_mac _ (bytes_ok_wr_mac _
        (hb4 (hb3 (hb2 (bytes_ok_wr32 be _ hb1 _ _)))) _ _) _ _
    · rw [rd8_wr_mac_ne _ _ _ (by omega), rd8_wr_mac_ne _ _ _ (by omega),
        hq4 22 (by omega) (by omega) (by omega) (by omega), hq3 22 (by omega) (by omega),
        ht2, rd8_wr32_ne be f1 _ (by omega) (by omega) (by omega) (by omega),
        hq1 22 (by omega) (by omega) (by omega) (by omega)]
      omega
    · rw [rd32_congr be (wr32 be f1 30 e.saddr) _ 30 (fun q h1 h2 =>
        hg q (by omega) (by omega) (by omega) (by omega) (by omega) (by omega) (by omega)
          (by omega)),
        rd32_wr32_eq be f1 _ (by omega)]
    · intro hm
      rw [rd_mac_congr (wr_mac f4 0 e.h_source) _ 0 (fun q h1 h2 => by
        rw [rd8_wr_mac_ne _ _ _ (by omega)]), rd_mac_wr_mac _ _ _ hm (by omega)]
    · intro hm
      exact rd_mac_wr_mac _ _ _ hm (by simp only [length_wr_mac]; omega)
    · rw [rd16_congr be (wr32 be f1 30 e.saddr) _ 36 (fun q h1 h2 =>
        hg q (by omega) (by omega) (by omega) (by omega) (by omega) (by omega) (by omega)
          (by omega)),
        rd16_congr be f1 _ 36 (fun q h1 h2 =>
          rd8_wr32_ne be f1 _ (by omega) (by omega) (by omega) (by omega)), hd1]
    · intro q h12 h22 h24 h25 h30 h36 h37 h40 h41 h50 h51
      rw [hg q h12 h22 h24 h25 h40 h41 h50 h51,
        rd8_wr32_ne be f1 _ (by omega) (by omega) (by omega) (by omega), hq1 q h36 h37 h40 h41]

/-- C4, amended: on the NAT return route, for a return packet with TTL above 1
and the conntrack entry that its key matches: if the entry has been idle for
more than 5 minutes (`300 * 10 ^ 9` ns, in the 64-bit arithmetic of the
program), it is removed from `conntrack_map` and the verdict is `XDP_PASS` with
the frame untouched; if it has been idle for at most 5 minutes, the packet is
translated and transmitted, the entry stays in the map and its `ktime_ns` is
the current time.  With a clock that has not wrapped, the idle time is the
difference of the current time and `ktime_ns`.  The key is the one that the
program forms, `return_key`; for a packet with a 20-byte IPv4 header (version
4, IHL 5) it holds the protocol, the destination port, the source address and
the source port of the packet. -/
theorem C4_nat_return_expiry (be : Bool) (ktime : Nat → Nat) (ctx : xdp_md) (st : State)
    (e : track_entry) (hf : bytes_ok ctx.data) (hfr : tcp_udp_frame be ctx.data)
    (hret : takes_nat_return be (state_at_routes be st ctx.data) ctx.data)
    (httl : 1 < rd8 ctx.data 22)
    (hlook : map_lookup st.conntrack_map (return_key be ctx.data) = some e) :
    (idle_ns ktime e > 300 * 10 ^ 9 →
      xdp_prog be ktime ctx st = .ok (.XDP_PASS, ctx, conntrack_expire be st ctx.data) ∧
      map_lookup (conntrack_expire be st ctx.data).conntrack_map (return_key be ctx.data)
        = none) ∧
    (idle_ns ktime e ≤ 300 * 10 ^ 9 →
      ∃ g, xdp_prog be ktime ctx st =
          .ok (.XDP_TX, { ctx with data := g }, conntrack_refresh be ktime st ctx.data) ∧
        map_lookup (conntrack_refresh be ktime st ctx.data).conntrack_map
            (return_key be ctx.data)
          = some { e with ktime_ns := bpf_ktime_get_ns ktime 1 }) ∧
    (e.ktime_ns ≤ ktime 0 → ktime 0 < 2 ^ 64 → idle_ns ktime e = ktime 0 - e.ktime_ns) ∧
    (rd8 ctx.data 14 = 0x45 →
      return_key be ctx.data =
        { protocol := rd8 ctx.data 23, sport := bpf_htons be (l4_dst_port ctx.data 14),
          daddr := rd32 be ctx.data 26, dport := bpf_htons be (l4_src_port ctx.data 14) }) := by
  have hp := hfr.2
  have hlen : 42 ≤ ctx.data.length := by omega
  obtain ⟨hi, hs, hd⟩ := l4_of_tcp_udp be ctx.data (by
    rcases hp with h | h
    · exact Or.inl h.1
    · exact Or.inr h.1)
  have h300 : 5 * 60 * SECOND_NS = 300 * 10 ^ 9 := by decide
  refine ⟨?_, ?_, ?_, ?_⟩
  · intro hidle
    refine ⟨?_, map_lookup_delete_self _ _⟩
    rw [xdp_prog_return be ktime ctx st hfr hret]
    exact nat_return_expired be ktime ctx st _ _ e hi hs hd hlen httl hlook
      (by rw [h300]; exact hidle)
  · intro hidle
    obtain ⟨b, hb, g, rfl, -⟩ := nat_return_tx be ktime ctx st (l4_of be ctx.data)
      (pheader_of be ctx.data 14) e hf hi hs hd hp httl hlook (by rw [h300]; exact hidle)
    refine ⟨g, ?_, ?_⟩
    · rw [xdp_prog_return be ktime ctx st hfr hret, hb]
    · unfold conntrack_refresh
      simp only []
      rw [map_lookup_modify, map_lookup_touch, hlook]
      rfl
  · intro h1 h2
    unfold idle_ns bpf_ktime_get_ns
    have : (2 : Nat) ^ 64 = 18446744073709551616 := by norm_num
    omega
  · intro h
    unfold return_key l4_dst_port l4_src_port ip_hdr_len
    rw [h]
    simp only [Nat.reduceMod, Nat.reduceMul, Nat.reduceAdd]
    rw [← rd16_mach_eq be ctx.data hf 36, ← rd16_mach_eq be ctx.data hf 34]

theorem state_at_routes_config (be : Bool) (st : State) (f : List Nat) :
    (state_at_routes be st f).host_mac = st.host_mac ∧
    (state_at_routes be st f).public_host_ip = st.public_host_ip ∧
    (state_at_routes be st f).fake_gateway_ip = st.fake_gateway_ip ∧
    (state_at_routes be st f).subnet_mask = st.subnet_mask ∧
    (state_at_routes be st f).vpn_port = st.vpn_port ∧
    (state_at_routes be st f).conntrack_map = st.conntrack_map := by
  unfold state_at_routes learn_switch
  split_ifs <;> exact ⟨rfl, rfl, rfl, rfl, rfl, rfl⟩

theorem rd_mac_ok (f : List Nat) (hf : bytes_ok f) (p : Nat) : (rd_mac f p).ok :=
  ⟨rd8_lt f hf _, rd8_lt f hf _, rd8_lt f hf _, rd8_lt f hf _, rd8_lt f hf _, rd8_lt f hf _⟩

theorem nat_route_cond_subnet (st : State) (mc : Bool) (m : macaddr_t) (s d : Nat)
    (h : nat_route_cond st mc m s d = true) :
    st.fake_gateway_ip ≠ 0 ∧ same_subnet s st.fake_gateway_ip st.subnet_mask = true ∧
      same_subnet d st.fake_gateway_ip st.subnet_mask = false := by
  unfold nat_route_cond at h
  simp only [Bool.and_eq_true, Bool.not_eq_true', bne_iff_ne, ne_eq] at h
  exact ⟨h.1.1.1.1.2, h.1.1.2, h.1.2⟩

theorem nat_route_cond_false_of_subnet (st : State) (mc : Bool) (m : macaddr_t) (s d : Nat)
    (h : same_subnet s st.fake_gateway_ip st.subnet_mask = false) :
    nat_route_cond st mc m s d = false := by
  unfold nat_route_cond
  rw [h]
  simp

/-- C2, amended: NAT round trip for TCP and UDP.  An outbound frame of a client
is translated by `xdp_prog` and leaves with a translated source port; later a
frame from the destination of the first frame, addressed to the public address
and the translated port, with TTL above 1, arrives while the entry of the
connection is present and not idle for more than 5 minutes.  Both frames carry
an IPv4 packet with a 20-byte header (version 4, IHL 5), so that the ports are
the bytes at offsets 34 and 36.  If the second frame does not come from the MAC
address of the peer and is not a UDP datagram to the tunnel port, the verdict
is `XDP_TX` and the frame that leaves has the client address as destination
address, the client port as destination port and the client MAC as Ethernet
destination; its IPv4 header has 20 bytes, and the destination port behind it
is the source port of the first frame. -/
theorem C2_nat_round_trip (be : Bool) (kt1 kt2 : Nat → Nat) (ctx1 ctx2 : xdp_md)
    (st st1 st2 : State) (g1 : List Nat) (t : Nat)
    (hf1 : bytes_ok ctx1.data) (hfr1 : tcp_udp_frame be ctx1.data)
    (hnat : takes_nat_route be st ctx1.data = true) (httl1 : 1 < rd8 ctx1.data 22)
    (hout : xdp_prog be kt1 ctx1 st = .ok (.XDP_TX, { ctx1 with data := g1 }, st1))
    (hcfg : st2.host_mac = st.host_mac ∧ st2.public_host_ip = st.public_host_ip ∧
      st2.fake_gateway_ip = st.fake_gateway_ip ∧ st2.subnet_mask = st.subnet_mask ∧
      st2.vpn_port = st.vpn_port)
    (hf2 : bytes_ok ctx2.data) (hfr2 : tcp_udp_frame be ctx2.data)
    (hproto : rd8 ctx2.data 23 = rd8 ctx1.data 23)
    (hsrc : rd32 be ctx2.data 26 = rd32 be ctx1.data 30)
    (hsport : rd16 be ctx2.data 34 = rd16 be ctx1.data 36)
    (hdst : rd32 be ctx2.data 30 = st.public_host_ip)
    (hdport : rd16 be ctx2.data 36 = rd16 be g1 34)
    (httl2 : 1 < rd8 ctx2.data 22)
    (hlook : map_lookup st2.conntrack_map
        { protocol := rd8 ctx1.data 23, sport := rd16 be g1 34, daddr := rd32 be ctx1.data 30,
          dport := rd16 be ctx1.data 36 } =
      some { saddr := rd32 be ctx1.data 26,
             sport_real := if rd8 ctx1.data 23 = IPPROTO_UDP then rd16 be ctx1.data 34 else 0,
             h_source := rd_mac ctx1.data 6, ktime_ns := t })
    (hidle : (bpf_ktime_get_ns kt2 0 + 2 ^ 64 - t % 2 ^ 64) % 2 ^ 64 ≤ 300 * 10 ^ 9)
    (hpeer : mac_eq (state_at_routes be st2 ctx2.data).switch_mac (rd_mac ctx2.data 6) = false)
    (hvpn : ¬ (rd8 ctx2.data 23 = IPPROTO_UDP ∧ rd16 be ctx2.data 36 = bpf_htons be st.vpn_port))
    (hver1 : rd8 ctx1.data 14 = 0x45) (hver2 : rd8 ctx2.data 14 = 0x45) :
    ∃ g2 st3, xdp_prog be kt2 ctx2 st2 = .ok (.XDP_TX, { ctx2 with data := g2 }, st3) ∧
      rd32 be g2 30 = rd32 be ctx1.data 26 ∧
      rd16 be g2 36 = rd16 be ctx1.data 34 ∧
      rd_mac g2 0 = rd_mac ctx1.data 6 ∧
      ip_hdr_len g2 14 = 20 ∧ l4_dst_port g2 14 = l4_src_port ctx1.data 14 := by
  -- the outbound run
  have hp1 := hfr1.2
  obtain ⟨hi1, hs1, hd1⟩ := l4_of_tcp_udp be ctx1.data (by
    rcases hp1 with h | h
    · exact Or.inl h.1
    · exact Or.inr h.1)
  obtain ⟨b, hb, g, key, entry, rfl, -, -, -, -, -, -, -, -, hg34, -⟩ :=
    nat_route_tx be kt1 ctx1 st (l4_of be ctx1.data) (pheader_of be ctx1.data 14) hf1 hi1 hs1
      hp1 httl1
  rw [xdp_prog_nat be kt1 ctx1 st hfr1 hnat, hb] at hout
  injection hout with hout
  injection hout with _ hout
  injection hout with hout _
  injection hout with _ hout
  subst hout
  -- the guard of the outbound run
  obtain ⟨hfg, -, hsub⟩ := nat_route_cond_subnet _ _ _ _ _ hnat
  -- the return run
  obtain ⟨c1, c2, c3, c4, c5, c6⟩ := state_at_routes_config be st2 ctx2.data
  obtain ⟨k1, k2, k3, k4, k5⟩ := hcfg
  have hsub2 : same_subnet (rd32 be ctx2.data 26)
      (state_at_routes be st2 ctx2.data).fake_gateway_ip
      (state_at_routes be st2 ctx2.data).subnet_mask = false := by
    rw [c3, c4, k3, k4, hsrc]; exact hsub
  have hret : takes_nat_return be (state_at_routes be st2 ctx2.data) ctx2.data := by
    refine ⟨nat_route_cond_false_of_subnet _ _ _ _ _ hsub2, hpeer, ?_, ?_, ?_, hsub2⟩
    · rw [c2, k2]; exact hdst
    · rw [c5, k5]; exact hvpn
    · rw [c3, k3]; exact hfg
  have hp2 := hfr2.2
  obtain ⟨hi2, hs2, hd2⟩ := l4_of_tcp_udp be ctx2.data (by
    rcases hp2 with h | h
    · exact Or.inl h.1
    · exact Or.inr h.1)
  have h64 : (2 : Nat) ^ 64 = 18446744073709551616 := by norm_num
  have hk : return_key be ctx2.data =
      { protocol := rd8 ctx1.data 23, sport := rd16 be g 34, daddr := rd32 be ctx1.data 30,
        dport := rd16 be ctx1.data 36 } := by
    unfold return_key; rw [hproto, hdport, hsrc, hsport]
  rw [← hk] at hlook
  obtain ⟨b2, hb2, g2, rfl, -, hbg2, -, hsa, hmac, -, hport, hq2⟩ :=
    nat_return_tx be kt2 ctx2 st2 (l4_of be ctx2.data) (pheader_of be ctx2.data 14) _ hf2 hi2
      hs2 hd2 hp2 httl2 hlook (by
        unfold idle_ns
        simp only []
        rw [h64] at hidle
        have : 5 * 60 * SECOND_NS = 300 * 10 ^ 9 := by decide
        rw [this]; exact hidle)
  have hport2 : rd16 be g2 36 = rd16 be ctx1.data 34 := by
    rw [hport]
    simp only []
    by_cases hu : rd8 ctx1.data 23 = IPPROTO_UDP
    · rw [if_pos (by rw [hproto]; exact hu), if_pos hu]
      exact Nat.mod_eq_of_lt (rd16_lt be _ hf1 _)
    · rw [if_neg (by rw [hproto]; exact hu), hdport, hg34, if_neg hu]
  have h14 : rd8 g2 14 = 0x45 := by
    rw [hq2 14 (by omega) (by omega) (by omega) (by omega) (by omega) (by omega) (by omega)
      (by omega) (by omega) (by omega) (by omega), hver2]
  refine ⟨g2, conntrack_refresh be kt2 st2 ctx2.data, ?_, ?_, hport2, ?_, ?_, ?_⟩
  · rw [xdp_prog_return be kt2 ctx2 st2 hfr2 hret, hb2]
  · rw [hsa]
    exact Nat.mod_eq_of_lt (rd32_lt be _ hf1 _)
  · exact hmac (rd_mac_ok _ hf1 _)
  · unfold ip_hdr_len
    rw [h14]
  · unfold l4_dst_port l4_src_port ip_hdr_len
    rw [h14, hver1]
    exact rd16_order be ctx1.data g2 hf1 hbg2 36 34 hport2

set_option maxRecDepth 100000 in
/-- Witness of C1, the scenario of the specification: 192.168.1.50:5000 to
8.8.8.8:53 over UDP with TTL 5, fake gateway 192.168.1.1/24, public address
203.0.113.9; the frame leaves with source 203.0.113.9 and TTL 4. -/
theorem C1_outbound_nat_witness :
    ∃ g cm, xdp_prog false (fun _ => 1000) (ex_ctx ex_udp_frame) (ex_state false) =
        .ok (.XDP_TX, { ex_ctx ex_udp_frame with data := g },
          { ex_state false with conntrack_map := cm }) ∧
      rd32 false g 26 = ipv4_addr false 203 0 113 9 ∧ rd8 g 22 = 4 ∧
      map_lookup cm
          { protocol := 17, sport := rd16 false g 34,
            daddr := ipv4_addr false 8 8 8 8, dport := bpf_htons false 53 } =
        some
          { saddr := ipv4_addr false 192 168 1 50, sport_real := bpf_htons false 5000,
            h_source := ⟨2, 0, 0, 0, 0, 80⟩, ktime_ns := 1000 } := by
  obtain ⟨g, cm, h1, -, h3, h4, -, -, -, -, h9, -⟩ :=
    C1_outbound_nat false (fun _ => 1000) (ex_ctx ex_udp_frame) (ex_state false) (by decide)
      (by decide) (by decide) (by decide) (by decide) (by decide)
  exact ⟨g, cm, h1, h3, h4, h9⟩

set_option maxRecDepth 100000 in
/-- Witness of C4: the answer `ex_udp_reply` arrives 1000 ns after the outbound
datagram; the entry is alive. -/
theorem C4_nat_return_expiry_witness :
    (∃ g, xdp_prog false (fun _ => 2000) (ex_ctx ex_udp_reply) ex_state_nat =
          .ok (.XDP_TX, { ex_ctx ex_udp_reply with data := g },
            conntrack_refresh false (fun _ => 2000) ex_state_nat (ex_ctx ex_udp_reply).data) ∧
        map_lookup (conntrack_refresh false (fun _ => 2000) ex_state_nat
            (ex_ctx ex_udp_reply).data).conntrack_map (return_key false (ex_ctx ex_udp_reply).data)
          = some { saddr := ipv4_addr false 192 168 1 50, sport_real := bpf_htons false 5000,
                   h_source := ⟨2, 0, 0, 0, 0, 80⟩, ktime_ns := 2000 }) :=
  (C4_nat_return_expiry false (fun _ => 2000) (ex_ctx ex_udp_reply) ex_state_nat
    { saddr := ipv4_addr false 192 168 1 50, sport_real := bpf_htons false 5000,
      h_source := ⟨2, 0, 0, 0, 0, 80⟩, ktime_ns := 1000 }
    (by decide) (by decide) (by decide) (by decide) (by decide)).2.1 (by decide)

set_option maxRecDepth 100000 in
/-- Witness of C2: the datagram of `ex_udp_frame` is translated at time 1000,
and the answer `ex_udp_reply` comes back at time 2000. -/
theorem C2_nat_round_trip_witness :
    ∃ g2 st3, xdp_prog false (fun _ => 2000) (ex_ctx ex_udp_reply) ex_state_nat =
        .ok (.XDP_TX, { ex_ctx ex_udp_reply with data := g2 }, st3) ∧
      rd32 false g2 30 = rd32 false (ex_ctx ex_udp_frame).data 26 ∧
      rd16 false g2 36 = rd16 false (ex_ctx ex_udp_frame).data 34 ∧
      rd_mac g2 0 = rd_mac (ex_ctx ex_udp_frame).data 6 ∧
      l4_dst_port g2 14 = 5000 := by
  obtain ⟨g2, st3, h1, h2, h3, h4, -, h6⟩ :=
    C2_nat_round_trip false (fun _ => 1000) (fun _ => 2000) (ex_ctx ex_udp_frame)
      (ex_ctx ex_udp_reply) (ex_state false) ex_state_nat ex_state_nat
      (frame_after (xdp_prog false (fun _ => 1000) (ex_ctx ex_udp_frame) (ex_state false))) 1000
      (by decide) (by decide) (by decide) (by decide) (by decide) (by decide) (by decide)
      (by decide) (by decide) (by decide) (by decide) (by decide) (by decide) (by decide)
      (by decide) (by decide) (by decide) (by decide) (by decide) (by decide)
  exact ⟨g2, st3, h1, h2, h3, h4, by rw [h6]; decide⟩

set_option maxRecDepth 100000 in
/-- Counterexample to C2 as stated, at two round trips.  With the tunnel on
UDP port 5000, the datagram of `ex_udp_frame` (20-byte IPv4 header) is
translated at a time that is a multiple of 255 ns and keeps source port 5000;
the entry of the connection is present and fresh when the answer from
8.8.8.8:53 to the public address and port 5000 arrives with TTL 60, but the
answer is taken for tunnel traffic and dropped.  With the tunnel on port 7777,
the datagram `ex_udp_opts`, from port 5000 with an IPv4 header of 24 bytes, is
translated on the NAT route and leaves with source port 5000; the entry that
the program made is present and fresh when the answer from 8.8.8.8:53 to the
public address and port 5000 arrives with TTL 60, not from the MAC address of
the peer and not to the tunnel port, but the entry is keyed on the option
bytes, and the answer is passed on untranslated. -/
theorem C2_counterexample :
    (rd8 ex_udp_frame 14 = 0x45 ∧ rd8 ex_udp_reply_5000 14 = 0x45 ∧
    verdict_of (xdp_prog false (fun _ => 0) (ex_ctx ex_udp_frame) ex_state_tunnel_5000)
      = some .XDP_TX ∧
    rd16 false (frame_after
      (xdp_prog false (fun _ => 0) (ex_ctx ex_udp_frame) ex_state_tunnel_5000)) 34
      = rd16 false ex_udp_reply_5000 36 ∧
    rd32 false ex_udp_reply_5000 26 = rd32 false ex_udp_frame 30 ∧
    rd16 false ex_udp_reply_5000 34 = rd16 false ex_udp_frame 36 ∧
    rd32 false ex_udp_reply_5000 30 = ex_state_tunnel_5000.public_host_ip ∧
    1 < rd8 ex_udp_reply_5000 22 ∧
    map_lookup (state_after
        (xdp_prog false (fun _ => 0) (ex_ctx ex_udp_frame) ex_state_tunnel_5000)
        ex_state_tunnel_5000).conntrack_map (return_key false ex_udp_reply_5000)
      = some { saddr := rd32 false ex_udp_frame 26, sport_real := rd16 false ex_udp_frame 34,
               h_source := rd_mac ex_udp_frame 6, ktime_ns := 0 } ∧
    verdict_of (xdp_prog false (fun _ => 1) (ex_ctx ex_udp_reply_5000)
      (state_after (xdp_prog false (fun _ => 0) (ex_ctx ex_udp_frame) ex_state_tunnel_5000)
        ex_state_tunnel_5000)) = some .XDP_DROP) ∧
    (tcp_udp_frame false ex_udp_opts ∧ ip_hdr_len ex_udp_opts 14 = 24 ∧
     takes_nat_route false (ex_state false) ex_udp_opts = true ∧ 1 < rd8 ex_udp_opts 22 ∧
     l4_src_port ex_udp_opts 14 = 5000 ∧ l4_dst_port ex_udp_opts 14 = 53 ∧
     verdict_of (xdp_prog false (fun _ => 1000) (ex_ctx ex_udp_opts) (ex_state false))
       = some .XDP_TX ∧
     l4_src_port (frame_after
       (xdp_prog false (fun _ => 1000) (ex_ctx ex_udp_opts) (ex_state false))) 14 = 5000 ∧
     (state_after (xdp_prog false (fun _ => 1000) (ex_ctx ex_udp_opts) (ex_state false))
       (ex_state false)).conntrack_map.map (fun e => e.2.ktime_ns) = [1000] ∧
     ip_hdr_len ex_udp_reply_5000 14 = 20 ∧
     rd32 false ex_udp_reply_5000 26 = rd32 false ex_udp_opts 30 ∧
     l4_src_port ex_udp_reply_5000 14 = 53 ∧
     rd32 false ex_udp_reply_5000 30 = (ex_state false).public_host_ip ∧
     l4_dst_port ex_udp_reply_5000 14 = 5000 ∧ 1 < rd8 ex_udp_reply_5000 22 ∧
     (ex_state false).vpn_port = 7777 ∧
     mac_eq (ex_state false).switch_mac (rd_mac ex_udp_reply_5000 6) = false ∧
     verdict_of (xdp_prog false (fun _ => 2000) (ex_ctx ex_udp_reply_5000)
       (state_after (xdp_prog false (fun _ => 1000) (ex_ctx ex_udp_opts) (ex_state false))
         (ex_state false))) = some .XDP_PASS) := by
  decide

/-! ### The guard of the NAT route -/

theorem nat_route_cond_iff (st : State) (m : Bool) (src : macaddr_t) (sa da : Nat) :
    nat_route_cond st m src sa da = true ↔
      st.fake_gateway_ip ≠ 0 ∧ m = false ∧
      (st.switch_mac = src ∨ st.switch_mac = macaddr_t.zero) ∧
      same_subnet sa st.fake_gateway_ip st.subnet_mask = true ∧
      same_subnet da st.fake_gateway_ip st.subnet_mask = false ∧
      same_subnet da st.public_host_ip st.subnet_mask = false := by
  unfold nat_route_cond
  generalize same_subnet sa st.fake_gateway_ip st.subnet_mask = b1
  generalize same_subnet da st.fake_gateway_ip st.subnet_mask = b2
  generalize same_subnet da st.public_host_ip st.subnet_mask = b3
  rw [← mac_eq_iff, ← mac_eq_iff]
  generalize mac_eq st.switch_mac src = b4
  generalize mac_eq st.switch_mac macaddr_t.zero = b5
  by_cases h0 : st.fake_gateway_ip = 0
  · simp [h0]
  · have hb : (st.fake_gateway_ip != 0) = true := by simpa using h0
    rw [hb]
    cases m <;> cases b1 <;> cases b2 <;> cases b3 <;> cases b4 <;> cases b5 <;> simp [h0]

theorem takes_nat_route_iff (be : Bool) (st : State) (f : List Nat) :
    takes_nat_route be st f = true ↔ nat_cond be st f :=
  nat_route_cond_iff st _ _ _ _

theorem takes_nat_route_at_routes (be : Bool) (st : State) (f : List Nat) :
    takes_nat_route be (state_at_routes be st f) f = takes_nat_route be st f := by
  by_cases hm : eth_is_multicast f = false
  · have : state_at_routes be st f = st := by
      unfold state_at_routes
      rw [learn_switch_of_unicast be st f hm]
      exact ite_self _
    rw [this]
  · have hm : eth_is_multicast f = true := by simpa using hm
    unfold takes_nat_route nat_route_cond
    rw [hm]
    simp

/-- C3, amended: for every well-formed IPv4 TCP, UDP or ICMP frame, `xdp_prog`
takes the outbound NAT route if and only if a fake gateway is configured, the
Ethernet destination is not multicast, the frame comes from the learned peer
MAC or no peer MAC is known, the source address is within the subnet of the
fake gateway, the destination address is outside that subnet, and the
destination address is outside the subnet of the public address (under the
same mask).  Otherwise it continues with the other routes. -/
theorem C3_nat_route_guard (be : Bool) (ktime : Nat → Nat) (ctx : xdp_md) (st : State)
    (h : ipv4_l4_frame be ctx.data) :
    (takes_nat_route be (state_at_routes be st ctx.data) ctx.data = true ↔
      nat_cond be st ctx.data) ∧
    (nat_cond be st ctx.data →
      xdp_prog be ktime ctx st =
        xdp_prog_nat_route be ktime ctx st (l4_of be ctx.data) (pheader_of be ctx.data 14)) ∧
    (¬ nat_cond be st ctx.data →
      xdp_prog be ktime ctx st =
        xdp_prog_other_routes be ktime ctx (state_at_routes be st ctx.data)
          (eth_is_multicast ctx.data) (l4_of be ctx.data) (pheader_of be ctx.data 14)) := by
  have hlen : 34 ≤ ctx.data.length := h.1
  refine ⟨?_, ?_, ?_⟩
  · rw [takes_nat_route_at_routes, takes_nat_route_iff]
  · intro hc
    have hg := (takes_nat_route_iff be st ctx.data).mpr hc
    have hst : (if rd8 ctx.data 23 = IPPROTO_UDP then learn_switch be st ctx.data else st)
        = st := by
      rw [learn_switch_of_unicast be st _ (unicast_of_nat_route be st _ hg)]
      exact ite_self _
    rw [xdp_prog_routes be ktime ctx st h, hst,
      xdp_prog_ip_routes_nat be ktime ctx st _ _ _ hlen hg]
  · intro hc
    have hg : takes_nat_route be (state_at_routes be st ctx.data) ctx.data = false := by
      rw [takes_nat_route_at_routes]
      cases hb : takes_nat_route be st ctx.data
      · rfl
      · exact absurd ((takes_nat_route_iff be st ctx.data).mp hb) hc
    rw [xdp_prog_routes be ktime ctx st h]
    exact xdp_prog_ip_routes_other be ktime ctx _ _ _ _ hlen hg

set_option maxRecDepth 100000 in
/-- Witness of C3 at the datagram of `ex_udp_frame`, which takes the NAT
route. -/
theorem C3_nat_route_guard_witness :
    xdp_prog false (fun _ => 1000) (ex_ctx ex_udp_frame) (ex_state false) =
      xdp_prog_nat_route false (fun _ => 1000) (ex_ctx ex_udp_frame) (ex_state false)
        (l4_of false (ex_ctx ex_udp_frame).data) (pheader_of false (ex_ctx ex_udp_frame).data 14) :=
  (C3_nat_route_guard false (fun _ => 1000) (ex_ctx ex_udp_frame) (ex_state false)
    (by decide)).2.1 (by decide)

set_option maxRecDepth 100000 in
/-- Counterexample to C3 as stated, at two inputs that satisfy the stated
condition (fake gateway configured, unicast, source inside and destination
outside the subnet, destination not the public address) without taking the
NAT route.  First, once the peer 02:00:00:00:00:99 is known, the datagram of
`ex_udp_frame`, sent by 02:00:00:00:00:50, is passed on unchanged.  Second,
with no peer known, the datagram `ex_udp_frame_pubnet` to 203.0.113.77, a
neighbour of the public address 203.0.113.9 under the mask, is passed on
unchanged. -/
theorem C3_counterexample :
    (ipv4_l4_frame false ex_udp_frame ∧
     nat_cond_claimed false ex_state_peer_99 ex_udp_frame ∧
     takes_nat_route false (state_at_routes false ex_state_peer_99 ex_udp_frame)
       ex_udp_frame = false ∧
     xdp_prog false (fun _ => 1000) (ex_ctx ex_udp_frame) ex_state_peer_99 =
       .ok (.XDP_PASS, ex_ctx ex_udp_frame, ex_state_peer_99)) ∧
    (ipv4_l4_frame false ex_udp_frame_pubnet ∧
     nat_cond_claimed false (ex_state false) ex_udp_frame_pubnet ∧
     takes_nat_route false (state_at_routes false (ex_state false) ex_udp_frame_pubnet)
       ex_udp_frame_pubnet = false ∧
     xdp_prog false (fun _ => 1000) (ex_ctx ex_udp_frame_pubnet) (ex_state false) =
       .ok (.XDP_PASS, ex_ctx ex_udp_frame_pubnet, ex_state false)) := by
  decide

/-! ### DHCP frames of the peer -/

/-- The test for DHCP in the broadcast route can never succeed: no port is
both 67 and 68. -/
theorem dhcp_test_never (be : Bool) (p : Nat) :
    ¬ (p = bpf_htons be 67 ∧ p = bpf_htons be 68) := by
  rintro ⟨h1, h2⟩
  rw [h1] at h2
  revert h2
  cases be <;> decide

set_option maxRecDepth 100000 in
/-- C5, the code at the failing input: the DHCP request `ex_dhcp_frame`, a
broadcast of the peer to UDP port 67, is redirected to the AF_XDP socket of
its queue instead of being passed, on either byte order. -/
theorem C5_dhcp_redirected :
    rd_mac ex_dhcp_frame 6 = (ex_state_peer false).switch_mac ∧
    eth_is_multicast ex_dhcp_frame = true ∧
    rd8 ex_dhcp_frame 23 = IPPROTO_UDP ∧
    rd16 true ex_dhcp_frame 36 = 67 ∧
    xdp_prog false (fun _ => 0) (ex_ctx ex_dhcp_frame) (ex_state_peer false) =
      .ok (.XDP_REDIRECT, ex_ctx ex_dhcp_frame, ex_state_peer false) ∧
    xdp_prog true (fun _ => 0) (ex_ctx ex_dhcp_frame) (ex_state_peer true) =
      .ok (.XDP_REDIRECT, ex_ctx ex_dhcp_frame, ex_state_peer true) := by
  decide

/-! ### The zero UDP checksum -/

/-- In `recompute_l4_csum_fast` the zero checksum of a UDP datagram is kept:
the frame is returned as it is. -/
theorem recompute_l4_csum_fast_zero (be : Bool) (f : List Nat) (iph : Nat) (o : iph_pseudo)
    (hlen : iph + 28 ≤ f.length) (hu : rd8 f (iph + 9) = IPPROTO_UDP)
    (hz : rd16 be f (iph + 20 + 6) = 0) : recompute_l4_csum_fast be f iph o = .ok (f, 0) := by
  unfold recompute_l4_csum_fast
  rw [ipv4_mk_pheader_ok be f iph (by omega)]
  simp only [Mem.ok_bind]
  rw [ld8_ok _ (by omega)]
  simp only [Mem.ok_bind]
  rw [if_neg (by rw [hu]; decide), if_pos hu, ld16_ok _ _ (by omega)]
  simp only [Mem.ok_bind]
  rw [if_pos hz]
  rfl

/-- The port patch of the NAT routes never leaves a zero checksum on the
outbound route: `onec_add` is zero only for two zero arguments. -/
theorem port_patch_nonzero (check sport t : Nat) (hs : sport < 65536) :
    onec_add (onec_add check sport) (not16 ((sport + t % 0xFF) % 65536)) ≠ 0 := by
  have h1 : onec_add check sport < 65536 := Nat.mod_lt _ (by norm_num)
  have h2 : not16 ((sport + t % 0xFF) % 65536) < 65536 := by unfold not16; omega
  rw [onec_add_eq _ _ h1 h2, Ne, ones16_eq_zero]
  intro h
  have ha : onec_add check sport = 0 := by omega
  have hb : not16 ((sport + t % 0xFF) % 65536) = 0 := by omega
  have hc : check % 65536 < 65536 := Nat.mod_lt _ (by norm_num)
  have hd : onec_add check sport = onec_add (check % 65536) sport := by
    unfold onec_add; simp only [Nat.mod_mod]
  rw [hd, onec_add_eq _ _ hc hs, ones16_eq_zero] at ha
  unfold not16 at hb
  omega

set_option maxRecDepth 100000 in
/-- C6, the code at the failing inputs: the datagram `ex_udp_nocsum` has its
UDP checksum disabled (zero) and is translated on the outbound NAT route; the
answer `ex_udp_reply_nocsum` has its UDP checksum disabled and is translated on
the NAT return route; both leave with a non-zero UDP checksum field. -/
theorem C6_zero_checksum_lost :
    rd16 false ex_udp_nocsum 40 = 0 ∧
    takes_nat_route false (ex_state false) ex_udp_nocsum = true ∧
    verdict_of (xdp_prog false (fun _ => 1000) (ex_ctx ex_udp_nocsum) (ex_state false))
      = some .XDP_TX ∧
    rd16 false (frame_after
      (xdp_prog false (fun _ => 1000) (ex_ctx ex_udp_nocsum) (ex_state false))) 40 ≠ 0 ∧
    rd16 false ex_udp_reply_nocsum 40 = 0 ∧
    takes_nat_return false ex_state_nat ex_udp_reply_nocsum ∧
    verdict_of (xdp_prog false (fun _ => 2000) (ex_ctx ex_udp_reply_nocsum) ex_state_nat)
      = some .XDP_TX ∧
    rd16 false (frame_after
      (xdp_prog false (fun _ => 2000) (ex_ctx ex_udp_reply_nocsum) ex_state_nat)) 40 ≠ 0 := by
  decide

/-! ### Truncated and unsupported frames -/

theorem htons_ip_ne_arp (be : Bool) : bpf_htons be ETH_P_ARP ≠ bpf_htons be ETH_P_IP := by
  cases be <;> decide

theorem xdp_prog_short (be : Bool) (ktime : Nat → Nat) (ctx : xdp_md) (st : State)
    (hlen : ctx.data.length < 14) : xdp_prog be ktime ctx st = .ok (.XDP_DROP, ctx, st) := by
  unfold xdp_prog
  simp only []
  rw [if_pos (by omega)]
  rfl

theorem xdp_prog_is_arp (be : Bool) (ktime : Nat → Nat) (ctx : xdp_md) (st : State)
    (hlen : 14 ≤ ctx.data.length) (harp : rd16 be ctx.data 12 = bpf_htons be ETH_P_ARP) :
    xdp_prog be ktime ctx st = xdp_prog_arp be ctx st := by
  unfold xdp_prog
  simp only []
  rw [if_neg (by omega), ld_mac_ok _ (by omega)]
  simp only [Mem.ok_bind]
  rw [ld16_ok _ _ (by omega)]
  simp only [Mem.ok_bind]
  rw [if_neg (by rw [harp]; exact htons_ip_ne_arp be), if_pos harp]

theorem xdp_prog_other_ethertype (be : Bool) (ktime : Nat → Nat) (ctx : xdp_md) (st : State)
    (hlen : 14 ≤ ctx.data.length) (hip : rd16 be ctx.data 12 ≠ bpf_htons be ETH_P_IP)
    (harp : rd16 be ctx.data 12 ≠ bpf_htons be ETH_P_ARP) :
    xdp_prog be ktime ctx st = .ok (.XDP_PASS, ctx, st) := by
  unfold xdp_prog
  simp only []
  rw [if_neg (by omega), ld_mac_ok _ (by omega)]
  simp only [Mem.ok_bind]
  rw [ld16_ok _ _ (by omega)]
  simp only [Mem.ok_bind]
  rw [if_neg hip, if_neg harp]
  rfl

theorem xdp_prog_ipv4_short (be : Bool) (ktime : Nat → Nat) (ctx : xdp_md) (st : State)
    (bc mc : Bool) (hlen : ctx.data.length < 34) :
    xdp_prog_ipv4 be ktime ctx st bc mc = .ok (.XDP_DROP, ctx, st) := by
  unfold xdp_prog_ipv4
  simp only []
  rw [if_pos (by omega)]
  rfl

theorem xdp_prog_ipv4_proto (be : Bool) (ktime : Nat → Nat) (ctx : xdp_md) (st : State)
    (bc mc : Bool) (hlen : 34 ≤ ctx.data.length) :
    xdp_prog_ipv4 be ktime ctx st bc mc =
      if rd8 ctx.data 23 = IPPROTO_TCP then
        (if 54 > ctx.data.length then .ok (.XDP_DROP, ctx, st)
         else xdp_prog_ipv4 be ktime ctx st bc mc)
      else if rd8 ctx.data 23 = IPPROTO_UDP then
        (if 42 > ctx.data.length then .ok (.XDP_DROP, ctx, st)
         else xdp_prog_ipv4 be ktime ctx st bc mc)
      else if rd8 ctx.data 23 = IPPROTO_ICMP then
        (if 42 > ctx.data.length then .ok (.XDP_DROP, ctx, st)
         else xdp_prog_ipv4 be ktime ctx st bc mc)
      else .ok (.XDP_PASS, ctx, st) := by
  by_cases h1 : rd8 ctx.data 23 = IPPROTO_TCP
  · rw [if_pos h1]
    by_cases h2 : 54 > ctx.data.length
    · rw [if_pos h2]
      unfold xdp_prog_ipv4
      simp only []
      rw [if_neg (by omega), ipv4_mk_pheader_ok be _ 14 (by omega)]
      simp only [Mem.ok_bind]
      rw [ld8_ok _ (by omega)]
      simp only [Mem.ok_bind]
      rw [if_pos h1, if_pos (by omega)]
      rfl
    · rw [if_neg h2]
  · rw [if_neg h1]
    by_cases h3 : rd8 ctx.data 23 = IPPROTO_UDP
    · rw [if_pos h3]
      by_cases h2 : 42 > ctx.data.length
      · rw [if_pos h2]
        unfold xdp_prog_ipv4
        simp only []
        rw [if_neg (by omega), ipv4_mk_pheader_ok be _ 14 (by omega)]
        simp only [Mem.ok_bind]
        rw [ld8_ok _ (by omega)]
        simp only [Mem.ok_bind]
        rw [if_neg h1, if_pos h3, if_pos (by omega)]
        rfl
      · rw [if_neg h2]
    · rw [if_neg h3]
      by_cases h4 : rd8 ctx.data 23 = IPPROTO_ICMP
      · rw [if_pos h4]
        by_cases h2 : 42 > ctx.data.length
        · rw [if_pos h2]
          unfold xdp_prog_ipv4
          simp only []
          rw [if_neg (by omega), ipv4_mk_pheader_ok be _ 14 (by omega)]
          simp only [Mem.ok_bind]
          rw [ld8_ok _ (by omega)]
          simp only [Mem.ok_bind]
          rw [if_neg h1, if_neg h3, if_pos h4, if_pos (by omega)]
          rfl
        · rw [if_neg h2]
      · rw [if_neg h4]
        unfold xdp_prog_ipv4
        simp only []
        rw [if_neg (by omega), ipv4_mk_pheader_ok be _ 14 (by omega)]
        simp only [Mem.ok_bind]
        rw [ld8_ok _ (by omega)]
        simp only [Mem.ok_bind]
        rw [if_neg h1, if_neg h3, if_neg h4]
        rfl

theorem arp_request_iff (be : Bool) (f : List Nat) :
    ¬ arp_request be f ↔
      (rd16 be f 16 ≠ bpf_htons be ETH_P_IP ∨ rd8 f 18 ≠ 6 ∨ rd8 f 19 ≠ 4 ∨
        rd16 be f 20 ≠ bpf_htons be ARPOP_REQUEST) := by
  unfold arp_request
  generalize rd16 be f 16 = a
  generalize bpf_htons be ETH_P_IP = a1
  generalize rd16 be f 20 = d
  generalize bpf_htons be ARPOP_REQUEST = d1
  constructor
  · intro h
    by_contra hc
    push_neg at hc
    exact h hc
  · rintro (hc | hc | hc | hc) h
    exacts [hc h.1, hc h.2.1, hc h.2.2.1, hc h.2.2.2]

theorem xdp_prog_arp_short (be : Bool) (ctx : xdp_md) (st : State)
    (hlen : ctx.data.length < 22) : xdp_prog_arp be ctx st = .ok (.XDP_DROP, ctx, st) := by
  unfold xdp_prog_arp
  simp only []
  rw [if_pos (by omega)]
  rfl

theorem xdp_prog_arp_other (be : Bool) (ctx : xdp_md) (st : State)
    (hlen : 22 ≤ ctx.data.length) (h : ¬ arp_request be ctx.data) :
    xdp_prog_arp be ctx st = .ok (.XDP_PASS, ctx, st) := by
  unfold xdp_prog_arp
  simp only []
  rw [if_neg (by omega), ld16_ok _ _ (by omega)]
  simp only [Mem.ok_bind]
  rw [ld8_ok _ (by omega)]
  simp only [Mem.ok_bind]
  rw [ld8_ok _ (by omega)]
  simp only [Mem.ok_bind]
  rw [ld16_ok _ _ (by omega)]
  simp only [Mem.ok_bind]
  rw [if_pos ((arp_request_iff be _).mp h)]
  rfl

theorem xdp_prog_arp_request (be : Bool) (ctx : xdp_md) (st : State)
    (hlen : 22 ≤ ctx.data.length) (h : arp_request be ctx.data) :
    xdp_prog_arp be ctx st =
      if 42 > ctx.data.length then .ok (.XDP_DROP, ctx, st)
      else if rd32 be ctx.data 38 ≠ st.fake_gateway_ip ∧
          (map_lookup st.remote_addrs (rd32 be ctx.data 38)).isNone then
        .ok (.XDP_PASS, ctx, st)
      else xdp_prog_arp be ctx st := by
  by_cases h42 : 42 > ctx.data.length
  · rw [if_pos h42]
    unfold xdp_prog_arp
    simp only []
    rw [if_neg (by omega), ld16_ok _ _ (by omega)]
    simp only [Mem.ok_bind]
    rw [ld8_ok _ (by omega)]
    simp only [Mem.ok_bind]
    rw [ld8_ok _ (by omega)]
    simp only [Mem.ok_bind]
    rw [ld16_ok _ _ (by omega)]
    simp only [Mem.ok_bind]
    rw [if_neg (fun hc => (arp_request_iff be _).mpr hc h), if_pos (by omega)]
    rfl
  · rw [if_neg h42]
    by_cases ht : rd32 be ctx.data 38 ≠ st.fake_gateway_ip ∧
          (map_lookup st.remote_addrs (rd32 be ctx.data 38)).isNone
    · rw [if_pos ht]
      unfold xdp_prog_arp
      simp only []
      rw [if_neg (by omega), ld16_ok _ _ (by omega)]
      simp only [Mem.ok_bind]
      rw [ld8_ok _ (by omega)]
      simp only [Mem.ok_bind]
      rw [ld8_ok _ (by omega)]
      simp only [Mem.ok_bind]
      rw [ld16_ok _ _ (by omega)]
      simp only [Mem.ok_bind]
      rw [if_neg (fun hc => (arp_request_iff be _).mpr hc h), if_neg (by omega), ld32_ok _ _ (by omega)]
      simp only [Mem.ok_bind]
      rw [if_pos ht]
      rfl
    · rw [if_neg ht]

/-- C15: truncated frames are dropped.  `xdp_prog` returns `XDP_DROP`, with
the frame and the state as they were, for a frame shorter than the 14-byte
Ethernet header; for an IPv4 frame shorter than 34 bytes; for an IPv4 TCP frame
shorter than 54 bytes; for an IPv4 UDP or ICMP frame shorter than 42 bytes; for
an ARP frame shorter than 22 bytes; and for an ARP request for IPv4 over 6-byte
hardware addresses shorter than 42 bytes. -/
theorem C15_truncated_dropped (be : Bool) (ktime : Nat → Nat) (ctx : xdp_md) (st : State) :
    (ctx.data.length < 14 → xdp_prog be ktime ctx st = .ok (.XDP_DROP, ctx, st)) ∧
    (rd16 be ctx.data 12 = bpf_htons be ETH_P_IP → ctx.data.length < 34 →
      xdp_prog be ktime ctx st = .ok (.XDP_DROP, ctx, st)) ∧
    (rd16 be ctx.data 12 = bpf_htons be ETH_P_IP → rd8 ctx.data 23 = IPPROTO_TCP →
      ctx.data.length < 54 → xdp_prog be ktime ctx st = .ok (.XDP_DROP, ctx, st)) ∧
    (rd16 be ctx.data 12 = bpf_htons be ETH_P_IP →
      rd8 ctx.data 23 = IPPROTO_UDP ∨ rd8 ctx.data 23 = IPPROTO_ICMP →
      ctx.data.length < 42 → xdp_prog be ktime ctx st = .ok (.XDP_DROP, ctx, st)) ∧
    (rd16 be ctx.data 12 = bpf_htons be ETH_P_ARP → ctx.data.length < 22 →
      xdp_prog be ktime ctx st = .ok (.XDP_DROP, ctx, st)) ∧
    (rd16 be ctx.data 12 = bpf_htons be ETH_P_ARP → arp_request be ctx.data →
      ctx.data.length < 42 → xdp_prog be ktime ctx st = .ok (.XDP_DROP, ctx, st)) := by
  have hip : ∀ n, rd16 be ctx.data 12 = bpf_htons be ETH_P_IP → ctx.data.length < n →
      (34 ≤ ctx.data.length →
        xdp_prog_ipv4 be ktime ctx st (eth_is_broadcast ctx.data) (eth_is_multicast ctx.data)
          = .ok (.XDP_DROP, ctx, st)) →
      xdp_prog be ktime ctx st = .ok (.XDP_DROP, ctx, st) := by
    intro n hp _ hk
    by_cases h14 : ctx.data.length < 14
    · exact xdp_prog_short be ktime ctx st h14
    · rw [xdp_prog_ip be ktime ctx st (by omega) hp]
      by_cases h34 : ctx.data.length < 34
      · exact xdp_prog_ipv4_short be ktime ctx st _ _ h34
      · exact hk (by omega)
  have harp : ∀ n, rd16 be ctx.data 12 = bpf_htons be ETH_P_ARP → ctx.data.length < n →
      (22 ≤ ctx.data.length → xdp_prog_arp be ctx st = .ok (.XDP_DROP, ctx, st)) →
      xdp_prog be ktime ctx st = .ok (.XDP_DROP, ctx, st) := by
    intro n hp _ hk
    by_cases h14 : ctx.data.length < 14
    · exact xdp_prog_short be ktime ctx st h14
    · rw [xdp_prog_is_arp be ktime ctx st (by omega) hp]
      by_cases h22 : ctx.data.length < 22
      · exact xdp_prog_arp_short be ctx st h22
      · exact hk (by omega)
  have hne : IPPROTO_UDP ≠ IPPROTO_TCP ∧ IPPROTO_ICMP ≠ IPPROTO_TCP ∧
      IPPROTO_ICMP ≠ IPPROTO_UDP := by decide
  refine ⟨xdp_prog_short be ktime ctx st, ?_, ?_, ?_, ?_, ?_⟩
  · intro hp hl
    exact hip 34 hp hl (fun h => absurd hl (by omega))
  · intro hp ht hl
    refine hip 54 hp hl (fun h => ?_)
    rw [xdp_prog_ipv4_proto be ktime ctx st _ _ h, if_pos ht, if_pos (by omega)]
  · intro hp ht hl
    refine hip 42 hp hl (fun h => ?_)
    rw [xdp_prog_ipv4_proto be ktime ctx st _ _ h]
    rcases ht with ht | ht
    · rw [if_neg (by rw [ht]; exact hne.1), if_pos ht, if_pos (by omega)]
    · rw [if_neg (by rw [ht]; exact hne.2.1), if_neg (by rw [ht]; exact hne.2.2), if_pos ht,
        if_pos (by omega)]
  · intro hp hl
    exact harp 22 hp hl (fun h => absurd hl (by omega))
  · intro hp hr hl
    refine harp 42 hp hl (fun h => ?_)
    rw [xdp_prog_arp_request be ctx st h hr, if_pos (by omega)]

/-- C16: unsupported frames are passed on untouched.  For a frame with a full
Ethernet header whose ethertype is neither IPv4 nor ARP, and for an IPv4 frame
with a full 20-byte IPv4 header whose protocol is none of TCP, UDP and ICMP,
`xdp_prog` returns `XDP_PASS` and leaves the frame and the whole state (the
configuration, the learned peer and the tables) as they were. -/
theorem C16_unsupported_pass (be : Bool) (ktime : Nat → Nat) (ctx : xdp_md) (st : State) :
    (14 ≤ ctx.data.length → rd16 be ctx.data 12 ≠ bpf_htons be ETH_P_IP →
      rd16 be ctx.data 12 ≠ bpf_htons be ETH_P_ARP →
      xdp_prog be ktime ctx st = .ok (.XDP_PASS, ctx, st)) ∧
    (34 ≤ ctx.data.length → rd16 be ctx.data 12 = bpf_htons be ETH_P_IP →
      rd8 ctx.data 23 ≠ IPPROTO_TCP → rd8 ctx.data 23 ≠ IPPROTO_UDP →
      rd8 ctx.data 23 ≠ IPPROTO_ICMP →
      xdp_prog be ktime ctx st = .ok (.XDP_PASS, ctx, st)) := by
  refine ⟨xdp_prog_other_ethertype be ktime ctx st, ?_⟩
  intro hl hp h1 h2 h3
  rw [xdp_prog_ip be ktime ctx st (by omega) hp, xdp_prog_ipv4_proto be ktime ctx st _ _ hl,
    if_neg h1, if_neg h2, if_neg h3]

/-- C12: ARP frames that are not answered.  A full ARP request (IPv4 over
6-byte hardware addresses, 42 bytes or more) whose target address is neither
`fake_gateway_ip` nor a key of `remote_addrs`, and every ARP frame with a full
ARP header that is not such a request, gets `XDP_PASS`, and the frame, the
configuration and the tables are as they were. -/
theorem C12_arp_pass (be : Bool) (ktime : Nat → Nat) (ctx : xdp_md) (st : State)
    (harp : rd16 be ctx.data 12 = bpf_htons be ETH_P_ARP) :
    (42 ≤ ctx.data.length → arp_request be ctx.data →
      rd32 be ctx.data 38 ≠ st.fake_gateway_ip →
      map_lookup st.remote_addrs (rd32 be ctx.data 38) = none →
      xdp_prog be ktime ctx st = .ok (.XDP_PASS, ctx, st)) ∧
    (22 ≤ ctx.data.length → ¬ arp_request be ctx.data →
      xdp_prog be ktime ctx st = .ok (.XDP_PASS, ctx, st)) := by
  constructor
  · intro hl hr ht hm
    rw [xdp_prog_is_arp be ktime ctx st (by omega) harp,
      xdp_prog_arp_request be ctx st (by omega) hr, if_neg (by omega),
      if_pos ⟨ht, by rw [hm]; rfl⟩]
  · intro hl hr
    rw [xdp_prog_is_arp be ktime ctx st (by omega) harp]
    exact xdp_prog_arp_other be ctx st hl hr

/-! ### Reading a frame after in-bounds writes -/

theorem rd8_wr8_in (f : List Nat) (p q v : Nat) (h : p + 1 ≤ f.length) :
    rd8 (wr8 f p v) q = if q = p then v % 256 else rd8 f q := by
  rw [rd8_wr8]
  by_cases hq : q = p
  · rw [if_pos hq, if_pos ⟨hq.symm, by omega⟩]
  · rw [if_neg hq, if_neg (fun hc => hq hc.1.symm)]

theorem rd8_wr16_in (be : Bool) (f : List Nat) (p q v : Nat) (h : p + 2 ≤ f.length) :
    rd8 (wr16 be f p v) q =
      if q = p then byte16 be v 0 else if q = p + 1 then byte16 be v 1 else rd8 f q := by
  unfold wr16
  rw [rd8_wr8_in _ _ _ _ (by simp only [length_wr8]; omega), rd8_wr8_in _ _ _ _ (by omega),
    Nat.mod_eq_of_lt (byte16_lt be v 0), Nat.mod_eq_of_lt (byte16_lt be v 1)]
  split_ifs <;> first | rfl | omega

theorem rd8_wr32_in (be : Bool) (f : List Nat) (p q v : Nat) (h : p + 4 ≤ f.length) :
    rd8 (wr32 be f p v) q =
      if q = p then byte32 be v 0 else if q = p + 1 then byte32 be v 1
      else if q = p + 2 then byte32 be v 2 else if q = p + 3 then byte32 be v 3
      else rd8 f q := by
  unfold wr32
  rw [rd8_wr8_in _ _ _ _ (by simp only [length_wr8]; omega),
    rd8_wr8_in _ _ _ _ (by simp only [length_wr8]; omega),
    rd8_wr8_in _ _ _ _ (by simp only [length_wr8]; omega), rd8_wr8_in _ _ _ _ (by omega),
    Nat.mod_eq_of_lt (byte32_lt be v 0), Nat.mod_eq_of_lt (byte32_lt be v 1),
    Nat.mod_eq_of_lt (byte32_lt be v 2), Nat.mod_eq_of_lt (byte32_lt be v 3)]
  split_ifs <;> first | rfl | omega

theorem rd8_wr_mac_in (f : List Nat) (p q : Nat) (m : macaddr_t) (h : p + 6 ≤ f.length) :
    rd8 (wr_mac f p m) q =
      if q = p then m.b0 % 256 else if q = p + 1 then m.b1 % 256
      else if q = p + 2 then m.b2 % 256 else if q = p + 3 then m.b3 % 256
      else if q = p + 4 then m.b4 % 256 else if q = p + 5 then m.b5 % 256
      else rd8 f q := by
  unfold wr_mac
  rw [rd8_wr8_in _ _ _ _ (by simp only [length_wr8]; omega),
    rd8_wr8_in _ _ _ _ (by simp only [length_wr8]; omega),
    rd8_wr8_in _ _ _ _ (by simp only [length_wr8]; omega),
    rd8_wr8_in _ _ _ _ (by simp only [length_wr8]; omega),
    rd8_wr8_in _ _ _ _ (by simp only [length_wr8]; omega), rd8_wr8_in _ _ _ _ (by omega)]
  split_ifs <;> first | rfl | omega

theorem rd_mac_mod (f : List Nat) (hf : bytes_ok f) (p : Nat) :
    (⟨rd8 f p % 256, rd8 f (p + 1) % 256, rd8 f (p + 2) % 256, rd8 f (p + 3) % 256,
      rd8 f (p + 4) % 256, rd8 f (p + 5) % 256⟩ : macaddr_t) = rd_mac f p := by
  unfold rd_mac
  rw [Nat.mod_eq_of_lt (rd8_lt f hf _), Nat.mod_eq_of_lt (rd8_lt f hf _),
    Nat.mod_eq_of_lt (rd8_lt f hf _), Nat.mod_eq_of_lt (rd8_lt f hf _),
    Nat.mod_eq_of_lt (rd8_lt f hf _), Nat.mod_eq_of_lt (rd8_lt f hf _)]

theorem macaddr_mod (m : macaddr_t) (hm : m.ok) :
    (⟨m.b0 % 256, m.b1 % 256, m.b2 % 256, m.b3 % 256, m.b4 % 256, m.b5 % 256⟩ : macaddr_t)
      = m := by
  obtain ⟨h0, h1, h2, h3, h4, h5⟩ := hm
  rw [Nat.mod_eq_of_lt h0, Nat.mod_eq_of_lt h1, Nat.mod_eq_of_lt h2, Nat.mod_eq_of_lt h3,
    Nat.mod_eq_of_lt h4, Nat.mod_eq_of_lt h5]

theorem mk32_rd32 (be : Bool) (f : List Nat) (hf : bytes_ok f) (p : Nat) :
    mk32 be (byte32 be (rd32 be f p) 0) (byte32 be (rd32 be f p) 1) (byte32 be (rd32 be f p) 2)
      (byte32 be (rd32 be f p) 3) = rd32 be f p := by
  rw [mk32_byte32, Nat.mod_eq_of_lt (rd32_lt be f hf p)]

theorem map_lookup_delete_ne {κ ν : Type} [DecidableEq κ] (m : List (κ × ν)) {k k1 : κ}
    (h : k1 ≠ k) : map_lookup (map_delete m k) k1 = map_lookup m k1 := by
  induction m with
  | nil => rfl
  | cons e m ih =>
    obtain ⟨k2, v⟩ := e
    unfold map_delete at ih ⊢
    by_cases h2 : k2 = k
    · subst h2
      rw [List.filter_cons_of_neg (by simp)]
      simp only [map_lookup]
      rw [if_neg (fun hc => h hc.symm)]
      exact ih
    · rw [List.filter_cons_of_pos (by simpa using h2)]
      simp only [map_lookup]
      rw [ih]

theorem map_lookup_touch_any {κ ν : Type} [DecidableEq κ] (m : List (κ × ν)) (k k1 : κ) :
    map_lookup (map_touch m k) k1 = map_lookup m k1 := by
  unfold map_touch
  cases h : map_lookup m k with
  | none => rfl
  | some v =>
    simp only [map_lookup]
    by_cases hk : k = k1
    · subst hk
      rw [if_pos rfl, h]
    · rw [if_neg hk, map_lookup_delete_ne m (fun hc => hk hc.symm)]

/-! ### The ARP branch -/

/-- C11: ARP requests for the fake gateway or for a remote peer are answered.
For every full ARP request (IPv4 over 6-byte hardware addresses, 42 bytes or
more) whose target address is `fake_gateway_ip` or a key of `remote_addrs`,
`xdp_prog` returns `XDP_TX` with the frame rewritten in place: opcode REPLY,
sender hardware address `host_mac`, target hardware address the sender
hardware address of the request, sender and target protocol address swapped,
Ethernet destination the Ethernet source of the request, Ethernet source
`host_mac`; the length and all other bytes of the frame are as they were, and
of the state only the recency order of `remote_addrs` may change. -/
theorem C11_arp_reply (be : Bool) (ktime : Nat → Nat) (ctx : xdp_md) (st : State)
    (hf : bytes_ok ctx.data) (hm : st.host_mac.ok) (hlen : 42 ≤ ctx.data.length)
    (harp : rd16 be ctx.data 12 = bpf_htons be ETH_P_ARP) (hr : arp_request be ctx.data)
    (ht : rd32 be ctx.data 38 = st.fake_gateway_ip ∨
      (map_lookup st.remote_addrs (rd32 be ctx.data 38)).isSome) :
    ∃ g ra, xdp_prog be ktime ctx st =
        .ok (.XDP_TX, { ctx with data := g }, { st with remote_addrs := ra }) ∧
      g.length = ctx.data.length ∧
      rd16 be g 20 = bpf_htons be ARPOP_REPLY ∧
      rd_mac g 22 = st.host_mac ∧
      rd_mac g 32 = rd_mac ctx.data 22 ∧
      rd32 be g 28 = rd32 be ctx.data 38 ∧
      rd32 be g 38 = rd32 be ctx.data 28 ∧
      rd_mac g 0 = rd_mac ctx.data 6 ∧
      rd_mac g 6 = st.host_mac ∧
      (∀ q, 12 ≤ q → q < 20 → rd8 g q = rd8 ctx.data q) ∧
      (∀ q, 42 ≤ q → rd8 g q = rd8 ctx.data q) ∧
      (∀ k, (map_lookup ra k) = map_lookup st.remote_addrs k) := by
  have ht2 : ¬ (rd32 be ctx.data 38 ≠ st.fake_gateway_ip ∧
      (map_lookup st.remote_addrs (rd32 be ctx.data 38)).isNone) := by
    rintro ⟨h1, h2⟩
    rcases ht with ht | ht
    · exact h1 ht
    · rw [Option.isNone_iff_eq_none] at h2
      rw [h2] at ht
      exact Bool.noConfusion ht
  rw [xdp_prog_is_arp be ktime ctx st (by omega) harp,
    xdp_prog_arp_request be ctx st (by omega) hr, if_neg (by omega), if_neg ht2]
  unfold xdp_prog_arp
  have hh : ∀ (c : Prop) [Decidable c] (x : List (Nat × remote_addr)),
      (if c then { st with remote_addrs := x } else st).host_mac = st.host_mac := by
    intro c _ x; split_ifs <;> rfl
  have hs : ∀ (c : Prop) [Decidable c] (x : List (Nat × remote_addr)),
      (if c then { st with remote_addrs := x } else st) =
        { st with remote_addrs := if c then x else st.remote_addrs } := by
    intro c _ x; split_ifs <;> rfl
  simp (disch := first | omega | (simp only [length_wr8, length_wr16, length_wr32, length_wr_mac]; omega)) only
    [ld8_ok, ld16_ok, ld32_ok, ld_mac_ok, st8_ok, st16_ok, st32_ok, st_mac_ok, Mem.ok_bind,
      Mem.pure_eq, hh]
  rw [if_neg (by omega), if_neg (fun hc => (arp_request_iff be _).mpr hc hr), if_neg (by omega),
    if_neg ht2, hs]
  refine ⟨_, _, rfl, ?_, ?_, ?_, ?_, ?_, ?_, ?_, ?_, ?_, ?_, ?_⟩
  · simp only [length_wr_mac, length_wr16, length_wr32]
  · unfold rd16
    simp (disch := first | omega | (simp only [length_wr8, length_wr16, length_wr32, length_wr_mac]; omega)) only
      [rd8_wr_mac_in, rd8_wr16_in, rd8_wr32_in, if_true, if_false, reduceIte, Nat.reduceEqDiff]
    rw [mk16_byte16]
    cases be <;> rfl
  · unfold rd_mac
    simp (disch := first | omega | (simp only [length_wr8, length_wr16, length_wr32, length_wr_mac]; omega)) only
      [rd8_wr_mac_in, rd8_wr16_in, rd8_wr32_in, if_true, if_false, reduceIte, Nat.reduceEqDiff,
        Nat.reduceAdd]
    exact macaddr_mod _ hm
  · unfold rd_mac
    simp (disch := first | omega | (simp only [length_wr8, length_wr16, length_wr32, length_wr_mac]; omega)) only
      [rd8_wr_mac_in, rd8_wr16_in, rd8_wr32_in, if_true, if_false, reduceIte, Nat.reduceEqDiff,
        Nat.reduceAdd]
    exact rd_mac_mod _ hf 22
  · unfold rd32
    simp (disch := first | omega | (simp only [length_wr8, length_wr16, length_wr32, length_wr_mac]; omega)) only
      [rd8_wr_mac_in, rd8_wr16_in, rd8_wr32_in, if_true, if_false, reduceIte, Nat.reduceEqDiff,
        Nat.reduceAdd]
    exact mk32_rd32 be _ hf 38
  · unfold rd32
    simp (disch := first | omega | (simp only [length_wr8, length_wr16, length_wr32, length_wr_mac]; omega)) only
      [rd8_wr_mac_in, rd8_wr16_in, rd8_wr32_in, if_true, if_false, reduceIte, Nat.reduceEqDiff,
        Nat.reduceAdd]
    exact mk32_rd32 be _ hf 28
  · unfold rd_mac
    simp (disch := first | omega | (simp only [length_wr8, length_wr16, length_wr32, length_wr_mac]; omega)) only
      [rd8_wr_mac_in, rd8_wr16_in, rd8_wr32_in, if_true, if_false, reduceIte, Nat.reduceEqDiff,
        Nat.reduceAdd]
    exact rd_mac_mod _ hf 6
  · unfold rd_mac
    simp (disch := first | omega | (simp only [length_wr8, length_wr16, length_wr32, length_wr_mac]; omega)) only
      [rd8_wr_mac_in, rd8_wr16_in, rd8_wr32_in, if_true, if_false, reduceIte, Nat.reduceEqDiff,
        Nat.reduceAdd]
    exact macaddr_mod _ hm
  · intro q h1 h2
    rw [rd8_wr_mac_ne _ _ _ (by omega), rd8_wr_mac_ne _ _ _ (by omega),
      rd8_wr16_ne _ _ _ (by omega) (by omega),
      rd8_wr32_ne _ _ _ (by omega) (by omega) (by omega) (by omega),
      rd8_wr32_ne _ _ _ (by omega) (by omega) (by omega) (by omega),
      rd8_wr_mac_ne _ _ _ (by omega), rd8_wr_mac_ne _ _ _ (by omega)]
  · intro q h1
    rw [rd8_wr_mac_ne _ _ _ (by omega), rd8_wr_mac_ne _ _ _ (by omega),
      rd8_wr16_ne _ _ _ (by omega) (by omega),
      rd8_wr32_ne _ _ _ (by omega) (by omega) (by omega) (by omega),
      rd8_wr32_ne _ _ _ (by omega) (by omega) (by omega) (by omega),
      rd8_wr_mac_ne _ _ _ (by omega), rd8_wr_mac_ne _ _ _ (by omega)]
  · intro k
    split_ifs
    · exact map_lookup_touch_any _ _ _
    · rfl

/-! ### The inbound tunnel route -/

theorem rd8_drop (f : List Nat) (n p : Nat) : rd8 (f.drop n) p = rd8 f (n + p) := by
  simp [rd8, List.getD_eq_getElem?_getD, List.getElem?_drop]

theorem rd32_drop (be : Bool) (f : List Nat) (n p : Nat) :
    rd32 be (f.drop n) p = rd32 be f (n + p) := by
  unfold rd32
  simp only [rd8_drop, Nat.add_assoc]

theorem and_f0000000 (x : Nat) (hx : x < 4294967296) :
    x &&& 0xF0000000 = x / 268435456 * 268435456 := by
  apply Nat.eq_of_testBit_eq
  intro i
  have h1 : (0xF0000000 : Nat) = 15 <<< 28 := by decide
  have h2 : x / 268435456 * 268435456 = (x >>> 28) <<< 28 := by
    rw [Nat.shiftRight_eq_div_pow, Nat.shiftLeft_eq]
  rw [h2, Nat.testBit_and, h1, Nat.testBit_shiftLeft, Nat.testBit_shiftLeft,
    Nat.testBit_shiftRight]
  by_cases hi : 28 ≤ i
  · have e : 28 + (i - 28) = i := by omega
    rw [e]
    simp only [hi, decide_True, Bool.true_and]
    by_cases h32 : i < 32
    · have : (15 : Nat).testBit (i - 28) = true := by
        have : i - 28 = 0 ∨ i - 28 = 1 ∨ i - 28 = 2 ∨ i - 28 = 3 := by omega
        rcases this with h | h | h | h <;> rw [h] <;> decide
      rw [this, Bool.and_true]
    · have : x.testBit i = false := by
        apply Nat.testBit_lt_two_pow
        calc x < 4294967296 := hx
          _ = 2 ^ 32 := by norm_num
          _ ≤ 2 ^ i := Nat.pow_le_pow_right (by norm_num) (by omega)
      rw [this, Bool.false_and]
  · simp [hi]

theorem ntohl_mk32 (be : Bool) {b0 b1 b2 b3 : Nat} (h0 : b0 < 256) (h1 : b1 < 256)
    (h2 : b2 < 256) (h3 : b3 < 256) :
    bpf_ntohl be (mk32 be b0 b1 b2 b3) = b0 * 16777216 + b1 * 65536 + b2 * 256 + b3 := by
  cases be
  · simp only [bpf_ntohl, mk32, bswap32, Bool.false_eq_true, if_false]
    omega
  · simp only [bpf_ntohl, mk32, if_true]
    omega

theorem multicast_test (be : Bool) (f : List Nat) (hf : bytes_ok f) (p : Nat) :
    (bpf_ntohl be (rd32 be f p) &&& 0xF0000000) = 0xE0000000 ↔
      (224 ≤ rd8 f p ∧ rd8 f p < 240) := by
  have h0 := rd8_lt f hf p
  have h1 := rd8_lt f hf (p + 1)
  have h2 := rd8_lt f hf (p + 2)
  have h3 := rd8_lt f hf (p + 3)
  unfold rd32
  rw [ntohl_mk32 be h0 h1 h2 h3, and_f0000000 _ (by omega)]
  omega

theorem state_at_routes_of_not_peer (be : Bool) (st : State) (f : List Nat)
    (hmac : mac_eq (state_at_routes be st f).switch_mac (rd_mac f 6) = false) :
    state_at_routes be st f = st := by
  by_cases hl : state_at_routes be st f = st
  · exact hl
  · exfalso
    unfold state_at_routes at hl hmac
    by_cases hu : rd8 f 23 = IPPROTO_UDP
    · rw [if_pos hu] at hl hmac
      unfold learn_switch at hl hmac
      by_cases hc : rd16 be f 36 = bpf_htons be 49152 ∧ eth_is_broadcast f = true ∧
          st.switch_ip = 0
      · rw [if_pos hc] at hmac
        simp only [] at hmac
        have : mac_eq (rd_mac f 6) (rd_mac f 6) = true := (mac_eq_iff _ _).mpr rfl
        rw [this] at hmac
        exact Bool.noConfusion hmac
      · rw [if_neg hc] at hl
        exact hl rfl
    · rw [if_neg hu] at hl
      exact hl rfl

/-- The program on a UDP frame for which the conditions of the inbound tunnel
route hold. -/
theorem xdp_prog_inbound (be : Bool) (ktime : Nat → Nat) (ctx : xdp_md) (st : State)
    (hip : rd16 be ctx.data 12 = bpf_htons be ETH_P_IP) (hlen : 42 ≤ ctx.data.length)
    (hin : takes_vpn_inbound be (state_at_routes be st ctx.data) ctx.data) :
    xdp_prog be ktime ctx st = xdp_prog_vpn_inbound be ctx st := by
  have hst := state_at_routes_of_not_peer be st ctx.data hin.2.1
  rw [hst] at hin
  obtain ⟨hnat, hmac, hda, hu, hport⟩ := hin
  have hl4 : ipv4_l4_frame be ctx.data := ⟨by omega, hip, Or.inr (Or.inl ⟨hu, hlen⟩)⟩
  obtain ⟨-, -, hd⟩ := l4_of_tcp_udp be ctx.data (Or.inr hu)
  have hst2 : (if rd8 ctx.data 23 = IPPROTO_UDP then learn_switch be st ctx.data else st) = st :=
    hst
  rw [xdp_prog_routes be ktime ctx st hl4, hst2,
    xdp_prog_ip_routes_other be ktime ctx st _ _ _ (by omega) hnat]
  unfold xdp_prog_other_routes
  simp only []
  rw [ld_mac_ok _ (by omega)]
  simp only [Mem.ok_bind]
  rw [if_neg (by rw [hmac]; exact Bool.false_ne_true), ld32_ok _ _ (by omega)]
  simp only [Mem.ok_bind]
  rw [if_pos hda, ld8_ok _ (by omega)]
  simp only [Mem.ok_bind]
  rw [if_pos ⟨hu, by rw [hd]; exact hport⟩]

theorem adjust_head_strip (ctx : xdp_md) (hlen : 42 ≤ ctx.data.length) :
    bpf_xdp_adjust_head ctx ((20 : Int) + 8) =
      some { ctx with headroom := ctx.headroom ++ ctx.data.take 28, data := ctx.data.drop 28 } := by
  unfold bpf_xdp_adjust_head
  have e : ((20 : Int) + 8).toNat = 28 := by decide
  rw [if_neg (by decide)]
  simp only [e]
  rw [if_neg (by omega)]

theorem rd8_wrN_zero (f : List Nat) (p q n : Nat) (h : p + n ≤ f.length) :
    rd8 (wrN f p (List.replicate n 0)) q = if p ≤ q ∧ q < p + n then 0 else rd8 f q := by
  induction n generalizing f p with
  | zero =>
    rw [if_neg (by omega)]
    rfl
  | succ n ih =>
    rw [List.replicate_succ]
    simp only [wrN]
    rw [ih _ _ (by simp only [length_wr8]; omega), rd8_wr8_in _ _ _ _ (by omega)]
    split_ifs <;> first | rfl | omega

theorem adjust_tail_length (c c2 : xdp_md) (d : Int) (h : bpf_xdp_adjust_tail c d = some c2) :
    (c2.data.length : Int) = c.data.length + d ∧ c2.rx_queue_index = c.rx_queue_index ∧
      c2.headroom = c.headroom := by
  unfold bpf_xdp_adjust_tail at h
  split_ifs at h with h1 h2 h3
  · injection h with h
    subst h
    simp only [List.length_append, List.length_replicate]
    refine ⟨?_, trivial, trivial⟩
    omega
  · injection h with h
    subst h
    simp only [List.length_take]
    refine ⟨?_, trivial, trivial⟩
    omega

theorem send_icmp4_short (be : Bool) (ctx : xdp_md) (st : State) (h : ctx.data.length < 14) :
    send_icmp4_timeout_exceeded be ctx st = .ok (.XDP_DROP, ctx, st) := by
  unfold send_icmp4_timeout_exceeded
  rw [if_pos (by omega)]
  rfl

theorem send_icmp4_no_head (be : Bool) (ctx : xdp_md) (st : State) (h : 14 ≤ ctx.data.length)
    (hh : bpf_xdp_adjust_head ctx (0 - ((20 : Int) + 8)) = none) :
    send_icmp4_timeout_exceeded be ctx st = .ok (.XDP_DROP, ctx, st) := by
  unfold send_icmp4_timeout_exceeded
  rw [if_neg (by omega), ldN_ok _ (by omega)]
  simp only [Mem.ok_bind, hh]
  rfl

theorem send_icmp4_no_tail (be : Bool) (ctx c1 : xdp_md) (st : State)
    (h : 14 ≤ ctx.data.length)
    (hh : bpf_xdp_adjust_head ctx (0 - ((20 : Int) + 8)) = some c1)
    (ht : bpf_xdp_adjust_tail c1 (((14 : Int) + 20 + 8 + 28) - (c1.data.length : Int)) = none) :
    send_icmp4_timeout_exceeded be ctx st = .ok (.XDP_DROP, c1, st) := by
  unfold send_icmp4_timeout_exceeded
  rw [if_neg (by omega), ldN_ok _ (by omega)]
  simp only [Mem.ok_bind, hh, ht]
  rfl

theorem send_icmp4_resized (be : Bool) (ctx c1 c2 : xdp_md) (st : State)
    (h : 14 ≤ ctx.data.length)
    (hh : bpf_xdp_adjust_head ctx (0 - ((20 : Int) + 8)) = some c1)
    (ht : bpf_xdp_adjust_tail c1 (((14 : Int) + 20 + 8 + 28) - (c1.data.length : Int)) = some c2) :
    send_icmp4_timeout_exceeded be ctx st =
      .ok (.XDP_TX, { c2 with data := icmp_fill be st (rd_mac ctx.data 6) c2.data }, st) := by
  have hl : c2.data.length = 70 := by
    have := (adjust_tail_length c1 c2 _ ht).1
    omega
  have hm : rd_mac (rdN ctx.data 0 14) 6 = rd_mac ctx.data 6 := by
    unfold rd_mac
    rw [rd8_rdN _ _ _ (by omega), rd8_rdN _ _ _ (by omega), rd8_rdN _ _ _ (by omega),
      rd8_rdN _ _ _ (by omega), rd8_rdN _ _ _ (by omega), rd8_rdN _ _ _ (by omega)]
  unfold send_icmp4_timeout_exceeded
  rw [if_neg (by omega), ldN_ok _ (by omega)]
  simp only [Mem.ok_bind, hh, ht]
  rw [if_neg (by omega), if_neg (by omega), if_neg (by omega), if_neg (by omega)]
  unfold set_ihl set_version
  simp (disch := first | omega | (simp only [length_wr8, length_wr16, length_wr32, length_wr_mac, length_wrN, List.length_replicate]; omega)) only
    [ld8_ok, ld16_ok, ld32_ok, ldN_ok, ld_mac_ok, st8_ok, st16_ok, st32_ok, st_mac_ok, stN_ok,
      recompute_iph_csum_ok, Mem.ok_bind, Mem.pure_eq, hm]
  rfl
theorem csum_store_valid (be : Bool) (f : List Nat) (p n k : Nat) (hf : bytes_ok f)
    (hn : n % 4 = 0) (hn512 : n ≤ 512) (hk : k % 2 = 0) (hkn : k + 2 ≤ n)
    (hlen : p + n ≤ f.length) (hz : rd16 be f (p + k) = 0) :
    ones16 (words16 be (rdN (wr16 be f (p + k) (ipv4_csum be (rdN f p n) 0)) p n)).sum
      = 65535 := by
  have hok : bytes_ok (rdN f p n) := bytes_ok_rdN _ hf _ _
  rw [ipv4_csum_eq be _ hok (by simpa using hn) (by simpa using hn512),
    rdN_wr16_in be _ p n _ (by omega) (by omega)]
  have h := sum_words16_wr16 be (rdN f p n) k (65535 - ones16 (words16 be (rdN f p n)).sum) hk
    (by simpa using hkn)
  rw [rd16_rdN be _ p n (by omega), hz] at h
  have hle := ones16_le (words16 be (rdN f p n)).sum
  rw [ones16_eq_ffff_iff]
  generalize (words16 be (rdN f p n)).sum = S at h hle ⊢
  have hm := ones16_mod S
  have hz := ones16_eq_zero S
  generalize ones16 S = o at h hle hm hz ⊢
  omega

theorem rdN_congr (f g : List Nat) (p n : Nat)
    (h : ∀ q, p ≤ q → q < p + n → rd8 g q = rd8 f q) : rdN g p n = rdN f p n := by
  apply list_ext_rd8 (by simp)
  intro i hi
  simp only [length_rdN] at hi
  rw [rd8_rdN _ _ _ hi, rd8_rdN _ _ _ hi]
  exact h _ (by omega) (by omega)

theorem bytes_ok_wrN (f : List Nat) (hf : bytes_ok f) (p : Nat) (bs : List Nat) :
    bytes_ok (wrN f p bs) := by
  induction bs generalizing f p with
  | nil => exact hf
  | cons b bs ih => exact ih _ (bytes_ok_wr8 _ hf _ _) _

theorem icmp_fill_icmph_spec (be : Bool) (f : List Nat) (hf : bytes_ok f)
    (hlen : 70 ≤ f.length) :
    (icmp_fill_icmph be f).length = f.length ∧ bytes_ok (icmp_fill_icmph be f) ∧
    (∀ q, q < 34 ∨ 42 ≤ q → rd8 (icmp_fill_icmph be f) q = rd8 f q) ∧
    rd8 (icmp_fill_icmph be f) 34 = ICMP_TIME_EXCEEDED ∧
    rd8 (icmp_fill_icmph be f) 35 = ICMP_EXC_TTL ∧
    rd32 be (icmp_fill_icmph be f) 38 = 0 ∧
    inet_sum (rdN (icmp_fill_icmph be f) 34 36) = 0xFFFF := by
  unfold icmp_fill_icmph
  simp only []
  refine ⟨by simp, ?_, ?_, ?_, ?_, ?_, ?_⟩
  · exact bytes_ok_wr16 be _ (bytes_ok_wr8 _ (bytes_ok_wr8 _ (bytes_ok_wrN _ hf _ _) _ _) _ _) _ _
  · intro q hq
    rw [rd8_wr16_ne _ _ _ (by omega) (by omega), rd8_wr8_ne _ _ (by omega),
      rd8_wr8_ne _ _ (by omega), rd8_wrN_zero _ _ _ _ (by omega), if_neg (by omega)]
  · rw [rd8_wr16_ne _ _ _ (by omega) (by omega), rd8_wr8_ne _ _ (by omega),
      rd8_wr8_eq _ _ (by simp; omega)]
    rfl
  · rw [rd8_wr16_ne _ _ _ (by omega) (by omega), rd8_wr8_eq _ _ (by simp; omega)]
    rfl
  · have e : ∀ q, 38 ≤ q → q < 42 →
        rd8 (wr16 be (wr8 (wr8 (wrN f 34 (List.replicate 8 0)) 34 ICMP_TIME_EXCEEDED) 35
          ICMP_EXC_TTL) 36 (ipv4_csum be (rdN (wr8 (wr8 (wrN f 34 (List.replicate 8 0)) 34
            ICMP_TIME_EXCEEDED) 35 ICMP_EXC_TTL) 34 (8 + 28)) 0)) q = 0 := by
      intro q h1 h2
      rw [rd8_wr16_ne _ _ _ (by omega) (by omega), rd8_wr8_ne _ _ (by omega),
        rd8_wr8_ne _ _ (by omega), rd8_wrN_zero _ _ _ _ (by omega), if_pos (by omega)]
    unfold rd32
    rw [e _ (by omega) (by omega), e _ (by omega) (by omega), e _ (by omega) (by omega),
      e _ (by omega) (by omega)]
    cases be <;> rfl
  · have hb : bytes_ok (wr8 (wr8 (wrN f 34 (List.replicate 8 0)) 34 ICMP_TIME_EXCEEDED) 35
        ICMP_EXC_TTL) := bytes_ok_wr8 _ (bytes_ok_wr8 _ (bytes_ok_wrN _ hf _ _) _ _) _ _
    rw [inet_sum_valid_iff be _ (bytes_ok_rdN _ (bytes_ok_wr16 be _ hb _ _) _ _)]
    refine csum_store_valid be _ 34 36 2 hb (by norm_num) (by norm_num) (by norm_num)
      (by norm_num) (by simp; omega) ?_
    unfold rd16
    rw [rd8_wr8_ne _ _ (by omega), rd8_wr8_ne _ _ (by omega), rd8_wr8_ne _ _ (by omega),
      rd8_wr8_ne _ _ (by omega), rd8_wrN_zero _ _ _ _ (by omega), if_pos (by omega),
      rd8_wrN_zero _ _ _ _ (by omega), if_pos (by omega)]
    cases be <;> rfl
theorem htons_lt (be : Bool) (x : Nat) : bpf_htons be x < 65536 := by
  cases be
  · simp only [bpf_htons, bswap16, Bool.false_eq_true, if_false]; omega
  · simp only [bpf_htons, if_true]; omega

theorem icmp_fill_iph_spec (be : Bool) (st : State) (f : List Nat) (hf : bytes_ok f)
    (hlen : 70 ≤ f.length) :
    (icmp_fill_iph be st f).length = f.length ∧ bytes_ok (icmp_fill_iph be st f) ∧
    (∀ q, q < 14 ∨ 34 ≤ q ∨ q = 24 ∨ q = 25 → rd8 (icmp_fill_iph be st f) q = rd8 f q) ∧
    rd8 (icmp_fill_iph be st f) 14 = 0x45 ∧
    rd8 (icmp_fill_iph be st f) 15 = 0 ∧
    rd16 be (icmp_fill_iph be st f) 16 = bpf_htons be (f.length - 14) ∧
    rd16 be (icmp_fill_iph be st f) 18 = 0 ∧
    rd16 be (icmp_fill_iph be st f) 20 = bpf_htons be IP_DF ∧
    rd8 (icmp_fill_iph be st f) 22 = 64 ∧
    rd8 (icmp_fill_iph be st f) 23 = IPPROTO_ICMP ∧
    rd32 be (icmp_fill_iph be st f) 26 = st.public_host_ip % 4294967296 ∧
    rd32 be (icmp_fill_iph be st f) 30 = rd32 be f 54 := by
  unfold icmp_fill_iph
  simp only []
  refine ⟨by simp, ?_, ?_, ?_, ?_, ?_, ?_, ?_, ?_, ?_, ?_, ?_⟩
  · exact bytes_ok_wr32 be _ (bytes_ok_wr32 be _ (bytes_ok_wr8 _ (bytes_ok_wr8 _
      (bytes_ok_wr16 be _ (bytes_ok_wr16 be _ (bytes_ok_wr8 _ (bytes_ok_wr16 be _
        (bytes_ok_wr8 _ (bytes_ok_wr8 _ hf _ _) _ _) _ _) _ _) _ _) _ _) _ _) _ _) _ _) _ _
  · intro q hq
    rw [rd8_wr32_ne _ _ _ (by omega) (by omega) (by omega) (by omega),
      rd8_wr32_ne _ _ _ (by omega) (by omega) (by omega) (by omega),
      rd8_wr8_ne _ _ (by omega), rd8_wr8_ne _ _ (by omega),
      rd8_wr16_ne _ _ _ (by omega) (by omega), rd8_wr16_ne _ _ _ (by omega) (by omega),
      rd8_wr8_ne _ _ (by omega), rd8_wr16_ne _ _ _ (by omega) (by omega),
      rd8_wr8_ne _ _ (by omega), rd8_wr8_ne _ _ (by omega)]
  · simp (disch := first | omega | (simp only [length_wr8, length_wr16, length_wr32]; omega)) only
      [rd8_wr8_in, rd8_wr16_in, rd8_wr32_in, if_true, if_false, reduceIte, Nat.reduceEqDiff,
        Nat.reduceAdd]
    omega
  · simp (disch := first | omega | (simp only [length_wr8, length_wr16, length_wr32]; omega)) only
      [rd8_wr8_in, rd8_wr16_in, rd8_wr32_in, if_true, if_false, reduceIte, Nat.reduceEqDiff,
        Nat.reduceAdd]
  · unfold rd16
    simp (disch := first | omega | (simp only [length_wr8, length_wr16, length_wr32]; omega)) only
      [rd8_wr8_in, rd8_wr16_in, rd8_wr32_in, if_true, if_false, reduceIte, Nat.reduceEqDiff,
        Nat.reduceAdd, length_wr8]
    rw [mk16_byte16, Nat.mod_eq_of_lt (htons_lt be _)]
  · unfold rd16
    simp (disch := first | omega | (simp only [length_wr8, length_wr16, length_wr32]; omega)) only
      [rd8_wr8_in, rd8_wr16_in, rd8_wr32_in, if_true, if_false, reduceIte, Nat.reduceEqDiff,
        Nat.reduceAdd]
    rw [mk16_byte16]
  · unfold rd16
    simp (disch := first | omega | (simp only [length_wr8, length_wr16, length_wr32]; omega)) only
      [rd8_wr8_in, rd8_wr16_in, rd8_wr32_in, if_true, if_false, reduceIte, Nat.reduceEqDiff,
        Nat.reduceAdd]
    rw [mk16_byte16, Nat.mod_eq_of_lt (htons_lt be _)]
  · simp (disch := first | omega | (simp only [length_wr8, length_wr16, length_wr32]; omega)) only
      [rd8_wr8_in, rd8_wr16_in, rd8_wr32_in, if_true, if_false, reduceIte, Nat.reduceEqDiff,
        Nat.reduceAdd]
  · simp (disch := first | omega | (simp only [length_wr8, length_wr16, length_wr32]; omega)) only
      [rd8_wr8_in, rd8_wr16_in, rd8_wr32_in, if_true, if_false, reduceIte, Nat.reduceEqDiff,
        Nat.reduceAdd]
    rfl
  · rw [rd32_wr32_eq be _ _ (by simp; omega)]
  · have e : rd32 be (wr8 (wr8 (wr16 be (wr16 be (wr8 (wr16 be
        (wr8 (wr8 f 14 (rd8 f 14 / 16 % 16 * 16 + 5 % 16)) 14
          (4 % 16 * 16 + rd8 (wr8 f 14 (rd8 f 14 / 16 % 16 * 16 + 5 % 16)) 14 % 16)) 16
        (bpf_htons be ((wr8 (wr8 f 14 (rd8 f 14 / 16 % 16 * 16 + 5 % 16)) 14
          (4 % 16 * 16 + rd8 (wr8 f 14 (rd8 f 14 / 16 % 16 * 16 + 5 % 16)) 14 % 16)).length
            - 14))) 15 0) 18 0) 20 (bpf_htons be IP_DF)) 22 64) 23 IPPROTO_ICMP) (42 + 12)
        = rd32 be f 54 := by
      apply rd32_congr
      intro q h1 h2
      rw [rd8_wr8_ne _ _ (by omega), rd8_wr8_ne _ _ (by omega),
        rd8_wr16_ne _ _ _ (by omega) (by omega), rd8_wr16_ne _ _ _ (by omega) (by omega),
        rd8_wr8_ne _ _ (by omega), rd8_wr16_ne _ _ _ (by omega) (by omega),
        rd8_wr8_ne _ _ (by omega), rd8_wr8_ne _ _ (by omega)]
    rw [e]
    rw [rd32_congr be (wr32 be _ 30 (rd32 be f 54)) _ 30 (fun q h1 h2 =>
      rd8_wr32_ne be _ _ (by omega) (by omega) (by omega) (by omega)),
      rd32_wr32_eq be _ _ (by simp; omega), Nat.mod_eq_of_lt (rd32_lt be f hf _)]
theorem fill_eth_spec (be : Bool) (st : State) (d : macaddr_t) (f : List Nat)
    (hlen : 14 ≤ f.length) :
    (fill_eth be st d f).length = f.length ∧
    (bytes_ok f → bytes_ok (fill_eth be st d f)) ∧
    (∀ q, 14 ≤ q → rd8 (fill_eth be st d f) q = rd8 f q) ∧
    (d.ok → rd_mac (fill_eth be st d f) 0 = d) ∧
    (st.host_mac.ok → rd_mac (fill_eth be st d f) 6 = st.host_mac) ∧
    rd16 be (fill_eth be st d f) 12 = bpf_htons be ETH_P_IP := by
  unfold fill_eth
  simp only []
  refine ⟨by simp, ?_, ?_, ?_, ?_, ?_⟩
  · intro hf
    exact bytes_ok_wr16 be _ (bytes_ok_wr_mac _ (bytes_ok_wr_mac _ hf _ _) _ _) _ _
  · intro q hq
    rw [rd8_wr16_ne _ _ _ (by omega) (by omega), rd8_wr_mac_ne _ _ _ (by omega),
      rd8_wr_mac_ne _ _ _ (by omega)]
  · intro hd
    unfold rd_mac
    simp (disch := first | omega | (simp only [length_wr8, length_wr16, length_wr_mac]; omega)) only
      [rd8_wr16_in, rd8_wr_mac_in, if_true, if_false, reduceIte, Nat.reduceEqDiff,
        Nat.reduceAdd]
    exact macaddr_mod _ hd
  · intro hd
    unfold rd_mac
    simp (disch := first | omega | (simp only [length_wr8, length_wr16, length_wr_mac]; omega)) only
      [rd8_wr16_in, rd8_wr_mac_in, if_true, if_false, reduceIte, Nat.reduceEqDiff,
        Nat.reduceAdd]
    exact macaddr_mod _ hd
  · rw [rd16_wr16_eq be _ _ (by simp; omega), Nat.mod_eq_of_lt (htons_lt be _)]

theorem rd8_append_right (a b : List Nat) (q : Nat) :
    rd8 (a ++ b) (a.length + q) = rd8 b q := by
  simp [rd8, List.getD_eq_getElem?_getD, List.getElem?_append_right]

theorem rd8_append_left (a b : List Nat) {q : Nat} (h : q < a.length) :
    rd8 (a ++ b) q = rd8 a q := by
  simp [rd8, List.getD_eq_getElem?_getD, List.getElem?_append_left h]

theorem rdN_append (f : List Nat) (p a b : Nat) :
    rdN f p (a + b) = rdN f p a ++ rdN f (p + a) b := by
  apply list_ext_rd8 (by simp)
  intro i hi
  simp only [length_rdN] at hi
  rw [rd8_rdN _ _ _ hi]
  by_cases h : i < a
  · rw [rd8_append_left _ _ (by simpa using h), rd8_rdN _ _ _ h]
  · have e := rd8_append_right (rdN f p a) (rdN f (p + a) b) (i - a)
    rw [length_rdN, show a + (i - a) = i by omega] at e
    rw [e, rd8_rdN _ _ _ (by omega)]
    congr 1
    omega

theorem rd8_take (f : List Nat) {n q : Nat} (h : q < n) : rd8 (f.take n) q = rd8 f q := by
  simp [rd8, List.getD_eq_getElem?_getD, List.getElem?_take, h]

theorem rd8_replicate_zero (n q : Nat) : rd8 (List.replicate n 0) q = 0 := by
  by_cases h : q < n
  · simp [rd8, List.getD_eq_getElem?_getD, List.getElem?_replicate, h]
  · exact rd8_of_le _ (by simp; omega)

theorem bytes_ok_of_sublist_take (f : List Nat) (hf : bytes_ok f) (n : Nat) :
    bytes_ok (f.take n) := fun b hb => hf b (List.mem_of_mem_take hb)

theorem bytes_ok_of_drop (f : List Nat) (hf : bytes_ok f) (n : Nat) :
    bytes_ok (f.drop n) := fun b hb => hf b (List.mem_of_mem_drop hb)

theorem bytes_ok_replicate_zero (n : Nat) : bytes_ok (List.replicate n 0) := by
  intro b hb
  rw [(List.mem_replicate.mp hb).2]
  norm_num

theorem adjust_head_grow (ctx c1 : xdp_md)
    (h : bpf_xdp_adjust_head ctx (0 - ((20 : Int) + 8)) = some c1) :
    28 ≤ ctx.headroom.length ∧ c1.data.length = ctx.data.length + 28 ∧
      (∀ q, rd8 c1.data (28 + q) = rd8 ctx.data q) ∧
      (bytes_ok ctx.headroom → bytes_ok ctx.data → bytes_ok c1.data) ∧
      c1.tailroom = ctx.tailroom ∧ c1.rx_queue_index = ctx.rx_queue_index := by
  unfold bpf_xdp_adjust_head at h
  have e : (-(0 - ((20 : Int) + 8))).toNat = 28 := by decide
  rw [if_pos (by decide)] at h
  simp only [e] at h
  split_ifs at h with h1
  injection h with h
  subst h
  have hl : (ctx.headroom.drop (ctx.headroom.length - 28)).length = 28 := by
    rw [List.length_drop]; omega
  refine ⟨by omega, ?_, ?_, ?_, rfl, rfl⟩
  · simp only [List.length_append, hl]; omega
  · intro q
    have := rd8_append_right (ctx.headroom.drop (ctx.headroom.length - 28)) ctx.data q
    rw [hl] at this
    exact this
  · intro hh hf
    exact bytes_ok_append (bytes_ok_of_drop _ hh _) hf

theorem adjust_head_grow_some (ctx : xdp_md) (h : 28 ≤ ctx.headroom.length) :
    ∃ c1, bpf_xdp_adjust_head ctx (0 - ((20 : Int) + 8)) = some c1 := by
  unfold bpf_xdp_adjust_head
  have e : (-(0 - ((20 : Int) + 8))).toNat = 28 := by decide
  rw [if_pos (by decide)]
  simp only [e]
  rw [if_neg (by omega)]
  exact ⟨_, rfl⟩

theorem adjust_head_grow_none (ctx : xdp_md) (h : ctx.headroom.length < 28) :
    bpf_xdp_adjust_head ctx (0 - ((20 : Int) + 8)) = none := by
  unfold bpf_xdp_adjust_head
  have e : (-(0 - ((20 : Int) + 8))).toNat = 28 := by decide
  rw [if_pos (by decide)]
  simp only [e]
  rw [if_pos (by omega)]

theorem adjust_tail_spec (c c2 : xdp_md) (d : Int) (h : bpf_xdp_adjust_tail c d = some c2) :
    (∀ q, q < c2.data.length → rd8 c2.data q = rd8 c.data q) ∧
      (bytes_ok c.data → bytes_ok c2.data) := by
  unfold bpf_xdp_adjust_tail at h
  split_ifs at h with h1 h2 h3
  · injection h with h
    subst h
    constructor
    · intro q hq
      by_cases hl : q < c.data.length
      · exact rd8_append_left _ _ hl
      · have := rd8_append_right c.data (List.replicate d.toNat 0) (q - c.data.length)
        rw [show c.data.length + (q - c.data.length) = q by omega] at this
        simp only []
        rw [this, rd8_replicate_zero, rd8_of_le _ (by omega)]
    · intro hf
      exact bytes_ok_append hf (bytes_ok_replicate_zero _)
  · injection h with h
    subst h
    constructor
    · intro q hq
      simp only [List.length_take] at hq
      exact rd8_take _ (by omega)
    · intro hf
      exact bytes_ok_of_sublist_take _ hf _

theorem adjust_tail_shrink_some (c : xdp_md) (d : Int) (h1 : d ≤ 0)
    (h2 : 14 ≤ (c.data.length : Int) + d) : ∃ c2, bpf_xdp_adjust_tail c d = some c2 := by
  unfold bpf_xdp_adjust_tail
  rw [if_neg (by omega), if_neg (by omega), if_neg (by omega)]
  exact ⟨_, rfl⟩
theorem l4_of_dst_port (be : Bool) (f : List Nat) (h : rd8 f 23 = IPPROTO_UDP) :
    (l4_of be f).dst_port = rd16 be f 36 := (l4_of_tcp_udp be f (Or.inr h)).2.2

/-- The program on a TCP, UDP or ICMP frame with TTL at most 1 on the NAT route
or on the NAT return route. -/
theorem xdp_prog_ttl_exceeded (be : Bool) (ktime : Nat → Nat) (ctx : xdp_md) (st : State)
    (hfr : ipv4_l4_frame be ctx.data) (httl : rd8 ctx.data 22 ≤ 1)
    (hr : takes_nat_route be st ctx.data = true ∨
      takes_nat_return be (state_at_routes be st ctx.data) ctx.data) :
    xdp_prog be ktime ctx st = send_icmp4_timeout_exceeded be ctx st := by
  have hlen : 34 ≤ ctx.data.length := hfr.1
  rw [xdp_prog_routes be ktime ctx st hfr]
  rcases hr with hr | hr
  · have hst : (if rd8 ctx.data 23 = IPPROTO_UDP then learn_switch be st ctx.data else st)
        = st := by
      rw [learn_switch_of_unicast be st _ (unicast_of_nat_route be st _ hr)]
      exact ite_self _
    rw [hst, xdp_prog_ip_routes_nat be ktime ctx st _ _ _ hlen hr]
    unfold xdp_prog_nat_route
    simp only []
    rw [ld8_ok _ (by omega)]
    simp only [Mem.ok_bind]
    rw [if_pos httl]
  · have hst := state_at_routes_of_not_peer be st ctx.data hr.2.1
    have hst2 : (if rd8 ctx.data 23 = IPPROTO_UDP then learn_switch be st ctx.data else st)
        = st := hst
    rw [hst] at hr
    obtain ⟨hnat, hmac, hda, hvpn, hfg, hsub⟩ := hr
    rw [hst2, xdp_prog_ip_routes_other be ktime ctx st _ _ _ hlen hnat]
    unfold xdp_prog_other_routes
    simp only []
    rw [ld_mac_ok _ (by omega)]
    simp only [Mem.ok_bind]
    rw [if_neg (by rw [hmac]; exact Bool.false_ne_true), ld32_ok _ _ (by omega)]
    simp only [Mem.ok_bind]
    rw [if_pos hda, ld8_ok _ (by omega)]
    simp only [Mem.ok_bind]
    rw [if_neg (fun hc => hvpn ⟨hc.1, by rw [← l4_of_dst_port be _ hc.1]; exact hc.2⟩),
      ld32_ok _ _ (by omega)]
    simp only [Mem.ok_bind]
    rw [if_pos ⟨hfg, hsub⟩]
    unfold xdp_prog_nat_return
    simp only []
    rw [ld8_ok _ (by omega)]
    simp only [Mem.ok_bind]
    rw [if_pos httl]

/-- C14, amended: the ICMP Time Exceeded reply.  `send_icmp4_timeout_exceeded`,
which `xdp_prog` invokes for a frame with TTL at most 1 on the NAT route and on
the NAT return route, returns `XDP_DROP` if one of the two resizes fails, and
otherwise `XDP_TX` with a frame of exactly 70 bytes: Ethernet header with the
source of the original frame as destination, `host_mac` as source and ethertype
IPv4; IPv4 header with version 4, IHL 5, TOS 0, total length 56, id 0, flags
DF, TTL 64, protocol ICMP, source `public_host_ip`, destination the source
address of the original packet, and a header checksum that verifies; ICMP
header with type Time Exceeded, code 0, zero rest of header and a checksum that
verifies over the ICMP header and the payload; the payload is the 28 bytes that
followed the Ethernet header of the original frame, which are the original IPv4
header and the first 8 bytes behind it when that header has 20 bytes (version
4, IHL 5).  With 28 bytes of headroom and a frame of 42 bytes or more, both
resizes succeed. -/
theorem C14_icmp_timeout_exceeded (be : Bool) (ctx : xdp_md) (st : State)
    (hf : bytes_ok ctx.data) (hh : bytes_ok ctx.headroom) (hst : st.ok)
    (hlen : 14 ≤ ctx.data.length) :
    (bpf_xdp_adjust_head ctx (0 - ((20 : Int) + 8)) = none →
      send_icmp4_timeout_exceeded be ctx st = .ok (.XDP_DROP, ctx, st)) ∧
    (∀ c1, bpf_xdp_adjust_head ctx (0 - ((20 : Int) + 8)) = some c1 →
      bpf_xdp_adjust_tail c1 (((14 : Int) + 20 + 8 + 28) - (c1.data.length : Int)) = none →
      send_icmp4_timeout_exceeded be ctx st = .ok (.XDP_DROP, c1, st)) ∧
    (∀ c1 c2, bpf_xdp_adjust_head ctx (0 - ((20 : Int) + 8)) = some c1 →
      bpf_xdp_adjust_tail c1 (((14 : Int) + 20 + 8 + 28) - (c1.data.length : Int)) = some c2 →
      ∃ g, send_icmp4_timeout_exceeded be ctx st = .ok (.XDP_TX, { c2 with data := g }, st) ∧
        g.length = 70 ∧
        rd_mac g 0 = rd_mac ctx.data 6 ∧ rd_mac g 6 = st.host_mac ∧
        rd16 be g 12 = bpf_htons be ETH_P_IP ∧
        rd8 g 14 = 0x45 ∧ rd8 g 15 = 0 ∧ rd16 be g 16 = bpf_htons be 56 ∧
        rd16 be g 18 = 0 ∧ rd16 be g 20 = bpf_htons be IP_DF ∧ rd8 g 22 = 64 ∧
        rd8 g 23 = IPPROTO_ICMP ∧ rd32 be g 26 = st.public_host_ip ∧
        rd32 be g 30 = rd32 be ctx.data 26 ∧
        inet_sum (rdN g 14 20) = 0xFFFF ∧
        rd8 g 34 = ICMP_TIME_EXCEEDED ∧ rd8 g 35 = ICMP_EXC_TTL ∧ rd32 be g 38 = 0 ∧
        inet_sum (rdN g 34 36) = 0xFFFF ∧
        rdN g 42 28 = rdN ctx.data 14 28 ∧
        (rd8 ctx.data 14 = 0x45 →
          rdN g 42 28 = rdN ctx.data 14 (ip_hdr_len ctx.data 14) ++
            rdN ctx.data (14 + ip_hdr_len ctx.data 14) 8)) ∧
    (28 ≤ ctx.headroom.length → 42 ≤ ctx.data.length →
      ∃ c1 c2, bpf_xdp_adjust_head ctx (0 - ((20 : Int) + 8)) = some c1 ∧
        bpf_xdp_adjust_tail c1 (((14 : Int) + 20 + 8 + 28) - (c1.data.length : Int))
          = some c2) ∧
    (∀ ktime, ipv4_l4_frame be ctx.data → rd8 ctx.data 22 ≤ 1 →
      (takes_nat_route be st ctx.data = true ∨
        takes_nat_return be (state_at_routes be st ctx.data) ctx.data) →
      xdp_prog be ktime ctx st = send_icmp4_timeout_exceeded be ctx st) := by
  refine ⟨send_icmp4_no_head be ctx st hlen, fun c1 => send_icmp4_no_tail be ctx c1 st hlen,
    ?_, ?_, fun ktime hfr httl hr => xdp_prog_ttl_exceeded be ktime ctx st hfr httl hr⟩
  · intro c1 c2 h1 h2
    obtain ⟨-, hl1, hd1, hb1, -, -⟩ := adjust_head_grow ctx c1 h1
    obtain ⟨hd2, hb2⟩ := adjust_tail_spec c1 c2 _ h2
    have hl2 : c2.data.length = 70 := by
      have := (adjust_tail_length c1 c2 _ h2).1
      omega
    have hb0 : bytes_ok c2.data := hb2 (hb1 hh hf)
    have h0 : ∀ q, q < 42 → rd8 c2.data (28 + q) = rd8 ctx.data q := by
      intro q hq
      rw [hd2 _ (by omega), hd1]
    obtain ⟨i1, i2, i3, i4, i5, i6, i7⟩ := icmp_fill_icmph_spec be c2.data hb0 (by omega)
    obtain ⟨j1, j2, j3, j4, j5, j6, j7, j8, j9, j10, j11, j12⟩ :=
      icmp_fill_iph_spec be st (icmp_fill_icmph be c2.data) i2 (by omega)
    have hb3 := bytes_ok_wr16 be _ j2 24
      (ipv4_csum be (rdN (wr16 be (icmp_fill_iph be st (icmp_fill_icmph be c2.data)) 24 0)
        14 20) 0)
    obtain ⟨e1, e2, e3, e4, e5, e6⟩ := fill_eth_spec be st (rd_mac ctx.data 6)
      (wr16 be (icmp_fill_iph be st (icmp_fill_icmph be c2.data)) 24
        (ipv4_csum be (rdN (wr16 be (icmp_fill_iph be st (icmp_fill_icmph be c2.data)) 24 0)
          14 20) 0)) (by simp only [length_wr16]; omega)
    have hg3 : ∀ q, 14 ≤ q → q ≠ 24 → q ≠ 25 →
        rd8 (icmp_fill be st (rd_mac ctx.data 6) c2.data) q =
          rd8 (icmp_fill_iph be st (icmp_fill_icmph be c2.data)) q := by
      intro q h14 h24 h25
      unfold icmp_fill
      simp only []
      rw [e3 q h14, rd8_wr16_ne _ _ _ (by omega) (by omega)]
    have hg1 : ∀ q, 34 ≤ q →
        rd8 (icmp_fill be st (rd_mac ctx.data 6) c2.data) q =
          rd8 (icmp_fill_icmph be c2.data) q := by
      intro q h34
      rw [hg3 q (by omega) (by omega) (by omega), j3 q (by omega)]
    refine ⟨_, send_icmp4_resized be ctx c1 c2 st hlen h1 h2, ?_, ?_, ?_, ?_, ?_, ?_, ?_, ?_, ?_,
      ?_, ?_, ?_, ?_, ?_, ?_, ?_, ?_, ?_, ?_, ?_⟩
    · unfold icmp_fill
      simp only []
      rw [e1, length_wr16, j1, i1, hl2]
    · exact e4 (rd_mac_ok _ hf 6)
    · exact e5 hst.1
    · exact e6
    · rw [hg3 14 (by omega) (by omega) (by omega), j4]
    · rw [hg3 15 (by omega) (by omega) (by omega), j5]
    · rw [rd16_congr be _ _ 16 (fun q h1 h2 => hg3 q (by omega) (by omega) (by omega)), j6, i1,
        hl2]
    · rw [rd16_congr be _ _ 18 (fun q h1 h2 => hg3 q (by omega) (by omega) (by omega)), j7]
    · rw [rd16_congr be _ _ 20 (fun q h1 h2 => hg3 q (by omega) (by omega) (by omega)), j8]
    · rw [hg3 22 (by omega) (by omega) (by omega), j9]
    · rw [hg3 23 (by omega) (by omega) (by omega), j10]
    · rw [rd32_congr be _ _ 26 (fun q h1 h2 => hg3 q (by omega) (by omega) (by omega)), j11,
        Nat.mod_eq_of_lt hst.2.2.2.1]
    · rw [rd32_congr be _ _ 30 (fun q h1 h2 => hg3 q (by omega) (by omega) (by omega)), j12,
        rd32_congr be c2.data _ 54 (fun q h1 h2 => i3 q (by omega))]
      have := rd32_congr be ctx.data (c2.data.drop 28) 26 (fun q h1 h2 => by
        rw [rd8_drop, h0 q (by omega)])
      rw [rd32_drop] at this
      exact this
    · have e : rdN (icmp_fill be st (rd_mac ctx.data 6) c2.data) 14 20 =
          rdN (wr16 be (icmp_fill_iph be st (icmp_fill_icmph be c2.data)) 24
            (ipv4_csum be (rdN (wr16 be (icmp_fill_iph be st (icmp_fill_icmph be c2.data)) 24 0)
              14 20) 0)) 14 20 := by
        apply rdN_congr
        intro q h1 h2
        unfold icmp_fill
        simp only []
        rw [e3 q h1]
      rw [e, inet_sum_valid_iff be _ (bytes_ok_rdN _ hb3 _ _)]
      exact iph_sum_after_recompute be _ 14 j2 (by omega)
    · rw [hg1 34 (by omega), i4]
    · rw [hg1 35 (by omega), i5]
    · rw [rd32_congr be _ _ 38 (fun q h1 h2 => hg1 q (by omega)), i6]
    · rw [rdN_congr _ _ 34 36 (fun q h1 h2 => hg1 q (by omega))]
      exact i7
    · apply list_ext_rd8 (by simp)
      intro i hi
      simp only [length_rdN] at hi
      rw [rd8_rdN _ _ _ hi, rd8_rdN _ _ _ hi, hg1 _ (by omega), i3 _ (by omega)]
      have := h0 (14 + i) (by omega)
      rw [show 28 + (14 + i) = 42 + i by omega] at this
      exact this
    · intro hver
      have e : rdN ctx.data 14 (ip_hdr_len ctx.data 14) ++
          rdN ctx.data (14 + ip_hdr_len ctx.data 14) 8 = rdN ctx.data 14 28 := by
        unfold ip_hdr_len
        rw [hver]
        exact (rdN_append ctx.data 14 20 8).symm
      rw [e]
      apply list_ext_rd8 (by simp)
      intro i hi
      simp only [length_rdN] at hi
      rw [rd8_rdN _ _ _ hi, rd8_rdN _ _ _ hi, hg1 _ (by omega), i3 _ (by omega)]
      have := h0 (14 + i) (by omega)
      rw [show 28 + (14 + i) = 42 + i by omega] at this
      exact this
  · intro h28 h42
    obtain ⟨c1, h1⟩ := adjust_head_grow_some ctx h28
    obtain ⟨-, hl1, -⟩ := adjust_head_grow ctx c1 h1
    obtain ⟨c2, h2⟩ := adjust_tail_shrink_some c1
      (((14 : Int) + 20 + 8 + 28) - (c1.data.length : Int)) (by omega) (by omega)
    exact ⟨c1, c2, h1, h2⟩

/-! ### The tunnel route -/

theorem xdp_prog_vpn (be : Bool) (ktime : Nat → Nat) (ctx : xdp_md) (st : State)
    (hfr : ipv4_l4_frame be ctx.data) (hv : takes_vpn_route be st ctx.data) :
    xdp_prog be ktime ctx st =
      xdp_prog_vpn_route be ctx st (l4_of be ctx.data) (pheader_of be ctx.data 14) := by
  obtain ⟨hmc, hnat, hmac⟩ := hv
  have hlen : 34 ≤ ctx.data.length := hfr.1
  have hst : (if rd8 ctx.data 23 = IPPROTO_UDP then learn_switch be st ctx.data else st)
      = st := by
    rw [learn_switch_of_unicast be st _ hmc]
    exact ite_self _
  rw [xdp_prog_routes be ktime ctx st hfr, hst,
    xdp_prog_ip_routes_other be ktime ctx st _ _ _ hlen hnat]
  unfold xdp_prog_other_routes
  simp only []
  rw [ld_mac_ok _ (by omega)]
  simp only [Mem.ok_bind]
  rw [if_pos hmac, if_neg (by rw [hmc]; exact Bool.false_ne_true)]

theorem Mem.ite_ok {α : Type} (c : Prop) [Decidable c] (a b : α) :
    (if c then Mem.ok a else Mem.ok b) = Mem.ok (if c then a else b) := by
  split_ifs <;> rfl

theorem vpn_route_none (be : Bool) (ctx : xdp_md) (st : State) (l4 : l4_locals)
    (o : iph_pseudo) (hlen : 34 ≤ ctx.data.length)
    (hm : map_lookup st.remote_addrs (rd32 be ctx.data 30) = none) :
    xdp_prog_vpn_route be ctx st l4 o = .ok (.XDP_PASS, ctx, st) := by
  unfold xdp_prog_vpn_route
  rw [ld32_ok _ _ (by omega)]
  simp only [Mem.ok_bind, hm]
  rfl

theorem vpn_route_no_head (be : Bool) (ctx : xdp_md) (st : State) (l4 : l4_locals)
    (o : iph_pseudo) (r : remote_addr) (hlen : 34 ≤ ctx.data.length)
    (hm : map_lookup st.remote_addrs (rd32 be ctx.data 30) = some r)
    (hh : bpf_xdp_adjust_head ctx (0 - ((20 : Int) + 8)) = none) :
    xdp_prog_vpn_route be ctx st l4 o =
      .ok (.XDP_DROP, ctx,
        { st with remote_addrs := map_touch st.remote_addrs (rd32 be ctx.data 30) }) := by
  unfold xdp_prog_vpn_route
  rw [ld32_ok _ _ (by omega)]
  simp only [Mem.ok_bind, hm, hh]
  rfl

theorem vpn_route_tx (be : Bool) (ctx c1 : xdp_md) (st : State) (l4 : l4_locals)
    (o : iph_pseudo) (r : remote_addr) (hlen : 34 ≤ ctx.data.length)
    (hm : map_lookup st.remote_addrs (rd32 be ctx.data 30) = some r)
    (hh : bpf_xdp_adjust_head ctx (0 - ((20 : Int) + 8)) = some c1) :
    xdp_prog_vpn_route be ctx st l4 o =
      .ok (.XDP_TX, { c1 with data := vpn_fill be st r l4 o c1.data },
        { st with remote_addrs := map_touch st.remote_addrs (rd32 be ctx.data 30) }) := by
  obtain ⟨-, hl1, -⟩ := adjust_head_grow ctx c1 hh
  unfold xdp_prog_vpn_route
  rw [ld32_ok _ _ (by omega)]
  simp only [Mem.ok_bind, hm, hh]
  rw [if_neg (by omega), if_neg (by omega), if_neg (by omega), if_neg (by omega)]
  unfold set_ihl set_version
  simp (disch := first | omega | (simp only [length_wr8, length_wr16, length_wr32, length_wr_mac, apply_ite List.length, ite_self]; omega)) only
    [ld8_ok, ld16_ok, ld32_ok, ldN_ok, ld_mac_ok, st8_ok, st16_ok, st32_ok, st_mac_ok,
      recompute_iph_csum_ok, ipv4_mk_pheader_ok, Mem.ok_bind, Mem.pure_eq, Mem.ite_ok]
  rfl
theorem rd16_wire (be : Bool) (g : List Nat) (hg : bytes_ok g) (p v : Nat)
    (h : rd16 be g p = bpf_htons be v) : rd16 true g p = v % 65536 := by
  have h0 := rd8_lt g hg p
  have h1 := rd8_lt g hg (p + 1)
  cases be
  · simp only [rd16, mk16, bpf_htons, bswap16, Bool.false_eq_true, if_false, if_true] at h ⊢
    have e1 : v % 65536 = (v / 256 % 256) * 256 + v % 256 := by omega
    have hx : v % 256 < 256 := Nat.mod_lt _ (by norm_num)
    have hy : v / 256 % 256 < 256 := Nat.mod_lt _ (by norm_num)
    rw [e1]
    generalize v % 256 = x at h hx ⊢
    generalize v / 256 % 256 = y at h hy ⊢
    omega
  · simp only [rd16, mk16, bpf_htons, if_true] at h ⊢
    omega

theorem vpn_fill_udph_spec (be : Bool) (st : State) (r : remote_addr) (f : List Nat)
    (hlen : 62 ≤ f.length) :
    (vpn_fill_udph be st r f).length = f.length ∧
    (bytes_ok f → bytes_ok (vpn_fill_udph be st r f)) ∧
    (∀ q, q < 34 ∨ 42 ≤ q → rd8 (vpn_fill_udph be st r f) q = rd8 f q) ∧
    rd16 be (vpn_fill_udph be st r f) 34 = bpf_htons be st.vpn_port ∧
    rd16 be (vpn_fill_udph be st r f) 36 = bpf_htons be r.port ∧
    rd16 be (vpn_fill_udph be st r f) 38 = bpf_htons be (f.length - 34) ∧
    rd16 be (vpn_fill_udph be st r f) 40 = 0 := by
  unfold vpn_fill_udph
  simp only []
  refine ⟨by simp, ?_, ?_, ?_, ?_, ?_, ?_⟩
  · intro hf
    exact bytes_ok_wr16 be _ (bytes_ok_wr16 be _ (bytes_ok_wr16 be _ (bytes_ok_wr16 be _ hf _ _)
      _ _) _ _) _ _
  · intro q hq
    rw [rd8_wr16_ne _ _ _ (by omega) (by omega), rd8_wr16_ne _ _ _ (by omega) (by omega),
      rd8_wr16_ne _ _ _ (by omega) (by omega), rd8_wr16_ne _ _ _ (by omega) (by omega)]
  · unfold rd16
    simp (disch := first | omega | (simp only [length_wr8, length_wr16, length_wr32]; omega)) only
      [rd8_wr16_in, if_true, if_false, reduceIte, Nat.reduceEqDiff, Nat.reduceAdd]
    rw [mk16_byte16, Nat.mod_eq_of_lt (htons_lt be _)]
  · unfold rd16
    simp (disch := first | omega | (simp only [length_wr8, length_wr16, length_wr32]; omega)) only
      [rd8_wr16_in, if_true, if_false, reduceIte, Nat.reduceEqDiff, Nat.reduceAdd]
    rw [mk16_byte16, Nat.mod_eq_of_lt (htons_lt be _)]
  · unfold rd16
    simp (disch := first | omega | (simp only [length_wr8, length_wr16, length_wr32]; omega)) only
      [rd8_wr16_in, if_true, if_false, reduceIte, Nat.reduceEqDiff, Nat.reduceAdd, length_wr16]
    rw [mk16_byte16, Nat.mod_eq_of_lt (htons_lt be _)]
  · rw [rd16_wr16_eq be _ _ (by simp; omega)]

theorem vpn_fill_iph_spec (be : Bool) (st : State) (r : remote_addr) (f : List Nat)
    (hf : bytes_ok f) (hlen : 62 ≤ f.length) :
    (vpn_fill_iph be st r f).length = f.length ∧ bytes_ok (vpn_fill_iph be st r f) ∧
    (∀ q, q < 14 ∨ 34 ≤ q ∨ q = 24 ∨ q = 25 → rd8 (vpn_fill_iph be st r f) q = rd8 f q) ∧
    rd8 (vpn_fill_iph be st r f) 14 = 0x45 ∧
    rd8 (vpn_fill_iph be st r f) 15 = 0 ∧
    rd16 be (vpn_fill_iph be st r f) 16 = bpf_htons be (f.length - 14) ∧
    rd16 be (vpn_fill_iph be st r f) 18 = rd16 be f 46 ∧
    rd16 be (vpn_fill_iph be st r f) 20 = bpf_htons be IP_DF ∧
    rd8 (vpn_fill_iph be st r f) 22 = 64 ∧
    rd8 (vpn_fill_iph be st r f) 23 = IPPROTO_UDP ∧
    rd32 be (vpn_fill_iph be st r f) 26 = st.public_host_ip % 4294967296 ∧
    rd32 be (vpn_fill_iph be st r f) 30 = r.ip % 4294967296 := by
  unfold vpn_fill_iph
  simp only []
  refine ⟨by simp, ?_, ?_, ?_, ?_, ?_, ?_, ?_, ?_, ?_, ?_, ?_⟩
  · exact bytes_ok_wr32 be _ (bytes_ok_wr32 be _ (bytes_ok_wr8 _ (bytes_ok_wr8 _
      (bytes_ok_wr16 be _ (bytes_ok_wr16 be _ (bytes_ok_wr16 be _ (bytes_ok_wr8 _
        (bytes_ok_wr8 _ (bytes_ok_wr8 _ hf _ _) _ _) _ _) _ _) _ _) _ _) _ _) _ _) _ _) _ _
  · intro q hq
    rw [rd8_wr32_ne _ _ _ (by omega) (by omega) (by omega) (by omega),
      rd8_wr32_ne _ _ _ (by omega) (by omega) (by omega) (by omega),
      rd8_wr8_ne _ _ (by omega), rd8_wr8_ne _ _ (by omega),
      rd8_wr16_ne _ _ _ (by omega) (by omega), rd8_wr16_ne _ _ _ (by omega) (by omega),
      rd8_wr16_ne _ _ _ (by omega) (by omega), rd8_wr8_ne _ _ (by omega),
      rd8_wr8_ne _ _ (by omega), rd8_wr8_ne _ _ (by omega)]
  · simp (disch := first | omega | (simp only [length_wr8, length_wr16, length_wr32]; omega)) only
      [rd8_wr8_in, rd8_wr16_in, rd8_wr32_in, if_true, if_false, reduceIte, Nat.reduceEqDiff,
        Nat.reduceAdd]
    omega
  · simp (disch := first | omega | (simp only [length_wr8, length_wr16, length_wr32]; omega)) only
      [rd8_wr8_in, rd8_wr16_in, rd8_wr32_in, if_true, if_false, reduceIte, Nat.reduceEqDiff,
        Nat.reduceAdd]
  · unfold rd16
    simp (disch := first | omega | (simp only [length_wr8, length_wr16, length_wr32]; omega)) only
      [rd8_wr8_in, rd8_wr16_in, rd8_wr32_in, if_true, if_false, reduceIte, Nat.reduceEqDiff,
        Nat.reduceAdd, length_wr8]
    rw [mk16_byte16, Nat.mod_eq_of_lt (htons_lt be _)]
  · unfold rd16
    simp (disch := first | omega | (simp only [length_wr8, length_wr16, length_wr32]; omega)) only
      [rd8_wr8_in, rd8_wr16_in, rd8_wr32_in, if_true, if_false, reduceIte, Nat.reduceEqDiff,
        Nat.reduceAdd]
    rw [mk16_byte16]
    exact Nat.mod_eq_of_lt (mk16_lt be (rd8_lt f hf _) (rd8_lt f hf _))
  · unfold rd16
    simp (disch := first | omega | (simp only [length_wr8, length_wr16, length_wr32]; omega)) only
      [rd8_wr8_in, rd8_wr16_in, rd8_wr32_in, if_true, if_false, reduceIte, Nat.reduceEqDiff,
        Nat.reduceAdd]
    rw [mk16_byte16, Nat.mod_eq_of_lt (htons_lt be _)]
  · simp (disch := first | omega | (simp only [length_wr8, length_wr16, length_wr32]; omega)) only
      [rd8_wr8_in, rd8_wr16_in, rd8_wr32_in, if_true, if_false, reduceIte, Nat.reduceEqDiff,
        Nat.reduceAdd]
  · simp (disch := first | omega | (simp only [length_wr8, length_wr16, length_wr32]; omega)) only
      [rd8_wr8_in, rd8_wr16_in, rd8_wr32_in, if_true, if_false, reduceIte, Nat.reduceEqDiff,
        Nat.reduceAdd]
    rfl
  · rw [rd32_congr be (wr32 be _ 26 st.public_host_ip) _ 26 (fun q h1 h2 =>
      rd8_wr32_ne be _ _ (by omega) (by omega) (by omega) (by omega)),
      rd32_wr32_eq be _ _ (by simp; omega)]
  · rw [rd32_wr32_eq be _ _ (by simp; omega)]

theorem vpn_fill_csum_spec (be : Bool) (l4 : l4_locals) (o : iph_pseudo) (f : List Nat) :
    (vpn_fill_csum be l4 o f).length = f.length ∧
    (bytes_ok f → bytes_ok (vpn_fill_csum be l4 o f)) ∧
    (∀ q, q ≠ 40 → q ≠ 41 → rd8 (vpn_fill_csum be l4 o f) q = rd8 f q) := by
  unfold vpn_fill_csum
  simp only []
  refine ⟨?_, ?_, ?_⟩
  · split_ifs <;> simp
  · intro hf
    split_ifs
    · exact bytes_ok_wr16 be _ (bytes_ok_wr16 be _ hf _ _) _ _
    · exact bytes_ok_wr16 be _ hf _ _
    · exact hf
  · intro q h0 h1
    split_ifs
    · rw [rd8_wr16_ne _ _ _ (by omega) (by omega), rd8_wr16_ne _ _ _ (by omega) (by omega)]
    · rw [rd8_wr16_ne _ _ _ (by omega) (by omega)]
    · rfl

theorem wr16_self (be : Bool) (f : List Nat) (hf : bytes_ok f) (p : Nat) :
    wr16 be f p (rd16 be f p) = f := by
  have h0 := rd8_lt f hf p
  have h1 := rd8_lt f hf (p + 1)
  have e0 : byte16 be (rd16 be f p) 0 = rd8 f p := by
    cases be <;> simp [byte16, rd16, mk16] <;> omega
  have e1 : byte16 be (rd16 be f p) 1 = rd8 f (p + 1) := by
    cases be <;> simp [byte16, rd16, mk16] <;> omega
  unfold wr16
  rw [e0, e1, wr8_self f hf p, wr8_self f hf (p + 1)]

theorem vpn_outer_csum_eq (be : Bool) (o : iph_pseudo) (ovh : List Nat) (hb : bytes_ok ovh)
    (hl : ovh.length = 40) :
    vpn_outer_csum be o ovh =
      (if 65535 - ones16 (bpf_csum_diff be (o.bytes be) ovh 0) = 0 then 65535
        else 65535 - ones16 (bpf_csum_diff be (o.bytes be) ovh 0)) := by
  obtain ⟨hlt, -⟩ := bpf_csum_diff_eq be (o.bytes be) ovh 0 (by simp) (by rw [hl])
    (by rw [hl]; simp) hb
  unfold vpn_outer_csum
  simp only []
  rw [csum_fold_helper_eq, Nat.mod_eq_of_lt hlt]

theorem vpn_outer_csum_lt (be : Bool) (o : iph_pseudo) (ovh : List Nat) :
    vpn_outer_csum be o ovh < 65536 := by
  unfold vpn_outer_csum
  simp only []
  have := csum_fold_helper_le (bpf_csum_diff be (o.bytes be) ovh 0)
  split_ifs <;> omega

theorem vpn_fill_csum_eq (be : Bool) (l4 : l4_locals) (o : iph_pseudo) (f : List Nat)
    (hlen : 62 ≤ f.length) (hc : l4.icmp_type = .NOT_ICMP ∧ l4.old_csum ≠ 0) :
    vpn_fill_csum be l4 o f = wr16 be f 40
      (vpn_outer_csum be o ((pheader_of be f 14).bytes be ++ rdN f 34 8 ++ rdN f 42 20)) := by
  unfold vpn_fill_csum vpn_outer_csum
  rw [if_pos hc]
  simp only []
  have := csum_fold_helper_le (bpf_csum_diff be (o.bytes be)
    ((pheader_of be f 14).bytes be ++ rdN f 34 8 ++ rdN f 42 20) 0)
  rw [rd16_wr16_eq be _ _ (by omega), Nat.mod_eq_of_lt (by omega)]
  split_ifs with h
  · rw [wr16_wr16_same]
  · rfl
theorem encap_arith (A B Wo Ws X D t : Nat) (h1 : (A + B) % 65535 = 0)
    (h2 : B % 65535 = Wo % 65535) (h3 : (Wo + Ws) % 65535 = 0) (h4 : D % 65535 = X % 65535)
    (h5 : t % 65535 = (A + D) % 65535) (h6 : t ≤ 65535) :
    (if 65535 - t = 0 then 65535 else 65535 - t) ≠ 0 ∧
    (X + Ws + (if 65535 - t = 0 then 65535 else 65535 - t)) % 65535 = 0 := by
  split_ifs with h
  · constructor
    · norm_num
    · omega
  · constructor
    · exact h
    · omega

theorem vpn_csum_valid (be : Bool) (l4 : l4_locals) (o : iph_pseudo) (f : List Nat)
    (hf : bytes_ok f) (hlen : 62 ≤ f.length) (hz : rd16 be f 40 = 0)
    (hc : l4.icmp_type = .NOT_ICMP ∧ l4.old_csum ≠ 0)
    (hv : ones16 (words16 be (o.bytes be ++ rdN f 62 (f.length - 62))).sum = 65535) :
    rd16 be (vpn_fill_csum be l4 o f) 40 ≠ 0 ∧
    ones16 (words16 be ((pheader_of be f 14).bytes be ++
      rdN (vpn_fill_csum be l4 o f) 34 (f.length - 34))).sum = 65535 := by
  have hP := bytes_ok_pseudo be (pheader_of be f 14)
  have hlP := length_pseudo be (pheader_of be f 14)
  have hU := bytes_ok_rdN f hf 34 8
  have hH := bytes_ok_rdN f hf 42 20
  have hS := bytes_ok_rdN f hf 62 (f.length - 62)
  have hO := bytes_ok_pseudo be o
  have hlO := length_pseudo be o
  have hPUH : bytes_ok ((pheader_of be f 14).bytes be ++ rdN f 34 8 ++ rdN f 42 20) :=
    bytes_ok_append (bytes_ok_append hP hU) hH
  have hlPUH : ((pheader_of be f 14).bytes be ++ rdN f 34 8 ++ rdN f 42 20).length = 40 := by
    simp [hlP]
  obtain ⟨hlt, heq⟩ := bpf_csum_diff_eq be (o.bytes be)
    ((pheader_of be f 14).bytes be ++ rdN f 34 8 ++ rdN f 42 20) 0
    (by rw [hlO]) (by rw [hlPUH]) (by rw [hlO, hlPUH]; norm_num) hPUH
  -- the value stored
  have hg : vpn_fill_csum be l4 o f = wr16 be f 40
      (if 65535 - ones16 (bpf_csum_diff be (o.bytes be)
          ((pheader_of be f 14).bytes be ++ rdN f 34 8 ++ rdN f 42 20) 0) = 0 then 65535
        else 65535 - ones16 (bpf_csum_diff be (o.bytes be)
          ((pheader_of be f 14).bytes be ++ rdN f 34 8 ++ rdN f 42 20) 0)) := by
    unfold vpn_fill_csum
    rw [if_pos hc]
    simp only []
    rw [rd16_wr16_eq be _ _ (by omega), csum_fold_helper_eq, Nat.mod_eq_of_lt hlt]
    have := ones16_le (bpf_csum_diff be (o.bytes be)
          ((pheader_of be f 14).bytes be ++ rdN f 34 8 ++ rdN f 42 20) 0)
    rw [Nat.mod_eq_of_lt (by omega)]
    split_ifs with h
    · rw [wr16_wr16_same]
    · rfl
  -- the sums
  have s1 := sum_map_not32 (words32 be (o.bytes be)) (words32_lt be _ hO)
  have s2 := (sum_words32_words16 be (o.bytes be) hO (by rw [hlO])).1
  have s3 := (sum_words32_words16 be _ hPUH (by rw [hlPUH])).1
  have hl3 : (words32 be (o.bytes be)).length = 3 := by
    simp [iph_pseudo.bytes, words32]
  rw [words16_append be _ _ (by rw [hlO]), List.sum_append, ones16_eq_ffff_iff] at hv
  rw [words16_append be _ _ (by simp [hlP]), words16_append be _ _ (by rw [hlP]),
    List.sum_append, List.sum_append] at s3
  have hR : rdN f 34 (f.length - 34) = rdN f 34 8 ++ (rdN f 42 20 ++ rdN f 62 (f.length - 62)) := by
    rw [show f.length - 34 = 8 + (20 + (f.length - 62)) by omega, rdN_append, rdN_append]
  have s4 := sum_words16_wr16 be (rdN f 34 (f.length - 34)) 6
    (if 65535 - ones16 (bpf_csum_diff be (o.bytes be)
          ((pheader_of be f 14).bytes be ++ rdN f 34 8 ++ rdN f 42 20) 0) = 0 then 65535
        else 65535 - ones16 (bpf_csum_diff be (o.bytes be)
          ((pheader_of be f 14).bytes be ++ rdN f 34 8 ++ rdN f 42 20) 0)) (by norm_num)
    (by simp; omega)
  rw [rd16_rdN be _ 34 _ (by omega), hz] at s4
  have s5 : (words16 be (rdN f 34 (f.length - 34))).sum =
      (words16 be (rdN f 34 8)).sum + ((words16 be (rdN f 42 20)).sum +
        (words16 be (rdN f 62 (f.length - 62))).sum) := by
    rw [hR, words16_append be _ _ (by simp), words16_append be _ _ (by simp), List.sum_append,
      List.sum_append]
  have hle := ones16_le (bpf_csum_diff be (o.bytes be)
          ((pheader_of be f 14).bytes be ++ rdN f 34 8 ++ rdN f 42 20) 0)
  have hmod : ones16 (bpf_csum_diff be (o.bytes be)
          ((pheader_of be f 14).bytes be ++ rdN f 34 8 ++ rdN f 42 20) 0) % 65535 =
      (0 % 4294967296 +
        (((words32 be (o.bytes be)).map (fun w => 4294967295 - w)).sum +
          (words32 be ((pheader_of be f 14).bytes be ++ rdN f 34 8 ++ rdN f 42 20)).sum))
        % 65535 := by
    rw [heq, ones16_mod]
  rw [hl3] at s1
  have hr : ∀ v, rdN (wr16 be f 40 v) 34 (f.length - 34) =
      wr16 be (rdN f 34 (f.length - 34)) 6 v :=
    fun v => rdN_wr16_in be f 34 (f.length - 34) (k := 6) v (by omega) (by omega)
  rw [hg, rd16_wr16_eq be _ _ (by omega), hr,
    words16_append be _ _ (by rw [hlP]), List.sum_append, ones16_eq_ffff_iff]
  generalize ones16 (bpf_csum_diff be (o.bytes be)
          ((pheader_of be f 14).bytes be ++ rdN f 34 8 ++ rdN f 42 20) 0) = t at *
  have ha := encap_arith ((words32 be (o.bytes be)).map (fun w => 4294967295 - w)).sum
    (words32 be (o.bytes be)).sum (words16 be (o.bytes be)).sum
    (words16 be (rdN f 62 (f.length - 62))).sum
    ((words16 be ((pheader_of be f 14).bytes be)).sum + (words16 be (rdN f 34 8)).sum +
      (words16 be (rdN f 42 20)).sum)
    (words32 be ((pheader_of be f 14).bytes be ++ rdN f 34 8 ++ rdN f 42 20)).sum t
    (by omega) s2 hv.2 s3 (by omega) hle
  have hc16 : (if 65535 - t = 0 then 65535 else 65535 - t) % 65536 =
      (if 65535 - t = 0 then 65535 else 65535 - t) := by
    split_ifs <;> omega
  rw [hc16] at s4 ⊢
  refine ⟨ha.1, ?_, ?_⟩
  · have := ha.1
    omega
  · have := ha.2
    omega
theorem pheader_of_congr_hdr (be : Bool) (f g : List Nat) (iph : Nat)
    (h : ∀ q, iph ≤ q → q < iph + 20 → rd8 g q = rd8 f q) :
    pheader_of be g iph = pheader_of be f iph := by
  unfold pheader_of rd32 rd16
  rw [h _ (by omega) (by omega), h _ (by omega) (by omega), h _ (by omega) (by omega),
    h _ (by omega) (by omega), h _ (by omega) (by omega), h _ (by omega) (by omega),
    h _ (by omega) (by omega), h _ (by omega) (by omega), h _ (by omega) (by omega),
    h _ (by omega) (by omega), h _ (by omega) (by omega)]

theorem vpn_fill_spec (be : Bool) (st : State) (r : remote_addr) (l4 : l4_locals)
    (o : iph_pseudo) (f : List Nat) (hf : bytes_ok f) (hlen : 62 ≤ f.length) (hst : st.ok)
    (hip : r.ip < 4294967296) :
    (vpn_fill be st r l4 o f).length = f.length ∧ bytes_ok (vpn_fill be st r l4 o f) ∧
    (∀ q, 42 ≤ q → rd8 (vpn_fill be st r l4 o f) q = rd8 f q) ∧
    (rd_mac (vpn_fill be st r l4 o f) 0 = st.gateway_mac ∧
     rd_mac (vpn_fill be st r l4 o f) 6 = st.host_mac ∧
     rd16 be (vpn_fill be st r l4 o f) 12 = bpf_htons be ETH_P_IP) ∧
    (rd8 (vpn_fill be st r l4 o f) 14 = 0x45 ∧
     rd8 (vpn_fill be st r l4 o f) 15 = 0 ∧
     rd16 be (vpn_fill be st r l4 o f) 16 = bpf_htons be (f.length - 14) ∧
     rd16 be (vpn_fill be st r l4 o f) 18 = rd16 be f 46 ∧
     rd16 be (vpn_fill be st r l4 o f) 20 = bpf_htons be IP_DF ∧
     rd8 (vpn_fill be st r l4 o f) 22 = 64 ∧
     rd8 (vpn_fill be st r l4 o f) 23 = IPPROTO_UDP ∧
     rd32 be (vpn_fill be st r l4 o f) 26 = st.public_host_ip ∧
     rd32 be (vpn_fill be st r l4 o f) 30 = r.ip ∧
     inet_sum (rdN (vpn_fill be st r l4 o f) 14 20) = 0xFFFF) ∧
    (rd16 be (vpn_fill be st r l4 o f) 34 = bpf_htons be st.vpn_port ∧
     rd16 be (vpn_fill be st r l4 o f) 36 = bpf_htons be r.port ∧
     rd16 be (vpn_fill be st r l4 o f) 38 = bpf_htons be (f.length - 34)) ∧
    (¬ (l4.icmp_type = .NOT_ICMP ∧ l4.old_csum ≠ 0) →
      rd16 be (vpn_fill be st r l4 o f) 40 = 0) ∧
    (l4.icmp_type = .NOT_ICMP ∧ l4.old_csum ≠ 0 →
      inet_sum (o.bytes be ++ rdN f 62 (f.length - 62)) = 0xFFFF →
      rd16 be (vpn_fill be st r l4 o f) 40 ≠ 0 ∧
      inet_sum ((pheader_of be (vpn_fill be st r l4 o f) 14).bytes be ++
        rdN (vpn_fill be st r l4 o f) 34 (f.length - 34)) = 0xFFFF ∧
      rd16 be (vpn_fill be st r l4 o f) 40 =
        vpn_outer_csum be o ((pheader_of be (vpn_fill be st r l4 o f) 14).bytes be ++
          wr16 be (rdN (vpn_fill be st r l4 o f) 34 8) 6 0 ++ rdN f 42 20)) := by
  obtain ⟨u1, u2, u3, u4, u5, u6, u7⟩ := vpn_fill_udph_spec be st r f hlen
  obtain ⟨j1, j2, j3, j4, j5, j6, j7, j8, j9, j10, j11, j12⟩ :=
    vpn_fill_iph_spec be st r (vpn_fill_udph be st r f) (u2 hf) (by omega)
  have hb3 := bytes_ok_wr16 be _ j2 24
    (ipv4_csum be (rdN (wr16 be (vpn_fill_iph be st r (vpn_fill_udph be st r f)) 24 0) 14 20) 0)
  have hl3 : (wr16 be (vpn_fill_iph be st r (vpn_fill_udph be st r f)) 24
      (ipv4_csum be (rdN (wr16 be (vpn_fill_iph be st r (vpn_fill_udph be st r f)) 24 0)
        14 20) 0)).length = f.length := by
    rw [length_wr16, j1, u1]
  have h3 : ∀ q, q ≠ 24 → q ≠ 25 →
      rd8 (wr16 be (vpn_fill_iph be st r (vpn_fill_udph be st r f)) 24
        (ipv4_csum be (rdN (wr16 be (vpn_fill_iph be st r (vpn_fill_udph be st r f)) 24 0)
          14 20) 0)) q = rd8 (vpn_fill_iph be st r (vpn_fill_udph be st r f)) q :=
    fun q h24 h25 => rd8_wr16_ne _ _ _ (by omega) (by omega)
  obtain ⟨c1, c2, c3⟩ := vpn_fill_csum_spec be l4 o
    (wr16 be (vpn_fill_iph be st r (vpn_fill_udph be st r f)) 24
      (ipv4_csum be (rdN (wr16 be (vpn_fill_iph be st r (vpn_fill_udph be st r f)) 24 0)
        14 20) 0))
  obtain ⟨e1, e2, e3, e4, e5, e6⟩ := fill_eth_spec be st st.gateway_mac
    (vpn_fill_csum be l4 o
      (wr16 be (vpn_fill_iph be st r (vpn_fill_udph be st r f)) 24
        (ipv4_csum be (rdN (wr16 be (vpn_fill_iph be st r (vpn_fill_udph be st r f)) 24 0)
          14 20) 0))) (by rw [c1, hl3]; omega)
  have hdef : vpn_fill be st r l4 o f = fill_eth be st st.gateway_mac
      (vpn_fill_csum be l4 o
        (wr16 be (vpn_fill_iph be st r (vpn_fill_udph be st r f)) 24
          (ipv4_csum be (rdN (wr16 be (vpn_fill_iph be st r (vpn_fill_udph be st r f)) 24 0)
            14 20) 0))) := rfl
  rw [hdef]
  generalize hF3 : wr16 be (vpn_fill_iph be st r (vpn_fill_udph be st r f)) 24
      (ipv4_csum be (rdN (wr16 be (vpn_fill_iph be st r (vpn_fill_udph be st r f)) 24 0)
        14 20) 0) = f3 at *
  have hsum3 : inet_sum (rdN f3 14 20) = 0xFFFF := by
    rw [inet_sum_valid_iff be _ (bytes_ok_rdN _ hb3 _ _), ← hF3]
    exact iph_sum_after_recompute be _ 14 j2 (by omega)
  -- bytes of the headers in the final frame
  have hg : ∀ q, 14 ≤ q → q ≠ 40 → q ≠ 41 →
      rd8 (fill_eth be st st.gateway_mac (vpn_fill_csum be l4 o f3)) q = rd8 f3 q := by
    intro q h14 h40 h41
    rw [e3 q h14, c3 q h40 h41]
  have hg2 : ∀ q, 14 ≤ q → q ≠ 24 → q ≠ 25 → q ≠ 40 → q ≠ 41 →
      rd8 (fill_eth be st st.gateway_mac (vpn_fill_csum be l4 o f3)) q =
        rd8 (vpn_fill_iph be st r (vpn_fill_udph be st r f)) q := by
    intro q h14 h24 h25 h40 h41
    rw [hg q h14 h40 h41, h3 q h24 h25]
  have hg1 : ∀ q, 34 ≤ q → q ≠ 40 → q ≠ 41 →
      rd8 (fill_eth be st st.gateway_mac (vpn_fill_csum be l4 o f3)) q =
        rd8 (vpn_fill_udph be st r f) q := by
    intro q h34 h40 h41
    rw [hg2 q (by omega) (by omega) (by omega) h40 h41, j3 q (by omega)]
  have hf3z : rd16 be f3 40 = 0 := by
    rw [rd16_congr be (vpn_fill_udph be st r f) f3 40 (fun q h1 h2 => by
      rw [h3 q (by omega) (by omega), j3 q (by omega)]), u7]
  have hf3s : ∀ n, rdN f3 62 n = rdN f 62 n := fun n =>
    rdN_congr _ _ 62 n (fun q h1 h2 => by
      rw [h3 q (by omega) (by omega), j3 q (by omega), u3 q (by omega)])
  refine ⟨by rw [e1, c1, hl3], e2 (c2 hb3), ?_, ⟨e4 hst.2.1, e5 hst.1, e6⟩,
    ⟨?_, ?_, ?_, ?_, ?_, ?_, ?_, ?_, ?_, ?_⟩, ⟨?_, ?_, ?_⟩, ?_, ?_⟩
  · intro q hq
    rw [hg1 q (by omega) (by omega) (by omega), u3 q (by omega)]
  · rw [hg2 14 (by omega) (by omega) (by omega) (by omega) (by omega), j4]
  · rw [hg2 15 (by omega) (by omega) (by omega) (by omega) (by omega), j5]
  · rw [rd16_congr be _ _ 16 (fun q h1 h2 =>
      hg2 q (by omega) (by omega) (by omega) (by omega) (by omega)), j6, u1]
  · rw [rd16_congr be _ _ 18 (fun q h1 h2 =>
      hg2 q (by omega) (by omega) (by omega) (by omega) (by omega)), j7,
      rd16_congr be f _ 46 (fun q h1 h2 => u3 q (by omega))]
  · rw [rd16_congr be _ _ 20 (fun q h1 h2 =>
      hg2 q (by omega) (by omega) (by omega) (by omega) (by omega)), j8]
  · rw [hg2 22 (by omega) (by omega) (by omega) (by omega) (by omega), j9]
  · rw [hg2 23 (by omega) (by omega) (by omega) (by omega) (by omega), j10]
  · rw [rd32_congr be _ _ 26 (fun q h1 h2 =>
      hg2 q (by omega) (by omega) (by omega) (by omega) (by omega)), j11,
      Nat.mod_eq_of_lt hst.2.2.2.1]
  · rw [rd32_congr be _ _ 30 (fun q h1 h2 =>
      hg2 q (by omega) (by omega) (by omega) (by omega) (by omega)), j12,
      Nat.mod_eq_of_lt hip]
  · rw [rdN_congr _ _ 14 20 (fun q h1 h2 => hg q (by omega) (by omega) (by omega))]
    exact hsum3
  · rw [rd16_congr be _ _ 34 (fun q h1 h2 => hg1 q (by omega) (by omega) (by omega)), u4]
  · rw [rd16_congr be _ _ 36 (fun q h1 h2 => hg1 q (by omega) (by omega) (by omega)), u5]
  · rw [rd16_congr be _ _ 38 (fun q h1 h2 => hg1 q (by omega) (by omega) (by omega)), u6]
  · intro hc
    rw [rd16_congr be (vpn_fill_csum be l4 o f3) _ 40 (fun q h1 h2 => e3 q (by omega))]
    unfold vpn_fill_csum
    rw [if_neg hc]
    exact hf3z
  · intro hc hv
    rw [inet_sum_valid_iff be _ (bytes_ok_append (bytes_ok_pseudo be o) (bytes_ok_rdN _ hf _ _)),
      ← hf3s, ← hl3] at hv
    obtain ⟨v1, v2⟩ := vpn_csum_valid be l4 o f3 hb3 (by omega) hf3z hc hv
    have hq := vpn_fill_csum_eq be l4 o f3 (by omega) hc
    have hP : pheader_of be (fill_eth be st st.gateway_mac (vpn_fill_csum be l4 o f3)) 14 =
        pheader_of be f3 14 :=
      pheader_of_congr_hdr be f3 _ 14 (fun q h14 hq => hg q h14 (by omega) (by omega))
    have hU : wr16 be (rdN (fill_eth be st st.gateway_mac (vpn_fill_csum be l4 o f3)) 34 8) 6 0 =
        rdN f3 34 8 := by
      rw [rdN_congr (vpn_fill_csum be l4 o f3) _ 34 8 (fun q h1 h2 => e3 q (by omega)), hq]
      have hr : ∀ v, rdN (wr16 be f3 40 v) 34 8 = wr16 be (rdN f3 34 8) 6 v :=
        fun v => rdN_wr16_in be f3 34 8 (k := 6) v (by omega) (by omega)
      rw [hr, wr16_wr16_same]
      have hz6 : rd16 be (rdN f3 34 8) 6 = 0 := by
        rw [rd16_rdN be _ 34 8 (by omega)]
        exact hf3z
      have := wr16_self be (rdN f3 34 8) (bytes_ok_rdN _ hb3 _ _) 6
      rw [hz6] at this
      exact this
    rw [rd16_congr be (vpn_fill_csum be l4 o f3) _ 40 (fun q h1 h2 => e3 q (by omega)),
      hP, hU,
      rdN_congr (vpn_fill_csum be l4 o f3) _ 34 _ (fun q h1 h2 => e3 q (by omega)),
      inet_sum_valid_iff be _ (bytes_ok_append (bytes_ok_pseudo be _)
        (bytes_ok_rdN _ (c2 hb3) _ _)), ← hl3]
    refine ⟨v1, v2, ?_⟩
    rw [hq, rd16_wr16_eq be _ _ (by omega), Nat.mod_eq_of_lt (vpn_outer_csum_lt be _ _)]
    have : rdN f3 42 20 = rdN f 42 20 :=
      rdN_congr _ _ 42 20 (fun q h1 h2 => by
        rw [h3 q (by omega) (by omega), j3 q (by omega), u3 q (by omega)])
    rw [this]
/-- The program on a frame that takes the tunnel route, when the destination
is a remote peer and the frame can be grown. -/
theorem xdp_prog_vpn_tx (be : Bool) (ktime : Nat → Nat) (ctx c1 : xdp_md) (st : State)
    (r : remote_addr) (hfr : ipv4_l4_frame be ctx.data) (hv : takes_vpn_route be st ctx.data)
    (hm : map_lookup st.remote_addrs (rd32 be ctx.data 30) = some r)
    (hh : bpf_xdp_adjust_head ctx (0 - ((20 : Int) + 8)) = some c1) (g : List Nat)
    (hg : g = vpn_fill be st r (l4_of be ctx.data) (pheader_of be ctx.data 14) c1.data) :
    xdp_prog be ktime ctx st =
      .ok (.XDP_TX, { c1 with data := g },
        { st with remote_addrs := map_touch st.remote_addrs (rd32 be ctx.data 30) }) := by
  rw [xdp_prog_vpn be ktime ctx st hfr hv, hg]
  exact vpn_route_tx be ctx c1 st _ _ r hfr.1 hm hh

/-- C19, amended: the tunnel route.  For every unicast IPv4 TCP, UDP or ICMP
frame (of at most 65521 bytes) from the learned peer that is not taken by the
NAT route: if the destination address is not a key of `remote_addrs` the
verdict is `XDP_PASS` with frame and state unchanged; if it is and the frame
cannot be grown by 28 bytes the verdict is `XDP_DROP`; otherwise the verdict is
`XDP_TX` with a frame 28 bytes longer: Ethernet header (destination
`gateway_mac`, source `host_mac`, ethertype IPv4); outer IPv4 header with
version 4, IHL 5, TOS 0, total length the length of the frame behind its
Ethernet header plus 28, the id of the inner header, flags DF, TTL 64, protocol
UDP, source `public_host_ip`, destination the address of the tunnel endpoint,
and a header checksum that verifies; UDP header with source port `vpn_port`,
destination port the port of the tunnel endpoint and length the length of the
frame behind its Ethernet header plus 8; and behind it the bytes of the frame
behind its Ethernet header, unchanged. -/
theorem C19_vpn_encap (be : Bool) (ktime : Nat → Nat) (ctx : xdp_md) (st : State)
    (hf : bytes_ok ctx.data) (hh : bytes_ok ctx.headroom) (hst : st.ok)
    (hfr : ipv4_l4_frame be ctx.data) (hv : takes_vpn_route be st ctx.data)
    (hmtu : ctx.data.length + 14 < 65536) :
    (map_lookup st.remote_addrs (rd32 be ctx.data 30) = none →
      xdp_prog be ktime ctx st = .ok (.XDP_PASS, ctx, st)) ∧
    (∀ r, map_lookup st.remote_addrs (rd32 be ctx.data 30) = some r →
      bpf_xdp_adjust_head ctx (0 - ((20 : Int) + 8)) = none →
      xdp_prog be ktime ctx st = .ok (.XDP_DROP, ctx,
        { st with remote_addrs := map_touch st.remote_addrs (rd32 be ctx.data 30) })) ∧
    (∀ r c1, map_lookup st.remote_addrs (rd32 be ctx.data 30) = some r →
      r.ip < 4294967296 → r.port < 65536 →
      bpf_xdp_adjust_head ctx (0 - ((20 : Int) + 8)) = some c1 →
      ∃ g, xdp_prog be ktime ctx st = .ok (.XDP_TX, { c1 with data := g },
          { st with remote_addrs := map_touch st.remote_addrs (rd32 be ctx.data 30) }) ∧
        g.length = ctx.data.length + 28 ∧
        rd_mac g 0 = st.gateway_mac ∧ rd_mac g 6 = st.host_mac ∧ rd16 true g 12 = ETH_P_IP ∧
        rd8 g 14 = 0x45 ∧ rd8 g 15 = 0 ∧ rd16 true g 16 = ctx.data.length - 14 + 28 ∧
        rd16 true g 18 = rd16 true ctx.data 18 ∧ rd16 true g 20 = IP_DF ∧ rd8 g 22 = 64 ∧
        rd8 g 23 = IPPROTO_UDP ∧ rd32 be g 26 = st.public_host_ip ∧ rd32 be g 30 = r.ip ∧
        inet_sum (rdN g 14 20) = 0xFFFF ∧
        rd16 true g 34 = st.vpn_port ∧ rd16 true g 36 = r.port ∧
        rd16 true g 38 = ctx.data.length - 14 + 8 ∧
        g.drop 42 = ctx.data.drop 14) ∧
    (28 ≤ ctx.headroom.length →
      ∃ c1, bpf_xdp_adjust_head ctx (0 - ((20 : Int) + 8)) = some c1) := by
  have hlen : 42 ≤ ctx.data.length := by
    obtain ⟨h34, -, hp⟩ := hfr
    omega
  refine ⟨?_, ?_, ?_, adjust_head_grow_some ctx⟩
  · intro hm
    rw [xdp_prog_vpn be ktime ctx st hfr hv]
    exact vpn_route_none be ctx st _ _ (by omega) hm
  · intro r hm hno
    rw [xdp_prog_vpn be ktime ctx st hfr hv]
    exact vpn_route_no_head be ctx st _ _ r (by omega) hm hno
  · intro r c1 hm hip hport hh1
    obtain ⟨-, hl1, hd1, hb1, -, -⟩ := adjust_head_grow ctx c1 hh1
    obtain ⟨s1, s2, s3, ⟨m1, m2, m3⟩, ⟨i1, i2, i3, i4, i5, i6, i7, i8, i9, i10⟩, ⟨p1, p2, p3⟩,
      -, -⟩ := vpn_fill_spec be st r (l4_of be ctx.data) (pheader_of be ctx.data 14) c1.data
        (hb1 hh hf) (by omega) hst hip
    refine ⟨_, xdp_prog_vpn_tx be ktime ctx c1 st r hfr hv hm hh1 _ rfl, by rw [s1, hl1], m1, m2, ?_,
      i1, i2, ?_, ?_, ?_, i6, i7, i8, i9, i10, ?_, ?_, ?_, ?_⟩
    · rw [rd16_wire be _ s2 12 _ m3]
      rfl
    · rw [rd16_wire be _ s2 16 _ i3, hl1]
      omega
    · refine rd16_order be _ _ hf s2 18 18 ?_
      rw [i4]
      have := rd16_congr be ctx.data (c1.data.drop 28) 18 (fun q h1 h2 => by
        rw [rd8_drop, hd1])
      rw [← this]
      unfold rd16
      rw [rd8_drop, rd8_drop]
    · rw [rd16_wire be _ s2 20 _ i5]
      rfl
    · rw [rd16_wire be _ s2 34 _ p1, Nat.mod_eq_of_lt hst.2.2.2.2.2.2.2]
    · rw [rd16_wire be _ s2 36 _ p2, Nat.mod_eq_of_lt hport]
    · rw [rd16_wire be _ s2 38 _ p3, hl1]
      omega
    · apply list_ext_rd8
      · simp only [List.length_drop, s1, hl1]
        omega
      · intro i _
        rw [rd8_drop, rd8_drop, s3 _ (by omega), show 42 + i = 28 + (14 + i) by omega, hd1]
theorem update_subnet_mask_spec (be : Bool) (u : UserState) :
    (update_subnet_mask be u).bss.subnet_mask =
      (if u.fake_gateway_ip ≠ 0 then bpf_htonl be 0xFFFFFF00 else u.real_subnet_mask) ∧
    (update_subnet_mask be u).bss.fake_gateway_ip = u.bss.fake_gateway_ip ∧
    (update_subnet_mask be u).fake_gateway_ip = u.fake_gateway_ip ∧
    (update_subnet_mask be u).real_subnet_mask = u.real_subnet_mask := by
  unfold update_subnet_mask
  split_ifs <;> exact ⟨rfl, rfl, rfl, rfl⟩

theorem inv_of_update (be : Bool) (v : UserState)
    (h : v.bss.fake_gateway_ip = v.fake_gateway_ip) :
    subnet_mask_inv be (update_subnet_mask be v) ∧
    (update_subnet_mask be v).fake_gateway_ip = v.fake_gateway_ip ∧
    (update_subnet_mask be v).real_subnet_mask = v.real_subnet_mask := by
  obtain ⟨h1, h2, h3, h4⟩ := update_subnet_mask_spec be v
  unfold subnet_mask_inv
  exact ⟨⟨by rw [h1, h3, h4], by rw [h2, h3, h]⟩, h3, h4⟩

theorem bpf_load_thread_inv (be : Bool) (u : UserState) :
    subnet_mask_inv be (bpf_load_thread be u) ∧
    (bpf_load_thread be u).fake_gateway_ip = u.fake_gateway_ip ∧
    (bpf_load_thread be u).real_subnet_mask = u.real_subnet_mask := by
  unfold bpf_load_thread
  simp only []
  exact inv_of_update be _ rfl

theorem bpf_set_fake_gateway_ip_inv (be : Bool) (u : UserState) (addr : Nat)
    (h : subnet_mask_inv be u) :
    subnet_mask_inv be (bpf_set_fake_gateway_ip be u addr) ∧
    (bpf_set_fake_gateway_ip be u addr).fake_gateway_ip = addr ∧
    (bpf_set_fake_gateway_ip be u addr).real_subnet_mask = u.real_subnet_mask := by
  unfold bpf_set_fake_gateway_ip
  by_cases he : u.fake_gateway_ip = addr
  · rw [if_pos he]
    exact ⟨h, he, rfl⟩
  · rw [if_neg he]
    simp only []
    exact inv_of_update be _ rfl

/-- C18: the subnet-mask invariant.  After the initialisation in
`bpf_load_thread`, and after every call of `bpf_set_fake_gateway_ip` in any
sequence of calls with any arguments, the subnet mask of the program is
`htonl(0xFFFFFF00)` when the fake gateway of the control plane is non-zero and
`real_subnet_mask` when it is zero, and the fake gateway of the program is the
one of the control plane; a call leaves the argument as the fake gateway. -/
theorem C18_subnet_mask_invariant (be : Bool) (u : UserState) (addrs : List Nat) :
    subnet_mask_inv be (bpf_load_thread be u) ∧
    subnet_mask_inv be (addrs.foldl (bpf_set_fake_gateway_ip be) (bpf_load_thread be u)) ∧
    (addrs.foldl (bpf_set_fake_gateway_ip be) (bpf_load_thread be u)).real_subnet_mask =
      u.real_subnet_mask ∧
    (∀ a, (bpf_set_fake_gateway_ip be
        (addrs.foldl (bpf_set_fake_gateway_ip be) (bpf_load_thread be u)) a).fake_gateway_ip
          = a) := by
  have key : ∀ (l : List Nat) (v : UserState), subnet_mask_inv be v →
      subnet_mask_inv be (l.foldl (bpf_set_fake_gateway_ip be) v) ∧
      (l.foldl (bpf_set_fake_gateway_ip be) v).real_subnet_mask = v.real_subnet_mask := by
    intro l
    induction l with
    | nil => intro v hv; exact ⟨hv, rfl⟩
    | cons a l ih =>
      intro v hv
      obtain ⟨h1, -, h3⟩ := bpf_set_fake_gateway_ip_inv be v a hv
      obtain ⟨i1, i2⟩ := ih _ h1
      exact ⟨i1, by rw [List.foldl_cons, i2, h3]⟩
  obtain ⟨h0, -, h2⟩ := bpf_load_thread_inv be u
  obtain ⟨k1, k2⟩ := key addrs _ h0
  exact ⟨h0, k1, by rw [k2, h2], fun a => (bpf_set_fake_gateway_ip_inv be _ a k1).2.1⟩

/-! ### Absence of faults -/

theorem runs_ok_ok (v : xdp_action) (c : xdp_md) (s : State) (h : verdict_ok v) :
    runs_ok (.ok (v, c, s)) := ⟨_, rfl, h⟩

theorem runs_ok_bind {α : Type} {x : Mem α} {k : α → Mem (xdp_action × xdp_md × State)}
    {P : α → Prop} (hx : ∃ a, x = .ok a ∧ P a) (hk : ∀ a, P a → runs_ok (k a)) :
    runs_ok (x >>= k) := by
  obtain ⟨a, rfl, ha⟩ := hx
  exact hk a ha

theorem send_icmp4_runs (be : Bool) (ctx : xdp_md) (st : State) :
    ∃ b, send_icmp4_timeout_exceeded be ctx st = .ok b ∧
      (b.1 = .XDP_DROP ∨ b.1 = .XDP_TX) := by
  by_cases h14 : ctx.data.length < 14
  · exact ⟨_, send_icmp4_short be ctx st h14, Or.inl rfl⟩
  · cases hh : bpf_xdp_adjust_head ctx (0 - ((20 : Int) + 8)) with
    | none => exact ⟨_, send_icmp4_no_head be ctx st (by omega) hh, Or.inl rfl⟩
    | some c1 =>
      cases ht : bpf_xdp_adjust_tail c1 (((14 : Int) + 20 + 8 + 28) - (c1.data.length : Int)) with
      | none => exact ⟨_, send_icmp4_no_tail be ctx c1 st (by omega) hh ht, Or.inl rfl⟩
      | some c2 => exact ⟨_, send_icmp4_resized be ctx c1 c2 st (by omega) hh ht, Or.inr rfl⟩

theorem send_icmp4_runs_ok (be : Bool) (ctx : xdp_md) (st : State) :
    runs_ok (send_icmp4_timeout_exceeded be ctx st) := by
  obtain ⟨b, hb, hv⟩ := send_icmp4_runs be ctx st
  refine ⟨b, hb, ?_⟩
  rcases hv with h | h
  · exact Or.inl h
  · exact Or.inr (Or.inr (Or.inl h))

theorem nat_route_runs_ok (be : Bool) (ktime : Nat → Nat) (ctx : xdp_md) (st : State)
    (l4 : l4_locals) (o : iph_pseudo) (hlen : 42 ≤ ctx.data.length) :
    runs_ok (xdp_prog_nat_route be ktime ctx st l4 o) := by
  unfold xdp_prog_nat_route
  simp only []
  rw [ld8_ok _ (by omega)]
  simp only [Mem.ok_bind]
  by_cases httl : rd8 ctx.data 22 ≤ 1
  · rw [if_pos httl]
    exact send_icmp4_runs_ok be ctx st
  · rw [if_neg httl, ld32_ok _ _ (by omega)]
    simp only [Mem.ok_bind]
    by_cases hicmp : l4.icmp_type = .NOT_ICMP
    · rw [if_pos hicmp, ld8_ok _ (by omega)]
      simp only [Mem.ok_bind]
      refine runs_ok_bind (P := fun a => a.1.length = ctx.data.length) ?_ ?_
      · by_cases hu : rd8 ctx.data 23 = IPPROTO_UDP
        · rw [if_pos hu]
          simp (disch := first | omega | (simp only [length_wr16]; omega)) only
            [ld16_ok, st16_ok, Mem.ok_bind, Mem.pure_eq]
          exact ⟨_, rfl, by simp⟩
        · rw [if_neg hu]
          exact ⟨_, rfl, rfl⟩
      · rintro ⟨f1, sp, spr⟩ hl1
        simp only [] at hl1 ⊢
        rw [ld8_ok _ (by omega)]
        simp only [Mem.ok_bind]
        rw [ld32_ok _ _ (by omega)]
        simp only [Mem.ok_bind]
        rw [ld_mac_ok _ (by omega)]
        simp only [Mem.ok_bind]
        refine runs_ok_bind (ip_decrease_ttl_frame be f1 14 (by omega)) ?_
        rintro ⟨f2, r2⟩ ⟨hl2, -⟩
        simp only [] at hl2 ⊢
        rw [st32_ok _ _ _ (by omega)]
        simp only [Mem.ok_bind]
        refine runs_ok_bind
          (recompute_iph_csum_frame be _ 14 (by simp only [length_wr32]; omega)) ?_
        rintro f3 ⟨hl3, -⟩
        simp only [length_wr32] at hl3
        refine runs_ok_bind (recompute_l4_csum_fast_frame be f3 14 o (by omega)) ?_
        rintro ⟨f4, r4⟩ ⟨hl4, -⟩
        simp only [] at hl4 ⊢
        rw [st_mac_ok _ _ (by omega)]
        simp only [Mem.ok_bind]
        rw [st_mac_ok _ _ (by simp only [length_wr_mac]; omega)]
        simp only [Mem.ok_bind, Mem.pure_eq]
        exact runs_ok_ok _ _ _ (Or.inr (Or.inr (Or.inl rfl)))
    · rw [if_neg hicmp]
      exact runs_ok_ok _ _ _ (Or.inr (Or.inl rfl))

theorem nat_return_runs_ok (be : Bool) (ktime : Nat → Nat) (ctx : xdp_md) (st : State)
    (l4 : l4_locals) (o : iph_pseudo) (hlen : 42 ≤ ctx.data.length) :
    runs_ok (xdp_prog_nat_return be ktime ctx st l4 o) := by
  unfold xdp_prog_nat_return
  simp only []
  rw [ld8_ok _ (by omega)]
  simp only [Mem.ok_bind]
  by_cases httl : rd8 ctx.data 22 ≤ 1
  · rw [if_pos httl]
    exact send_icmp4_runs_ok be ctx st
  · rw [if_neg httl]
    by_cases hicmp : l4.icmp_type = .NOT_ICMP
    · rw [if_pos hicmp, ld8_ok _ (by omega)]
      simp only [Mem.ok_bind]
      rw [ld32_ok _ _ (by omega)]
      simp only [Mem.ok_bind]
      cases hlook : map_lookup st.conntrack_map
          { protocol := rd8 ctx.data 23, sport := l4.dst_port, daddr := rd32 be ctx.data 26,
            dport := l4.src_port } with
      | none => exact runs_ok_ok _ _ _ (Or.inr (Or.inl rfl))
      | some e =>
        simp only []
        by_cases hidle : (bpf_ktime_get_ns ktime 0 + 18446744073709551616
            - e.ktime_ns % 18446744073709551616) % 18446744073709551616 > 5 * 60 * SECOND_NS
        · rw [if_pos hidle]
          exact runs_ok_ok _ _ _ (Or.inr (Or.inl rfl))
        · rw [if_neg hidle]
          refine runs_ok_bind (P := fun a => a.length = ctx.data.length) ?_ ?_
          · by_cases hu : rd8 ctx.data 23 = IPPROTO_UDP
            · rw [if_pos hu]
              simp (disch := first | omega | (simp only [length_wr16]; omega)) only
                [ld16_ok, st16_ok, Mem.ok_bind, Mem.pure_eq]
              exact ⟨_, rfl, by simp⟩
            · rw [if_neg hu]
              exact ⟨_, rfl, rfl⟩
          · rintro f1 hl1
            rw [st32_ok _ _ _ (by omega)]
            simp only [Mem.ok_bind]
            refine runs_ok_bind
              (ip_decrease_ttl_frame be _ 14 (by simp only [length_wr32]; omega)) ?_
            rintro ⟨f2, r2⟩ ⟨hl2, -⟩
            simp only [length_wr32] at hl2 ⊢
            refine runs_ok_bind (recompute_iph_csum_frame be f2 14 (by omega)) ?_
            rintro f3 ⟨hl3, -⟩
            refine runs_ok_bind (recompute_l4_csum_fast_frame be f3 14 o (by omega)) ?_
            rintro ⟨f4, r4⟩ ⟨hl4, -⟩
            simp only [] at hl4 ⊢
            rw [st_mac_ok _ _ (by omega)]
            simp only [Mem.ok_bind]
            rw [st_mac_ok _ _ (by simp only [length_wr_mac]; omega)]
            simp only [Mem.ok_bind, Mem.pure_eq]
            exact runs_ok_ok _ _ _ (Or.inr (Or.inr (Or.inl rfl)))
    · rw [if_neg hicmp]
      exact runs_ok_ok _ _ _ (Or.inr (Or.inl rfl))
theorem vpn_route_runs_ok (be : Bool) (ctx : xdp_md) (st : State) (l4 : l4_locals)
    (o : iph_pseudo) (hlen : 34 ≤ ctx.data.length) :
    runs_ok (xdp_prog_vpn_route be ctx st l4 o) := by
  cases hm : map_lookup st.remote_addrs (rd32 be ctx.data 30) with
  | none =>
    rw [vpn_route_none be ctx st l4 o hlen hm]
    exact runs_ok_ok _ _ _ (Or.inr (Or.inl rfl))
  | some r =>
    cases hh : bpf_xdp_adjust_head ctx (0 - ((20 : Int) + 8)) with
    | none =>
      rw [vpn_route_no_head be ctx st l4 o r hlen hm hh]
      exact runs_ok_ok _ _ _ (Or.inl rfl)
    | some c1 =>
      rw [vpn_route_tx be ctx c1 st l4 o r hlen hm hh]
      exact runs_ok_ok _ _ _ (Or.inr (Or.inr (Or.inl rfl)))

theorem vpn_inbound_runs_ok (be : Bool) (ctx : xdp_md) (st : State) :
    runs_ok (xdp_prog_vpn_inbound be ctx st) := by
  unfold xdp_prog_vpn_inbound
  cases hh : bpf_xdp_adjust_head ctx ((20 : Int) + 8) with
  | none => exact runs_ok_ok _ _ _ (Or.inl rfl)
  | some c1 =>
    simp only []
    by_cases h14 : 14 > c1.data.length
    · rw [if_pos h14]
      exact runs_ok_ok _ _ _ (Or.inl rfl)
    · rw [if_neg h14]
      by_cases h34 : 34 > c1.data.length
      · rw [if_pos h34]
        exact runs_ok_ok _ _ _ (Or.inl rfl)
      · rw [if_neg h34, ld8_ok _ (by omega)]
        simp only [Mem.ok_bind]
        by_cases hv : rd8 c1.data 14 % 16 ≠ 5 ∨ rd8 c1.data 14 / 16 % 16 ≠ 4
        · rw [if_pos hv]
          exact runs_ok_ok _ _ _ (Or.inl rfl)
        · rw [if_neg hv, ld32_ok _ _ (by omega)]
          simp only [Mem.ok_bind]
          split_ifs
          · exact runs_ok_ok _ _ _ (Or.inl rfl)
          · rw [ld32_ok _ _ (by omega)]
            simp only [Mem.ok_bind]
            cases hm : map_lookup st.remote_addrs (rd32 be c1.data 26) with
            | none => exact runs_ok_ok _ _ _ (Or.inl rfl)
            | some r =>
              simp (disch := first | omega | (simp only [length_wr_mac]; omega)) only
                [st_mac_ok, st16_ok, Mem.ok_bind, Mem.pure_eq]
              exact runs_ok_ok _ _ _ (Or.inr (Or.inr (Or.inl rfl)))

theorem redirect_map_pass (m : List (Nat × Nat)) (i : Nat) :
    bpf_redirect_map m i xdp_action.XDP_PASS.code = 2 ∨
      bpf_redirect_map m i xdp_action.XDP_PASS.code = 4 := by
  unfold bpf_redirect_map
  rw [if_neg (by decide)]
  cases map_lookup m i with
  | none => exact Or.inl rfl
  | some _ => exact Or.inr rfl

theorem broadcast_runs_ok (be : Bool) (ctx : xdp_md) (st : State) (l4 : l4_locals)
    (hlen : 34 ≤ ctx.data.length) : runs_ok (xdp_prog_broadcast_route be ctx st l4) := by
  unfold xdp_prog_broadcast_route
  rw [ld8_ok _ (by omega)]
  simp only [Mem.ok_bind]
  by_cases h1 : rd8 ctx.data 23 = IPPROTO_UDP ∧ l4.dst_port = bpf_htons be 67 ∧
      l4.dst_port = bpf_htons be 68
  · rw [if_pos h1]
    exact runs_ok_ok _ _ _ (Or.inr (Or.inl rfl))
  · rw [if_neg h1]
    rcases redirect_map_pass st.xsks_map ctx.rx_queue_index with h | h
    · rw [h, if_pos (by norm_num)]
      exact runs_ok_ok _ _ _ (Or.inr (Or.inl rfl))
    · rw [h, if_pos (by norm_num)]
      exact runs_ok_ok _ _ _ (Or.inr (Or.inr (Or.inr rfl)))

theorem other_routes_runs_ok (be : Bool) (ktime : Nat → Nat) (ctx : xdp_md) (st : State)
    (mc : Bool) (l4 : l4_locals) (o : iph_pseudo) (hlen : 42 ≤ ctx.data.length) :
    runs_ok (xdp_prog_other_routes be ktime ctx st mc l4 o) := by
  unfold xdp_prog_other_routes
  simp only []
  rw [ld_mac_ok _ (by omega)]
  simp only [Mem.ok_bind]
  by_cases hmac : mac_eq st.switch_mac (rd_mac ctx.data 6) = true
  · rw [if_pos hmac]
    by_cases hmc : mc = true
    · rw [if_pos hmc]
      exact broadcast_runs_ok be ctx st l4 (by omega)
    · rw [if_neg hmc]
      exact vpn_route_runs_ok be ctx st l4 o (by omega)
  · rw [if_neg hmac, ld32_ok _ _ (by omega)]
    simp only [Mem.ok_bind]
    by_cases hd : rd32 be ctx.data 30 = st.public_host_ip
    · rw [if_pos hd, ld8_ok _ (by omega)]
      simp only [Mem.ok_bind]
      by_cases hv : rd8 ctx.data 23 = IPPROTO_UDP ∧ l4.dst_port = bpf_htons be st.vpn_port
      · rw [if_pos hv]
        exact vpn_inbound_runs_ok be ctx st
      · rw [if_neg hv, ld32_ok _ _ (by omega)]
        simp only [Mem.ok_bind]
        split_ifs
        · exact nat_return_runs_ok be ktime ctx st l4 o hlen
        · exact runs_ok_ok _ _ _ (Or.inr (Or.inl rfl))
    · rw [if_neg hd]
      exact runs_ok_ok _ _ _ (Or.inr (Or.inl rfl))

theorem ip_routes_runs_ok (be : Bool) (ktime : Nat → Nat) (ctx : xdp_md) (st : State)
    (mc : Bool) (l4 : l4_locals) (o : iph_pseudo) (hlen : 42 ≤ ctx.data.length) :
    runs_ok (xdp_prog_ip_routes be ktime ctx st mc l4 o) := by
  unfold xdp_prog_ip_routes
  simp only []
  rw [ld_mac_ok _ (by omega)]
  simp only [Mem.ok_bind]
  rw [ld32_ok _ _ (by omega)]
  simp only [Mem.ok_bind]
  rw [ld32_ok _ _ (by omega)]
  simp only [Mem.ok_bind]
  split_ifs
  · exact nat_route_runs_ok be ktime ctx st l4 o hlen
  · exact other_routes_runs_ok be ktime ctx st mc l4 o hlen

theorem ipv4_runs_ok (be : Bool) (ktime : Nat → Nat) (ctx : xdp_md) (st : State)
    (bc mc : Bool) : runs_ok (xdp_prog_ipv4 be ktime ctx st bc mc) := by
  by_cases h34 : ctx.data.length < 34
  · rw [xdp_prog_ipv4_short be ktime ctx st bc mc h34]
    exact runs_ok_ok _ _ _ (Or.inl rfl)
  · rw [xdp_prog_ipv4_proto be ktime ctx st bc mc (by omega)]
    have hdrop : runs_ok (Mem.ok (xdp_action.XDP_DROP, ctx, st)) :=
      runs_ok_ok _ _ _ (Or.inl rfl)
    have key : 42 ≤ ctx.data.length → runs_ok (xdp_prog_ipv4 be ktime ctx st bc mc) := by
      intro h42
      unfold xdp_prog_ipv4
      simp only []
      rw [if_neg (by omega), ipv4_mk_pheader_ok be _ 14 (by omega)]
      simp only [Mem.ok_bind]
      rw [ld8_ok _ (by omega)]
      simp only [Mem.ok_bind]
      by_cases h1 : rd8 ctx.data 23 = IPPROTO_TCP
      · rw [if_pos h1]
        by_cases h54 : 34 + 20 > ctx.data.length
        · rw [if_pos h54]
          exact hdrop
        · rw [if_neg h54]
          simp (disch := omega) only [ld16_ok, Mem.ok_bind]
          exact ip_routes_runs_ok be ktime ctx st mc _ _ h42
      · rw [if_neg h1]
        by_cases h2 : rd8 ctx.data 23 = IPPROTO_UDP
        · rw [if_pos h2, if_neg (by omega)]
          simp (disch := omega) only [ld16_ok, ld32_ok, ld_mac_ok, Mem.ok_bind]
          exact ip_routes_runs_ok be ktime ctx _ mc _ _ h42
        · rw [if_neg h2]
          by_cases h3 : rd8 ctx.data 23 = IPPROTO_ICMP
          · rw [if_pos h3, if_neg (by omega)]
            simp (disch := omega) only [ld8_ok, Mem.ok_bind]
            exact ip_routes_runs_ok be ktime ctx st mc _ _ h42
          · rw [if_neg h3]
            exact runs_ok_ok _ _ _ (Or.inr (Or.inl rfl))
    split_ifs
    · exact hdrop
    · exact key (by omega)
    · exact hdrop
    · exact key (by omega)
    · exact hdrop
    · exact key (by omega)
    · exact runs_ok_ok _ _ _ (Or.inr (Or.inl rfl))

theorem arp_runs_ok (be : Bool) (ctx : xdp_md) (st : State) :
    runs_ok (xdp_prog_arp be ctx st) := by
  by_cases h22 : ctx.data.length < 22
  · rw [xdp_prog_arp_short be ctx st h22]
    exact runs_ok_ok _ _ _ (Or.inl rfl)
  · by_cases hr : arp_request be ctx.data
    · rw [xdp_prog_arp_request be ctx st (by omega) hr]
      split_ifs with h42 ht
      · exact runs_ok_ok _ _ _ (Or.inl rfl)
      · exact runs_ok_ok _ _ _ (Or.inr (Or.inl rfl))
      · unfold xdp_prog_arp
        simp (disch := first | omega | (simp only [length_wr8, length_wr16, length_wr32, length_wr_mac]; omega)) only
          [ld8_ok, ld16_ok, ld32_ok, ld_mac_ok, st8_ok, st16_ok, st32_ok, st_mac_ok, Mem.ok_bind,
            Mem.pure_eq]
        rw [if_neg (by omega), if_neg (fun hc => (arp_request_iff be _).mpr hc hr),
          if_neg (by omega), if_neg ht]
        exact runs_ok_ok _ _ _ (Or.inr (Or.inr (Or.inl rfl)))
    · rw [xdp_prog_arp_other be ctx st (by omega) hr]
      exact runs_ok_ok _ _ _ (Or.inr (Or.inl rfl))

/-- C17: no frame makes the program fault.  For every frame, of any length and
content, and every state, `xdp_prog` and `send_icmp4_timeout_exceeded` return a
result, so no load or store of theirs lies outside the bounds of the frame at
that moment, also after the frame has been resized; the verdict of `xdp_prog`
is one of `XDP_DROP`, `XDP_PASS`, `XDP_TX` and `XDP_REDIRECT`, and the one of
`send_icmp4_timeout_exceeded` is `XDP_DROP` or `XDP_TX`. -/
theorem C17_no_fault (be : Bool) (ktime : Nat → Nat) (ctx : xdp_md) (st : State) :
    (∃ v c s, xdp_prog be ktime ctx st = .ok (v, c, s) ∧
      (v = .XDP_DROP ∨ v = .XDP_PASS ∨ v = .XDP_TX ∨ v = .XDP_REDIRECT)) ∧
    (∃ v c s, send_icmp4_timeout_exceeded be ctx st = .ok (v, c, s) ∧
      (v = .XDP_DROP ∨ v = .XDP_TX)) ∧
    xdp_prog be ktime ctx st ≠ .fault ∧ send_icmp4_timeout_exceeded be ctx st ≠ .fault := by
  have h1 : runs_ok (xdp_prog be ktime ctx st) := by
    by_cases h14 : ctx.data.length < 14
    · rw [xdp_prog_short be ktime ctx st h14]
      exact runs_ok_ok _ _ _ (Or.inl rfl)
    · by_cases hip : rd16 be ctx.data 12 = bpf_htons be ETH_P_IP
      · rw [xdp_prog_ip be ktime ctx st (by omega) hip]
        exact ipv4_runs_ok be ktime ctx st _ _
      · by_cases harp : rd16 be ctx.data 12 = bpf_htons be ETH_P_ARP
        · rw [xdp_prog_is_arp be ktime ctx st (by omega) harp]
          exact arp_runs_ok be ctx st
        · rw [xdp_prog_other_ethertype be ktime ctx st (by omega) hip harp]
          exact runs_ok_ok _ _ _ (Or.inr (Or.inl rfl))
  obtain ⟨⟨v, c, s⟩, hb, hv⟩ := h1
  obtain ⟨⟨v2, c2, s2⟩, hb2, hv2⟩ := send_icmp4_runs be ctx st
  refine ⟨⟨v, c, s, hb, hv⟩, ⟨v2, c2, s2, hb2, hv2⟩, ?_, ?_⟩
  · rw [hb]; exact fun h => Mem.noConfusion h
  · rw [hb2]; exact fun h => Mem.noConfusion h

/-! ### Witnesses and counterexamples for the ARP branch, the tunnel and ICMP -/

set_option maxRecDepth 100000 in
/-- Witness of C11: the ARP request `ex_arp_request` for the fake gateway
192.168.1.1 is answered with the MAC address of the host. -/
theorem C11_arp_reply_witness :
    ∃ g ra, xdp_prog false (fun _ => 0) (ex_ctx ex_arp_request) (ex_state false) =
        .ok (.XDP_TX, { ex_ctx ex_arp_request with data := g },
          { ex_state false with remote_addrs := ra }) ∧
      g.length = 42 ∧ rd16 false g 20 = bpf_htons false ARPOP_REPLY ∧
      rd_mac g 22 = ⟨2, 0, 0, 0, 0, 1⟩ ∧
      rd_mac g 32 = ⟨2, 0, 0, 0, 0, 80⟩ ∧ rd_mac g 0 = ⟨2, 0, 0, 0, 0, 80⟩ := by
  obtain ⟨g, ra, h1, h2, h3, h4, h5, -, -, h8, -⟩ :=
    C11_arp_reply false (fun _ => 0) (ex_ctx ex_arp_request) (ex_state false) (by decide)
      (by decide) (by decide) (by decide) (by decide) (Or.inl (by decide))
  exact ⟨g, ra, h1, h2, h3, h4, h5, h8⟩

set_option maxRecDepth 100000 in
/-- Witness of C12: the ARP request `ex_arp_request_other` for the unregistered
address 192.168.1.77 is passed on untouched. -/
theorem C12_arp_pass_witness :
    xdp_prog false (fun _ => 0) (ex_ctx ex_arp_request_other) (ex_state false) =
      .ok (.XDP_PASS, ex_ctx ex_arp_request_other, ex_state false) :=
  (C12_arp_pass false (fun _ => 0) (ex_ctx ex_arp_request_other) (ex_state false)
    (by decide)).1 (by decide) (by decide) (by decide) (by decide)

set_option maxRecDepth 100000 in
/-- Witness of C14: the datagram `ex_udp_ttl1` arrives with TTL 1 on the NAT
route and is answered with an ICMP Time Exceeded message of 70 bytes. -/
theorem C14_icmp_timeout_exceeded_witness :
    ∃ g, xdp_prog false (fun _ => 0) (ex_ctx ex_udp_ttl1) (ex_state false) =
        .ok (.XDP_TX, { ex_ctx_icmp ex_udp_ttl1 with data := g }, ex_state false) ∧
      g.length = 70 ∧ rd8 g 22 = 64 ∧ rd8 g 23 = IPPROTO_ICMP ∧ rd8 g 34 = ICMP_TIME_EXCEEDED ∧
      inet_sum (rdN g 14 20) = 0xFFFF ∧ inet_sum (rdN g 34 36) = 0xFFFF ∧
      rdN g 42 28 = rdN ex_udp_ttl1 14 28 := by
  have h := C14_icmp_timeout_exceeded false (ex_ctx ex_udp_ttl1) (ex_state false) (by decide)
    (by decide) (by decide) (by decide)
  obtain ⟨g, h1, h2, -, -, -, -, -, -, -, -, h11, h12, -, -, h15, h16, -, -, h19, h20, -⟩ :=
    h.2.2.1 (ex_ctx_grown ex_udp_ttl1) (ex_ctx_icmp ex_udp_ttl1) (by decide) (by decide)
  have hx := h.2.2.2.2 (fun _ => 0) (by decide) (by decide) (Or.inl (by decide))
  exact ⟨g, by rw [hx]; exact h1, h2, h11, h12, h16, h15, h19, h20⟩

set_option maxRecDepth 100000 in
/-- Witness of C15: the frame `ex_udp_cut`, an IPv4 frame of 20 bytes, is
dropped. -/
theorem C15_truncated_dropped_witness :
    xdp_prog false (fun _ => 0) (ex_ctx ex_udp_cut) (ex_state false) =
      .ok (.XDP_DROP, ex_ctx ex_udp_cut, ex_state false) :=
  (C15_truncated_dropped false (fun _ => 0) (ex_ctx ex_udp_cut) (ex_state false)).2.1
    (by decide) (by decide)

set_option maxRecDepth 100000 in
/-- Witness of C16: the IPv6 frame `ex_ipv6_frame` and the GRE packet
`ex_gre_frame` are passed on untouched. -/
theorem C16_unsupported_pass_witness :
    xdp_prog false (fun _ => 0) (ex_ctx ex_ipv6_frame) (ex_state false) =
      .ok (.XDP_PASS, ex_ctx ex_ipv6_frame, ex_state false) ∧
    xdp_prog false (fun _ => 0) (ex_ctx ex_gre_frame) (ex_state false) =
      .ok (.XDP_PASS, ex_ctx ex_gre_frame, ex_state false) :=
  ⟨(C16_unsupported_pass false (fun _ => 0) (ex_ctx ex_ipv6_frame) (ex_state false)).1
      (by decide) (by decide) (by decide),
   (C16_unsupported_pass false (fun _ => 0) (ex_ctx ex_gre_frame) (ex_state false)).2
      (by decide) (by decide) (by decide) (by decide) (by decide)⟩

set_option maxRecDepth 100000 in
/-- Witness of C19: the datagram `ex_peer_udp` of the peer to the remote peer
192.168.1.60 leaves wrapped for the tunnel endpoint 198.51.100.7:7777. -/
theorem C19_vpn_encap_witness :
    ∃ g s, xdp_prog false (fun _ => 0) (ex_ctx ex_peer_udp) (ex_state_vpn false) =
        .ok (.XDP_TX, { ex_ctx_grown ex_peer_udp with data := g }, s) ∧
      g.length = 75 ∧ rd16 true g 16 = 61 ∧ rd8 g 23 = IPPROTO_UDP ∧
      rd32 false g 30 = ipv4_addr false 198 51 100 7 ∧ inet_sum (rdN g 14 20) = 0xFFFF ∧
      rd16 true g 34 = 7777 ∧ rd16 true g 36 = 7777 ∧ rd16 true g 38 = 41 ∧
      g.drop 42 = ex_peer_udp.drop 14 := by
  obtain ⟨g, h1, h2, -, -, -, -, -, h8, -, -, -, h12, -, h14, h15, h16, h17, h18, h19⟩ :=
    (C19_vpn_encap false (fun _ => 0) (ex_ctx ex_peer_udp) (ex_state_vpn false) (by decide)
      (by decide) (by decide) (by decide) (by decide) (by decide)).2.2.1 (ex_remote false)
      (ex_ctx_grown ex_peer_udp) (by decide) (by decide) (by decide) (by decide)
  exact ⟨g, _, h1, h2, h8, h12, h14, h15, h16, h17, h18, h19⟩

set_option maxRecDepth 100000 in
/-- Counterexample to C19 as stated, at three unicast IPv4 frames of the
learned peer to the remote peer 192.168.1.60 that the NAT route does not take.
The GRE packet `ex_gre_frame` is passed on unchanged, not transmitted.  The
datagram `ex_peer_udp` in a buffer with 10 bytes of headroom is dropped.  The
TCP segment `ex_peer_tcp_padded`, an IPv4 packet of 40 bytes in a frame padded
to 60 bytes, leaves with the outer total length 74, not 40 + 28. -/
theorem C19_counterexample :
    (rd16 false ex_gre_frame 12 = bpf_htons false ETH_P_IP ∧
     takes_vpn_route false (ex_state_vpn false) ex_gre_frame ∧
     (map_lookup (ex_state_vpn false).remote_addrs (rd32 false ex_gre_frame 30)).isSome ∧
     xdp_prog false (fun _ => 0) (ex_ctx ex_gre_frame) (ex_state_vpn false) =
       .ok (.XDP_PASS, ex_ctx ex_gre_frame, ex_state_vpn false)) ∧
    (ipv4_l4_frame false ex_peer_udp ∧
     takes_vpn_route false (ex_state_vpn false) ex_peer_udp ∧
     (map_lookup (ex_state_vpn false).remote_addrs (rd32 false ex_peer_udp 30)).isSome ∧
     verdict_of (xdp_prog false (fun _ => 0) (ex_ctx_tight ex_peer_udp) (ex_state_vpn false))
       = some .XDP_DROP) ∧
    (ipv4_l4_frame false ex_peer_tcp_padded ∧
     takes_vpn_route false (ex_state_vpn false) ex_peer_tcp_padded ∧
     (map_lookup (ex_state_vpn false).remote_addrs (rd32 false ex_peer_tcp_padded 30)).isSome ∧
     verdict_of (xdp_prog false (fun _ => 0) (ex_ctx ex_peer_tcp_padded) (ex_state_vpn false))
       = some .XDP_TX ∧
     rd16 true ex_peer_tcp_padded 16 = 40 ∧
     rd16 true (frame_after
       (xdp_prog false (fun _ => 0) (ex_ctx ex_peer_tcp_padded) (ex_state_vpn false))) 16
       = 74) := by
  decide

set_option maxRecDepth 100000 in
/-- The outer UDP checksum stays zero for the datagram `ex_peer_udp_nocsum`,
whose UDP checksum is disabled. -/
theorem vpn_outer_csum_zero_example :
    verdict_of (xdp_prog false (fun _ => 0) (ex_ctx ex_peer_udp_nocsum) (ex_state_vpn false))
      = some .XDP_TX ∧
    rd16 false (frame_after
      (xdp_prog false (fun _ => 0) (ex_ctx ex_peer_udp_nocsum) (ex_state_vpn false))) 40 = 0 := by
  decide

set_option maxRecDepth 100000 in
/-- The subnet-mask invariant at an example: after the load the program has the
/24 mask; after the fake gateway is set to 0 it has the mask of the
interface. -/
theorem subnet_mask_example :
    (bpf_load_thread false (ex_user false)).bss.subnet_mask = bpf_htonl false 0xFFFFFF00 ∧
    (bpf_set_fake_gateway_ip false (bpf_load_thread false (ex_user false)) 0).bss.subnet_mask
      = bpf_htonl false 0xFFFF0000 ∧
    (bpf_set_fake_gateway_ip false (bpf_load_thread false (ex_user false)) 0).bss.fake_gateway_ip
      = 0 := by
  decide

/-! ### The tunnel round trip -/

theorem nat_route_cond_false_of_public (st : State) (mc : Bool) (m : macaddr_t) (s : Nat) :
    nat_route_cond st mc m s st.public_host_ip = false := by
  unfold nat_route_cond same_subnet
  simp

/-- The inbound tunnel route when the inner packet passes its checks: the
frame is cut by 28 bytes at the front and gets a new Ethernet header. -/
theorem vpn_inbound_tx (be : Bool) (ctx : xdp_md) (st : State) (r : remote_addr)
    (hf : bytes_ok ctx.data) (hlen : 62 ≤ ctx.data.length) (hv : rd8 ctx.data 42 = 0x45)
    (hd : vpn_inner_dst_ok be st ctx.data)
    (hm : map_lookup st.remote_addrs (rd32 be ctx.data 54) = some r) (g : List Nat)
    (hg : g = fill_eth be st st.switch_mac (ctx.data.drop 28)) :
    xdp_prog_vpn_inbound be ctx st =
      .ok (.XDP_TX, ⟨ctx.headroom ++ ctx.data.take 28, g, ctx.tailroom, ctx.rx_queue_index⟩,
        { st with remote_addrs := map_touch st.remote_addrs (rd32 be ctx.data 54) }) := by
  unfold xdp_prog_vpn_inbound
  rw [adjust_head_strip ctx (by omega)]
  simp only []
  have hl : (ctx.data.drop 28).length = ctx.data.length - 28 := List.length_drop _ _
  rw [if_neg (by omega), if_neg (by omega), ld8_ok _ (by omega)]
  simp only [Mem.ok_bind]
  rw [rd8_drop]
  simp only [Nat.reduceAdd]
  rw [if_neg (by rw [hv]; decide), ld32_ok _ _ (by omega)]
  simp only [Mem.ok_bind]
  rw [rd32_drop]
  simp only [Nat.reduceAdd]
  rw [if_neg, ld32_ok _ _ (by omega)]
  · simp only [Mem.ok_bind]
    rw [rd32_drop]
    simp only [Nat.reduceAdd]
    rw [hm]
    simp (disch := first | omega | (simp only [length_wr_mac]; omega)) only
      [st_mac_ok, st16_ok, Mem.ok_bind, Mem.pure_eq]
    rw [hg]
    rfl
  · rintro ⟨h1, h2, h3, h4⟩
    rw [Ne, multicast_test be _ hf] at h4
    rcases hd with h | h | h | h
    · exact h1 h
    · exact h2 h
    · exact h3 h
    · exact h4 h

theorem eth_header_of (be : Bool) (g : List Nat) (d s : macaddr_t) (hg : bytes_ok g)
    (hd : rd_mac g 0 = d) (hs : rd_mac g 6 = s) (hp : rd16 be g 12 = bpf_htons be ETH_P_IP)
    (i : Nat) (hi : i < 14) : rd8 g i = rd8 (eth_header d s) i := by
  have hw := rd16_wire be g hg 12 _ hp
  have b0 := rd8_lt g hg 12
  have b1 := rd8_lt g hg 13
  simp only [rd16, mk16, if_true, Nat.reduceAdd, ETH_P_IP, Nat.reduceMod] at hw
  subst hd
  subst hs
  unfold eth_header rd_mac
  simp only [Nat.reduceAdd]
  interval_cases i
  all_goals first
    | rfl
    | (show rd8 g 12 = 8; omega)
    | (show rd8 g 13 = 0; omega)
theorem rd32_shift (be : Bool) (f g : List Nat) (p q : Nat)
    (h : ∀ i, i < 4 → rd8 g (p + i) = rd8 f (q + i)) : rd32 be g p = rd32 be f q := by
  unfold rd32
  have h0 := h 0 (by omega)
  rw [Nat.add_zero, Nat.add_zero] at h0
  rw [h0, h 1 (by omega), h 2 (by omega), h 3 (by omega)]

/-- C21, amended: the tunnel round trip.  Engine A takes the tunnel route for
a frame that carries an IPv4 packet with a 20-byte header (version 4, IHL 5),
the destination of the packet is registered at A with a tunnel endpoint that
is the public address and the tunnel port of engine B, and A transmits.
Engine B receives the frame that A transmitted; the frame does not come from
the MAC address of the peer of B, the destination of the inner packet is one
that B delivers, and the source of the inner packet is registered at B.  Then
the verdict of B is `XDP_TX` and the frame that leaves B is the Ethernet header
with destination `switch_mac` of B, source `host_mac` of B and ethertype IPv4,
followed by exactly the bytes that followed the Ethernet header in the frame
that A received. -/
theorem C21_tunnel_round_trip (be : Bool) (ktA ktB : Nat → Nat) (ctxA cA ctxB : xdp_md)
    (stA stA1 stB : State) (r : remote_addr)
    (hfA : bytes_ok ctxA.data) (hhA : bytes_ok ctxA.headroom) (hstA : stA.ok) (hstB : stB.ok)
    (hfr : ipv4_l4_frame be ctxA.data) (hP : rd8 ctxA.data 14 = 0x45)
    (hv : takes_vpn_route be stA ctxA.data)
    (hm : map_lookup stA.remote_addrs (rd32 be ctxA.data 30) = some r)
    (hrip : r.ip = stB.public_host_ip) (hrport : r.port = stB.vpn_port)
    (hout : xdp_prog be ktA ctxA stA = .ok (.XDP_TX, cA, stA1))
    (hin : ctxB.data = cA.data)
    (hpeer : mac_eq (state_at_routes be stB ctxB.data).switch_mac (rd_mac ctxB.data 6) = false)
    (hdst : rd32 be ctxA.data 30 = stB.switch_ip ∨ rd32 be ctxA.data 30 = subnet_broadcast stB ∨
      rd32 be ctxA.data 30 = 0xFFFFFFFF ∨ (224 ≤ rd8 ctxA.data 30 ∧ rd8 ctxA.data 30 < 240))
    (hsrc : map_lookup stB.remote_addrs (rd32 be ctxA.data 26) ≠ none) :
    ∃ cB stB1, xdp_prog be ktB ctxB stB = .ok (.XDP_TX, cB, stB1) ∧
      cB.data = eth_header stB.switch_mac stB.host_mac ++ ctxA.data.drop 14 ∧
      cB.data.length = ctxA.data.length := by
  have hlenA : 42 ≤ ctxA.data.length := by
    obtain ⟨h34, -, hp⟩ := hfr
    omega
  -- the frame that A transmits
  rw [xdp_prog_vpn be ktA ctxA stA hfr hv] at hout
  cases hh : bpf_xdp_adjust_head ctxA (0 - ((20 : Int) + 8)) with
  | none =>
    rw [vpn_route_no_head be ctxA stA _ _ r hfr.1 hm hh] at hout
    injection hout with h
    injection h with h1 _
    exact absurd h1 (by decide)
  | some c1 =>
    rw [vpn_route_tx be ctxA c1 stA _ _ r hfr.1 hm hh] at hout
    injection hout with h
    injection h with _ h2
    injection h2 with h3 _
    subst h3
    simp only [] at hin
    obtain ⟨-, hl1, hd1, hb1, -, -⟩ := adjust_head_grow ctxA c1 hh
    obtain ⟨s1, s2, s3, ⟨-, -, m3⟩, ⟨-, -, -, -, -, -, i7, -, i9, -⟩, ⟨-, p2, -⟩, -, -⟩ :=
      vpn_fill_spec be stA r (l4_of be ctxA.data) (pheader_of be ctxA.data 14) c1.data
        (hb1 hhA hfA) (by omega) hstA (by rw [hrip]; exact hstB.2.2.2.1)
    rw [← hin] at s1 s2 s3 m3 i7 i9 p2
    have hshift : ∀ q, 14 ≤ q → rd8 ctxB.data (28 + q) = rd8 ctxA.data q := by
      intro q hq
      rw [s3 _ (by omega), hd1]
    -- the route of B
    have hSB := state_at_routes_of_not_peer be stB ctxB.data hpeer
    have hinb : takes_vpn_inbound be (state_at_routes be stB ctxB.data) ctxB.data := by
      refine ⟨?_, hpeer, ?_, i7, ?_⟩
      · unfold takes_nat_route
        rw [hSB, i9, hrip]
        exact nat_route_cond_false_of_public _ _ _ _
      · rw [hSB, i9, hrip]
      · rw [hSB, p2, hrport]
    have e58 : rd32 be ctxB.data 58 = rd32 be ctxA.data 30 :=
      rd32_shift be _ _ 58 30 (fun i hi => by
        rw [show 58 + i = 28 + (30 + i) by omega]; exact hshift _ (by omega))
    have e54 : rd32 be ctxB.data 54 = rd32 be ctxA.data 26 :=
      rd32_shift be _ _ 54 26 (fun i hi => by
        rw [show 54 + i = 28 + (26 + i) by omega]; exact hshift _ (by omega))
    have hdB : vpn_inner_dst_ok be stB ctxB.data := by
      unfold vpn_inner_dst_ok
      rw [e58, show rd8 ctxB.data 58 = rd8 ctxA.data 30 from hshift 30 (by omega)]
      exact hdst
    obtain ⟨r2, hr2⟩ : ∃ r2, map_lookup stB.remote_addrs (rd32 be ctxB.data 54) = some r2 := by
      rw [e54]
      exact Option.ne_none_iff_exists'.mp hsrc
    have hlenB : ctxB.data.length = ctxA.data.length + 28 := by rw [s1, hl1]
    rw [xdp_prog_inbound be ktB ctxB stB m3 (by omega) hinb]
    refine ⟨_, _, vpn_inbound_tx be ctxB stB r2 s2 (by omega)
      (by rw [show rd8 ctxB.data 42 = rd8 ctxA.data 14 from hshift 14 (by omega)]; exact hP)
      hdB hr2 _ rfl, ?_⟩
    simp only []
    -- the frame that B transmits
    have hld : (ctxB.data.drop 28).length = ctxA.data.length := by
      rw [List.length_drop, hlenB]; omega
    obtain ⟨f1, f2, f3, f4, f5, f6⟩ :=
      fill_eth_spec be stB stB.switch_mac (ctxB.data.drop 28) (by omega)
    have hb2 := f2 (bytes_ok_of_drop _ s2 _)
    have hlh : (eth_header stB.switch_mac stB.host_mac).length = 14 := rfl
    have hlt : (eth_header stB.switch_mac stB.host_mac ++ ctxA.data.drop 14).length
        = ctxA.data.length := by
      rw [List.length_append, hlh, List.length_drop]; omega
    refine ⟨?_, by rw [f1, hld]⟩
    apply list_ext_rd8 (by rw [f1, hld, hlt])
    intro i _
    by_cases hi : i < 14
    · rw [rd8_append_left _ _ (by rw [hlh]; exact hi)]
      exact eth_header_of be _ _ _ hb2 (f4 hstB.2.2.1) (f5 hstB.1) f6 i hi
    · obtain ⟨j, rfl⟩ : ∃ j, i = 14 + j := ⟨i - 14, by omega⟩
      have := rd8_append_right (eth_header stB.switch_mac stB.host_mac) (ctxA.data.drop 14) j
      rw [hlh] at this
      rw [this, f3 _ (by omega), rd8_drop, rd8_drop, hshift _ (by omega)]
set_option maxRecDepth 100000 in
/-- Witness of C21: the datagram `ex_peer_udp` of the peer of the engine of
`ex_state_vpn` is wrapped for the tunnel endpoint 198.51.100.7:7777, the engine
of `ex_state_b`, which unwraps it and transmits it to its peer
02:00:00:00:00:60. -/
theorem C21_tunnel_round_trip_witness :
    ∃ cB stB1,
      xdp_prog false (fun _ => 0)
          (ex_ctx_of (xdp_prog false (fun _ => 0) (ex_ctx ex_peer_udp) (ex_state_vpn false)))
          (ex_state_b false) = .ok (.XDP_TX, cB, stB1) ∧
      cB.data = eth_header (ex_state_b false).switch_mac (ex_state_b false).host_mac
        ++ (ex_ctx ex_peer_udp).data.drop 14 ∧
      cB.data.length = (ex_ctx ex_peer_udp).data.length :=
  C21_tunnel_round_trip false (fun _ => 0) (fun _ => 0) (ex_ctx ex_peer_udp)
    ⟨(ex_ctx_grown ex_peer_udp).headroom,
      frame_after (xdp_prog false (fun _ => 0) (ex_ctx ex_peer_udp) (ex_state_vpn false)),
      (ex_ctx_grown ex_peer_udp).tailroom, (ex_ctx_grown ex_peer_udp).rx_queue_index⟩
    (ex_ctx_of (xdp_prog false (fun _ => 0) (ex_ctx ex_peer_udp) (ex_state_vpn false)))
    (ex_state_vpn false)
    (state_after (xdp_prog false (fun _ => 0) (ex_ctx ex_peer_udp) (ex_state_vpn false))
      (ex_state_vpn false))
    (ex_state_b false) (ex_remote false)
    (by decide) (by decide) (by decide) (by decide) (by decide) (by decide) (by decide)
    (by decide) (by decide) (by decide) (by decide) (by decide) (by decide)
    (Or.inl (by decide)) (by decide)

set_option maxRecDepth 100000 in
/-- Counterexample to C21 as stated, at two packets of the peer 192.168.1.50
of the engine of `ex_state_vpn` for 192.168.1.60, which is registered there
with the tunnel endpoint 198.51.100.7:7777, the public address and the tunnel
port of the engine of `ex_state_b`; at that engine 192.168.1.60 is the peer and
192.168.1.50 is registered.  The datagram `ex_peer_udp_opts` has an IPv4 header
with options (IHL 6): the first engine wraps and transmits it, and the second
engine, which takes it on its inbound tunnel route, drops it.  The segment
`ex_peer_tcp_padded` is an IPv4 packet of 40 bytes in a frame padded to 60
bytes: both engines transmit, and the frame that leaves the second engine
carries 46 bytes behind its Ethernet header, the packet and the padding. -/
theorem C21_counterexample :
    (rd16 false ex_peer_udp_opts 12 = bpf_htons false ETH_P_IP ∧
     rd8 ex_peer_udp_opts 14 = 0x46 ∧
     takes_vpn_route false (ex_state_vpn false) ex_peer_udp_opts ∧
     map_lookup (ex_state_vpn false).remote_addrs (rd32 false ex_peer_udp_opts 30)
       = some (ex_remote false) ∧
     (ex_remote false).ip = (ex_state_b false).public_host_ip ∧
     (ex_remote false).port = (ex_state_b false).vpn_port ∧
     verdict_of (xdp_prog false (fun _ => 0) (ex_ctx ex_peer_udp_opts) (ex_state_vpn false))
       = some .XDP_TX ∧
     takes_vpn_inbound false (ex_state_b false) (frame_after
       (xdp_prog false (fun _ => 0) (ex_ctx ex_peer_udp_opts) (ex_state_vpn false))) ∧
     rd32 false ex_peer_udp_opts 30 = (ex_state_b false).switch_ip ∧
     (map_lookup (ex_state_b false).remote_addrs (rd32 false ex_peer_udp_opts 26)).isSome ∧
     verdict_of (xdp_prog false (fun _ => 0)
         (ex_ctx_of (xdp_prog false (fun _ => 0) (ex_ctx ex_peer_udp_opts) (ex_state_vpn false)))
         (ex_state_b false)) = some .XDP_DROP) ∧
    (rd8 ex_peer_tcp_padded 14 = 0x45 ∧ rd16 true ex_peer_tcp_padded 16 = 40 ∧
     takes_vpn_route false (ex_state_vpn false) ex_peer_tcp_padded ∧
     verdict_of (xdp_prog false (fun _ => 0) (ex_ctx ex_peer_tcp_padded) (ex_state_vpn false))
       = some .XDP_TX ∧
     verdict_of (xdp_prog false (fun _ => 0)
         (ex_ctx_of (xdp_prog false (fun _ => 0) (ex_ctx ex_peer_tcp_padded)
           (ex_state_vpn false)))
         (ex_state_b false)) = some .XDP_TX ∧
     (frame_after (xdp_prog false (fun _ => 0)
         (ex_ctx_of (xdp_prog false (fun _ => 0) (ex_ctx ex_peer_tcp_padded)
           (ex_state_vpn false)))
         (ex_state_b false))).length = 14 + 46) := by
  decide

/-! ### The translated source port -/

/-- C22, amended: the source port on the outbound NAT route.  For every TCP or
UDP frame with a 20-byte IPv4 header (version 4, IHL 5, so that the source port
is the two bytes at offset 34) and TTL above 1 on the NAT route, the verdict is
`XDP_TX` and the source port of the frame that leaves is the port in the key of
the new entry of `conntrack_map`.  For UDP the field `udph->source`, read as a
16-bit value in the byte order of the machine, is the original value plus
`t % 255` modulo `2 ^ 16`, where `t` is the reading of `bpf_ktime_get_ns`, and
`t % 255` is at most 254; so the port number on the wire is
`ntohs ((htons port + t % 255) % 2 ^ 16)`, which is `(port + t % 255) % 2 ^ 16`
on a big-endian machine.  For TCP the two bytes of the source port are
unchanged.  In the packet that arrives and in the one that leaves, the two
bytes at offset 34 are the source port behind the IPv4 header. -/
theorem C22_nat_source_port (be : Bool) (ktime : Nat → Nat) (ctx : xdp_md) (st : State)
    (hf : bytes_ok ctx.data) (hfr : tcp_udp_frame be ctx.data)
    (hnat : takes_nat_route be st ctx.data = true) (httl : 1 < rd8 ctx.data 22)
    (hver : rd8 ctx.data 14 = 0x45) :
    ∃ g key entry, xdp_prog be ktime ctx st =
        .ok (.XDP_TX, { ctx with data := g },
          { st with conntrack_map := map_update CONNTRACK_MAX st.conntrack_map key entry }) ∧
      key.sport = rd16 be g 34 ∧
      (rd8 ctx.data 23 = IPPROTO_UDP →
        rd16 be g 34 = (rd16 be ctx.data 34 + bpf_ktime_get_ns ktime 0 % 255) % 65536 ∧
        bpf_ktime_get_ns ktime 0 % 255 ≤ 254 ∧
        rd16 true g 34 = bpf_ntohs be
          ((bpf_htons be (rd16 true ctx.data 34) + bpf_ktime_get_ns ktime 0 % 255) % 65536) ∧
        (be = true →
          rd16 true g 34 = (rd16 true ctx.data 34 + bpf_ktime_get_ns ktime 0 % 255) % 65536)) ∧
      (rd8 ctx.data 23 = IPPROTO_TCP →
        rd16 be g 34 = rd16 be ctx.data 34 ∧ rd16 true g 34 = rd16 true ctx.data 34 ∧
        key.sport = rd16 be ctx.data 34) ∧
      l4_src_port ctx.data 14 = rd16 true ctx.data 34 ∧ l4_src_port g 14 = rd16 true g 34 := by
  have hp := hfr.2
  obtain ⟨hi, hs, hd⟩ := l4_of_tcp_udp be ctx.data (by
    rcases hp with h | h
    · exact Or.inl h.1
    · exact Or.inr h.1)
  obtain ⟨b, hb, g, key, entry, rfl, hkey, -, -, hbg, -, -, -, -, h34, hq⟩ :=
    nat_route_tx be ktime ctx st (l4_of be ctx.data) (pheader_of be ctx.data 14) hf hi hs hp httl
  have hks : key.sport = rd16 be g 34 := by rw [hkey]
  have h14 : rd8 g 14 = 0x45 := by
    rw [hq 14 (by omega) (by omega) (by omega) (by omega)
      (by omega) (by omega) (by omega) (by omega) (by omega) (by omega) (by omega), hver]
  refine ⟨g, key, entry, by rw [xdp_prog_nat be ktime ctx st hfr hnat, hb], hks, ?_, ?_,
    by unfold l4_src_port ip_hdr_len; rw [hver], by unfold l4_src_port ip_hdr_len; rw [h14]⟩
  · intro hu
    rw [if_pos hu, hs] at h34
    have hm : rd16 be g 34 = (rd16 be ctx.data 34 + bpf_ktime_get_ns ktime 0 % 255) % 65536 := h34
    refine ⟨hm, by omega, ?_, ?_⟩
    · rw [rd16_true_eq be g hbg 34, hm, rd16_mach_eq be ctx.data hf 34]
    · intro hbe
      subst hbe
      exact hm
  · intro ht
    have hne : rd8 ctx.data 23 ≠ IPPROTO_UDP := by rw [ht]; decide
    rw [if_neg hne] at h34
    exact ⟨h34, rd16_order be _ _ hf hbg 34 34 h34, by rw [hks, h34]⟩

set_option maxRecDepth 100000 in
/-- Witness of C22: on a big-endian machine the datagram of `ex_udp_frame`,
translated at time 1000 ns, leaves with source port 5000 + 1000 % 255 =
5235. -/
theorem C22_nat_source_port_witness :
    ∃ g s, xdp_prog true (fun _ => 1000) (ex_ctx ex_udp_frame) (ex_state true) =
        .ok (.XDP_TX, { ex_ctx ex_udp_frame with data := g }, s) ∧
      rd16 true g 34 = 5235 := by
  obtain ⟨g, key, entry, h1, -, h3, -, -⟩ :=
    C22_nat_source_port true (fun _ => 1000) (ex_ctx ex_udp_frame) (ex_state true) (by decide)
      (by decide) (by decide) (by decide) (by decide)
  exact ⟨g, _, h1, (h3 (by decide)).2.2.2 rfl⟩

set_option maxRecDepth 100000 in
/-- Counterexample to C22 as stated, at two datagrams.  On a little-endian
machine the datagram of `ex_udp_frame` (20-byte IPv4 header) has source port
5000 and is translated on the NAT route at time 1000 ns, so that `t % 255` is
235; it leaves with source port 65160, not 5000 + 235 = 5235.  The machine adds
235 to the value 0x8813 that it loads from the bytes 0x13 0x88 of the port and
stores 0x88fe, the bytes 0xfe 0x88.  On a big-endian machine the datagram
`ex_udp_opts`, from port 5000 with an IPv4 header of 24 bytes, is translated
at the same time and leaves with source port 5000, while the key of the entry
in `conntrack_map` holds the port 492, the option bytes 01 01 plus 235. -/
theorem C22_counterexample :
    (rd8 ex_udp_frame 14 = 0x45 ∧
    tcp_udp_frame false ex_udp_frame ∧ rd8 ex_udp_frame 23 = IPPROTO_UDP ∧
    takes_nat_route false (ex_state false) ex_udp_frame = true ∧
    verdict_of (xdp_prog false (fun _ => 1000) (ex_ctx ex_udp_frame) (ex_state false))
      = some .XDP_TX ∧
    rd16 true ex_udp_frame 34 = 5000 ∧
    bpf_ktime_get_ns (fun _ => 1000) 0 % 255 = 235 ∧
    rd16 true (frame_after
      (xdp_prog false (fun _ => 1000) (ex_ctx ex_udp_frame) (ex_state false))) 34 = 65160 ∧
    rd16 false ex_udp_frame 34 = 0x8813 ∧
    rd16 false (frame_after
      (xdp_prog false (fun _ => 1000) (ex_ctx ex_udp_frame) (ex_state false))) 34 = 0x88fe) ∧
    (tcp_udp_frame true ex_udp_opts ∧ rd8 ex_udp_opts 23 = IPPROTO_UDP ∧
     ip_hdr_len ex_udp_opts 14 = 24 ∧
     takes_nat_route true (ex_state true) ex_udp_opts = true ∧ 1 < rd8 ex_udp_opts 22 ∧
     verdict_of (xdp_prog true (fun _ => 1000) (ex_ctx ex_udp_opts) (ex_state true))
       = some .XDP_TX ∧
     l4_src_port ex_udp_opts 14 = 5000 ∧
     l4_src_port (frame_after
       (xdp_prog true (fun _ => 1000) (ex_ctx ex_udp_opts) (ex_state true))) 14 = 5000 ∧
     (state_after (xdp_prog true (fun _ => 1000) (ex_ctx ex_udp_opts) (ex_state true))
       (ex_state true)).conntrack_map.map (fun e => e.1.sport) = [492]) := by
  decide

theorem onec_add_lt (x y : Nat) : onec_add x y < 65536 := Nat.mod_lt _ (by norm_num)

theorem udp_port_patch_ok (be : Bool) (f : List Nat) (pf old new : Nat)
    (hlen : 42 ≤ f.length) (hpf : pf + 2 ≤ f.length) :
    udp_port_patch be f pf old new =
      .ok (wr16 be (wr16 be f 40 (onec_add (onec_add (rd16 be f 40) old) (not16 new))) pf new) := by
  unfold udp_port_patch
  simp (disch := first | omega | (simp only [length_wr16]; omega)) only
    [ld16_ok, st16_ok, Mem.ok_bind, Mem.pure_eq]
  rw [rd16_wr16_eq be f _ (by omega), Nat.mod_eq_of_lt (onec_add_lt _ _), wr16_wr16_same]

/-- The NAT route of `xdp_prog` on a UDP datagram is the port patch of the
source port followed by the rest of the route. -/
theorem nat_route_udp_patch (be : Bool) (ktime : Nat → Nat) (ctx : xdp_md) (st : State)
    (l4 : l4_locals) (o : iph_pseudo) (hlen : 42 ≤ ctx.data.length)
    (hu : rd8 ctx.data 23 = IPPROTO_UDP) (hicmp : l4.icmp_type = .NOT_ICMP)
    (httl : 1 < rd8 ctx.data 22) (np : Nat)
    (hnp : np = (l4.src_port + bpf_ktime_get_ns ktime 0 % 0xFF) % 65536) :
    xdp_prog_nat_route be ktime ctx st l4 o = (do
      let f ← udp_port_patch be ctx.data 34 l4.src_port np
      let key : conntrack_key :=
        { protocol := rd8 ctx.data 23, sport := np, daddr := rd32 be ctx.data 30,
          dport := l4.dst_port }
      let entry : track_entry :=
        { saddr := rd32 be ctx.data 26, sport_real := l4.src_port,
          h_source := rd_mac ctx.data 6, ktime_ns := bpf_ktime_get_ns ktime 0 }
      let (f, _) ← ip_decrease_ttl be f 14
      let f ← st32 be f 26 st.public_host_ip
      let f ← recompute_iph_csum be f 14
      let (f, _) ← recompute_l4_csum_fast be f 14 o
      let f ← st_mac f 0 st.gateway_mac
      let f ← st_mac f 6 st.host_mac
      pure (.XDP_TX, { ctx with data := f },
        { st with conntrack_map := map_update CONNTRACK_MAX st.conntrack_map key entry })) := by
  subst hnp
  have e23 : ∀ a b, rd8 (wr16 be (wr16 be ctx.data 40 a) 34 b) 23 = rd8 ctx.data 23 :=
    fun a b => by
      rw [rd8_wr16_ne be _ _ (by omega) (by omega), rd8_wr16_ne be _ _ (by omega) (by omega)]
  have e30 : ∀ a b, rd32 be (wr16 be (wr16 be ctx.data 40 a) 34 b) 30 = rd32 be ctx.data 30 :=
    fun a b => rd32_congr be _ _ 30 (fun q h1 h2 => by
      rw [rd8_wr16_ne be _ _ (by omega) (by omega), rd8_wr16_ne be _ _ (by omega) (by omega)])
  have e6 : ∀ a b, rd_mac (wr16 be (wr16 be ctx.data 40 a) 34 b) 6 = rd_mac ctx.data 6 :=
    fun a b => rd_mac_congr _ _ 6 (fun q h1 h2 => by
      rw [rd8_wr16_ne be _ _ (by omega) (by omega), rd8_wr16_ne be _ _ (by omega) (by omega)])
  rw [udp_port_patch_ok be ctx.data 34 _ _ hlen (by omega)]
  unfold xdp_prog_nat_route
  simp (disch := first | omega | (simp only [length_wr16]; omega)) only
    [ld8_ok, ld16_ok, ld32_ok, ld_mac_ok, st16_ok, Mem.ok_bind, Mem.pure_eq, if_pos hu,
      if_pos hicmp, if_neg (show ¬ rd8 ctx.data 22 ≤ 1 by omega)]
  rw [rd16_wr16_eq be ctx.data _ (by omega), Nat.mod_eq_of_lt (onec_add_lt _ _), wr16_wr16_same,
    e23, e30, e6]

/-- The NAT return route of `xdp_prog` on a UDP datagram of a tracked
connection is the port patch of the destination port followed by the rest of
the route. -/
theorem nat_return_udp_patch (be : Bool) (ktime : Nat → Nat) (ctx : xdp_md) (st : State)
    (l4 : l4_locals) (o : iph_pseudo) (e : track_entry) (hlen : 42 ≤ ctx.data.length)
    (hu : rd8 ctx.data 23 = IPPROTO_UDP) (hicmp : l4.icmp_type = .NOT_ICMP)
    (httl : 1 < rd8 ctx.data 22)
    (hlook : map_lookup st.conntrack_map
      { protocol := rd8 ctx.data 23, sport := l4.dst_port, daddr := rd32 be ctx.data 26,
        dport := l4.src_port } = some e)
    (hidle : idle_ns ktime e ≤ 5 * 60 * SECOND_NS) :
    xdp_prog_nat_return be ktime ctx st l4 o = (do
      let f ← udp_port_patch be ctx.data 36 (rd16 be ctx.data 36) e.sport_real
      let key : conntrack_key :=
        { protocol := rd8 ctx.data 23, sport := l4.dst_port, daddr := rd32 be ctx.data 26,
          dport := l4.src_port }
      let f ← st32 be f 30 e.saddr
      let (f, _) ← ip_decrease_ttl be f 14
      let f ← recompute_iph_csum be f 14
      let (f, _) ← recompute_l4_csum_fast be f 14 o
      let f ← st_mac f 0 e.h_source
      let f ← st_mac f 6 st.host_mac
      pure (.XDP_TX, { ctx with data := f },
        { st with
          conntrack_map :=
            map_modify (map_touch st.conntrack_map key) key
              (fun e => { e with ktime_ns := bpf_ktime_get_ns ktime 1 }) })) := by
  rw [udp_port_patch_ok be ctx.data 36 _ _ hlen (by omega)]
  unfold xdp_prog_nat_return
  unfold idle_ns at hidle
  simp (disch := first | omega | (simp only [length_wr16]; omega)) only
    [ld8_ok, ld16_ok, ld32_ok, ld_mac_ok, st16_ok, Mem.ok_bind, Mem.pure_eq, if_pos hu,
      if_pos hicmp, if_neg (show ¬ rd8 ctx.data 22 ≤ 1 by omega), hlook,
      if_neg (show ¬ _ > 5 * 60 * SECOND_NS from Nat.not_lt.mpr hidle)]
  rw [rd16_wr16_eq be ctx.data _ (by omega), Nat.mod_eq_of_lt (onec_add_lt _ _), wr16_wr16_same]

/-! ### The configuration is kept -/

theorem keeps_ok (st : State) (v : xdp_action) (c : xdp_md) (s : State) (h : same_config st s) :
    keeps_config st (.ok (v, c, s)) := ⟨_, rfl, h⟩

theorem keeps_bind {α : Type} {st : State} {x : Mem α}
    {k : α → Mem (xdp_action × xdp_md × State)}
    {P : α → Prop} (hx : ∃ a, x = .ok a ∧ P a) (hk : ∀ a, P a → keeps_config st (k a)) :
    keeps_config st (x >>= k) := by
  obtain ⟨a, rfl, ha⟩ := hx
  exact hk a ha

theorem same_config_refl (st : State) : same_config st st :=
  ⟨rfl, rfl, rfl, rfl, rfl, rfl, rfl, rfl⟩

theorem send_icmp4_keeps (be : Bool) (ctx : xdp_md) (st : State) :
    keeps_config st (send_icmp4_timeout_exceeded be ctx st) := by
  by_cases h14 : ctx.data.length < 14
  · exact ⟨_, send_icmp4_short be ctx st h14, same_config_refl st⟩
  · cases hh : bpf_xdp_adjust_head ctx (0 - ((20 : Int) + 8)) with
    | none => exact ⟨_, send_icmp4_no_head be ctx st (by omega) hh, same_config_refl st⟩
    | some c1 =>
      cases ht : bpf_xdp_adjust_tail c1 (((14 : Int) + 20 + 8 + 28) - (c1.data.length : Int)) with
      | none => exact ⟨_, send_icmp4_no_tail be ctx c1 st (by omega) hh ht, same_config_refl st⟩
      | some c2 =>
        exact ⟨_, send_icmp4_resized be ctx c1 c2 st (by omega) hh ht, same_config_refl st⟩

theorem nat_route_keeps (be : Bool) (ktime : Nat → Nat) (ctx : xdp_md) (st : State)
    (l4 : l4_locals) (o : iph_pseudo) (hlen : 42 ≤ ctx.data.length) :
    keeps_config st (xdp_prog_nat_route be ktime ctx st l4 o) := by
  unfold xdp_prog_nat_route
  simp only []
  rw [ld8_ok _ (by omega)]
  simp only [Mem.ok_bind]
  by_cases httl : rd8 ctx.data 22 ≤ 1
  · rw [if_pos httl]
    exact send_icmp4_keeps be ctx st
  · rw [if_neg httl, ld32_ok _ _ (by omega)]
    simp only [Mem.ok_bind]
    by_cases hicmp : l4.icmp_type = .NOT_ICMP
    · rw [if_pos hicmp, ld8_ok _ (by omega)]
      simp only [Mem.ok_bind]
      refine keeps_bind (P := fun a => a.1.length = ctx.data.length) ?_ ?_
      · by_cases hu : rd8 ctx.data 23 = IPPROTO_UDP
        · rw [if_pos hu]
          simp (disch := first | omega | (simp only [length_wr16]; omega)) only
            [ld16_ok, st16_ok, Mem.ok_bind, Mem.pure_eq]
          exact ⟨_, rfl, by simp⟩
        · rw [if_neg hu]
          exact ⟨_, rfl, rfl⟩
      · rintro ⟨f1, sp, spr⟩ hl1
        simp only [] at hl1 ⊢
        rw [ld8_ok _ (by omega)]
        simp only [Mem.ok_bind]
        rw [ld32_ok _ _ (by omega)]
        simp only [Mem.ok_bind]
        rw [ld_mac_ok _ (by omega)]
        simp only [Mem.ok_bind]
        refine keeps_bind (ip_decrease_ttl_frame be f1 14 (by omega)) ?_
        rintro ⟨f2, r2⟩ ⟨hl2, -⟩
        simp only [] at hl2 ⊢
        rw [st32_ok _ _ _ (by omega)]
        simp only [Mem.ok_bind]
        refine keeps_bind
          (recompute_iph_csum_frame be _ 14 (by simp only [length_wr32]; omega)) ?_
        rintro f3 ⟨hl3, -⟩
        simp only [length_wr32] at hl3
        refine keeps_bind (recompute_l4_csum_fast_frame be f3 14 o (by omega)) ?_
        rintro ⟨f4, r4⟩ ⟨hl4, -⟩
        simp only [] at hl4 ⊢
        rw [st_mac_ok _ _ (by omega)]
        simp only [Mem.ok_bind]
        rw [st_mac_ok _ _ (by simp only [length_wr_mac]; omega)]
        simp only [Mem.ok_bind, Mem.pure_eq]
        exact keeps_ok _ _ _ _ ⟨rfl, rfl, rfl, rfl, rfl, rfl, rfl, rfl⟩
    · rw [if_neg hicmp]
      exact keeps_ok _ _ _ _ ⟨rfl, rfl, rfl, rfl, rfl, rfl, rfl, rfl⟩

theorem nat_return_keeps (be : Bool) (ktime : Nat → Nat) (ctx : xdp_md) (st : State)
    (l4 : l4_locals) (o : iph_pseudo) (hlen : 42 ≤ ctx.data.length) :
    keeps_config st (xdp_prog_nat_return be ktime ctx st l4 o) := by
  unfold xdp_prog_nat_return
  simp only []
  rw [ld8_ok _ (by omega)]
  simp only [Mem.ok_bind]
  by_cases httl : rd8 ctx.data 22 ≤ 1
  · rw [if_pos httl]
    exact send_icmp4_keeps be ctx st
  · rw [if_neg httl]
    by_cases hicmp : l4.icmp_type = .NOT_ICMP
    · rw [if_pos hicmp, ld8_ok _ (by omega)]
      simp only [Mem.ok_bind]
      rw [ld32_ok _ _ (by omega)]
      simp only [Mem.ok_bind]
      cases hlook : map_lookup st.conntrack_map
          { protocol := rd8 ctx.data 23, sport := l4.dst_port, daddr := rd32 be ctx.data 26,
            dport := l4.src_port } with
      | none => exact keeps_ok _ _ _ _ ⟨rfl, rfl, rfl, rfl, rfl, rfl, rfl, rfl⟩
      | some e =>
        simp only []
        by_cases hidle : (bpf_ktime_get_ns ktime 0 + 18446744073709551616
            - e.ktime_ns % 18446744073709551616) % 18446744073709551616 > 5 * 60 * SECOND_NS
        · rw [if_pos hidle]
          exact keeps_ok _ _ _ _ ⟨rfl, rfl, rfl, rfl, rfl, rfl, rfl, rfl⟩
        · rw [if_neg hidle]
          refine keeps_bind (P := fun a => a.length = ctx.data.length) ?_ ?_
          · by_cases hu : rd8 ctx.data 23 = IPPROTO_UDP
            · rw [if_pos hu]
              simp (disch := first | omega | (simp only [length_wr16]; omega)) only
                [ld16_ok, st16_ok, Mem.ok_bind, Mem.pure_eq]
              exact ⟨_, rfl, by simp⟩
            · rw [if_neg hu]
              exact ⟨_, rfl, rfl⟩
          · rintro f1 hl1
            rw [st32_ok _ _ _ (by omega)]
            simp only [Mem.ok_bind]
            refine keeps_bind
              (ip_decrease_ttl_frame be _ 14 (by simp only [length_wr32]; omega)) ?_
            rintro ⟨f2, r2⟩ ⟨hl2, -⟩
            simp only [length_wr32] at hl2 ⊢
            refine keeps_bind (recompute_iph_csum_frame be f2 14 (by omega)) ?_
            rintro f3 ⟨hl3, -⟩
            refine keeps_bind (recompute_l4_csum_fast_frame be f3 14 o (by omega)) ?_
            rintro ⟨f4, r4⟩ ⟨hl4, -⟩
            simp only [] at hl4 ⊢
            rw [st_mac_ok _ _ (by omega)]
            simp only [Mem.ok_bind]
            rw [st_mac_ok _ _ (by simp only [length_wr_mac]; omega)]
            simp only [Mem.ok_bind, Mem.pure_eq]
            exact keeps_ok _ _ _ _ ⟨rfl, rfl, rfl, rfl, rfl, rfl, rfl, rfl⟩
    · rw [if_neg hicmp]
      exact keeps_ok _ _ _ _ ⟨rfl, rfl, rfl, rfl, rfl, rfl, rfl, rfl⟩
theorem vpn_route_keeps (be : Bool) (ctx : xdp_md) (st : State) (l4 : l4_locals)
    (o : iph_pseudo) (hlen : 34 ≤ ctx.data.length) :
    keeps_config st (xdp_prog_vpn_route be ctx st l4 o) := by
  cases hm : map_lookup st.remote_addrs (rd32 be ctx.data 30) with
  | none =>
    rw [vpn_route_none be ctx st l4 o hlen hm]
    exact keeps_ok _ _ _ _ ⟨rfl, rfl, rfl, rfl, rfl, rfl, rfl, rfl⟩
  | some r =>
    cases hh : bpf_xdp_adjust_head ctx (0 - ((20 : Int) + 8)) with
    | none =>
      rw [vpn_route_no_head be ctx st l4 o r hlen hm hh]
      exact keeps_ok _ _ _ _ ⟨rfl, rfl, rfl, rfl, rfl, rfl, rfl, rfl⟩
    | some c1 =>
      rw [vpn_route_tx be ctx c1 st l4 o r hlen hm hh]
      exact keeps_ok _ _ _ _ ⟨rfl, rfl, rfl, rfl, rfl, rfl, rfl, rfl⟩

theorem vpn_inbound_keeps (be : Bool) (ctx : xdp_md) (st : State) :
    keeps_config st (xdp_prog_vpn_inbound be ctx st) := by
  unfold xdp_prog_vpn_inbound
  cases hh : bpf_xdp_adjust_head ctx ((20 : Int) + 8) with
  | none => exact keeps_ok _ _ _ _ ⟨rfl, rfl, rfl, rfl, rfl, rfl, rfl, rfl⟩
  | some c1 =>
    simp only []
    by_cases h14 : 14 > c1.data.length
    · rw [if_pos h14]
      exact keeps_ok _ _ _ _ ⟨rfl, rfl, rfl, rfl, rfl, rfl, rfl, rfl⟩
    · rw [if_neg h14]
      by_cases h34 : 34 > c1.data.length
      · rw [if_pos h34]
        exact keeps_ok _ _ _ _ ⟨rfl, rfl, rfl, rfl, rfl, rfl, rfl, rfl⟩
      · rw [if_neg h34, ld8_ok _ (by omega)]
        simp only [Mem.ok_bind]
        by_cases hv : rd8 c1.data 14 % 16 ≠ 5 ∨ rd8 c1.data 14 / 16 % 16 ≠ 4
        · rw [if_pos hv]
          exact keeps_ok _ _ _ _ ⟨rfl, rfl, rfl, rfl, rfl, rfl, rfl, rfl⟩
        · rw [if_neg hv, ld32_ok _ _ (by omega)]
          simp only [Mem.ok_bind]
          split_ifs
          · exact keeps_ok _ _ _ _ ⟨rfl, rfl, rfl, rfl, rfl, rfl, rfl, rfl⟩
          · rw [ld32_ok _ _ (by omega)]
            simp only [Mem.ok_bind]
            cases hm : map_lookup st.remote_addrs (rd32 be c1.data 26) with
            | none => exact keeps_ok _ _ _ _ ⟨rfl, rfl, rfl, rfl, rfl, rfl, rfl, rfl⟩
            | some r =>
              simp (disch := first | omega | (simp only [length_wr_mac]; omega)) only
                [st_mac_ok, st16_ok, Mem.ok_bind, Mem.pure_eq]
              exact keeps_ok _ _ _ _ ⟨rfl, rfl, rfl, rfl, rfl, rfl, rfl, rfl⟩

theorem broadcast_keeps (be : Bool) (ctx : xdp_md) (st : State) (l4 : l4_locals)
    (hlen : 34 ≤ ctx.data.length) : keeps_config st (xdp_prog_broadcast_route be ctx st l4) := by
  unfold xdp_prog_broadcast_route
  rw [ld8_ok _ (by omega)]
  simp only [Mem.ok_bind]
  by_cases h1 : rd8 ctx.data 23 = IPPROTO_UDP ∧ l4.dst_port = bpf_htons be 67 ∧
      l4.dst_port = bpf_htons be 68
  · rw [if_pos h1]
    exact keeps_ok _ _ _ _ ⟨rfl, rfl, rfl, rfl, rfl, rfl, rfl, rfl⟩
  · rw [if_neg h1]
    rcases redirect_map_pass st.xsks_map ctx.rx_queue_index with h | h
    · rw [h, if_pos (by norm_num)]
      exact keeps_ok _ _ _ _ ⟨rfl, rfl, rfl, rfl, rfl, rfl, rfl, rfl⟩
    · rw [h, if_pos (by norm_num)]
      exact keeps_ok _ _ _ _ ⟨rfl, rfl, rfl, rfl, rfl, rfl, rfl, rfl⟩

theorem other_routes_keeps (be : Bool) (ktime : Nat → Nat) (ctx : xdp_md) (st : State)
    (mc : Bool) (l4 : l4_locals) (o : iph_pseudo) (hlen : 42 ≤ ctx.data.length) :
    keeps_config st (xdp_prog_other_routes be ktime ctx st mc l4 o) := by
  unfold xdp_prog_other_routes
  simp only []
  rw [ld_mac_ok _ (by omega)]
  simp only [Mem.ok_bind]
  by_cases hmac : mac_eq st.switch_mac (rd_mac ctx.data 6) = true
  · rw [if_pos hmac]
    by_cases hmc : mc = true
    · rw [if_pos hmc]
      exact broadcast_keeps be ctx st l4 (by omega)
    · rw [if_neg hmc]
      exact vpn_route_keeps be ctx st l4 o (by omega)
  · rw [if_neg hmac, ld32_ok _ _ (by omega)]
    simp only [Mem.ok_bind]
    by_cases hd : rd32 be ctx.data 30 = st.public_host_ip
    · rw [if_pos hd, ld8_ok _ (by omega)]
      simp only [Mem.ok_bind]
      by_cases hv : rd8 ctx.data 23 = IPPROTO_UDP ∧ l4.dst_port = bpf_htons be st.vpn_port
      · rw [if_pos hv]
        exact vpn_inbound_keeps be ctx st
      · rw [if_neg hv, ld32_ok _ _ (by omega)]
        simp only [Mem.ok_bind]
        split_ifs
        · exact nat_return_keeps be ktime ctx st l4 o hlen
        · exact keeps_ok _ _ _ _ ⟨rfl, rfl, rfl, rfl, rfl, rfl, rfl, rfl⟩
    · rw [if_neg hd]
      exact keeps_ok _ _ _ _ ⟨rfl, rfl, rfl, rfl, rfl, rfl, rfl, rfl⟩

theorem ip_routes_keeps (be : Bool) (ktime : Nat → Nat) (ctx : xdp_md) (st : State)
    (mc : Bool) (l4 : l4_locals) (o : iph_pseudo) (hlen : 42 ≤ ctx.data.length) :
    keeps_config st (xdp_prog_ip_routes be ktime ctx st mc l4 o) := by
  unfold xdp_prog_ip_routes
  simp only []
  rw [ld_mac_ok _ (by omega)]
  simp only [Mem.ok_bind]
  rw [ld32_ok _ _ (by omega)]
  simp only [Mem.ok_bind]
  rw [ld32_ok _ _ (by omega)]
  simp only [Mem.ok_bind]
  split_ifs
  · exact nat_route_keeps be ktime ctx st l4 o hlen
  · exact other_routes_keeps be ktime ctx st mc l4 o hlen

theorem ipv4_keeps (be : Bool) (ktime : Nat → Nat) (ctx : xdp_md) (st s0 : State)
    (bc mc : Bool)
    (hs0 : s0 =
      if 42 ≤ ctx.data.length ∧ rd8 ctx.data 23 = IPPROTO_UDP ∧
          (rd16 be ctx.data 36 = bpf_htons be 49152 ∧ bc = true ∧ st.switch_ip = 0) then
        { st with switch_ip := rd32 be ctx.data 26, switch_mac := rd_mac ctx.data 6 }
      else st) :
    keeps_config s0 (xdp_prog_ipv4 be ktime ctx st bc mc) := by
  have hne : IPPROTO_TCP ≠ IPPROTO_UDP ∧ IPPROTO_ICMP ≠ IPPROTO_UDP := by decide
  by_cases h34 : ctx.data.length < 34
  · rw [xdp_prog_ipv4_short be ktime ctx st bc mc h34, hs0, if_neg (by omega)]
    exact keeps_ok _ _ _ _ (same_config_refl st)
  · unfold xdp_prog_ipv4
    simp only []
    rw [if_neg (by omega), ipv4_mk_pheader_ok be _ 14 (by omega)]
    simp only [Mem.ok_bind]
    rw [ld8_ok _ (by omega)]
    simp only [Mem.ok_bind]
    by_cases h1 : rd8 ctx.data 23 = IPPROTO_TCP
    · rw [if_neg (by rw [h1]; exact fun h => hne.1 h.2.1)] at hs0
      subst hs0
      rw [if_pos h1]
      by_cases h54 : 34 + 20 > ctx.data.length
      · rw [if_pos h54]
        exact keeps_ok _ _ _ _ (same_config_refl _)
      · rw [if_neg h54]
        simp (disch := omega) only [ld16_ok, Mem.ok_bind]
        exact ip_routes_keeps be ktime ctx _ mc _ _ (by omega)
    · rw [if_neg h1]
      by_cases h2 : rd8 ctx.data 23 = IPPROTO_UDP
      · rw [if_pos h2]
        by_cases h42 : 34 + 8 > ctx.data.length
        · rw [if_neg (by omega)] at hs0
          subst hs0
          rw [if_pos h42]
          exact keeps_ok _ _ _ _ (same_config_refl _)
        · rw [if_neg h42]
          simp (disch := omega) only [ld16_ok, ld32_ok, ld_mac_ok, Mem.ok_bind]
          by_cases hc : rd16 be ctx.data 36 = bpf_htons be 49152 ∧ bc = true ∧ st.switch_ip = 0
          · rw [if_pos ⟨by omega, h2, hc⟩] at hs0
            subst hs0
            rw [if_pos hc]
            exact ip_routes_keeps be ktime ctx _ mc _ _ (by omega)
          · rw [if_neg (fun h => hc h.2.2)] at hs0
            subst hs0
            rw [if_neg hc]
            exact ip_routes_keeps be ktime ctx _ mc _ _ (by omega)
      · rw [if_neg (fun h => h2 h.2.1)] at hs0
        subst hs0
        rw [if_neg h2]
        by_cases h3 : rd8 ctx.data 23 = IPPROTO_ICMP
        · rw [if_pos h3]
          by_cases h42 : 34 + 8 > ctx.data.length
          · rw [if_pos h42]
            exact keeps_ok _ _ _ _ (same_config_refl _)
          · rw [if_neg h42]
            simp (disch := omega) only [ld8_ok, Mem.ok_bind]
            exact ip_routes_keeps be ktime ctx _ mc _ _ (by omega)
        · rw [if_neg h3]
          exact keeps_ok _ _ _ _ (same_config_refl _)

theorem arp_keeps (be : Bool) (ctx : xdp_md) (st : State) :
    keeps_config st (xdp_prog_arp be ctx st) := by
  by_cases h22 : ctx.data.length < 22
  · rw [xdp_prog_arp_short be ctx st h22]
    exact keeps_ok _ _ _ _ ⟨rfl, rfl, rfl, rfl, rfl, rfl, rfl, rfl⟩
  · by_cases hr : arp_request be ctx.data
    · rw [xdp_prog_arp_request be ctx st (by omega) hr]
      split_ifs with h42 ht
      · exact keeps_ok _ _ _ _ ⟨rfl, rfl, rfl, rfl, rfl, rfl, rfl, rfl⟩
      · exact keeps_ok _ _ _ _ ⟨rfl, rfl, rfl, rfl, rfl, rfl, rfl, rfl⟩
      · unfold xdp_prog_arp
        simp (disch := first | omega | (simp only [length_wr8, length_wr16, length_wr32, length_wr_mac]; omega)) only
          [ld8_ok, ld16_ok, ld32_ok, ld_mac_ok, st8_ok, st16_ok, st32_ok, st_mac_ok, Mem.ok_bind,
            Mem.pure_eq]
        rw [if_neg (by omega), if_neg (fun hc => (arp_request_iff be _).mpr hc hr),
          if_neg (by omega), if_neg ht]
        exact keeps_ok _ _ _ _
          (by split_ifs <;> exact ⟨rfl, rfl, rfl, rfl, rfl, rfl, rfl, rfl⟩)
    · rw [xdp_prog_arp_other be ctx st (by omega) hr]
      exact keeps_ok _ _ _ _ ⟨rfl, rfl, rfl, rfl, rfl, rfl, rfl, rfl⟩

theorem rd16_wire_iff (be : Bool) (g : List Nat) (hg : bytes_ok g) (p v : Nat) (hv : v < 65536) :
    rd16 be g p = bpf_htons be v ↔ rd16 true g p = v := by
  constructor
  · intro h
    rw [rd16_wire be g hg p v h, Nat.mod_eq_of_lt hv]
  · intro h
    rw [rd16_mach_eq be g hg p, h]

/-- The state that a run of `xdp_prog` leaves has the configuration of the
state before, with the peer learned from the frame if it is one from which the
program learns. -/
theorem xdp_prog_keeps (be : Bool) (ktime : Nat → Nat) (ctx : xdp_md) (st s0 : State)
    (hf : bytes_ok ctx.data)
    (hs0 : s0 =
      if learns_peer st ctx.data then
        { st with switch_ip := rd32 be ctx.data 26, switch_mac := rd_mac ctx.data 6 }
      else st) :
    keeps_config s0 (xdp_prog be ktime ctx st) := by
  have hipw := rd16_wire_iff be ctx.data hf 12 ETH_P_IP (by decide)
  have hpw := rd16_wire_iff be ctx.data hf 36 49152 (by decide)
  by_cases h14 : ctx.data.length < 14
  · rw [if_neg (fun h => by have := h.1; omega)] at hs0
    rw [hs0]
    rw [xdp_prog_short be ktime ctx st h14]
    exact keeps_ok _ _ _ _ (same_config_refl _)
  · by_cases hip : rd16 be ctx.data 12 = bpf_htons be ETH_P_IP
    · rw [xdp_prog_ip be ktime ctx st (by omega) hip]
      apply ipv4_keeps
      rw [hs0]
      refine if_congr ?_ rfl rfl
      unfold learns_peer
      constructor
      · rintro ⟨h1, h2, h3, h4, h5, h6⟩
        exact ⟨h1, h3, hpw.mpr h5, h4, h6⟩
      · rintro ⟨h1, h3, h5, h4, h6⟩
        exact ⟨h1, hipw.mp hip, h3, h4, hpw.mp h5, h6⟩
    · rw [if_neg (fun h => hip (hipw.mpr h.2.1))] at hs0
      rw [hs0]
      by_cases harp : rd16 be ctx.data 12 = bpf_htons be ETH_P_ARP
      · rw [xdp_prog_is_arp be ktime ctx st (by omega) harp]
        exact arp_keeps be ctx _
      · rw [xdp_prog_other_ethertype be ktime ctx st (by omega) hip harp]
        exact keeps_ok _ _ _ _ (same_config_refl _)

/-- C24, amended: the learning of the peer.  For every frame and every state,
the run of `xdp_prog` leaves `host_mac`, `gateway_mac`, `public_host_ip`,
`fake_gateway_ip`, `subnet_mask` and `vpn_port` as they were.  If the frame has
42 bytes or more, ethertype IPv4 and protocol UDP, is sent to the Ethernet
broadcast address, and its bytes 36 and 37 (the UDP destination port behind a
20-byte IPv4 header) are 49152 while `switch_ip` is 0, then `switch_ip` becomes
the source address of the frame and `switch_mac` its source MAC address; for
every other frame, and for every frame when `switch_ip` is not 0, `switch_ip`
and `switch_mac` are left as they were.  So the pair is different afterwards
exactly when the frame is such a frame and its source address and source MAC
are not the pair that was there.  For a frame whose IPv4 header has 20 bytes
(version 4, IHL 5), the condition on bytes 36 and 37 is that the UDP
destination port is 49152. -/
theorem C24_peer_learning (be : Bool) (ktime : Nat → Nat) (ctx : xdp_md) (st : State)
    (hf : bytes_ok ctx.data) :
    ∃ v c s, xdp_prog be ktime ctx st = .ok (v, c, s) ∧
      (learns_peer st ctx.data →
        s.switch_ip = rd32 be ctx.data 26 ∧ s.switch_mac = rd_mac ctx.data 6) ∧
      (¬ learns_peer st ctx.data →
        s.switch_ip = st.switch_ip ∧ s.switch_mac = st.switch_mac) ∧
      (st.switch_ip ≠ 0 → s.switch_ip = st.switch_ip ∧ s.switch_mac = st.switch_mac) ∧
      ((s.switch_ip ≠ st.switch_ip ∨ s.switch_mac ≠ st.switch_mac) ↔
        (learns_peer st ctx.data ∧
          (rd32 be ctx.data 26 ≠ st.switch_ip ∨ rd_mac ctx.data 6 ≠ st.switch_mac))) ∧
      s.host_mac = st.host_mac ∧ s.gateway_mac = st.gateway_mac ∧
      s.public_host_ip = st.public_host_ip ∧ s.fake_gateway_ip = st.fake_gateway_ip ∧
      s.subnet_mask = st.subnet_mask ∧ s.vpn_port = st.vpn_port ∧
      (rd8 ctx.data 14 = 0x45 →
        (learns_peer st ctx.data ↔
          42 ≤ ctx.data.length ∧ rd16 true ctx.data 12 = ETH_P_IP ∧
          rd8 ctx.data 23 = IPPROTO_UDP ∧ eth_is_broadcast ctx.data = true ∧
          l4_dst_port ctx.data 14 = 49152 ∧ st.switch_ip = 0)) := by
  have hport : rd8 ctx.data 14 = 0x45 →
      (learns_peer st ctx.data ↔
        42 ≤ ctx.data.length ∧ rd16 true ctx.data 12 = ETH_P_IP ∧
        rd8 ctx.data 23 = IPPROTO_UDP ∧ eth_is_broadcast ctx.data = true ∧
        l4_dst_port ctx.data 14 = 49152 ∧ st.switch_ip = 0) := by
    intro h
    unfold learns_peer l4_dst_port ip_hdr_len
    rw [h]
  obtain ⟨⟨v, c, s⟩, hb, hc⟩ := xdp_prog_keeps be ktime ctx st _ hf rfl
  simp only [] at hc
  by_cases hl : learns_peer st ctx.data
  · rw [if_pos hl] at hc
    obtain ⟨c1, c2, c3, c4, c5, c6, c7, c8⟩ := hc
    simp only [] at c1 c2 c3 c4 c5 c6 c7 c8
    refine ⟨v, c, s, hb, fun _ => ⟨c2, c1⟩, fun h => absurd hl h,
      fun h => absurd hl.2.2.2.2.2 h, ?_, c3, c4, c5, c6, c7, c8, hport⟩
    rw [c1, c2]
    exact ⟨fun h => ⟨hl, h⟩, fun h => h.2⟩
  · rw [if_neg hl] at hc
    obtain ⟨c1, c2, c3, c4, c5, c6, c7, c8⟩ := hc
    refine ⟨v, c, s, hb, fun h => absurd h hl, fun _ => ⟨c2, c1⟩, fun _ => ⟨c2, c1⟩, ?_,
      c3, c4, c5, c6, c7, c8, hport⟩
    rw [c1, c2]
    exact ⟨fun h => by rcases h with h | h <;> exact absurd rfl h, fun h => absurd h.1 hl⟩

set_option maxRecDepth 100000 in
/-- Witness of C24: the discovery datagram `ex_discovery_frame`, broadcast by
02:00:00:00:00:50 (192.168.1.50) to UDP port 49152 while no peer is known,
makes 192.168.1.50 and 02:00:00:00:00:50 the peer. -/
theorem C24_peer_learning_witness :
    learns_peer (ex_state false) ex_discovery_frame ∧
    ∃ v c s, xdp_prog false (fun _ => 0) (ex_ctx ex_discovery_frame) (ex_state false)
        = .ok (v, c, s) ∧
      s.switch_ip = ipv4_addr false 192 168 1 50 ∧ s.switch_mac = ⟨2, 0, 0, 0, 0, 80⟩ ∧
      s.host_mac = (ex_state false).host_mac ∧ s.vpn_port = (ex_state false).vpn_port := by
  obtain ⟨v, c, s, h1, h2, -, -, -, h6, -, -, -, -, h11, -⟩ :=
    C24_peer_learning false (fun _ => 0) (ex_ctx ex_discovery_frame) (ex_state false)
      (by decide)
  have hl : learns_peer (ex_state false) (ex_ctx ex_discovery_frame).data := by decide
  exact ⟨hl, v, c, s, h1, by rw [(h2 hl).1]; decide, by rw [(h2 hl).2]; decide, h6, h11⟩

/-! ### Packets with IPv4 options, and TTL 1 on the return route -/

set_option maxRecDepth 100000 in
/-- Counterexample to C1 as stated: the datagram `ex_udp_opts`,
192.168.1.50:5000 to 8.8.8.8:53 with an IPv4 header of 24 bytes and valid
checksums, is a UDP frame with TTL 5 that takes the NAT route.  The verdict is
`XDP_TX`, but the frame that leaves has destination port 39684 instead of 53,
its source port is still 5000, its UDP checksum no longer verifies, and the
one entry of `conntrack_map` has the key of source port 492 and destination
port 1 in the byte order of the machine: the program takes the bytes at
offsets 34 to 37, here the options, for the ports and the bytes at offsets 40
and 41, here the destination port, for the checksum. -/
theorem C1_counterexample :
    tcp_udp_frame false ex_udp_opts ∧ rd8 ex_udp_opts 23 = IPPROTO_UDP ∧
    takes_nat_route false (ex_state false) ex_udp_opts = true ∧ 1 < rd8 ex_udp_opts 22 ∧
    ip_hdr_len ex_udp_opts 14 = 24 ∧ l4_valid_ihl ex_udp_opts 14 ∧
    l4_src_port ex_udp_opts 14 = 5000 ∧ l4_dst_port ex_udp_opts 14 = 53 ∧
    verdict_of (xdp_prog false (fun _ => 1000) (ex_ctx ex_udp_opts) (ex_state false))
      = some .XDP_TX ∧
    l4_dst_port (frame_after
      (xdp_prog false (fun _ => 1000) (ex_ctx ex_udp_opts) (ex_state false))) 14 = 39684 ∧
    l4_src_port (frame_after
      (xdp_prog false (fun _ => 1000) (ex_ctx ex_udp_opts) (ex_state false))) 14 = 5000 ∧
    ¬ l4_valid_ihl (frame_after
      (xdp_prog false (fun _ => 1000) (ex_ctx ex_udp_opts) (ex_state false))) 14 ∧
    (state_after (xdp_prog false (fun _ => 1000) (ex_ctx ex_udp_opts) (ex_state false))
        (ex_state false)).conntrack_map.map (fun e => (e.1.sport, e.1.dport)) = [(492, 1)] ∧
    map_lookup (state_after (xdp_prog false (fun _ => 1000) (ex_ctx ex_udp_opts) (ex_state false))
        (ex_state false)).conntrack_map
      { protocol := 17, sport := bpf_htons false 5000, daddr := ipv4_addr false 8 8 8 8,
        dport := bpf_htons false 53 } = none := by
  decide

set_option maxRecDepth 100000 in
/-- Counterexample to C4 as stated: the answer `ex_udp_reply_ttl1` has TTL 1
and a 20-byte IPv4 header, takes the NAT return route in the state
`ex_state_nat`, and its key matches the entry of the connection, last active at
1000 ns.  At 300 000 001 001 ns, when the entry has been idle for 5 minutes and
1 ns, the verdict is `XDP_TX` with an ICMP Time Exceeded message and the entry
is still in the map; at 2000 ns, when the entry is alive, the verdict is the
same and the entry is not refreshed.  The program tests the TTL before it looks
the connection up. -/
theorem C4_counterexample :
    tcp_udp_frame false ex_udp_reply_ttl1 ∧ rd8 ex_udp_reply_ttl1 14 = 0x45 ∧
    takes_nat_return false ex_state_nat ex_udp_reply_ttl1 ∧ rd8 ex_udp_reply_ttl1 22 = 1 ∧
    map_lookup ex_state_nat.conntrack_map (return_key false ex_udp_reply_ttl1) =
      some { saddr := ipv4_addr false 192 168 1 50, sport_real := bpf_htons false 5000,
             h_source := ⟨2, 0, 0, 0, 0, 80⟩, ktime_ns := 1000 } ∧
    300000001001 - 1000 = 300 * 10 ^ 9 + 1 ∧
    verdict_of (xdp_prog false (fun _ => 300000001001) (ex_ctx ex_udp_reply_ttl1) ex_state_nat)
      = some .XDP_TX ∧
    rd8 (frame_after
      (xdp_prog false (fun _ => 300000001001) (ex_ctx ex_udp_reply_ttl1) ex_state_nat)) 23
      = IPPROTO_ICMP ∧
    state_after (xdp_prog false (fun _ => 300000001001) (ex_ctx ex_udp_reply_ttl1) ex_state_nat)
      ex_state_nat = ex_state_nat ∧
    verdict_of (xdp_prog false (fun _ => 2000) (ex_ctx ex_udp_reply_ttl1) ex_state_nat)
      = some .XDP_TX ∧
    rd8 (frame_after
      (xdp_prog false (fun _ => 2000) (ex_ctx ex_udp_reply_ttl1) ex_state_nat)) 23
      = IPPROTO_ICMP ∧
    state_after (xdp_prog false (fun _ => 2000) (ex_ctx ex_udp_reply_ttl1) ex_state_nat)
      ex_state_nat = ex_state_nat := by
  decide

set_option maxRecDepth 100000 in
/-- Counterexample to C7 as stated: the datagram `ex_udp_opts` has an IPv4
header of 24 bytes and a non-zero UDP checksum that verifies.  After its
source address has been rewritten (`ex_udp_opts_rewritten`, the same bytes but
for the source address and the header checksum), `recompute_l4_csum_fast`,
called with the original pseudo-header as `xdp_prog` builds it, does not store
a checksum: it writes the bytes at offsets 40 and 41, which are the
destination port of this datagram, so that port 53 becomes 34309, and the
checksum field keeps its value 0x1127, which is not the value 0x96F7 of a full
recomputation over the new pseudo-header, the UDP header and the payload. -/
theorem C7_counterexample :
    rd8 ex_udp_opts 23 = IPPROTO_UDP ∧ ip_hdr_len ex_udp_opts 14 = 24 ∧
    udp_check ex_udp_opts 14 = 0x1127 ∧ l4_valid_ihl ex_udp_opts 14 ∧
    14 + rd16 true ex_udp_opts 16 = ex_udp_opts.length ∧
    rdN ex_udp_opts_rewritten 0 24 = rdN ex_udp_opts 0 24 ∧
    rd32 false ex_udp_opts_rewritten 26 = ipv4_addr false 203 0 113 9 ∧
    rdN ex_udp_opts_rewritten 30 21 = rdN ex_udp_opts 30 21 ∧
    ex_udp_opts_rewritten.length = ex_udp_opts.length ∧
    ipv4_mk_pheader false ex_udp_opts 14 = .ok (pheader_of false ex_udp_opts 14) ∧
    recompute_l4_csum_fast false ex_udp_opts_rewritten 14 (pheader_of false ex_udp_opts 14) =
      .ok (ex_udp_opts_recomputed, 53381) ∧
    l4_dst_port ex_udp_opts_rewritten 14 = 53 ∧
    l4_dst_port ex_udp_opts_recomputed 14 = 34309 ∧
    udp_check ex_udp_opts_recomputed 14 = 0x1127 ∧
    l4_csum_full (pseudo_ihl ex_udp_opts_rewritten 14) (l4_segment_ihl ex_udp_opts_rewritten 14) 6
      = 0x96F7 := by
  decide

set_option maxRecDepth 100000 in
/-- Counterexample to C14 as stated: the datagram `ex_udp_opts_ttl1` has TTL 1
and an IPv4 header of 24 bytes, and takes the NAT route.  The verdict is
`XDP_TX` with a frame of 70 bytes whose payload, the 28 bytes behind the ICMP
header, is the original IPv4 header followed by the first 4 bytes behind it,
not by the first 8. -/
theorem C14_counterexample :
    tcp_udp_frame false ex_udp_opts_ttl1 ∧
    takes_nat_route false (ex_state false) ex_udp_opts_ttl1 = true ∧
    rd8 ex_udp_opts_ttl1 22 = 1 ∧ ip_hdr_len ex_udp_opts_ttl1 14 = 24 ∧
    xdp_prog false (fun _ => 0) (ex_ctx ex_udp_opts_ttl1) (ex_state false) =
      send_icmp4_timeout_exceeded false (ex_ctx ex_udp_opts_ttl1) (ex_state false) ∧
    verdict_of (send_icmp4_timeout_exceeded false (ex_ctx ex_udp_opts_ttl1) (ex_state false))
      = some .XDP_TX ∧
    (frame_after
      (send_icmp4_timeout_exceeded false (ex_ctx ex_udp_opts_ttl1) (ex_state false))).length
      = 70 ∧
    (frame_after
      (send_icmp4_timeout_exceeded false (ex_ctx ex_udp_opts_ttl1) (ex_state false))).drop 42
      = rdN ex_udp_opts_ttl1 14 24 ++ rdN ex_udp_opts_ttl1 38 4 ∧
    (frame_after
      (send_icmp4_timeout_exceeded false (ex_ctx ex_udp_opts_ttl1) (ex_state false))).drop 42
      ≠ rdN ex_udp_opts_ttl1 14 24 ++ rdN ex_udp_opts_ttl1 38 8 := by
  decide

set_option maxRecDepth 100000 in
/-- Counterexample to C24 as stated, at three broadcast frames of
02:00:00:00:00:50.  The discovery datagram `ex_discovery_opts` goes to UDP port
49152 while no peer is known, but has an IPv4 header of 24 bytes: the peer is
not learned.  The datagram `ex_dns_opts` goes to UDP port 53, but its option
bytes at offsets 36 and 37 are c0 00: the peer is learned.  The discovery
datagram `ex_discovery_zero` from 0.0.0.0 meets the condition in the state
`ex_state_mac_only`, where the MAC address of the sender is stored already:
the pair is assigned and is not different afterwards. -/
theorem C24_counterexample :
    (42 ≤ ex_discovery_opts.length ∧ rd16 true ex_discovery_opts 12 = ETH_P_IP ∧
     rd8 ex_discovery_opts 23 = IPPROTO_UDP ∧ eth_is_broadcast ex_discovery_opts = true ∧
     ip_hdr_len ex_discovery_opts 14 = 24 ∧ l4_valid_ihl ex_discovery_opts 14 ∧
     l4_dst_port ex_discovery_opts 14 = 49152 ∧ (ex_state false).switch_ip = 0 ∧
     state_after (xdp_prog false (fun _ => 0) (ex_ctx ex_discovery_opts) (ex_state false))
       (ex_state false) = ex_state false) ∧
    (ip_hdr_len ex_dns_opts 14 = 24 ∧ l4_valid_ihl ex_dns_opts 14 ∧
     l4_dst_port ex_dns_opts 14 = 53 ∧
     (state_after (xdp_prog false (fun _ => 0) (ex_ctx ex_dns_opts) (ex_state false))
       (ex_state false)).switch_ip = ipv4_addr false 192 168 1 50 ∧
     (state_after (xdp_prog false (fun _ => 0) (ex_ctx ex_dns_opts) (ex_state false))
       (ex_state false)).switch_mac = ⟨2, 0, 0, 0, 0, 80⟩) ∧
    (learns_peer ex_state_mac_only ex_discovery_zero ∧
     ip_hdr_len ex_discovery_zero 14 = 20 ∧ l4_dst_port ex_discovery_zero 14 = 49152 ∧
     state_after (xdp_prog false (fun _ => 0) (ex_ctx ex_discovery_zero) (ex_state false))
       (ex_state false) = ex_state_mac_only ∧
     state_after (xdp_prog false (fun _ => 0) (ex_ctx ex_discovery_zero) ex_state_mac_only)
       ex_state_mac_only = ex_state_mac_only) := by
  decide

end IShoal
